import Mathlib

/-!
Verification of dynamic-query-builder: WHERE composition and date-range resolution.

A shallow embedding of the Go packages `querybuilder`, `condition/fields`,
`condition/daterange`, `condition/wheregroups`, `select/simpleselect`,
`select/aggregateselect`, `from/simplefrom` and `pgBuilder`, followed by theorems about
the parameter-offset protocol, the date-range resolver and the query builder.

Modelling conventions.

* Go `string` is `String`; the string-typed enumerations (`ComparisonOperator`,
  `LogicalOperator`, `DateConfigType`) are `String`, so values outside the
  declared constants exist in the model exactly as they do in Go.
* Go `int` is `Int`. Parameter offsets are far below `2^63`. Package `time` has two
  models. The calendar model counts in mathematical integers and gives Jakarta the fixed
  offset UTC+7; it is the model of the claims about `now`, the instant of the clock. The
  machine model (`Machine.*`) counts in 64-bit integers that wrap around and has the
  transitions of `Asia/Jakarta` from the time-zone database; it is the model of the claims
  about parameters that a caller supplies, which can designate any month. The two agree
  on the dates from January 1964 to December of the year 100000000000
  (`machine_calculateDateRange_eq`).
* A Go `error` is its message; `(T, error)` results keep both components, so
  that what accompanies an error is visible.
* `[]interface{}` results are `List Value`; the `nil` slice and the empty slice
  are both `[]` (no `Build` of the repository returns an empty non-nil slice).
* `time.Now()` is an explicit argument `now`, the same for all conditions of one build;
  the calendar is proleptic Gregorian.
* The diagnostic `Printf` calls are left out.
* Objects behind pointers are the values they hold, passed through the calls that change
  them. Where a group is written to after it was stored, through its pointer or through a
  backing array that the copy of a struct shares with its original
  (`WhereGroup.Conditions`), the section `Groups and slices of conditions in memory` has
  the structs, the headers and the arrays themselves.
-/

namespace SqlBuilder

/-! ## Dynamic values (`interface{}`) -/

/-- The dynamic values that reach a `FieldCondition`. `slice` is a Go
`[]interface{}`; `strings` is the typed slice `[]string`, which is a slice but
not a `[]interface{}`. -/
inductive Value where
  | null
  | int (i : Int)
  | str (s : String)
  | bool (b : Bool)
  | slice (vs : List Value)
  | strings (ss : List String)

/-- A Go `error`, identified with its message. -/
abbrev Error := String

/-- The result triple `(string, []interface{}, error)` of every `Build`. -/
abbrev BuildResult := String × List Value × Option Error

/-- The fragment of a build result. -/
abbrev BuildResult.clause (r : BuildResult) : String := r.1

/-- The argument list of a build result. -/
abbrev BuildResult.args (r : BuildResult) : List Value := r.2.1

/-- The error of a build result (`none` is Go `nil`). -/
abbrev BuildResult.err (r : BuildResult) : Option Error := r.2.2

/-! ## `fmt` and `strings` -/

/-- The verb `%d` of `fmt.Sprintf` on an `int`. -/
def formatInt (n : Int) : String := toString n

/-- Go `strings.Join`. -/
def Join : List String → String → String
  | [], _ => ""
  | [a], _ => a
  | a :: b :: rest, sep => a ++ sep ++ Join (b :: rest) sep

/-! ## Package `fields` -/

/-- Go `type ComparisonOperator string`. -/
abbrev ComparisonOperator := String

abbrev Equals : ComparisonOperator := "="
abbrev NotEquals : ComparisonOperator := "!="
abbrev GreaterThan : ComparisonOperator := ">"
abbrev LessThan : ComparisonOperator := "<"
abbrev GreaterOrEqual : ComparisonOperator := ">="
abbrev LessOrEqual : ComparisonOperator := "<="
abbrev Like : ComparisonOperator := "LIKE"
abbrev ILike : ComparisonOperator := "ILIKE"
abbrev In : ComparisonOperator := "IN"
abbrev NotIn : ComparisonOperator := "NOT IN"
abbrev IsNull : ComparisonOperator := "IS NULL"
abbrev IsNotNull : ComparisonOperator := "IS NOT NULL"

/-- Go `fields.FieldCondition`. -/
structure FieldCondition where
  Field : String
  Operator : ComparisonOperator
  Value : Value

/-- Go `fields.NewFieldCondition`. -/
def NewFieldCondition (field : String) (operator : ComparisonOperator) (value : Value) :
    FieldCondition :=
  { Field := field, Operator := operator, Value := value }

/-- The placeholder list of the IN branch: `placeholders[i] = "$" + (paramOffset+i)`. -/
def inPlaceholders (paramOffset : Int) (n : Nat) : List String :=
  (List.range n).map fun (i : Nat) => "$" ++ formatInt (paramOffset + i)

/-- The type assertion `v.([]interface{})`: it succeeds on a `[]interface{}` only. -/
def Value.asSlice : Value → Option (List Value)
  | .slice vs => some vs
  | _ => none

/-- Go `(*FieldCondition).Build`. -/
def FieldCondition.Build (fc : FieldCondition) (paramOffset : Int) : BuildResult :=
  if fc.Operator = IsNull then
    (fc.Field ++ " IS NULL", [], none)
  else if fc.Operator = IsNotNull then
    (fc.Field ++ " IS NOT NULL", [], none)
  else if fc.Operator = In ∨ fc.Operator = NotIn then
    match fc.Value.asSlice with
    | none => ("", [], some "value for IN/NOT IN operator must be a slice")
    | some values =>
      if values.length = 0 then
        ("", [], some "empty slice provided for IN/NOT IN operator")
      else
        (fc.Field ++ " " ++ fc.Operator ++ " (" ++
          Join (inPlaceholders paramOffset values.length) "," ++ ")", values, none)
  else
    (fc.Field ++ " " ++ fc.Operator ++ " $" ++ formatInt paramOffset, [fc.Value], none)

/-! ## A model of Go package `time`

The calendar model. Instants are whole seconds (the program never sets nanoseconds)
counted from 0001-01-01T00:00:00 UTC on the proleptic Gregorian calendar, in mathematical
integers. `Asia/Jakarta` is the fixed offset UTC+7, which the zone has had since January
1964. The section on machine integers below has the 64-bit arithmetic of the library and
the earlier offsets of the zone. -/

/-- The two locations the program meets: UTC (of the zero `time.Time`) and Jakarta. -/
inductive Location where
  | UTC
  | Jakarta
  deriving DecidableEq, Repr

/-- Seconds east of UTC. -/
def Location.offset : Location → Int
  | .UTC => 0
  | .Jakarta => 7 * 3600

/-- Go `time.Time`: an instant together with the location it is shown in. -/
structure Time where
  /-- seconds since 0001-01-01T00:00:00 UTC -/
  sec : Int
  loc : Location
  deriving DecidableEq, Repr

/-- The zero value `time.Time{}`: January 1, year 1, 00:00:00 UTC. -/
def Time.zero : Time := { sec := 0, loc := .UTC }

/-- Go `time.Second`, in the unit of the model. -/
def Second : Int := 1

/-- Go `time.norm`: carry `lo` into `hi` so that `0 ≤ lo < base`. -/
def norm (hi lo base : Int) : Int × Int :=
  let p : Int × Int :=
    if lo < 0 then
      let n := (-lo - 1) / base + 1
      (hi - n, lo + n * base)
    else (hi, lo)
  if p.2 ≥ base then
    let n := p.2 / base
    (p.1 + n, p.2 - n * base)
  else p

/-- Go `time.isLeap`. -/
def isLeap (year : Int) : Bool :=
  year % 4 == 0 && (year % 100 != 0 || year % 400 == 0)

/-- Go table `time.daysBefore`: days in a non-leap year before month `m` (0-based). -/
def daysBefore (m : Int) : Int :=
  match m.toNat with
  | 0 => 0
  | 1 => 31
  | 2 => 59
  | 3 => 90
  | 4 => 120
  | 5 => 151
  | 6 => 181
  | 7 => 212
  | 8 => 243
  | 9 => 273
  | 10 => 304
  | 11 => 334
  | _ => 365

/-- Days from 0001-01-01 to January 1 of `year` (Go `daysSinceEpoch`, rebased). -/
def daysBeforeYear (year : Int) : Int :=
  let y := year - 1
  365 * y + y / 4 - y / 100 + y / 400

/-- Go `time.Date` (without nanoseconds): every field is normalised, the month
overflowing into the year, then the instant is counted in seconds. -/
def Date (year month day hour min sec : Int) (loc : Location) : Time :=
  let ym := norm year (month - 1) 12
  let year := ym.1
  let month := ym.2 + 1
  let ms := norm min sec 60
  let hm := norm hour ms.1 60
  let dh := norm day hm.1 24
  let day := dh.1
  let d := daysBeforeYear year + daysBefore (month - 1)
    + (if isLeap year && month ≥ 3 then 1 else 0) + (day - 1)
  { sec := d * 86400 + (dh.2 * 3600 + hm.2 * 60 + ms.2) - loc.offset, loc := loc }

/-- Split a day count since 0001-01-01 into `(year, day of year)` by 400-year,
100-year, 4-year and 1-year cycles (Go `absDate`). -/
def yearOfDays (d : Int) : Int × Int :=
  let n400 := d / 146097
  let d := d - 146097 * n400
  let n100 := d / 36524
  let n100 := n100 - n100 / 4
  let d := d - 36524 * n100
  let n4 := d / 1461
  let d := d - 1461 * n4
  let n1 := d / 365
  let n1 := n1 - n1 / 4
  let d := d - 365 * n1
  (400 * n400 + 100 * n100 + 4 * n4 + n1 + 1, d)

/-- The month and day of month of a zero-based day of year (tail of Go `absDate`). -/
def monthDayOfYday (leap : Bool) (yday : Int) : Int × Int :=
  if leap && yday == 31 + 29 - 1 then (2, 29)
  else
    let day := if leap && yday > 31 + 29 - 1 then yday - 1 else yday
    let month := day / 31
    let e := daysBefore (month + 1)
    if day ≥ e then (month + 2, day - e + 1)
    else (month + 1, day - daysBefore month + 1)

/-- Seconds since 0001-01-01T00:00:00 on the local clock of the location. -/
def Time.abs (t : Time) : Int := t.sec + t.loc.offset

/-- Go `Time.Date`: the local `(year, month, day)`. -/
def Time.date (t : Time) : Int × Int × Int :=
  let yd := yearOfDays (t.abs / 86400)
  let md := monthDayOfYday (isLeap yd.1) yd.2
  (yd.1, md.1, md.2)

/-- Go `Time.Year`. -/
def Time.Year (t : Time) : Int := t.date.1

/-- Go `Time.Month`. -/
def Time.Month (t : Time) : Int := t.date.2.1

/-- Go `Time.Day`. -/
def Time.Day (t : Time) : Int := t.date.2.2

/-- Go `Time.Clock`: the local `(hour, minute, second)`. -/
def Time.Clock (t : Time) : Int × Int × Int :=
  let s := t.abs % 86400
  (s / 3600, s % 3600 / 60, s % 60)

/-- Go `Time.In`: the same instant shown in another location. -/
def Time.In (t : Time) (loc : Location) : Time := { t with loc := loc }

/-- Go `Time.Add`, the duration in seconds. -/
def Time.Add (t : Time) (d : Int) : Time := { t with sec := t.sec + d }

/-- Go `Time.AddDate`: add to the calendar fields and normalise with `Date`. -/
def Time.AddDate (t : Time) (years months days : Int) : Time :=
  let ymd := t.date
  let c := t.Clock
  Date (ymd.1 + years) (ymd.2.1 + months) (ymd.2.2 + days) c.1 c.2.1 c.2.2 t.loc

/-- Go `Time.Before`. -/
def Time.Before (t u : Time) : Prop := t.sec < u.sec

/-- Go `Time.After`. -/
def Time.After (t u : Time) : Prop := u.sec < t.sec

/-- Go `Time.Equal`: the same instant, whatever the location. -/
def Time.Equal (t u : Time) : Prop := t.sec = u.sec

instance : LE Time := ⟨fun t u => t.sec ≤ u.sec⟩

instance (t u : Time) : Decidable (t ≤ u) := inferInstanceAs (Decidable (t.sec ≤ u.sec))

/-! ## Package `daterange` -/

/-- Go `type DateConfigType string`. -/
abbrev DateConfigType := String

abbrev CurrentMonth : DateConfigType := "CURRENT_MONTH"
abbrev BackMonth : DateConfigType := "BACK_MONTH"
abbrev RelativeRange : DateConfigType := "RELATIVE_RANGE"
abbrev YTD : DateConfigType := "YTD"
abbrev PreviousYear : DateConfigType := "PREVIOUS_YEAR"
abbrev SpecificMonth : DateConfigType := "SPECIFIC_MONTH"
abbrev SpecificRange : DateConfigType := "SPECIFIC_RANGE"
abbrev QTD : DateConfigType := "QTD"
abbrev TTM : DateConfigType := "TTM"
abbrev MoM : DateConfigType := "MOM"
abbrev PreviousQuarter : DateConfigType := "PREVIOUS_QUARTER"

/-- Go `daterange.MonthYear`. -/
structure MonthYear where
  Month : Int
  Year : Int

/-- Go `daterange.DateParameters`; a `nil` pointer is `none`. -/
structure DateParameters where
  Months : Option Int := none
  StartBackMonths : Option Int := none
  EndBackMonths : Option Int := none
  Month : Option Int := none
  Year : Option Int := none
  Start : Option MonthYear := none
  End : Option MonthYear := none

/-- Go `daterange.DateConfig` (the field `Type` is `Typ` here). -/
structure DateConfig where
  Typ : DateConfigType
  Parameters : DateParameters := {}

/-- Go `daterange.DateRangeCondition`. -/
structure DateRangeCondition where
  DateConfig : DateConfig

/-- Go `daterange.NewDateRangeCondition`. -/
def NewDateRangeCondition (config : DateConfig) : DateRangeCondition :=
  { DateConfig := config }

/-- Go `getJakartaLocation`. -/
def getJakartaLocation : Location := .Jakarta

/-- Go `(*DateRangeCondition).calculateDateRange`, with `time.Now()` passed in as
`now`. The result is the triple `(startDate, endDate, err)`. The quotients below
have a non-negative dividend and a positive divisor, where Go and Lean division agree. -/
def DateRangeCondition.calculateDateRange (d : DateRangeCondition) (now : Time) :
    Time × Time × Option Error :=
  let jakartaLocation := getJakartaLocation
  let now := now.In jakartaLocation
  let currentYear := now.Year
  let currentMonth := now.Month
  if d.DateConfig.Typ = CurrentMonth then
    let startDate := Date currentYear currentMonth 1 0 0 0 jakartaLocation
    let endDate := (startDate.AddDate 0 1 0).Add (-Second)
    (startDate, endDate, none)
  else if d.DateConfig.Typ = BackMonth then
    match d.DateConfig.Parameters.Months with
    | none => (Time.zero, Time.zero, some "months parameter required for BACK_MONTH")
    | some months =>
      let startDate := Date currentYear currentMonth 1 0 0 0 jakartaLocation
      let startDate := startDate.AddDate 0 (-months) 0
      let endDate := (startDate.AddDate 0 1 0).Add (-Second)
      (startDate, endDate, none)
  else if d.DateConfig.Typ = RelativeRange then
    match d.DateConfig.Parameters.StartBackMonths, d.DateConfig.Parameters.EndBackMonths with
    | some startBackMonths, some endBackMonths =>
      let startDate := Date currentYear currentMonth 1 0 0 0 jakartaLocation
      let startDate := startDate.AddDate 0 (-startBackMonths) 0
      let endDate := Date currentYear currentMonth 1 0 0 0 jakartaLocation
      let endDate := (((endDate.AddDate 0 (-endBackMonths) 0).AddDate 0 1 0).Add (-Second))
      (startDate, endDate, none)
    | _, _ =>
      (Time.zero, Time.zero,
        some "start_back_months and end_back_months required for RELATIVE_RANGE")
  else if d.DateConfig.Typ = YTD then
    let startDate := Date currentYear 1 1 0 0 0 jakartaLocation
    let endDate := Date currentYear currentMonth 1 0 0 0 jakartaLocation
    let endDate := (endDate.AddDate 0 1 0).Add (-Second)
    (startDate, endDate, none)
  else if d.DateConfig.Typ = PreviousYear then
    let startDate := Date (currentYear - 1) 1 1 0 0 0 jakartaLocation
    let endDate := Date (currentYear - 1) 12 31 23 59 59 jakartaLocation
    (startDate, endDate, none)
  else if d.DateConfig.Typ = SpecificMonth then
    match d.DateConfig.Parameters.Month, d.DateConfig.Parameters.Year with
    | some month, some year =>
      let startDate := Date year month 1 0 0 0 jakartaLocation
      let endDate := (startDate.AddDate 0 1 0).Add (-Second)
      (startDate, endDate, none)
    | _, _ =>
      (Time.zero, Time.zero, some "month and year parameters required for SPECIFIC_MONTH")
  else if d.DateConfig.Typ = SpecificRange then
    match d.DateConfig.Parameters.Start, d.DateConfig.Parameters.End with
    | some start, some end_ =>
      let startDate := Date start.Year start.Month 1 0 0 0 jakartaLocation
      let endDate := Date end_.Year end_.Month 1 0 0 0 jakartaLocation
      let endDate := (endDate.AddDate 0 1 0).Add (-Second)
      (startDate, endDate, none)
    | _, _ =>
      (Time.zero, Time.zero, some "start and end parameters required for SPECIFIC_RANGE")
  else if d.DateConfig.Typ = QTD then
    let currentQuarter := (currentMonth - 1) / 3 + 1
    let quarterStartMonth := (currentQuarter - 1) * 3 + 1
    let startDate := Date currentYear quarterStartMonth 1 0 0 0 jakartaLocation
    let endDate := Date currentYear currentMonth 1 0 0 0 jakartaLocation
    let endDate := (endDate.AddDate 0 1 0).Add (-Second)
    (startDate, endDate, none)
  else if d.DateConfig.Typ = TTM then
    let startDate := Date currentYear currentMonth 1 0 0 0 jakartaLocation
    let startDate := startDate.AddDate 0 (-11) 0
    let endDate := Date currentYear currentMonth 1 0 0 0 jakartaLocation
    let endDate := (endDate.AddDate 0 1 0).Add (-Second)
    (startDate, endDate, none)
  else if d.DateConfig.Typ = MoM then
    let endDate := Date currentYear currentMonth 1 0 0 0 jakartaLocation
    let endDate := (endDate.AddDate 0 1 0).Add (-Second)
    let startDate := Date currentYear (currentMonth - 1) 1 0 0 0 jakartaLocation
    (startDate, endDate, none)
  else if d.DateConfig.Typ = PreviousQuarter then
    let currentQuarter := (currentMonth - 1) / 3 + 1
    let previousQuarter := currentQuarter - 1
    let previousQuarterYear := currentYear
    let pq : Int × Int :=
      if previousQuarter = 0 then (4, previousQuarterYear - 1)
      else (previousQuarter, previousQuarterYear)
    let previousQuarter := pq.1
    let previousQuarterYear := pq.2
    let quarterStartMonth := (previousQuarter - 1) * 3 + 1
    let startDate := Date previousQuarterYear quarterStartMonth 1 0 0 0 jakartaLocation
    let endDate := (startDate.AddDate 0 3 0).Add (-Second)
    (startDate, endDate, none)
  else
    (Time.zero, Time.zero, some "invalid date config type")

/-- Go `(*DateRangeCondition).Build`, with `time.Now()` passed in as `now`
(the diagnostic `Printf` is left out). -/
def DateRangeCondition.Build (d : DateRangeCondition) (now : Time) (paramOffset : Int) :
    BuildResult :=
  match d.calculateDateRange now with
  | (_, _, some err) => ("", [], some ("failed to calculate date range: " ++ err))
  | (startDate, endDate, none) =>
    let startYear := startDate.Year
    let endYear := endDate.Year
    let startMonth := startDate.Month
    let endMonth := endDate.Month
    if startYear = endYear then
      ("period_year = $" ++ formatInt paramOffset ++ " AND period_month BETWEEN $"
          ++ formatInt (paramOffset + 1) ++ " AND $" ++ formatInt (paramOffset + 2),
        [.int startYear, .int startMonth, .int endMonth], none)
    else
      ("(period_year = $" ++ formatInt paramOffset ++ " AND period_month >= $"
          ++ formatInt (paramOffset + 1) ++ ") OR (period_year = $"
          ++ formatInt (paramOffset + 2) ++ " AND period_month <= $"
          ++ formatInt (paramOffset + 3) ++ ")",
        [.int startYear, .int startMonth, .int endYear, .int endMonth], none)

/-! ## Package `querybuilder`: conditions and `WhereGroup` -/

/-- Go `type LogicalOperator string`. -/
abbrev LogicalOperator := String

abbrev AND : LogicalOperator := "AND"
abbrev OR : LogicalOperator := "OR"

/-- The implementations of the interface `QueryCondition`: the three of the
repository, and `other` for any further implementation (such as the mock of the
tests), given by its `Build` method. -/
inductive QueryCondition where
  | fieldCondition (fc : FieldCondition)
  | dateRangeCondition (d : DateRangeCondition)
  | whereGroup (Conditions : List QueryCondition) (Operator : LogicalOperator) (IsNew : Bool)
  | other (build : Int → BuildResult)

/-- Go `querybuilder.WhereGroup`. -/
structure WhereGroup where
  Conditions : List QueryCondition
  Operator : LogicalOperator
  IsNew : Bool

/-- A `*WhereGroup` used as a `QueryCondition`. -/
def WhereGroup.toCondition (wg : WhereGroup) : QueryCondition :=
  .whereGroup wg.Conditions wg.Operator wg.IsNew

/-- Go `querybuilder.NewWhereGroup`. -/
def NewWhereGroup (operator : LogicalOperator) : WhereGroup :=
  { Conditions := [], Operator := operator, IsNew := true }

/-- Go `(*WhereGroup).Add`. -/
def WhereGroup.Add (wg : WhereGroup) (condition : QueryCondition) : WhereGroup :=
  { wg with Conditions := wg.Conditions ++ [condition] }

/-- The tail of `(*WhereGroup).Build`, after the loop: no clause, one clause
(`clauses[0]`, unwrapped), several clauses (joined and parenthesised). -/
def WhereGroup.finish (operator : LogicalOperator) (clauses : List String) (args : List Value) :
    BuildResult :=
  match clauses with
  | [] => ("", [], none)
  | [clause] => (clause, args, none)
  | _ => ("(" ++ Join clauses (" " ++ operator ++ " ") ++ ")", args, none)

mutual
/-- The method `Build` of a `QueryCondition`, dispatched on the implementation. -/
def QueryCondition.Build : QueryCondition → Time → Int → BuildResult
  | .fieldCondition fc, _, paramOffset => fc.Build paramOffset
  | .dateRangeCondition d, now, paramOffset => d.Build now paramOffset
  | .whereGroup conditions operator _, now, paramOffset =>
    if conditions.length = 0 then ("", [], none)
    else
      match WhereGroup.loop conditions now paramOffset [] [] with
      | .error err => ("", [], some err)
      | .ok (clauses, args) => WhereGroup.finish operator clauses args
  | .other build, _, paramOffset => build paramOffset
/-- The `for` loop of `(*WhereGroup).Build` over the remaining conditions, with
the accumulated `clauses` and `args`. -/
def WhereGroup.loop : List QueryCondition → Time → Int → List String → List Value →
    Except Error (List String × List Value)
  | [], _, _, clauses, args => .ok (clauses, args)
  | cond :: rest, now, paramOffset, clauses, args =>
    match cond.Build now (paramOffset + args.length) with
    | (_, _, some err) => .error err
    | (clause, condArgs, none) =>
      if clause ≠ "" then
        WhereGroup.loop rest now paramOffset (clauses ++ [clause]) (args ++ condArgs)
      else
        WhereGroup.loop rest now paramOffset clauses args
end

/-- Go `(*WhereGroup).Build`. -/
def WhereGroup.Build (wg : WhereGroup) (now : Time) (paramOffset : Int) : BuildResult :=
  if wg.Conditions.length = 0 then ("", [], none)
  else
    match WhereGroup.loop wg.Conditions now paramOffset [] [] with
    | .error err => ("", [], some err)
    | .ok (clauses, args) => WhereGroup.finish wg.Operator clauses args

/-! ## Package `wheregroups` -/

/-- Go `wheregroups.WhereGroups`. -/
structure WhereGroups where
  Groups : List WhereGroup

/-- Go `wheregroups.NewWhereGroups`. -/
def NewWhereGroups : WhereGroups := { Groups := [] }

/-- Go `(*WhereGroups).Add`: the group is appended by value. -/
def WhereGroups.Add (w : WhereGroups) (group : WhereGroup) : WhereGroups :=
  { Groups := w.Groups ++ [group] }

/-- The `for i, group := range w.Groups` loop of `(*WhereGroups).Build` over the
remaining groups, `i` being the index of the first of them. -/
def WhereGroups.loop : List WhereGroup → Time → Nat → Int → List String → List Value →
    Except Error (List String × List Value)
  | [], _, _, _, clauses, args => .ok (clauses, args)
  | group :: rest, now, i, currentOffset, clauses, args =>
    match group.Build now currentOffset with
    | (_, _, some err) => .error err
    | (clause, groupArgs, none) =>
      if clause ≠ "" then
        let clauses := if i > 0 then clauses ++ [group.Operator] else clauses
        WhereGroups.loop rest now (i + 1) (currentOffset + groupArgs.length)
          (clauses ++ [clause]) (args ++ groupArgs)
      else
        WhereGroups.loop rest now (i + 1) currentOffset clauses args

/-- Go `(*WhereGroups).Build`. -/
def WhereGroups.Build (w : WhereGroups) (now : Time) (paramOffset : Int) : BuildResult :=
  if w.Groups.length = 0 then ("", [], none)
  else
    match WhereGroups.loop w.Groups now 0 paramOffset [] [] with
    | .error err => ("", [], some err)
    | .ok (clauses, args) =>
      if clauses.length = 0 then ("", [], none)
      else ("WHERE " ++ Join clauses " ", args, none)

/-- April 15, 2024, noon, Jakarta: the sample instant of the documentation. -/
def april2024 : Time := Date 2024 4 15 12 0 0 .Jakarta

/-! ## Vocabulary of the specification -/

/-- An ordered sequence in the sense of the specification: any Go slice, generic
(`[]interface{}`) or typed (`[]string`). -/
def Value.isOrderedSequence : Value → Bool
  | .slice _ => true
  | .strings _ => true
  | _ => false

/-- The number of elements of a value that is an ordered sequence (0 otherwise). -/
def Value.elementCount : Value → Nat
  | .slice vs => vs.length
  | .strings ss => ss.length
  | _ => 0

/-- The eleven declared date configuration types. -/
def definedKinds : List DateConfigType :=
  [CurrentMonth, BackMonth, RelativeRange, YTD, PreviousYear, SpecificMonth, SpecificRange,
    QTD, TTM, MoM, PreviousQuarter]

/-- The seven date configuration types that read no parameter. -/
def parameterlessKinds : List DateConfigType :=
  [CurrentMonth, YTD, PreviousYear, QTD, TTM, MoM, PreviousQuarter]

/-- The results whose fragment is not empty. -/
def kept (rs : List BuildResult) : List BuildResult :=
  rs.filter fun r => r.clause ≠ ""

/-- The fragments that are not empty, in order. -/
def keptClauses (rs : List BuildResult) : List String :=
  (kept rs).map fun r => r.clause

/-- The concatenation of the argument lists of the results whose fragment is not empty. -/
def keptArgs (rs : List BuildResult) : List Value :=
  ((kept rs).map fun r => r.args).flatten

/-- The total number of arguments of the results whose fragment is not empty. -/
def keptArgCount (rs : List BuildResult) : Nat :=
  ((kept rs).map fun r => r.args.length).sum

/-- The first error of a list of results, in order (`none` when every result is a success). -/
def firstError : List BuildResult → Option Error
  | [] => none
  | r :: rs =>
    match r.err with
    | some e => some e
    | none => firstError rs

/-- The results of the conditions of a group as the specification numbers them: each
condition is built at `p` plus the number of arguments returned by the conditions before it
that produced a non-empty fragment. `earlier` holds the results of the conditions before. -/
def conditionResultsFrom (now : Time) (p : Int) :
    List QueryCondition → List BuildResult → List BuildResult
  | [], _ => []
  | c :: cs, earlier =>
    let r := c.Build now (p + keptArgCount earlier)
    r :: conditionResultsFrom now p cs (earlier ++ [r])

/-- The results of all conditions of a group built at `p`, numbered as in the specification. -/
def conditionResults (now : Time) (p : Int) (conds : List QueryCondition) : List BuildResult :=
  conditionResultsFrom now p conds []

/-- The total number of arguments of a list of results. -/
def argCount (rs : List BuildResult) : Nat :=
  (rs.map fun r => r.args.length).sum

/-- The concatenation of the argument lists of a list of results. -/
def allArgs (rs : List BuildResult) : List Value :=
  (rs.map fun r => r.args).flatten

/-- The results of the groups of a sequence as the specification numbers them: each group
is built at `p` plus the number of arguments returned by the earlier groups. `earlier` holds
the results of the groups before. -/
def groupResultsFrom (now : Time) (p : Int) :
    List WhereGroup → List BuildResult → List BuildResult
  | [], _ => []
  | g :: gs, earlier =>
    let r := g.Build now (p + argCount earlier)
    r :: groupResultsFrom now p gs (earlier ++ [r])

/-- The results of all groups of a sequence built at `p`. -/
def groupResults (now : Time) (p : Int) (groups : List WhereGroup) : List BuildResult :=
  groupResultsFrom now p groups []

/-- The pieces a sequence emits: for each group with a non-empty fragment, in order, its
own operator keyword (only when the index of the group is > 0) and then its fragment. The
groups are numbered from `i`. -/
def sequencePiecesFrom (i : Nat) (groups : List WhereGroup) (rs : List BuildResult) :
    List String :=
  (((groups.zip rs).enumFrom i).filter fun x => x.2.2.clause ≠ "").flatMap fun x =>
    (if x.1 > 0 then [x.2.1.Operator] else []) ++ [x.2.2.clause]

/-- The pieces a sequence emits, its groups numbered from 0. -/
def sequencePieces (groups : List WhereGroup) (rs : List BuildResult) : List String :=
  sequencePiecesFrom 0 groups rs

/-- The nine kinds whose range is ordered whatever the parameters. -/
def orderedKinds : List DateConfigType :=
  [CurrentMonth, BackMonth, YTD, PreviousYear, SpecificMonth, QTD, TTM, MoM, PreviousQuarter]

/-- The year of `now` in Jakarta (`currentYear` of `calculateDateRange`). -/
def currentYear (now : Time) : Int := (now.In getJakartaLocation).Year

/-- The month of `now` in Jakarta (`currentMonth` of `calculateDateRange`). -/
def currentMonth (now : Time) : Int := (now.In getJakartaLocation).Month

/-- The first instant of the month `m` of year `y` in Jakarta. -/
def monthBegin (y m : Int) : Time := Date y m 1 0 0 0 getJakartaLocation

/-- The last second of the month `m` of year `y` in Jakarta, by the uniform technique of
the program: the first instant of the following month minus one second. -/
def monthEnd (y m : Int) : Time :=
  ((Date y m 1 0 0 0 getJakartaLocation).AddDate 0 1 0).Add (-Second)

/-- The pair `(previousQuarter, previousQuarterYear)` of the branch PreviousQuarter. -/
def previousQuarterOf (now : Time) : Int × Int :=
  if (currentMonth now - 1) / 3 + 1 - 1 = 0 then (4, currentYear now - 1)
  else ((currentMonth now - 1) / 3 + 1 - 1, currentYear now)

/-! ## Calendar vocabulary -/

/-- Days from 0001-01-01 to the first day of the month with linear index `k = 12 * year + (month - 1)`. -/
def monthStart (k : Int) : Int :=
  daysBeforeYear (k / 12) + daysBefore (k % 12)
    + (if isLeap (k / 12) && k % 12 + 1 ≥ 3 then 1 else 0)

/-- The number of days of the month with 0-based index `r` (Go `daysIn`). -/
def monthLength (leap : Bool) (r : Int) : Int :=
  daysBefore (r + 1) - daysBefore r + (if leap && r == 1 then 1 else 0)

/-- The table lookup at the end of `monthDayOfYday`, on the day of a non-leap year. -/
def monthDayOfDay (day : Int) : Int × Int :=
  let month := day / 31
  let e := daysBefore (month + 1)
  if day ≥ e then (month + 2, day - e + 1)
  else (month + 1, day - daysBefore month + 1)

/-! ## Placeholders -/

/-- The state of the placeholder scanner: outside a placeholder, just after `$`, after
`$-`, or inside the digits of a placeholder (with its sign and the value read so far). -/
inductive ScanState where
  | idle
  | dollar
  | minus
  | number (neg : Bool) (n : Nat)

/-- The value of a decimal digit. -/
def digitValue (c : Char) : Nat := c.toNat - '0'.toNat

/-- The placeholder that ends when the scanner leaves the state. -/
def ScanState.emit : ScanState → List Int
  | .number neg n => [if neg then -(n : Int) else (n : Int)]
  | _ => []

/-- The numbers of the placeholders `$n` of a text, read left to right: a placeholder is a
`$` followed by an optional `-` and a maximal run of decimal digits. -/
def scan : ScanState → List Char → List Int
  | st, [] => st.emit
  | st, c :: cs =>
    if c = '$' then st.emit ++ scan .dollar cs
    else if c.isDigit then
      match st with
      | .idle => scan .idle cs
      | .dollar => scan (.number false (digitValue c)) cs
      | .minus => scan (.number true (digitValue c)) cs
      | .number neg n => scan (.number neg (10 * n + digitValue c)) cs
    else if c = '-' then
      match st with
      | .dollar => scan .minus cs
      | _ => st.emit ++ scan .idle cs
    else st.emit ++ scan .idle cs

/-- The placeholders of a fragment. -/
def placeholders (s : String) : List Int := scan .idle s.data

/-- The text does not start with a decimal digit. -/
def NoLeadingDigit (l : List Char) : Prop := ∀ c ∈ l.head?, c.isDigit = false

/-- The numbers `p, p+1, ..., p+n-1`. -/
def intRange (p : Int) (n : Nat) : List Int := (List.range n).map fun (i : Nat) => p + (i : Int)

/-- A text in which the placeholders read `ns`, whatever follows it (as long as what
follows does not start with a digit, which would lengthen a final placeholder). -/
def Reads (s : String) (ns : List Int) : Prop :=
  ∀ rest : List Char, NoLeadingDigit rest → scan .idle (s.data ++ rest) = ns ++ scan .idle rest

/-- The text is not empty and does not start with a digit. -/
def StartsText (s : String) : Prop := ∃ c cs, s.data = c :: cs ∧ c.isDigit = false

mutual
/-- The conditions built from the repository's own leaves: field conditions whose field name
and operator contain no `$` (as all declared operators do), date-range conditions, and groups
of such conditions whose operator contains no `$`. -/
def QueryCondition.WellFormed : QueryCondition → Prop
  | .fieldCondition fc => '$' ∉ fc.Field.data ∧ '$' ∉ fc.Operator.data
  | .dateRangeCondition _ => True
  | .whereGroup conditions operator _ => '$' ∉ operator.data ∧ WellFormedList conditions
  | .other _ => False
/-- Every condition of the list is well formed. -/
def WellFormedList : List QueryCondition → Prop
  | [] => True
  | c :: cs => c.WellFormed ∧ WellFormedList cs
end

/-- A group of well-formed conditions with an operator without `$`. -/
def WhereGroup.WellFormed (wg : WhereGroup) : Prop :=
  '$' ∉ wg.Operator.data ∧ WellFormedList wg.Conditions

/-! ## Sample inputs -/

/-- The group of the test "Mixed conditions with offset": `column1 = "value1"` and
`column2 > 42` under AND. -/
def mixedGroup : WhereGroup :=
  ((NewWhereGroup AND).Add (.fieldCondition (NewFieldCondition "column1" Equals (.str "value1")))).Add
    (.fieldCondition (NewFieldCondition "column2" GreaterThan (.int 42)))

/-- The group of scenario 4: `id = 1` and `status = "active"` under AND. -/
def scenario4Group : WhereGroup :=
  ((NewWhereGroup AND).Add (.fieldCondition (NewFieldCondition "id" Equals (.int 1)))).Add
    (.fieldCondition (NewFieldCondition "status" Equals (.str "active")))

/-- The sequence of the test "Mixed AND/OR Groups": an AND-group, an OR-group and an
AND-group of one condition each. -/
def mixedSequence : WhereGroups :=
  ((NewWhereGroups.Add
      ((NewWhereGroup AND).Add (.fieldCondition (NewFieldCondition "column1" Equals (.str "value1"))))).Add
      ((NewWhereGroup OR).Add (.fieldCondition (NewFieldCondition "column2" GreaterThan (.int 10))))).Add
      ((NewWhereGroup AND).Add (.fieldCondition (NewFieldCondition "column3" LessThan (.int 20))))

/-- A sequence with an IN list, a nested group and a date-range condition. -/
def nestedSequence : WhereGroups :=
  (NewWhereGroups.Add
    (((NewWhereGroup AND).Add (.fieldCondition (NewFieldCondition "id" Equals (.int 1)))).Add
      (.fieldCondition
        (NewFieldCondition "status" In (.slice [.str "active", .str "pending"]))))).Add
    (((NewWhereGroup OR).Add
      (.fieldCondition (NewFieldCondition "price" GreaterThan (.int 100)))).Add
      (((NewWhereGroup AND).Add
        (.fieldCondition (NewFieldCondition "deleted_at" IsNull .null))).Add
        (.dateRangeCondition (NewDateRangeCondition { Typ := TTM }))).toCondition)

/-- A group whose second condition fails, as the mock condition of the test does, after a
first condition that succeeds with one argument. -/
def failingGroup : WhereGroup :=
  (((NewWhereGroup AND).Add
    (.fieldCondition (NewFieldCondition "column1" Equals (.str "value1")))).Add
    (.other fun _ => ("", [], some "assert.AnError general error for testing"))).Add
    (.fieldCondition (NewFieldCondition "column2" GreaterThan (.int 42)))

/-- The number of days of month `m` (1 to 12) of `year` on the Gregorian calendar. -/
def daysIn (m year : Int) : Int :=
  if m = 2 then (if isLeap year then 29 else 28)
  else if m = 4 ∨ m = 6 ∨ m = 9 ∨ m = 11 then 30
  else 31

/-- The year and the month (1 to 12) lying `k` months before month `m` of year `y`. -/
def monthsBefore (y m k : Int) : Int × Int :=
  ((12 * y + (m - 1) - k) / 12, (12 * y + (m - 1) - k) % 12 + 1)

/-- The instant shows, in Jakarta, the calendar date `y-m-d` and the clock `h:mi:s`. -/
def Time.Shows (t : Time) (y m d h mi s : Int) : Prop :=
  t.loc = .Jakarta ∧ t.date = (y, m, d) ∧ t.Clock = (h, mi, s)

instance (t : Time) (y m d h mi s : Int) : Decidable (t.Shows y m d h mi s) :=
  inferInstanceAs (Decidable (_ ∧ _ ∧ _))

/-- The parameters of the documented RelativeRange example: from 6 to 3 months back. -/
def sixToThree : DateParameters := { StartBackMonths := some 6, EndBackMonths := some 3 }

/-- The parameters of an inverted RelativeRange: from 3 to 6 months back. -/
def threeToSix : DateParameters := { StartBackMonths := some 3, EndBackMonths := some 6 }

/-- The parameters of SpecificMonth for March 2024. -/
def march2024 : DateParameters := { Month := some 3, Year := some 2024 }

/-- The parameters of SpecificMonth for February 2024, a leap year. -/
def february2024 : DateParameters := { Month := some 2, Year := some 2024 }

/-- The parameters of SpecificMonth for February 2023. -/
def february2023 : DateParameters := { Month := some 2, Year := some 2023 }

/-- The parameters of the test "Specific Range": January 2024 to March 2024. -/
def januaryToMarch : DateParameters :=
  { Start := some { Month := 1, Year := 2024 }, End := some { Month := 3, Year := 2024 } }

/-- The same months in the other order: the Start is the later month. -/
def marchToJanuary : DateParameters :=
  { Start := some { Month := 3, Year := 2024 }, End := some { Month := 1, Year := 2024 } }

/-- An instant of May 2024, in the second quarter. -/
def may2024 : Time := Date 2024 5 20 8 30 0 .Jakarta

/-- An instant of February 2024, in the first quarter. -/
def februaryNow : Time := Date 2024 2 10 9 0 0 .Jakarta

/-- An instant of January 2024. -/
def januaryNow : Time := Date 2024 1 31 23 0 0 .Jakarta

/-- The calendar quarter (1..4) of the month `m`: `((m - 1) / 3) + 1`. -/
def quarterOf (m : Int) : Int := (m - 1) / 3 + 1

/-- The first month of the quarter `q`: January, April, July or October. -/
def firstMonthOfQuarter (q : Int) : Int := (q - 1) * 3 + 1

/-- A sequence whose first group is empty and whose second group, under OR, holds
`id = 1`. -/
def emptyThenOr : WhereGroups :=
  (NewWhereGroups.Add (NewWhereGroup AND)).Add
    ((NewWhereGroup OR).Add (.fieldCondition (NewFieldCondition "id" Equals (.int 1))))

/-! ## Packages `simpleselect`, `aggregateselect` and `simplefrom` -/

/-- Go `simpleselect.SimpleSelect`. -/
structure SimpleSelect where
  fields : List String

/-- Go `simpleselect.NewSimpleSelect(fields...)`: no field means `*`. -/
def NewSimpleSelect (fields : List String) : SimpleSelect :=
  if fields.length = 0 then { fields := ["*"] } else { fields := fields }

/-- Go `(*SimpleSelect).Build`. -/
def SimpleSelect.Build (s : SimpleSelect) : String × Option Error :=
  if s.fields.length = 0 then ("", some "no fields specified for select")
  else ("SELECT " ++ Join s.fields ", ", none)

/-- Go `type AggregateFunction string`. -/
abbrev AggregateFunction := String

namespace aggregate

/-- Go `aggregate.Sum`. -/
abbrev Sum : AggregateFunction := "SUM"
/-- Go `aggregate.Avg`. -/
abbrev Avg : AggregateFunction := "AVG"
/-- Go `aggregate.Count`. -/
abbrev Count : AggregateFunction := "COUNT"
/-- Go `aggregate.Max`. -/
abbrev Max : AggregateFunction := "MAX"
/-- Go `aggregate.Min`. -/
abbrev Min : AggregateFunction := "MIN"

end aggregate

/-- Go `aggregate.AggregateField`. -/
structure AggregateField where
  Function : AggregateFunction
  Field : String
  Alias : String

/-- Go `aggregate.AggregateSelect`. -/
structure AggregateSelect where
  regularFields : List String
  aggregates : List AggregateField

/-- Go `aggregate.NewAggregateSelect`. -/
def NewAggregateSelect : AggregateSelect := { regularFields := [], aggregates := [] }

/-- Go `(*AggregateSelect).AddRegularField`. -/
def AggregateSelect.AddRegularField (a : AggregateSelect) (field : String) : AggregateSelect :=
  { a with regularFields := a.regularFields ++ [field] }

/-- Go `(*AggregateSelect).AddAggregate`. -/
def AggregateSelect.AddAggregate (a : AggregateSelect) (fn : AggregateFunction)
    (field aliasName : String) : AggregateSelect :=
  { a with aggregates := a.aggregates ++ [{ Function := fn, Field := field, Alias := aliasName }] }

/-- The field one aggregate contributes in `(*AggregateSelect).Build`:
`FN(field) AS alias`, or `FN(field)` when the alias is empty. -/
def AggregateField.render (agg : AggregateField) : String :=
  if agg.Alias ≠ "" then agg.Function ++ "(" ++ agg.Field ++ ") AS " ++ agg.Alias
  else agg.Function ++ "(" ++ agg.Field ++ ")"

/-- Go `(*AggregateSelect).Build`: the regular fields, then one field per aggregate in the
order of the `for` loop. -/
def AggregateSelect.Build (a : AggregateSelect) : String × Option Error :=
  let fields := a.aggregates.foldl (fun fields agg => fields ++ [agg.render]) a.regularFields
  if fields.length = 0 then ("", some "no fields specified for select")
  else ("SELECT " ++ Join fields ", ", none)

/-- Go `simplefrom.SimpleFrom`. -/
structure SimpleFrom where
  Table : String

/-- Go `simplefrom.NewSimpleFrom`. -/
def NewSimpleFrom (table : String) : SimpleFrom := { Table := table }

/-- Go `(*SimpleFrom).Build`. -/
def SimpleFrom.Build (f : SimpleFrom) : String := "FROM " ++ f.Table

/-! ## Package `pgBuilder`

The builder holds pointers; the model holds the values they point to.

* `query.WhereClause` and `whereGroups` are one object: the model has the field
  `whereGroups` only.
* When `query.SelectClause` is an `AggregateSelect` it is the object `aggregateSelect`
  points to (`SelectAggregate` sets both, `Select` replaces the clause only), so
  `AddRegularField` and `AddAggregate` change both.
* `currentGroup` is the group the pointer refers to. `whereGroups.Add(*b.currentGroup)`
  stores a copy of the struct: conditions appended to `currentGroup` afterwards are not
  seen through the copy, whose length is fixed (see `Slices of conditions in memory`).
-/

/-- The implementations of the interface `querybuilder.SelectClause` the builder uses. -/
inductive SelectClause where
  | simpleSelect (s : SimpleSelect)
  | aggregateSelect (a : AggregateSelect)

/-- The method `Build` of a `SelectClause`, dispatched on the implementation. -/
def SelectClause.Build : SelectClause → String × Option Error
  | .simpleSelect s => s.Build
  | .aggregateSelect a => a.Build

/-- Go `querybuilder.Query`, without `WhereClause` (the object `whereGroups` of the
builder). A `nil` `FromClause` is `none`. -/
structure Query where
  SelectClause : SelectClause
  FromClause : Option SimpleFrom
  Args : List Value

/-- Go `pgbuilder.PostgresQueryBuilder`. -/
structure PostgresQueryBuilder where
  query : Query
  aggregateSelect : Option AggregateSelect
  whereGroups : WhereGroups
  currentGroup : WhereGroup

/-- Go `pgbuilder.NewPostgresQueryBuilder`. -/
def NewPostgresQueryBuilder : PostgresQueryBuilder :=
  { query := { SelectClause := .simpleSelect (NewSimpleSelect ["*"]), FromClause := none,
               Args := [] },
    aggregateSelect := none,
    whereGroups := NewWhereGroups,
    currentGroup := NewWhereGroup AND }

/-- Go `(*PostgresQueryBuilder).Where`. The copy stored in the second branch is taken
before `IsNew` is cleared. -/
def PostgresQueryBuilder.Where (b : PostgresQueryBuilder) (condition : QueryCondition) :
    PostgresQueryBuilder :=
  if b.whereGroups.Groups.length = 0 then
    let current := b.currentGroup.Add condition
    { b with currentGroup := current, whereGroups := b.whereGroups.Add current }
  else
    let current := b.currentGroup.Add condition
    if current.IsNew then
      { b with whereGroups := b.whereGroups.Add current,
               currentGroup := { current with IsNew := false } }
    else
      { b with currentGroup := current }

/-- Go `(*PostgresQueryBuilder).WhereGroup`; `buildGroup` is the effect of the callback on
the new group. -/
def PostgresQueryBuilder.WhereGroup (b : PostgresQueryBuilder) (operator : LogicalOperator)
    (buildGroup : WhereGroup → WhereGroup) : PostgresQueryBuilder :=
  let group := buildGroup (NewWhereGroup operator)
  { b with whereGroups := b.whereGroups.Add group, currentGroup := group }

/-- Go `(*PostgresQueryBuilder).And`. -/
def PostgresQueryBuilder.And (b : PostgresQueryBuilder) : PostgresQueryBuilder :=
  let current := { NewWhereGroup AND with IsNew := true }
  { b with currentGroup := current, whereGroups := b.whereGroups.Add current }

/-- Go `(*PostgresQueryBuilder).Or`. -/
def PostgresQueryBuilder.Or (b : PostgresQueryBuilder) : PostgresQueryBuilder :=
  let current := NewWhereGroup OR
  { b with currentGroup := current, whereGroups := b.whereGroups.Add current }

/-- Go `(*PostgresQueryBuilder).From`. -/
def PostgresQueryBuilder.From (b : PostgresQueryBuilder) (table : String) :
    PostgresQueryBuilder :=
  { b with query := { b.query with FromClause := some (NewSimpleFrom table) } }

/-- Go `(*PostgresQueryBuilder).Select`. -/
def PostgresQueryBuilder.Select (b : PostgresQueryBuilder) (fields : List String) :
    PostgresQueryBuilder :=
  { b with query := { b.query with SelectClause := .simpleSelect (NewSimpleSelect fields) } }

/-- Go `(*PostgresQueryBuilder).SelectAggregate`. -/
def PostgresQueryBuilder.SelectAggregate (b : PostgresQueryBuilder) : PostgresQueryBuilder :=
  { b with query := { b.query with SelectClause := .aggregateSelect NewAggregateSelect },
           aggregateSelect := some NewAggregateSelect }

/-- The select clause of the query after the object `aggregateSelect` points to has become
`a`: the clause is that object when it is an `AggregateSelect`. -/
def Query.withAggregate (q : Query) (a : AggregateSelect) : Query :=
  match q.SelectClause with
  | .aggregateSelect _ => { q with SelectClause := .aggregateSelect a }
  | .simpleSelect _ => q

/-- Go `(*PostgresQueryBuilder).AddRegularField`. -/
def PostgresQueryBuilder.AddRegularField (b : PostgresQueryBuilder) (field : String) :
    PostgresQueryBuilder :=
  match b.aggregateSelect with
  | none => b
  | some a =>
    { b with aggregateSelect := some (a.AddRegularField field),
             query := b.query.withAggregate (a.AddRegularField field) }

/-- Go `(*PostgresQueryBuilder).AddAggregate`. -/
def PostgresQueryBuilder.AddAggregate (b : PostgresQueryBuilder) (fn : AggregateFunction)
    (field aliasName : String) : PostgresQueryBuilder :=
  match b.aggregateSelect with
  | none => b
  | some a =>
    { b with aggregateSelect := some (a.AddAggregate fn field aliasName),
             query := b.query.withAggregate (a.AddAggregate fn field aliasName) }

/-- Go `(*PostgresQueryBuilder).Build`. `query.WhereClause` is never `nil`. -/
def PostgresQueryBuilder.Build (b : PostgresQueryBuilder) (now : Time) : BuildResult :=
  match b.query.SelectClause.Build with
  | (_, some err) => ("", [], some ("failed to build SELECT clause: " ++ err))
  | (selectSQL, none) =>
    let args : List Value := []
    let queryParts :=
      match b.query.FromClause with
      | some f => [selectSQL] ++ [f.Build]
      | none => [selectSQL]
    match b.whereGroups.Build now ((args.length : Int) + 1) with
    | (_, _, some err) => ("", [], some ("failed to build WHERE clause: " ++ err))
    | (whereSQL, whereArgs, none) =>
      if whereSQL ≠ "" then (Join (queryParts ++ [whereSQL]) " ", args ++ whereArgs, none)
      else (Join queryParts " ", args, none)

/-- The fragments of a query that are present, in the order SELECT, FROM, WHERE: the FROM
fragment when a table was set, the WHERE fragment when it is not empty. -/
def presentFragments (selectSQL : String) (fromClause : Option SimpleFrom) (whereSQL : String) :
    List String :=
  [selectSQL] ++ (match fromClause with
    | some f => [f.Build]
    | none => []) ++ (if whereSQL = "" then [] else [whereSQL])

/-- A builder whose select clause has no field: `SelectAggregate()` alone. -/
def noFieldBuilder : PostgresQueryBuilder := NewPostgresQueryBuilder.SelectAggregate

/-- A builder whose only condition is `id IN ()`, which does not build. -/
def emptyInBuilder : PostgresQueryBuilder :=
  (NewPostgresQueryBuilder.From "t").Where
    (.fieldCondition (NewFieldCondition "id" In (.slice [])))

/-- The connectors of a chain of `Where` calls: `And()` and `Or()`. -/
inductive Connector where
  | and
  | or

/-- The builder method a connector stands for. -/
def Connector.apply (o : Connector) (b : PostgresQueryBuilder) : PostgresQueryBuilder :=
  match o with
  | .and => b.And
  | .or => b.Or

/-- The keyword of a connector: `AND` for `And()`, `OR` for `Or()`. -/
def Connector.keyword : Connector → LogicalOperator
  | .and => AND
  | .or => OR

/-- The calls `o_2, Where(c_2), ..., o_n, Where(c_n)` applied in order to a builder. -/
def PostgresQueryBuilder.chain (b : PostgresQueryBuilder) :
    List (Connector × QueryCondition) → PostgresQueryBuilder
  | [] => b
  | x :: rest => PostgresQueryBuilder.chain ((x.1.apply b).Where x.2) rest

/-- The chain `Where(c_1), o_2, Where(c_2), ..., o_n, Where(c_n)` on a fresh builder. -/
def whereChain (c1 : QueryCondition) (rest : List (Connector × QueryCondition)) :
    PostgresQueryBuilder :=
  (NewPostgresQueryBuilder.Where c1).chain rest

/-- The pieces `F_1, OP_2, F_2, ..., OP_n, F_n` of a chain, from the connectors `o_2..o_n`
and the fragments `F_1..F_n`. -/
def chainPieces (connectors : List Connector) : List String → List String
  | [] => []
  | f :: fs => f :: (connectors.zip fs).flatMap fun x => [x.1.keyword, x.2]

/-- The two groups a connector followed by `Where(c)` appends to the sequence: the empty
group stored by the connector and the group of the one condition stored by `Where`. -/
def chainGroups (x : Connector × QueryCondition) : List WhereGroup :=
  [NewWhereGroup x.1.keyword, (NewWhereGroup x.1.keyword).Add x.2]

/-- The chain of `main.go`, `buildBalanceSheetQuery`, its conditions joined by `And()`, and
the same with `Or()` as the second connector. -/
def balanceSheetChain (o : Connector) : PostgresQueryBuilder :=
  whereChain (.dateRangeCondition (NewDateRangeCondition { Typ := YTD }))
    [(.and, .fieldCondition (NewFieldCondition "account_code" In
        (.slice [.str "1001", .str "1002"]))),
     (o, .fieldCondition (NewFieldCondition "is_active" Equals (.bool true)))]

/-! ## Groups and slices of conditions in memory

`NewWhereGroup` returns a `*WhereGroup`, and a group that is added to another group is
stored there as that pointer: whoever holds the pointer can still add to the group, and the
outer group shows what was added. `WhereGroup.Conditions` is a Go slice: a header (backing
array, length, capacity) into an array that several headers may share. `WhereGroups.Add`
receives the struct by value, so what it stores is a copy of the header, not of the array,
and not of the groups the slots point to. This section models that: a `Memory` holds the
backing arrays and the `WhereGroup` structs that pointers refer to, a slot holds a
condition by value or the address of a group, and what a struct shows is read through the
memory. The slice `Groups` of a `WhereGroups`, which belongs to that one object, is its
list of structs.
-/

/-- A Go slice header of type `[]QueryCondition`: the address of the backing array, `len`
and `cap`. Every slice of the program starts at the first slot of its array. -/
structure SliceHeader where
  array : Nat
  len : Nat
  cap : Nat
  deriving DecidableEq

/-- What a slot of type `QueryCondition` holds: a `*WhereGroup`, by the address of the
group, or a condition of another type (a field condition, a date-range condition), which
no `Add` writes to, by its value. -/
inductive Stored where
  | value (c : QueryCondition)
  | pointer (address : Nat)

/-- The struct `querybuilder.WhereGroup` as it lies in memory. -/
structure WhereGroupStruct where
  Conditions : SliceHeader
  Operator : LogicalOperator
  IsNew : Bool
  deriving DecidableEq

/-- The memory: the backing arrays, by address, each with the slots written so far, and the
`WhereGroup` structs that pointers refer to, by address. -/
structure Memory where
  arrays : List (List Stored)
  groups : List WhereGroupStruct

/-- The slots of the array at an address (none at an address not allocated). -/
def Memory.slots (m : Memory) (a : Nat) : List Stored := (m.arrays[a]?).getD []

/-- The slots a header shows: the first `len` slots of its array. -/
def Memory.read (m : Memory) (s : SliceHeader) : List Stored :=
  (m.slots s.array).take s.len

/-- The slots of an array after slot `i` was assigned. -/
def writeSlot (slots : List Stored) (i : Nat) (c : Stored) : List Stored :=
  slots.take i ++ [c] ++ slots.drop (i + 1)

/-- The capacity of the array that `append` allocates for one more element when the slice is
full, as the gc runtime chooses it for slices of fewer than 256 elements: 1 for capacity 0,
twice the capacity otherwise. -/
def grownCap (cap : Nat) : Nat := if cap = 0 then 1 else 2 * cap

/-- Go `append(s, c)`: when capacity remains the element is written in place, in the slot
after the last one, and the array is shared with every other header on it; otherwise the
elements are copied to a new array. -/
def Memory.append (m : Memory) (s : SliceHeader) (c : Stored) : Memory × SliceHeader :=
  if s.len < s.cap then
    ({ m with arrays := m.arrays.set s.array (writeSlot (m.slots s.array) s.len c) },
      { s with len := s.len + 1 })
  else
    ({ m with arrays := m.arrays ++ [m.read s ++ [c]] },
      { array := m.arrays.length, len := s.len + 1, cap := grownCap s.cap })

/-- The slots a header shows exist, and a header with spare capacity is on an allocated
array: what holds of every header of a running program. -/
def Memory.Holds (m : Memory) (s : SliceHeader) : Prop :=
  s.len ≤ (m.slots s.array).length ∧ (s.len < s.cap → s.array < m.arrays.length)

instance (m : Memory) (s : SliceHeader) : Decidable (m.Holds s) := by
  unfold Memory.Holds
  exact inferInstance

/-- Go `NewWhereGroup`, the struct: `make([]QueryCondition, 0)` is a header of length 0 and
capacity 0. -/
def NewWhereGroupStruct (operator : LogicalOperator) : WhereGroupStruct :=
  { Conditions := { array := 0, len := 0, cap := 0 }, Operator := operator, IsNew := true }

/-- Go `NewWhereGroup` in memory: the struct is allocated and its address returned. -/
def Memory.NewWhereGroup (m : Memory) (operator : LogicalOperator) : Memory × Nat :=
  ({ m with groups := m.groups ++ [NewWhereGroupStruct operator] }, m.groups.length)

/-- A copy of a struct in a variable of its own (`h := *g`), at a new address. -/
def Memory.copy (m : Memory) (g : Nat) : Memory × Nat :=
  ({ m with groups := m.groups ++ (m.groups[g]?).toList }, m.groups.length)

/-- Go `(*WhereGroup).Add` through the pointer `g`:
`wg.Conditions = append(wg.Conditions, condition)`. -/
def Memory.Add (m : Memory) (g : Nat) (condition : Stored) : Memory :=
  match m.groups[g]? with
  | none => m
  | some wg =>
    { arrays := (m.append wg.Conditions condition).1.arrays,
      groups := m.groups.set g { wg with Conditions := (m.append wg.Conditions condition).2 } }

/-- The values of a list when all are present. -/
def collect {α : Type} : List (Option α) → Option (List α)
  | [] => some []
  | none :: _ => none
  | some a :: rest =>
    match collect rest with
    | some as => some (a :: as)
    | none => none

/-- The condition that a slot shows, followed through at most `fuel` pointers: none when
more pointers follow one another, as in a group that holds itself, which `Build` never
finishes reading. -/
def Memory.resolve (m : Memory) : Nat → Stored → Option QueryCondition
  | _, .value c => some c
  | 0, .pointer _ => none
  | fuel + 1, .pointer a =>
    match m.groups[a]? with
    | none => none
    | some wg =>
      match collect ((m.read wg.Conditions).map (m.resolve fuel)) with
      | some cs => some (.whereGroup cs wg.Operator wg.IsNew)
      | none => none

/-- The group a struct shows in the memory `m`. -/
def WhereGroupStruct.value (g : WhereGroupStruct) (m : Memory) (fuel : Nat) :
    Option WhereGroup :=
  match collect ((m.read g.Conditions).map (m.resolve fuel)) with
  | some cs => some { Conditions := cs, Operator := g.Operator, IsNew := g.IsNew }
  | none => none

/-- Go `wheregroups.WhereGroups` in memory: `Groups` holds structs. -/
structure WhereGroupsStruct where
  Groups : List WhereGroupStruct

/-- Go `NewWhereGroups` in memory. -/
def NewWhereGroupsStruct : WhereGroupsStruct := { Groups := [] }

/-- Go `(*WhereGroups).Add` in memory: the struct, passed by value, is appended. -/
def WhereGroupsStruct.Add (w : WhereGroupsStruct) (group : WhereGroupStruct) :
    WhereGroupsStruct :=
  { Groups := w.Groups ++ [group] }

/-- The sequence a `WhereGroups` shows in the memory `m`. -/
def WhereGroupsStruct.value (w : WhereGroupsStruct) (m : Memory) (fuel : Nat) :
    Option WhereGroups :=
  match collect (w.Groups.map fun g => g.value m fuel) with
  | some gs => some { Groups := gs }
  | none => none

/-- Go `(*WhereGroups).Build` in memory: each group is read through its header and the
pointers in its slots; none when the reading does not end within `fuel` pointers. -/
def WhereGroupsStruct.Build (w : WhereGroupsStruct) (m : Memory) (fuel : Nat) (now : Time)
    (p : Int) : Option BuildResult :=
  match w.value m fuel with
  | some v => some (v.Build now p)
  | none => none

/-- The addresses of the groups that a slot leads to through at most `fuel + 1` pointers. -/
def Memory.reach (m : Memory) : Nat → Stored → List Nat
  | _, .value _ => []
  | 0, .pointer a => [a]
  | fuel + 1, .pointer a =>
    a :: match m.groups[a]? with
      | none => []
      | some wg => (m.read wg.Conditions).flatMap (m.reach fuel)

/-- The header `h` does not show the slot that an `append` through the header `g` writes:
its slots exist, and when `g` has spare capacity and `h` is on the array of `g`, `h` is not
longer than `g`. -/
def Memory.Apart (m : Memory) (g h : SliceHeader) : Prop :=
  m.Holds h ∧ (g.len < g.cap → h.array = g.array → h.len ≤ g.len)

instance (m : Memory) (g h : SliceHeader) : Decidable (m.Apart g h) := by
  unfold Memory.Apart
  exact inferInstance

/-- What the slot `x` shows does not depend on the group at the address `a`, whose header
is `g`, nor on the slot that an `append` through `g` writes: no group that `x` leads to is
the group at `a`, and the header of each is apart from `g`. -/
def Memory.Untouched (m : Memory) (a : Nat) (g : SliceHeader) (fuel : Nat) (x : Stored) :
    Prop :=
  ∀ b ∈ m.reach fuel x, b ≠ a ∧ ∀ wg ∈ m.groups[b]?, m.Apart g wg.Conditions

instance (m : Memory) (a : Nat) (g : SliceHeader) (fuel : Nat) (x : Stored) :
    Decidable (m.Untouched a g fuel x) := by
  unfold Memory.Untouched
  exact inferInstance

/-- The condition `name = v`. -/
def equalsInt (name : String) (v : Int) : QueryCondition :=
  .fieldCondition (NewFieldCondition name Equals (.int v))

/-- The memory after `g := NewWhereGroup(AND); g.Add(a = 1)`, `outer := NewWhereGroup(AND);
outer.Add(g)`: the group `g` is at address 0 and `outer`, at address 1, holds the pointer
`g`. -/
def nestedPointer : Memory :=
  ((((Memory.mk [[]] []).NewWhereGroup AND).1.Add 0 (.value (equalsInt "a" 1))).NewWhereGroup
    AND).1.Add 1 (.pointer 0)

/-- The sequence after `s.Add(*outer)` in the memory `nestedPointer`. -/
def outerSequence : WhereGroupsStruct :=
  NewWhereGroupsStruct.Add ((nestedPointer.groups[1]?).getD (NewWhereGroupStruct AND))

/-- The memory after `g := NewWhereGroup(AND)` and `g.Add` of `a = 1`, `b = 2` and `c = 3`:
the three conditions are in an array of capacity 4, and `g` is at address 0. -/
def threeAdded : Memory :=
  ((((Memory.mk [[]] []).NewWhereGroup AND).1.Add 0 (.value (equalsInt "a" 1))).Add 0
    (.value (equalsInt "b" 2))).Add 0 (.value (equalsInt "c" 3))

/-- The memory after `h := *g` and `h.Add` of `d = 4`, which is written in the free slot of
the array that `h`, at address 1, shares with `g`. -/
def copyExtended : Memory := (threeAdded.copy 0).1.Add 1 (.value (equalsInt "d" 4))

/-- The sequence after `s.Add(h)`, `h` being the extended copy: its group shows `a = 1`,
`b = 2`, `c = 3`, `d = 4` through the array it shares with the original group. -/
def aliasedSequence : WhereGroupsStruct :=
  NewWhereGroupsStruct.Add ((copyExtended.groups[1]?).getD (NewWhereGroupStruct AND))

/-- The group at an address, as a struct (the zero struct at an address not allocated). -/
def Memory.group (m : Memory) (a : Nat) : WhereGroupStruct :=
  (m.groups[a]?).getD (NewWhereGroupStruct AND)

/-- A memory with three groups: `g` at address 0 shows `a = 1`, `b = 2`, `c = 3` in an array
of capacity 4; `q`, at address 1, shows `x = 9`; `outer`, at address 2, holds the pointer
`q`. -/
def threeGroups : Memory :=
  (((threeAdded.NewWhereGroup OR).1.Add 1 (.value (equalsInt "x" 9))).NewWhereGroup AND).1.Add 2
    (.pointer 1)

/-- The sequence after `s.Add(*outer)` and `s.Add(*g)` in the memory `threeGroups`. -/
def snapshotSequence : WhereGroupsStruct :=
  (NewWhereGroupsStruct.Add (threeGroups.group 2)).Add (threeGroups.group 0)

/-- A call on an `AggregateSelect`: `AddRegularField(field)` or
`AddAggregate(fn, field, alias)`. -/
inductive SelectCall where
  | regular (field : String)
  | aggregate (fn : AggregateFunction) (field aliasName : String)

/-- The effect of one call. -/
def SelectCall.apply (a : AggregateSelect) : SelectCall → AggregateSelect
  | .regular field => a.AddRegularField field
  | .aggregate fn field aliasName => a.AddAggregate fn field aliasName

/-- The `AggregateSelect` after a sequence of calls on `NewAggregateSelect()`. -/
def afterCalls (calls : List SelectCall) : AggregateSelect :=
  calls.foldl SelectCall.apply NewAggregateSelect

/-- The regular fields of a sequence of calls, in the order of the calls. -/
def regularsOf (calls : List SelectCall) : List String :=
  calls.filterMap fun
    | .regular field => some field
    | .aggregate _ _ _ => none

/-- The aggregates of a sequence of calls, in the order of the calls. -/
def aggregatesOf (calls : List SelectCall) : List AggregateField :=
  calls.filterMap fun
    | .regular _ => none
    | .aggregate fn field aliasName =>
      some { Function := fn, Field := field, Alias := aliasName }

/-- The calls of the test "Method Chaining": `date`, `SUM(amount) total`, `COUNT(*) count`,
`category`. -/
def chainingCalls : List SelectCall :=
  [.regular "date", .aggregate aggregate.Sum "amount" "total",
   .aggregate aggregate.Count "*" "count", .regular "category"]

/-- The predicate of a range within one year, its placeholders numbered from `p`. -/
def singleYearFragment (p : Int) : String :=
  "period_year = $" ++ formatInt p ++ " AND period_month BETWEEN $"
    ++ formatInt (p + 1) ++ " AND $" ++ formatInt (p + 2)

/-- The predicate of a range over two years, its placeholders numbered from `p`. -/
def crossYearFragment (p : Int) : String :=
  "(period_year = $" ++ formatInt p ++ " AND period_month >= $"
    ++ formatInt (p + 1) ++ ") OR (period_year = $"
    ++ formatInt (p + 2) ++ " AND period_month <= $"
    ++ formatInt (p + 3) ++ ")"

/-- A build returned the single-year form: its fragment, three arguments, no error. -/
def IsSingleYearForm (r : BuildResult) (p : Int) : Prop :=
  r.clause = singleYearFragment p ∧ r.args.length = 3 ∧ r.err = none

/-- A build returned the cross-year form: its fragment, four arguments, no error. -/
def IsCrossYearForm (r : BuildResult) (p : Int) : Prop :=
  r.clause = crossYearFragment p ∧ r.args.length = 4 ∧ r.err = none

/-- An instant of December 2024. -/
def decemberNow : Time := Date 2024 12 5 10 0 0 .Jakarta

/-- The calls `Where(c_1), ..., Where(c_n)` applied in order to a builder. -/
def PostgresQueryBuilder.wheres (b : PostgresQueryBuilder) :
    List QueryCondition → PostgresQueryBuilder
  | [] => b
  | c :: cs => PostgresQueryBuilder.wheres (b.Where c) cs

/-- Three conditions: `id = 1`, `status = "active"` and `amount > 100`. -/
def threeConditions : List QueryCondition :=
  [.fieldCondition (NewFieldCondition "id" Equals (.int 1)),
   .fieldCondition (NewFieldCondition "status" Equals (.str "active")),
   .fieldCondition (NewFieldCondition "amount" GreaterThan (.int 100))]

/-! ## Fragments as text and placeholders -/

/-- What the lexer reads: a character outside a placeholder, or a placeholder `$n`. -/
inductive Item where
  | char (c : Char)
  | placeholder (n : Int)

/-- The items that end when the lexer leaves a state: a `$` or `$-` that no digit followed
is text, a number is a placeholder. -/
def ScanState.flush : ScanState → List Item
  | .idle => []
  | .dollar => [.char '$']
  | .minus => [.char '$', .char '-']
  | .number neg n => [.placeholder (if neg then -(n : Int) else (n : Int))]

/-- The items of a text, read left to right with the states of `scan`: a placeholder is a
`$` followed by an optional `-` and a maximal run of decimal digits. -/
def lex : ScanState → List Char → List Item
  | st, [] => st.flush
  | st, c :: cs =>
    if c = '$' then st.flush ++ lex .dollar cs
    else if c.isDigit then
      match st with
      | .idle => .char c :: lex .idle cs
      | .dollar => lex (.number false (digitValue c)) cs
      | .minus => lex (.number true (digitValue c)) cs
      | .number neg n => lex (.number neg (10 * n + digitValue c)) cs
    else if c = '-' then
      match st with
      | .dollar => lex .minus cs
      | _ => st.flush ++ .char '-' :: lex .idle cs
    else st.flush ++ .char c :: lex .idle cs

/-- The text of an item: the character, or `$` and the number as `Sprintf` writes it. -/
def Item.text : Item → List Char
  | .char c => [c]
  | .placeholder n => '$' :: (formatInt n).data

/-- The item with its placeholder number raised by `k`. -/
def Item.shift (k : Int) : Item → Item
  | .char c => .char c
  | .placeholder n => .placeholder (n + k)

/-- The fragment with every placeholder `$n` replaced by `$(n+k)`. -/
def shiftPlaceholders (k : Int) (s : String) : String :=
  String.mk (((lex .idle s.data).map (Item.shift k)).flatMap Item.text)

/-- A piece of a fragment as `Build` writes it: a text, or a placeholder. -/
inductive Piece where
  | text (t : String)
  | placeholder (n : Int)

/-- The characters of a piece. -/
def Piece.chars : Piece → List Char
  | .text t => t.data
  | .placeholder n => '$' :: (formatInt n).data

/-- The items of a piece. -/
def Piece.items : Piece → List Item
  | .text t => t.data.map Item.char
  | .placeholder n => [.placeholder n]

/-- The piece with its placeholder number raised by `k`. -/
def Piece.shift (k : Int) : Piece → Piece
  | .text t => .text t
  | .placeholder n => .placeholder (n + k)

/-- The characters of a list of pieces. -/
def render (ps : List Piece) : List Char := ps.flatMap Piece.chars

/-- Pieces that are read back as written: no text holds a `$`, and no digit follows a
placeholder. -/
def Separated : List Piece → Prop
  | [] => True
  | .text t :: ps => '$' ∉ t.data ∧ Separated ps
  | .placeholder _ :: ps => NoLeadingDigit (render ps) ∧ Separated ps

/-- The fragment `b` is the fragment `a` with every placeholder raised by `k`, both written
from pieces that are read back as written. -/
def Shifted (k : Int) (a b : String) : Prop :=
  ∃ ps : List Piece, Separated ps ∧ render ps = a.data ∧
    render (ps.map (Piece.shift k)) = b.data

/-! ## The predicates that fragments denote

A fragment is read as SQL: lexed into characters and placeholders, cut into tokens, and
parsed with `AND` binding tighter than `OR` and `BETWEEN x AND y` tighter than both. The
predicate is then evaluated on a row, the placeholder `$n` of a fragment built at offset
`p` standing for the argument of index `n - p`.
-/

/-- The tokens of a predicate. -/
inductive Token where
  | lparen
  | rparen
  | comma
  | word (w : String)
  | placeholder (n : Int)

/-- The word read so far, when there is one. -/
def flushWord (acc : List Char) : List Token :=
  if acc.length = 0 then [] else [.word (String.mk acc)]

/-- The tokens of a list of items: spaces separate, parentheses and commas are tokens,
every other run of characters is a word. `acc` holds the characters of the current word. -/
def tokensFrom : List Char → List Item → List Token
  | acc, [] => flushWord acc
  | acc, .placeholder n :: rest => flushWord acc ++ .placeholder n :: tokensFrom [] rest
  | acc, .char c :: rest =>
    if c = ' ' then flushWord acc ++ tokensFrom [] rest
    else if c = '(' then flushWord acc ++ .lparen :: tokensFrom [] rest
    else if c = ')' then flushWord acc ++ .rparen :: tokensFrom [] rest
    else if c = ',' then flushWord acc ++ .comma :: tokensFrom [] rest
    else tokensFrom (acc ++ [c]) rest

/-- The tokens of a fragment. -/
def tokens (s : String) : List Token := tokensFrom [] (lex .idle s.data)

/-- The predicates of the fragments: a comparison of a column with a placeholder, a
`BETWEEN`, conjunction, disjunction, and a parenthesised predicate. -/
inductive Predicate where
  | compare (column op : String) (n : Int)
  | between (column : String) (lo hi : Int)
  | and (a b : Predicate)
  | or (a b : Predicate)
  | paren (a : Predicate)

/-- An atom: a parenthesised predicate, `column BETWEEN $lo AND $hi`, or `column op $n`. -/
def parseAtomWith (expr : List Token → Option (Predicate × List Token)) :
    List Token → Option (Predicate × List Token)
  | .lparen :: ts =>
    match expr ts with
    | some (e, .rparen :: rest) => some (.paren e, rest)
    | _ => none
  | .word column :: .word op :: .placeholder lo :: .word w :: .placeholder hi :: rest =>
    if op = "BETWEEN" ∧ w = "AND" then some (.between column lo hi, rest)
    else some (.compare column op lo, .word w :: .placeholder hi :: rest)
  | .word column :: .word op :: .placeholder n :: rest => some (.compare column op n, rest)
  | _ => none

/-- The atoms that follow `AND`, joined to the left operand. -/
def andTail (atom : List Token → Option (Predicate × List Token)) :
    Nat → Predicate → List Token → Option (Predicate × List Token)
  | 0, _, _ => none
  | fuel + 1, left, .word w :: ts =>
    if w = "AND" then
      match atom ts with
      | some (right, rest) => andTail atom fuel (.and left right) rest
      | none => none
    else some (left, .word w :: ts)
  | _ + 1, left, ts => some (left, ts)

/-- A conjunction: atoms separated by `AND`. -/
def parseAndWith (atom : List Token → Option (Predicate × List Token)) (fuel : Nat)
    (ts : List Token) : Option (Predicate × List Token) :=
  match atom ts with
  | some (left, rest) => andTail atom fuel left rest
  | none => none

/-- The conjunctions that follow `OR`, joined to the left operand. -/
def orTail (atom : List Token → Option (Predicate × List Token)) :
    Nat → Predicate → List Token → Option (Predicate × List Token)
  | 0, _, _ => none
  | fuel + 1, left, .word w :: ts =>
    if w = "OR" then
      match parseAndWith atom fuel ts with
      | some (right, rest) => orTail atom fuel (.or left right) rest
      | none => none
    else some (left, .word w :: ts)
  | _ + 1, left, ts => some (left, ts)

/-- A disjunction: conjunctions separated by `OR`. The fuel bounds the depth of the
parentheses and the number of operands. -/
def parseExpr : Nat → List Token → Option (Predicate × List Token)
  | 0, _ => none
  | fuel + 1, ts =>
    match parseAndWith (parseAtomWith (parseExpr fuel)) fuel ts with
    | some (left, rest) => orTail (parseAtomWith (parseExpr fuel)) fuel left rest
    | none => none

/-- The predicate a fragment denotes, when the whole fragment is one. -/
def parsePredicate (s : String) : Option Predicate :=
  match parseExpr ((tokens s).length + 1) (tokens s) with
  | some (e, []) => some e
  | _ => none

/-- The comparison of a column value with an argument: integers by order, strings and
booleans by equality. -/
def compareValues (op : String) : Value → Value → Option Bool
  | .int a, .int b =>
    if op = "=" then some (decide (a = b))
    else if op = "!=" then some (decide (a ≠ b))
    else if op = ">" then some (decide (a > b))
    else if op = "<" then some (decide (a < b))
    else if op = ">=" then some (decide (a ≥ b))
    else if op = "<=" then some (decide (a ≤ b))
    else none
  | .str a, .str b =>
    if op = "=" then some (decide (a = b))
    else if op = "!=" then some (decide (a ≠ b))
    else none
  | .bool a, .bool b =>
    if op = "=" then some (decide (a = b))
    else if op = "!=" then some (decide (a ≠ b))
    else none
  | _, _ => none

/-- The value of a predicate on a row, `arg` giving the argument of each placeholder. -/
def Predicate.eval (row : String → Option Value) (arg : Int → Option Value) :
    Predicate → Option Bool
  | .compare column op n =>
    match row column, arg n with
    | some x, some v => compareValues op x v
    | _, _ => none
  | .between column lo hi =>
    match row column, arg lo, arg hi with
    | some x, some l, some h =>
      match compareValues ">=" x l, compareValues "<=" x h with
      | some a, some b => some (a && b)
      | _, _ => none
    | _, _, _ => none
  | .and a b =>
    match a.eval row arg, b.eval row arg with
    | some x, some y => some (x && y)
    | _, _ => none
  | .or a b =>
    match a.eval row arg, b.eval row arg with
    | some x, some y => some (x || y)
    | _, _ => none
  | .paren a => a.eval row arg

/-- The argument of the placeholder `$n` of a fragment built at offset `p`. -/
def argumentAt (args : List Value) (p n : Int) : Option Value :=
  if p ≤ n then args[(n - p).toNat]? else none

/-- The value of a fragment, built at offset `p` with the arguments `args`, on a row. -/
def fragmentHolds (fragment : String) (args : List Value) (p : Int)
    (row : String → Option Value) : Option Bool :=
  match parsePredicate fragment with
  | some e => e.eval row (argumentAt args p)
  | none => none

/-- A row of the period columns. -/
def periodRow (year month : Int) : String → Option Value := fun column =>
  if column = "period_year" then some (.int year)
  else if column = "period_month" then some (.int month)
  else none

/-- The month `a` is not after the month `b`, both given as (year, month). -/
def monthLE (a b : Int × Int) : Prop := a.1 < b.1 ∨ (a.1 = b.1 ∧ a.2 ≤ b.2)

instance (a b : Int × Int) : Decidable (monthLE a b) := by
  unfold monthLE
  exact inferInstance

/-- The pieces of the single-year fragment. -/
def singleYearPieces (p : Int) : List Piece :=
  [.text "period_year = ", .placeholder p, .text " AND period_month BETWEEN ",
    .placeholder (p + 1), .text " AND ", .placeholder (p + 2)]

/-- The pieces of the cross-year fragment. -/
def crossYearPieces (p : Int) : List Piece :=
  [.text "(period_year = ", .placeholder p, .text " AND period_month >= ",
    .placeholder (p + 1), .text ") OR (period_year = ", .placeholder (p + 2),
    .text " AND period_month <= ", .placeholder (p + 3), .text ")"]

/-- The predicate of the single-year fragment. -/
def singleYearPredicate (p : Int) : Predicate :=
  .and (.compare "period_year" "=" p) (.between "period_month" (p + 1) (p + 2))

/-- The predicate of the cross-year fragment. -/
def crossYearPredicate (p : Int) : Predicate :=
  .or (.paren (.and (.compare "period_year" "=" p) (.compare "period_month" ">=" (p + 1))))
    (.paren (.and (.compare "period_year" "=" (p + 2)) (.compare "period_month" "<=" (p + 3))))

/-- The range from January 2022 to December 2024, over three calendar years. -/
def threeYears : DateParameters :=
  { Start := some { Month := 1, Year := 2022 }, End := some { Month := 12, Year := 2024 } }

/-! ## Fragments under `AND`

The two conditions under which the specification calls a fragment safe to combine with
`AND`, read on the characters of the fragment.
-/

/-- The characters `cs` begin with the characters `pre`. -/
def beginsWith : List Char → List Char → Bool
  | [], _ => true
  | _ :: _, [] => false
  | a :: pre, c :: cs => a == c && beginsWith pre cs

/-- Some `" OR "` begins outside every parenthesis, `depth` parentheses being open. -/
def topLevelOrFrom : Nat → List Char → Bool
  | _, [] => false
  | depth, c :: cs =>
    if c = '(' then topLevelOrFrom (depth + 1) cs
    else if c = ')' then topLevelOrFrom (depth - 1) cs
    else (depth == 0 && beginsWith " OR ".data (c :: cs)) || topLevelOrFrom depth cs

/-- The fragment has an `" OR "` at parenthesis depth 0. -/
def hasTopLevelOr (s : String) : Bool := topLevelOrFrom 0 s.data

/-- The parenthesis opened before `cs` is closed by the last character of `cs`, `depth`
further parentheses being open. -/
def closesAtEnd : Nat → List Char → Bool
  | _, [] => false
  | depth, c :: cs =>
    if c = '(' then closesAtEnd (depth + 1) cs
    else if c = ')' then
      match depth with
      | 0 => cs.isEmpty
      | d + 1 => closesAtEnd d cs
    else closesAtEnd depth cs

/-- The whole fragment is enclosed in one matching pair of parentheses. -/
def enclosed (s : String) : Bool :=
  match s.data with
  | c :: cs => c == '(' && closesAtEnd 0 cs
  | [] => false

/-- The fragment can be combined with `AND`, in the words of the specification. -/
def SafeUnderAnd (s : String) : Prop := hasTopLevelOr s = false ∨ enclosed s = true

/-- The group of a TTM date range and `status = "active"` under AND. -/
def datedGroup : WhereGroup :=
  ((NewWhereGroup AND).Add (.dateRangeCondition (NewDateRangeCondition { Typ := TTM }))).Add
    (.fieldCondition (NewFieldCondition "status" Equals (.str "active")))

/-- A row of June 2023 whose status is not "active". -/
def inactiveRow : String → Option Value := fun column =>
  if column = "status" then some (.str "inactive") else periodRow 2023 6 column

/-! ## Package `time` on machine integers

The model of package `time` above counts in unbounded integers and gives Jakarta the fixed
offset UTC+7. The library itself counts in 64-bit integers, which wrap around, and
`time.LoadLocation("Asia/Jakarta")` reads the offsets of the zone from the time-zone
database, in which Jakarta changed its offset seven times between 1867 and 1964. This
section follows the library on machine integers (`int` of 64 bits) with the transitions of
the zone. A `Time` holds the seconds since 0001-01-01T00:00:00 UTC as an `int64`. The two
models agree on the dates from January 1964 to December of the year 100000000000
(`machine_calculateDateRange_eq`).
-/

/-- The value of an `int64` (or of a 64-bit `int`) whose exact value would be `x`. -/
def Machine.int64 (x : Int) : Int :=
  (x + 9223372036854775808) % 18446744073709551616 - 9223372036854775808

/-- The value of a `uint64` whose exact value would be `x`. -/
def Machine.uint64 (x : Int) : Int := x % 18446744073709551616

/-- Go `time.absoluteZeroYear`. -/
def Machine.absoluteZeroYear : Int := -292277022399

/-- Go `time.absoluteToInternal`: seconds from the year 1 back to the absolute zero year. -/
def Machine.absoluteToInternal : Int := -9223371966579724800

/-- Go `time.internalToAbsolute`. -/
def Machine.internalToAbsolute : Int := 9223371966579724800

/-- Go `time.unixToInternal`: seconds from the year 1 to 1970. -/
def Machine.unixToInternal : Int := 62135596800

/-- Go `time.internalToUnix`. -/
def Machine.internalToUnix : Int := -62135596800

/-- What Go `(*Location).lookup` returns, without the names: the offset in use at an
instant and the Unix seconds between which it is in use. -/
structure Machine.Zone where
  offset : Int
  start : Int
  stop : Int
  deriving DecidableEq, Repr

/-- The transitions of `Asia/Jakarta` in the time-zone database, as (Unix second, offset in
seconds east of UTC from that second on): BMT 7:07:12 (1867), +07:20 (1924), +07:30 (1932),
+09 (1942), +07:30 (1945), +08 (1 May 1948), +07:30 (1 May 1950), WIB +07 (1 January 1964). -/
def Machine.jakartaTransitions : List (Int × Int) :=
  [(-3231299232, 25632), (-1451719200, 26400), (-1172906400, 27000), (-876641400, 32400),
   (-766054800, 27000), (-683883000, 28800), (-620812800, 27000), (-189415800, 25200)]

/-- The zone in use at `sec` among the transitions that follow the zone `(offset, start)`. -/
def Machine.lookupFrom (offset start : Int) : List (Int × Int) → Int → Machine.Zone
  | [], _ => { offset := offset, start := start, stop := 9223372036854775807 }
  | (w, o) :: rest, sec =>
    if sec < w then { offset := offset, start := start, stop := w }
    else Machine.lookupFrom o w rest sec

/-- Go `(*Location).lookup` at a Unix second: for Jakarta, local mean time (7:07:12) before
the first transition, then the zone of the last transition not after `sec`. -/
def Machine.lookup : Location → Int → Machine.Zone
  | .UTC, _ => { offset := 0, start := -9223372036854775808, stop := 9223372036854775807 }
  | .Jakarta, sec =>
    Machine.lookupFrom 25632 (-9223372036854775808) Machine.jakartaTransitions sec

/-- Go `time.norm` on 64-bit `int`. Both dividends are non-negative, so the quotient of Go,
which truncates, is the quotient of Lean. -/
def Machine.norm (hi lo base : Int) : Int × Int :=
  let p : Int × Int :=
    if lo < 0 then
      let n := Machine.int64 (Machine.int64 (Machine.int64 (-lo) - 1) / base + 1)
      (Machine.int64 (hi - n), Machine.int64 (lo + Machine.int64 (n * base)))
    else (hi, lo)
  if p.2 ≥ base then
    let n := p.2 / base
    (Machine.int64 (p.1 + n), Machine.int64 (p.2 - Machine.int64 (n * base)))
  else p

/-- Go `time.daysSinceEpoch`: the days from the absolute zero year to January 1 of `year`,
as a `uint64`. -/
def Machine.daysSinceEpoch (year : Int) : Int :=
  let y := Machine.uint64 (Machine.int64 (year - Machine.absoluteZeroYear))
  let n := y / 400
  let y := y - 400 * n
  let d := Machine.uint64 (146097 * n)
  let n := y / 100
  let y := y - 100 * n
  let d := Machine.uint64 (d + 36524 * n)
  let n := y / 4
  let y := y - 4 * n
  let d := Machine.uint64 (d + 1461 * n)
  Machine.uint64 (d + 365 * y)

/-- The offset that Go `time.Date` subtracts from the local time read as UTC, `unix`: the
offset of the zone found there, or, when the result falls outside that zone, the offset of
the zone found at the result. -/
def Machine.offsetAt (loc : Location) (unix : Int) : Int :=
  let zone := Machine.lookup loc unix
  if zone.offset ≠ 0 then
    let utc := Machine.int64 (unix - zone.offset)
    if utc < zone.start ∨ utc ≥ zone.stop then (Machine.lookup loc utc).offset
    else zone.offset
  else 0

/-- Go `time.Date` (without nanoseconds) on machine integers: the fields are normalised,
the seconds are counted from the absolute zero year as a `uint64` and converted to Unix
seconds, and the offset of the zone is subtracted. -/
def Machine.Date (year month day hour min sec : Int) (loc : Location) : Time :=
  let ym := Machine.norm year (Machine.int64 (month - 1)) 12
  let year := ym.1
  let month := Machine.int64 (ym.2 + 1)
  let ms := Machine.norm min sec 60
  let hm := Machine.norm hour ms.1 60
  let dh := Machine.norm day hm.1 24
  let day := dh.1
  let d := Machine.daysSinceEpoch year
  let d := Machine.uint64 (d + daysBefore (month - 1))
  let d := if isLeap year && month ≥ 3 then Machine.uint64 (d + 1) else d
  let d := Machine.uint64 (d + Machine.uint64 (day - 1))
  let abs := Machine.uint64 (d * 86400)
  let abs := Machine.uint64 (abs + Machine.uint64 (dh.2 * 3600 + hm.2 * 60 + ms.2))
  let unix := Machine.int64 (Machine.int64 abs
    + (Machine.absoluteToInternal + Machine.internalToUnix))
  let unix := Machine.int64 (unix - Machine.offsetAt loc unix)
  { sec := Machine.int64 (unix + Machine.unixToInternal), loc := loc }

/-- Go `Time.abs`: the seconds since the absolute zero year on the local clock of the
location, as a `uint64`. -/
def Machine.abs (t : Time) : Int :=
  let sec := Machine.int64 (t.sec + Machine.internalToUnix)
  let sec := Machine.int64 (sec + (Machine.lookup t.loc sec).offset)
  Machine.uint64 (sec + (Machine.unixToInternal + Machine.internalToAbsolute))

/-- Go `Time.Date` on machine integers: the local `(year, month, day)`, by `absDate`. -/
def Machine.date (t : Time) : Int × Int × Int :=
  let yd := yearOfDays (Machine.abs t / 86400)
  let year := Machine.int64 (yd.1 - 1 + Machine.absoluteZeroYear)
  let md := monthDayOfYday (isLeap year) yd.2
  (year, md.1, md.2)

/-- Go `Time.Year` on machine integers. -/
def Machine.Year (t : Time) : Int := (Machine.date t).1

/-- Go `Time.Month` on machine integers. -/
def Machine.Month (t : Time) : Int := (Machine.date t).2.1

/-- Go `Time.Clock` on machine integers. -/
def Machine.Clock (t : Time) : Int × Int × Int :=
  let s := Machine.abs t % 86400
  (s / 3600, s % 3600 / 60, s % 60)

/-- Go `Time.Add` on machine integers, the duration in seconds: the sum saturates. -/
def Machine.Add (t : Time) (d : Int) : Time :=
  let sum := Machine.int64 (t.sec + d)
  if decide (sum > t.sec) = decide (d > 0) then { t with sec := sum }
  else if d > 0 then { t with sec := 9223372036854775807 }
  else { t with sec := -9223372036854775807 }

/-- Go `Time.AddDate` on machine integers. -/
def Machine.AddDate (t : Time) (years months days : Int) : Time :=
  let ymd := Machine.date t
  let c := Machine.Clock t
  Machine.Date (Machine.int64 (ymd.1 + years)) (Machine.int64 (ymd.2.1 + months))
    (Machine.int64 (ymd.2.2 + days)) c.1 c.2.1 c.2.2 t.loc

/-- The instant shows, in Jakarta and on machine integers, the date `y-m-d` and the clock
`h:mi:s`. -/
def Machine.Shows (t : Time) (y m d h mi s : Int) : Prop :=
  t.loc = .Jakarta ∧ Machine.date t = (y, m, d) ∧ Machine.Clock t = (h, mi, s)

instance (t : Time) (y m d h mi s : Int) : Decidable (Machine.Shows t y m d h mi s) :=
  inferInstanceAs (Decidable (_ ∧ _ ∧ _))

/-- Go `(*DateRangeCondition).calculateDateRange` on machine integers, with `time.Now()`
passed in as `now`. The year and the month of `now` and what is computed from them
(`currentYear-1`, `currentMonth-1`, the quarters) cannot overflow; the negation of a
parameter can. -/
def Machine.calculateDateRange (d : DateRangeCondition) (now : Time) :
    Time × Time × Option Error :=
  let jakartaLocation := getJakartaLocation
  let now := now.In jakartaLocation
  let currentYear := Machine.Year now
  let currentMonth := Machine.Month now
  if d.DateConfig.Typ = CurrentMonth then
    let startDate := Machine.Date currentYear currentMonth 1 0 0 0 jakartaLocation
    let endDate := Machine.Add (Machine.AddDate startDate 0 1 0) (-Second)
    (startDate, endDate, none)
  else if d.DateConfig.Typ = BackMonth then
    match d.DateConfig.Parameters.Months with
    | none => (Time.zero, Time.zero, some "months parameter required for BACK_MONTH")
    | some months =>
      let startDate := Machine.Date currentYear currentMonth 1 0 0 0 jakartaLocation
      let startDate := Machine.AddDate startDate 0 (Machine.int64 (-months)) 0
      let endDate := Machine.Add (Machine.AddDate startDate 0 1 0) (-Second)
      (startDate, endDate, none)
  else if d.DateConfig.Typ = RelativeRange then
    match d.DateConfig.Parameters.StartBackMonths, d.DateConfig.Parameters.EndBackMonths with
    | some startBackMonths, some endBackMonths =>
      let startDate := Machine.Date currentYear currentMonth 1 0 0 0 jakartaLocation
      let startDate := Machine.AddDate startDate 0 (Machine.int64 (-startBackMonths)) 0
      let endDate := Machine.Date currentYear currentMonth 1 0 0 0 jakartaLocation
      let endDate := Machine.Add
        (Machine.AddDate (Machine.AddDate endDate 0 (Machine.int64 (-endBackMonths)) 0) 0 1 0)
        (-Second)
      (startDate, endDate, none)
    | _, _ =>
      (Time.zero, Time.zero,
        some "start_back_months and end_back_months required for RELATIVE_RANGE")
  else if d.DateConfig.Typ = YTD then
    let startDate := Machine.Date currentYear 1 1 0 0 0 jakartaLocation
    let endDate := Machine.Date currentYear currentMonth 1 0 0 0 jakartaLocation
    let endDate := Machine.Add (Machine.AddDate endDate 0 1 0) (-Second)
    (startDate, endDate, none)
  else if d.DateConfig.Typ = PreviousYear then
    let startDate := Machine.Date (currentYear - 1) 1 1 0 0 0 jakartaLocation
    let endDate := Machine.Date (currentYear - 1) 12 31 23 59 59 jakartaLocation
    (startDate, endDate, none)
  else if d.DateConfig.Typ = SpecificMonth then
    match d.DateConfig.Parameters.Month, d.DateConfig.Parameters.Year with
    | some month, some year =>
      let startDate := Machine.Date year month 1 0 0 0 jakartaLocation
      let endDate := Machine.Add (Machine.AddDate startDate 0 1 0) (-Second)
      (startDate, endDate, none)
    | _, _ =>
      (Time.zero, Time.zero, some "month and year parameters required for SPECIFIC_MONTH")
  else if d.DateConfig.Typ = SpecificRange then
    match d.DateConfig.Parameters.Start, d.DateConfig.Parameters.End with
    | some start, some end_ =>
      let startDate := Machine.Date start.Year start.Month 1 0 0 0 jakartaLocation
      let endDate := Machine.Date end_.Year end_.Month 1 0 0 0 jakartaLocation
      let endDate := Machine.Add (Machine.AddDate endDate 0 1 0) (-Second)
      (startDate, endDate, none)
    | _, _ =>
      (Time.zero, Time.zero, some "start and end parameters required for SPECIFIC_RANGE")
  else if d.DateConfig.Typ = QTD then
    let currentQuarter := (currentMonth - 1) / 3 + 1
    let quarterStartMonth := (currentQuarter - 1) * 3 + 1
    let startDate := Machine.Date currentYear quarterStartMonth 1 0 0 0 jakartaLocation
    let endDate := Machine.Date currentYear currentMonth 1 0 0 0 jakartaLocation
    let endDate := Machine.Add (Machine.AddDate endDate 0 1 0) (-Second)
    (startDate, endDate, none)
  else if d.DateConfig.Typ = TTM then
    let startDate := Machine.Date currentYear currentMonth 1 0 0 0 jakartaLocation
    let startDate := Machine.AddDate startDate 0 (-11) 0
    let endDate := Machine.Date currentYear currentMonth 1 0 0 0 jakartaLocation
    let endDate := Machine.Add (Machine.AddDate endDate 0 1 0) (-Second)
    (startDate, endDate, none)
  else if d.DateConfig.Typ = MoM then
    let endDate := Machine.Date currentYear currentMonth 1 0 0 0 jakartaLocation
    let endDate := Machine.Add (Machine.AddDate endDate 0 1 0) (-Second)
    let startDate := Machine.Date currentYear (currentMonth - 1) 1 0 0 0 jakartaLocation
    (startDate, endDate, none)
  else if d.DateConfig.Typ = PreviousQuarter then
    let currentQuarter := (currentMonth - 1) / 3 + 1
    let previousQuarter := currentQuarter - 1
    let previousQuarterYear := currentYear
    let pq : Int × Int :=
      if previousQuarter = 0 then (4, previousQuarterYear - 1)
      else (previousQuarter, previousQuarterYear)
    let previousQuarter := pq.1
    let previousQuarterYear := pq.2
    let quarterStartMonth := (previousQuarter - 1) * 3 + 1
    let startDate := Machine.Date previousQuarterYear quarterStartMonth 1 0 0 0 jakartaLocation
    let endDate := Machine.Add (Machine.AddDate startDate 0 3 0) (-Second)
    (startDate, endDate, none)
  else
    (Time.zero, Time.zero, some "invalid date config type")

/-- Go `(*DateRangeCondition).Build` on machine integers, with `time.Now()` passed in as
`now` (the diagnostic `Printf` is left out). -/
def Machine.Build (d : DateRangeCondition) (now : Time) (paramOffset : Int) : BuildResult :=
  match Machine.calculateDateRange d now with
  | (_, _, some err) => ("", [], some ("failed to calculate date range: " ++ err))
  | (startDate, endDate, none) =>
    let startYear := Machine.Year startDate
    let endYear := Machine.Year endDate
    let startMonth := Machine.Month startDate
    let endMonth := Machine.Month endDate
    if startYear = endYear then
      ("period_year = $" ++ formatInt paramOffset ++ " AND period_month BETWEEN $"
          ++ formatInt (paramOffset + 1) ++ " AND $" ++ formatInt (paramOffset + 2),
        [.int startYear, .int startMonth, .int endMonth], none)
    else
      ("(period_year = $" ++ formatInt paramOffset ++ " AND period_month >= $"
          ++ formatInt (paramOffset + 1) ++ ") OR (period_year = $"
          ++ formatInt (paramOffset + 2) ++ " AND period_month <= $"
          ++ formatInt (paramOffset + 3) ++ ")",
        [.int startYear, .int startMonth, .int endYear, .int endMonth], none)

/-- The instants of Jakarta on which the two models of package `time` agree: from the last
transition of the zone (1963-12-31T16:30:00Z, when Jakarta went to UTC+7) to 2^62 seconds
after the year 1. -/
def Machine.InEra (t : Time) : Prop :=
  t.loc = .Jakarta ∧ 61946181000 ≤ t.sec ∧ t.sec ≤ 4611686018427387904

instance (t : Time) : Decidable (Machine.InEra t) := inferInstanceAs (Decidable (_ ∧ _ ∧ _))

/-- The month `m` of the year `y`, where `m` is any integer, normalised as `time.Date` does,
lies between January 1964 and December 100000000000, and `m` is at most 4·10^18 in absolute
value. -/
def Machine.InRange (y m : Int) : Prop :=
  (-4000000000000000000 ≤ m ∧ m ≤ 4000000000000000000) ∧
  (23568 ≤ 12 * y + m - 1 ∧ 12 * y + m - 1 ≤ 1200000000011)

instance (y m : Int) : Decidable (Machine.InRange y m) := inferInstanceAs (Decidable (_ ∧ _))

/-- The periods of the nine ordered kinds on which the two models of package `time` agree:
for SpecificMonth, the month is in the domain; for the other kinds, which start from
`now`, the year of `now` in Jakarta is between 1965 and 100000000000 and, for BackMonth,
the month it goes back to is in the domain. -/
def Machine.Domain (ty : DateConfigType) (params : DateParameters) (now : Time) : Prop :=
  if ty = SpecificMonth then
    ∀ m ∈ params.Month, ∀ y ∈ params.Year, Machine.InRange y m
  else
    (1965 ≤ currentYear now ∧ currentYear now ≤ 100000000000) ∧
    (ty = BackMonth →
      ∀ k ∈ params.Months, Machine.InRange (currentYear now) (currentMonth now - k))

/-- May 1948, the month at whose first instant Jakarta went from UTC+7:30 to UTC+8. -/
def may1948 : DateParameters := { Month := some 5, Year := some 1948 }

/-- From May 1948 to March 2024. -/
def may1948ToMarch2024 : DateParameters :=
  { Start := some { Month := 5, Year := 1948 }, End := some { Month := 3, Year := 2024 } }

/-- December of the year 292277024627, in which the seconds since the year 1 reach the
end of `int64`. -/
def lastDecember : DateParameters := { Month := some 12, Year := some 292277024627 }

/-- September of the year 2^40, whose seconds from the absolute zero year exceed `uint64`. -/
def septemberFarAhead : DateParameters := { Month := some 9, Year := some 1099511627776 }

/-- From 911 months back to 3 months back: from May 1948, seen from April 2024. -/
def farBackToThree : DateParameters := { StartBackMonths := some 911, EndBackMonths := some 3 }

/-! ## Theorems -/

theorem foldl_append_left (l : List String) (u v : String) :
    List.foldl (fun r s => r ++ s) (u ++ v) l = u ++ List.foldl (fun r s => r ++ s) v l := by
  induction l generalizing v with
  | nil => rfl
  | cons z zs ih => simp only [List.foldl_cons, String.append_assoc, ih]

theorem String_join_cons (x : String) (l : List String) :
    String.join (x :: l) = x ++ String.join l := by
  have h := foldl_append_left l x ""
  simp only [String.append_empty] at h
  simpa [String.join] using h

theorem intercalate_go_eq (sep : String) (ys : List String) (acc : String) :
    String.intercalate.go acc sep ys = acc ++ String.join (ys.map fun y => sep ++ y) := by
  induction ys generalizing acc with
  | nil => simp [String.intercalate.go, String.join]
  | cons y ys ih =>
    simp only [String.intercalate.go, ih, List.map_cons, String_join_cons, String.append_assoc]

/-- Go `strings.Join` is the library function `String.intercalate`. -/
theorem Join_eq_intercalate (xs : List String) (sep : String) :
    Join xs sep = sep.intercalate xs := by
  match xs with
  | [] => rfl
  | [a] => simp [Join, String.intercalate, String.intercalate.go]
  | a :: b :: rest =>
    have ih := Join_eq_intercalate (b :: rest) sep
    rw [Join, ih]
    simp only [String.intercalate, intercalate_go_eq, List.map_cons, String_join_cons,
      String.append_assoc]

/-! ### Field conditions -/

/-- C9: for IN and NOT IN with a non-empty value sequence `v_1..v_n`, `Build(N)`
succeeds; the fragment is `field OP (` followed by the placeholders `$N`, `$N+1`, ...,
`$N+n-1` (one per element) joined by `,` without spaces, followed by `)`, and the
arguments are the sequence in order. -/
theorem C9_in_build (field : String) (op : ComparisonOperator) (values : List Value) (N : Int)
    (hop : op = In ∨ op = NotIn) (hne : values ≠ []) :
    (NewFieldCondition field op (.slice values)).Build N
      = (field ++ " " ++ op ++ " ("
          ++ ",".intercalate
            ((List.range values.length).map fun (i : Nat) => "$" ++ toString (N + i))
          ++ ")",
        values, none) := by
  have h1 : op ≠ IsNull := by rcases hop with h | h <;> subst h <;> decide
  have h2 : op ≠ IsNotNull := by rcases hop with h | h <;> subst h <;> decide
  have h3 : values.length ≠ 0 := by simpa using hne
  simp only [FieldCondition.Build, NewFieldCondition, Value.asSlice, if_neg h1, if_neg h2,
    if_pos hop, if_neg h3, Join_eq_intercalate, inPlaceholders, formatInt]

/-- C9, at the input of the test: `status IN ["active","pending"]` at offset 1. -/
theorem C9_in_build_witness :
    (In = In ∨ In = NotIn) ∧ [Value.str "active", Value.str "pending"] ≠ [] ∧
    (NewFieldCondition "status" In (.slice [.str "active", .str "pending"])).Build 1
      = ("status IN ($1,$2)", [.str "active", .str "pending"], none) :=
  ⟨Or.inl rfl, by simp,
    (C9_in_build "status" In [.str "active", .str "pending"] 1 (Or.inl rfl) (by simp)).trans rfl⟩

/-- C10 as stated fails: `status IN []string{"active"}` is an ordered sequence with one
element, and `Build` fails on it (with the type-mismatch error). -/
theorem C10_counterexample :
    ¬ (((NewFieldCondition "status" In (.strings ["active"])).Build 1).err ≠ none ↔
        ((Value.strings ["active"]).isOrderedSequence = false ∨
          ((Value.strings ["active"]).isOrderedSequence = true ∧
            (Value.strings ["active"]).elementCount = 0))) := by
  intro h
  have hfail : ((NewFieldCondition "status" In (.strings ["active"])).Build 1).err ≠ none := by
    decide
  rcases h.mp hfail with h1 | ⟨_, h2⟩
  · exact absurd h1 (by decide)
  · exact absurd h2 (by decide)

/-- C10, amended: for IN and NOT IN, `Build` fails exactly when the value is not a
generic slice `[]interface{}` (the type assertion fails: a scalar, `nil`, or a typed slice
such as `[]string`), with the error "value for IN/NOT IN operator must be a slice", or is a
generic slice with zero elements, with the error "empty slice provided for IN/NOT IN
operator"; in both cases the fragment is empty and the arguments are nil. -/
theorem C10_in_failure (field : String) (op : ComparisonOperator) (v : Value) (N : Int)
    (hop : op = In ∨ op = NotIn) :
    (((NewFieldCondition field op v).Build N).err ≠ none ↔
        (v.asSlice = none ∨ v.asSlice = some [])) ∧
    (v.asSlice = none → (NewFieldCondition field op v).Build N
        = ("", [], some "value for IN/NOT IN operator must be a slice")) ∧
    (v.asSlice = some [] → (NewFieldCondition field op v).Build N
        = ("", [], some "empty slice provided for IN/NOT IN operator")) := by
  have h1 : op ≠ IsNull := by rcases hop with h | h <;> subst h <;> decide
  have h2 : op ≠ IsNotNull := by rcases hop with h | h <;> subst h <;> decide
  simp only [FieldCondition.Build, NewFieldCondition, if_neg h1, if_neg h2, if_pos hop]
  cases hv : v.asSlice with
  | none => simp
  | some vs =>
    cases vs with
    | nil => simp
    | cons a as => simp

/-- C10 amended, at `status IN "not a slice"` (the input of the test). -/
theorem C10_in_failure_witness :
    (In = In ∨ In = NotIn) ∧
    (((NewFieldCondition "status" In (.str "not a slice")).Build 1).err ≠ none ↔
        ((Value.str "not a slice").asSlice = none ∨
          (Value.str "not a slice").asSlice = some [])) :=
  ⟨Or.inl rfl, (C10_in_failure "status" In (.str "not a slice") 1 (Or.inl rfl)).1⟩

/-! ### The calendar -/

theorem norm_twelve (hi lo : Int) : norm hi lo 12 = (hi + lo / 12, lo % 12) := by
  unfold norm
  by_cases h1 : lo < 0
  · simp only [h1, if_true]
    rw [if_neg (by omega)]
    refine Prod.ext ?_ ?_ <;> simp only [] <;> omega
  · simp only [h1, if_false]
    by_cases h2 : lo ≥ 12
    · simp only [h2, if_true]
      refine Prod.ext ?_ ?_ <;> simp only [] <;> omega
    · simp only [h2, if_false]
      refine Prod.ext ?_ ?_ <;> simp only [] <;> omega

theorem Date_first (y m : Int) (loc : Location) :
    Date y m 1 0 0 0 loc = { sec := monthStart (12 * y + m - 1) * 86400 - loc.offset, loc := loc } := by
  have h1 : norm 0 0 60 = (0, 0) := by decide
  have h2 : norm 1 0 24 = (1, 0) := by decide
  have hk1 : (12 * y + m - 1) / 12 = y + (m - 1) / 12 := by omega
  have hk2 : (12 * y + m - 1) % 12 = (m - 1) % 12 := by omega
  simp only [Date, norm_twelve, h1, h2, monthStart, hk1, hk2]
  simp

theorem daysBeforeYear_succ (y : Int) :
    daysBeforeYear (y + 1) = daysBeforeYear y + 365 + (if isLeap y then 1 else 0) := by
  simp only [daysBeforeYear, isLeap, Bool.and_eq_true, Bool.or_eq_true, beq_iff_eq, bne_iff_ne, ne_eq]
  split <;> omega

theorem monthStart_succ (k : Int) :
    monthStart k + 28 ≤ monthStart (k + 1) ∧ monthStart (k + 1) ≤ monthStart k + 31 := by
  have hm : 0 ≤ k % 12 ∧ k % 12 < 12 := by omega
  obtain ⟨q, r, hq, hr, hk⟩ : ∃ q r : Int, k / 12 = q ∧ k % 12 = r ∧ k = 12 * q + r :=
    ⟨k / 12, k % 12, rfl, rfl, by omega⟩
  by_cases h11 : r = 11
  · have e1 : (k + 1) / 12 = q + 1 := by omega
    have e2 : (k + 1) % 12 = 0 := by omega
    simp only [monthStart, e1, e2, hq, hr, h11, daysBeforeYear_succ]
    cases isLeap q <;> cases isLeap (q + 1) <;> simp [daysBefore] <;> omega
  · have e1 : (k + 1) / 12 = q := by omega
    have e2 : (k + 1) % 12 = r + 1 := by omega
    simp only [monthStart, e1, e2, hq, hr]
    have hr' : 0 ≤ r ∧ r < 11 := by omega
    obtain ⟨h0, h1⟩ := hr'
    interval_cases r <;> cases isLeap q <;> simp [daysBefore] <;> omega

theorem monthDayOfYday_eq (leap : Bool) (yday : Int) :
    monthDayOfYday leap yday =
      if leap && yday == 31 + 29 - 1 then (2, 29)
      else monthDayOfDay (if leap && yday > 31 + 29 - 1 then yday - 1 else yday) := rfl

theorem daysBefore_values :
    daysBefore 0 = 0 ∧ daysBefore 1 = 31 ∧ daysBefore 2 = 59 ∧ daysBefore 3 = 90 ∧
    daysBefore 4 = 120 ∧ daysBefore 5 = 151 ∧ daysBefore 6 = 181 ∧ daysBefore 7 = 212 ∧
    daysBefore 8 = 243 ∧ daysBefore 9 = 273 ∧ daysBefore 10 = 304 ∧ daysBefore 11 = 334 ∧
    daysBefore 12 = 365 := by decide

theorem monthDayOfDay_spec (r dd : Int) (hr0 : 0 ≤ r) (hr1 : r < 12) (hd0 : 0 ≤ dd)
    (hd1 : dd < daysBefore (r + 1) - daysBefore r) :
    monthDayOfDay (daysBefore r + dd) = (r + 1, dd + 1) := by
  obtain ⟨v0, v1, v2, v3, v4, v5, v6, v7, v8, v9, v10, v11, v12⟩ := daysBefore_values
  unfold monthDayOfDay
  simp only []
  generalize hq : (daysBefore r + dd) / 31 = q
  interval_cases r <;>
    simp only [v0, v1, v2, v3, v4, v5, v6, v7, v8, v9, v10, v11, v12, Int.reduceAdd,
      Int.reduceSub, zero_add] at hd1 hq ⊢ <;>
    (have hq0 : 0 ≤ q := by omega) <;>
    (have hq1 : q ≤ 11 := by omega) <;>
    interval_cases q <;>
    simp only [v0, v1, v2, v3, v4, v5, v6, v7, v8, v9, v10, v11, v12, Int.reduceAdd,
      Int.reduceSub, zero_add] <;>
    first
    | omega
    | (split_ifs <;> first
        | omega
        | (refine Prod.ext ?_ ?_ <;> simp only [] <;> omega))

theorem yearOfDays_cycles (a b c e k : Int) (hb : 0 ≤ b ∧ b < 4) (hc : 0 ≤ c ∧ c < 25)
    (he : 0 ≤ e ∧ e < 4) (h0 : 0 ≤ k)
    (h1 : k < 365 ∨ (k = 365 ∧ e = 3 ∧ (c < 24 ∨ b = 3))) :
    yearOfDays (146097 * a + 36524 * b + 1461 * c + 365 * e + k)
      = (400 * a + 100 * b + 4 * c + e + 1, k) := by
  have e1 : (146097 * a + 36524 * b + 1461 * c + 365 * e + k) / 146097 = a := by
    rcases h1 with h | h <;> omega
  have e2 : (36524 * b + 1461 * c + 365 * e + k) / 36524
      - (36524 * b + 1461 * c + 365 * e + k) / 36524 / 4 = b := by
    rcases h1 with h | ⟨h, h3, h4 | h4⟩
    · have : (36524 * b + 1461 * c + 365 * e + k) / 36524 = b := by omega
      rw [this]; omega
    · have : (36524 * b + 1461 * c + 365 * e + k) / 36524 = b := by omega
      rw [this]; omega
    · have : (36524 * b + 1461 * c + 365 * e + k) / 36524 = b ∨
        (36524 * b + 1461 * c + 365 * e + k) / 36524 = 4 := by omega
      rcases this with h5 | h5 <;> rw [h5] <;> omega
  have e3 : (1461 * c + 365 * e + k) / 1461 = c := by
    rcases h1 with h | h <;> omega
  have e4 : (365 * e + k) / 365 - (365 * e + k) / 365 / 4 = e := by
    rcases h1 with h | ⟨h, h3, _⟩
    · have : (365 * e + k) / 365 = e := by omega
      rw [this]; omega
    · subst h h3; decide
  simp only [yearOfDays]
  rw [e1]
  have r1 : 146097 * a + 36524 * b + 1461 * c + 365 * e + k - 146097 * a
      = 36524 * b + 1461 * c + 365 * e + k := by ring
  rw [r1, e2]
  have r2 : 36524 * b + 1461 * c + 365 * e + k - 36524 * b = 1461 * c + 365 * e + k := by ring
  rw [r2, e3]
  have r3 : 1461 * c + 365 * e + k - 1461 * c = 365 * e + k := by ring
  rw [r3, e4]
  simp

theorem daysBeforeYear_cycles (y : Int) :
    ∃ a b c e : Int, (0 ≤ b ∧ b < 4) ∧ (0 ≤ c ∧ c < 25) ∧ (0 ≤ e ∧ e < 4) ∧
      y = 400 * a + 100 * b + 4 * c + e + 1 ∧
      daysBeforeYear y = 146097 * a + 36524 * b + 1461 * c + 365 * e := by
  refine ⟨(y - 1) / 400, (y - 1) % 400 / 100, (y - 1) % 100 / 4, (y - 1) % 4, ?_, ?_, ?_, ?_, ?_⟩
  · omega
  · omega
  · omega
  · omega
  · simp only [daysBeforeYear]; omega

theorem yearOfDays_daysBeforeYear (y k : Int) (h0 : 0 ≤ k)
    (h1 : k < 365 + (if isLeap y then 1 else 0)) :
    yearOfDays (daysBeforeYear y + k) = (y, k) := by
  obtain ⟨a, b, c, e, hb, hc, he, hy, hd⟩ := daysBeforeYear_cycles y
  rw [hd]
  have := yearOfDays_cycles a b c e k hb hc he h0 (by
    by_cases hk : k < 365
    · exact Or.inl hk
    · right
      by_cases hl : isLeap y = true
      · rw [if_pos hl] at h1
        simp only [isLeap, Bool.and_eq_true, Bool.or_eq_true, beq_iff_eq, bne_iff_ne, ne_eq] at hl
        omega
      · rw [if_neg hl] at h1
        omega)
  rw [this, hy]

theorem monthDayOfYday_spec (leap : Bool) (r dd : Int) (hr0 : 0 ≤ r) (hr1 : r < 12)
    (hd0 : 0 ≤ dd) (hd1 : dd < monthLength leap r) :
    monthDayOfYday leap (daysBefore r + (if leap && r + 1 ≥ 3 then 1 else 0) + dd)
      = (r + 1, dd + 1) := by
  obtain ⟨v0, v1, v2, v3, v4, v5, v6, v7, v8, v9, v10, v11, v12⟩ := daysBefore_values
  rw [monthDayOfYday_eq]
  cases leap with
  | false =>
    simp only [Bool.false_and, if_false, add_zero, Bool.false_eq_true]
    apply monthDayOfDay_spec r dd hr0 hr1 hd0
    simpa [monthLength] using hd1
  | true =>
    simp only [Bool.true_and, decide_eq_true_eq, beq_iff_eq]
    by_cases h2 : r + 1 ≥ 3
    · have hr : r ≠ 1 := by omega
      have hlen : dd < daysBefore (r + 1) - daysBefore r := by
        simpa [monthLength, hr] using hd1
      have hge : 59 ≤ daysBefore r := by
        interval_cases r <;> omega
      rw [if_pos h2, if_neg (by omega), if_pos (by omega)]
      have : daysBefore r + 1 + dd - 1 = daysBefore r + dd := by ring
      rw [this]
      exact monthDayOfDay_spec r dd hr0 hr1 hd0 hlen
    · rw [if_neg h2, add_zero]
      have hr : r = 0 ∨ r = 1 := by omega
      rcases hr with rfl | rfl
      · have hlen : dd < 31 := by simpa [monthLength, v0, v1] using hd1
        rw [v0, zero_add, if_neg (by omega), if_neg (by omega)]
        have := monthDayOfDay_spec 0 dd (by omega) (by omega) hd0 (by simpa [v0, v1] using hlen)
        simpa [v0] using this
      · have hlen : dd < 29 := by
          have : dd < 59 - 31 + 1 := by simpa [monthLength, v1, v2] using hd1
          omega
        rw [v1]
        by_cases h28 : dd = 28
        · subst h28
          rfl
        · rw [if_neg (by omega), if_neg (by omega)]
          have := monthDayOfDay_spec 1 dd (by omega) (by omega) hd0
            (by simp only [Int.reduceAdd, v1, v2]; omega)
          simpa [v1] using this

/-- The calendar date and the clock of an instant `dd` days and `s` seconds into the month
with linear index `k`. -/
theorem date_of_monthStart (k dd s : Int) (loc : Location) (hd0 : 0 ≤ dd)
    (hd1 : dd < monthLength (isLeap (k / 12)) (k % 12)) (hs0 : 0 ≤ s) (hs1 : s < 86400) :
    (Time.mk ((monthStart k + dd) * 86400 + s - loc.offset) loc).date
        = (k / 12, k % 12 + 1, dd + 1) ∧
    (Time.mk ((monthStart k + dd) * 86400 + s - loc.offset) loc).Clock
        = (s / 3600, s % 3600 / 60, s % 60) := by
  obtain ⟨v0, v1, v2, v3, v4, v5, v6, v7, v8, v9, v10, v11, v12⟩ := daysBefore_values
  have habs : (Time.mk ((monthStart k + dd) * 86400 + s - loc.offset) loc).abs
      = (monthStart k + dd) * 86400 + s := by
    simp [Time.abs]
  have hdiv : ((monthStart k + dd) * 86400 + s) / 86400 = monthStart k + dd := by omega
  have hmod : ((monthStart k + dd) * 86400 + s) % 86400 = s := by omega
  have hr0 : 0 ≤ k % 12 := by omega
  have hr1 : k % 12 < 12 := by omega
  constructor
  · simp only [Time.date, habs, hdiv]
    have hyd : yearOfDays (monthStart k + dd)
        = (k / 12, daysBefore (k % 12)
            + (if isLeap (k / 12) && k % 12 + 1 ≥ 3 then 1 else 0) + dd) := by
      have hms : monthStart k + dd = daysBeforeYear (k / 12) + (daysBefore (k % 12)
            + (if isLeap (k / 12) && k % 12 + 1 ≥ 3 then 1 else 0) + dd) := by
        simp only [monthStart]; ring
      rw [hms]
      apply yearOfDays_daysBeforeYear
      · generalize k % 12 = r at hr0 hr1 hd1
        interval_cases r <;> cases isLeap (k / 12) <;>
          simp only [v0, v1, v2, v3, v4, v5, v6, v7, v8, v9, v10, v11] <;> simp <;> omega
      · generalize k % 12 = r at hr0 hr1 hd1
        interval_cases r <;> cases isLeap (k / 12) <;>
          simp only [monthLength, v0, v1, v2, v3, v4, v5, v6, v7, v8, v9, v10, v11, v12,
            Int.reduceAdd] at hd1 ⊢ <;> simp at hd1 ⊢ <;> omega
    rw [hyd]
    simp only []
    rw [monthDayOfYday_spec (isLeap (k / 12)) (k % 12) dd hr0 hr1 hd0 hd1]
  · simp only [Time.Clock, habs, hmod]

theorem monthLength_eq (k : Int) :
    monthLength (isLeap (k / 12)) (k % 12) = monthStart (k + 1) - monthStart k := by
  obtain ⟨v0, v1, v2, v3, v4, v5, v6, v7, v8, v9, v10, v11, v12⟩ := daysBefore_values
  obtain ⟨q, r, hq, hr, hk⟩ : ∃ q r : Int, k / 12 = q ∧ k % 12 = r ∧ k = 12 * q + r :=
    ⟨k / 12, k % 12, rfl, rfl, by omega⟩
  have hr0 : 0 ≤ r := by omega
  have hr1 : r < 12 := by omega
  by_cases h11 : r = 11
  · have e1 : (k + 1) / 12 = q + 1 := by omega
    have e2 : (k + 1) % 12 = 0 := by omega
    simp only [monthStart, monthLength, e1, e2, hq, hr, h11, daysBeforeYear_succ, v0, v11, v12,
      Int.reduceAdd]
    cases isLeap q <;> cases isLeap (q + 1) <;> simp
  · have e1 : (k + 1) / 12 = q := by omega
    have e2 : (k + 1) % 12 = r + 1 := by omega
    simp only [monthStart, monthLength, e1, e2, hq, hr]
    have hr2 : r < 11 := by omega
    interval_cases r <;> cases isLeap q <;>
      simp only [v0, v1, v2, v3, v4, v5, v6, v7, v8, v9, v10, v11, Int.reduceAdd, zero_add] <;>
      simp <;> omega

theorem monthStart_add_nat (k : Int) (n : Nat) : monthStart k + 28 * n ≤ monthStart (k + n) := by
  induction n with
  | zero => simp
  | succ n ih =>
    have h := (monthStart_succ (k + n)).1
    have e : k + ((n + 1 : Nat) : Int) = k + n + 1 := by push_cast; ring
    rw [e]
    push_cast
    omega

theorem monthStart_mono {a b : Int} (h : a ≤ b) : monthStart a ≤ monthStart b := by
  have := monthStart_add_nat a (b - a).toNat
  have e : a + ((b - a).toNat : Int) = b := by omega
  rw [e] at this
  omega

theorem monthStart_zero : monthStart 0 = -366 := by decide

/-- Every day lies in exactly one month: there is a month index `k` with
`monthStart k ≤ D < monthStart (k + 1)`. -/
theorem exists_month (D : Int) : ∃ k, monthStart k ≤ D ∧ D < monthStart (k + 1) := by
  have hbdd : ∃ b, ∀ z, monthStart z ≤ D → z ≤ b := by
    refine ⟨max 0 (D + 366), ?_⟩
    intro z hz
    by_contra hcon
    have hz0 : 0 ≤ z := by omega
    have h1 := monthStart_add_nat 0 z.toNat
    have e : (0 : Int) + (z.toNat : Int) = z := by omega
    rw [e, monthStart_zero] at h1
    have : (z.toNat : Int) = z := by omega
    omega
  have hinh : ∃ z, monthStart z ≤ D := by
    refine ⟨min 0 (D - 366), ?_⟩
    have h1 := monthStart_add_nat (min 0 (D - 366)) (-(min 0 (D - 366))).toNat
    have e : min 0 (D - 366) + ((-(min 0 (D - 366))).toNat : Int) = 0 := by omega
    rw [e, monthStart_zero] at h1
    have : ((-(min 0 (D - 366))).toNat : Int) = -(min 0 (D - 366)) := by omega
    omega
  obtain ⟨k, hk, hmax⟩ := Int.exists_greatest_of_bdd hbdd hinh
  refine ⟨k, hk, ?_⟩
  by_contra hcon
  have := hmax (k + 1) (by omega)
  exact absurd this (by omega)

/-- Every instant lies `dd` days and `s` seconds into some month `k`, and its calendar
date is read off from that. -/
theorem Time_in_some_month (t : Time) :
    ∃ k dd s : Int, 0 ≤ dd ∧ dd < monthLength (isLeap (k / 12)) (k % 12) ∧ 0 ≤ s ∧ s < 86400 ∧
      t.sec = (monthStart k + dd) * 86400 + s - t.loc.offset ∧
      t.date = (k / 12, k % 12 + 1, dd + 1) ∧ t.Clock = (s / 3600, s % 3600 / 60, s % 60) := by
  obtain ⟨k, h1, h2⟩ := SqlBuilder.exists_month (t.abs / 86400)
  have hlen := monthLength_eq k
  have hs0 : 0 ≤ t.abs % 86400 := by omega
  have hs1 : t.abs % 86400 < 86400 := by omega
  have hsec : t.sec = (monthStart k + (t.abs / 86400 - monthStart k)) * 86400 + t.abs % 86400
      - t.loc.offset := by
    simp only [Time.abs] at *
    omega
  have hd := date_of_monthStart k (t.abs / 86400 - monthStart k) (t.abs % 86400) t.loc
    (by omega) (by omega) hs0 hs1
  rw [← hsec] at hd
  exact ⟨k, t.abs / 86400 - monthStart k, t.abs % 86400, by omega, by omega, hs0, hs1, hsec,
    hd.1, hd.2⟩

theorem Time_Month_bounds (t : Time) : 1 ≤ t.Month ∧ t.Month ≤ 12 := by
  obtain ⟨k, dd, s, _, _, _, _, _, hd, _⟩ := Time_in_some_month t
  simp only [Time.Month, hd]
  omega

theorem Time_le_def (t u : Time) : t ≤ u ↔ t.sec ≤ u.sec := Iff.rfl

theorem norm_of_range (hi lo base : Int) (h0 : 0 ≤ lo) (h1 : lo < base) :
    norm hi lo base = (hi, lo) := by
  unfold norm
  simp only [if_neg (show ¬ lo < 0 by omega), if_neg (show ¬ lo ≥ base by omega)]

/-- The instant `time.Date` returns for a clock within range. -/
theorem Date_sec (y m d h mi s : Int) (loc : Location) (hh : 0 ≤ h ∧ h < 24)
    (hmi : 0 ≤ mi ∧ mi < 60) (hs : 0 ≤ s ∧ s < 60) :
    Date y m d h mi s loc =
      { sec := (monthStart (12 * y + m - 1) + (d - 1)) * 86400 + (h * 3600 + mi * 60 + s)
          - loc.offset, loc := loc } := by
  have hk1 : (12 * y + m - 1) / 12 = y + (m - 1) / 12 := by omega
  have hk2 : (12 * y + m - 1) % 12 = (m - 1) % 12 := by omega
  simp only [Date, norm_twelve, norm_of_range mi s 60 hs.1 hs.2,
    norm_of_range h mi 60 hmi.1 hmi.2, norm_of_range d h 24 hh.1 hh.2, monthStart, hk1, hk2]
  simp

theorem monthLength_pos (k : Int) : 0 < monthLength (isLeap (k / 12)) (k % 12) := by
  rw [monthLength_eq]
  have := (monthStart_succ k).1
  omega

/-- The calendar fields of the first instant of the month with linear index `k`. -/
theorem date_first (k : Int) (loc : Location) :
    (Time.mk (monthStart k * 86400 - loc.offset) loc).date = (k / 12, k % 12 + 1, 1) ∧
    (Time.mk (monthStart k * 86400 - loc.offset) loc).Clock = (0, 0, 0) := by
  have h := date_of_monthStart k 0 0 loc (le_refl 0) (monthLength_pos k) (le_refl 0) (by decide)
  simpa using h

/-- Adding `j` months to the first instant of a month gives the first instant of the month
`j` months later. -/
theorem AddDate_first (y m j : Int) (loc : Location) :
    (Date y m 1 0 0 0 loc).AddDate 0 j 0 = Date y (m + j) 1 0 0 0 loc := by
  rw [Date_first, Date_first]
  have h := date_first (12 * y + m - 1) loc
  simp only [Time.AddDate, h.1, h.2, Date_first, add_zero]
  have e : 12 * ((12 * y + m - 1) / 12) + ((12 * y + m - 1) % 12 + 1 + j) - 1
      = 12 * y + (m + j) - 1 := by omega
  rw [e]

theorem monthStart_lt {a b : Int} (h : a < b) :
    monthStart a * 86400 ≤ monthStart b * 86400 - 1 := by
  have h1 := (monthStart_succ a).1
  have h2 := monthStart_mono (show a + 1 ≤ b by omega)
  omega

/-- The first instant of a month is not after the last second of the same or a later month. -/
theorem first_le_monthEnd (y m y2 m2 : Int) (loc : Location) (h : 12 * y + m ≤ 12 * y2 + m2) :
    Date y m 1 0 0 0 loc ≤ ((Date y2 m2 1 0 0 0 loc).AddDate 0 1 0).Add (-Second) := by
  rw [AddDate_first, Date_first, Date_first, Time_le_def]
  simp only [Time.Add, Second]
  have := @monthStart_lt (12 * y + m - 1) (12 * y2 + (m2 + 1) - 1) (by omega)
  omega

/-! ### Date-range conditions -/

/-- C3: when the range of a `DateRangeCondition` resolves to `(start, end)`, `Build(N)`
returns, if `start.year = end.year`, the fragment
`period_year = $N AND period_month BETWEEN $N+1 AND $N+2` with the three arguments
`[start.year, start.month, end.month]`, and otherwise the fragment
`(period_year = $N AND period_month >= $N+1) OR (period_year = $N+2 AND period_month <= $N+3)`
with the four arguments `[start.year, start.month, end.year, end.month]`; no error. -/
theorem C3_dateRange_build (d : DateRangeCondition) (now : Time) (N : Int)
    (startDate endDate : Time) (h : d.calculateDateRange now = (startDate, endDate, none)) :
    (startDate.Year = endDate.Year →
      d.Build now N =
        ("period_year = $" ++ toString N ++ " AND period_month BETWEEN $" ++ toString (N + 1)
            ++ " AND $" ++ toString (N + 2),
          [.int startDate.Year, .int startDate.Month, .int endDate.Month], none) ∧
      (d.Build now N).args.length = 3) ∧
    (startDate.Year ≠ endDate.Year →
      d.Build now N =
        ("(period_year = $" ++ toString N ++ " AND period_month >= $" ++ toString (N + 1)
            ++ ") OR (period_year = $" ++ toString (N + 2) ++ " AND period_month <= $"
            ++ toString (N + 3) ++ ")",
          [.int startDate.Year, .int startDate.Month, .int endDate.Year, .int endDate.Month],
          none) ∧
      (d.Build now N).args.length = 4) := by
  constructor
  · intro hy
    simp [DateRangeCondition.Build, h, hy, formatInt, BuildResult.args]
  · intro hy
    simp [DateRangeCondition.Build, h, hy, formatInt, BuildResult.args]

set_option maxRecDepth 100000 in
/-- C3 at TTM resolved in April 2024 (May 2023 to April 2024), built at offset 5. -/
theorem C3_dateRange_build_witness :
    (NewDateRangeCondition { Typ := TTM }).calculateDateRange april2024
      = (Date 2023 5 1 0 0 0 .Jakarta, Date 2024 4 30 23 59 59 .Jakarta, none) ∧
    (NewDateRangeCondition { Typ := TTM }).Build april2024 5
      = ("(period_year = $5 AND period_month >= $6) OR (period_year = $7 AND period_month <= $8)",
          [.int 2023, .int 5, .int 2024, .int 4], none) :=
  ⟨by decide,
    (((C3_dateRange_build (NewDateRangeCondition { Typ := TTM }) april2024 5
      (Date 2023 5 1 0 0 0 .Jakarta) (Date 2024 4 30 23 59 59 .Jakarta) (by decide)).2
      (by decide)).1).trans (by rfl)⟩

/-- C7: for the four kinds that read parameters, resolution fails if and only if a
required parameter is absent (`Months`; `StartBackMonths` or `EndBackMonths`; `Month` or
`Year`; `Start` or `End`), and a failure returns the zero instant twice together with the
error naming the required parameters of the kind. -/
theorem C7_missing_parameter (now : Time) (params : DateParameters) :
    (((NewDateRangeCondition { Typ := BackMonth, Parameters := params }).calculateDateRange
          now).2.2 ≠ none ↔ params.Months = none) ∧
    (((NewDateRangeCondition { Typ := RelativeRange, Parameters := params }).calculateDateRange
          now).2.2 ≠ none ↔ (params.StartBackMonths = none ∨ params.EndBackMonths = none)) ∧
    (((NewDateRangeCondition { Typ := SpecificMonth, Parameters := params }).calculateDateRange
          now).2.2 ≠ none ↔ (params.Month = none ∨ params.Year = none)) ∧
    (((NewDateRangeCondition { Typ := SpecificRange, Parameters := params }).calculateDateRange
          now).2.2 ≠ none ↔ (params.Start = none ∨ params.End = none)) ∧
    (params.Months = none →
      (NewDateRangeCondition { Typ := BackMonth, Parameters := params }).calculateDateRange now
        = (Time.zero, Time.zero, some "months parameter required for BACK_MONTH")) ∧
    (params.StartBackMonths = none ∨ params.EndBackMonths = none →
      (NewDateRangeCondition { Typ := RelativeRange, Parameters := params }).calculateDateRange
          now
        = (Time.zero, Time.zero,
            some "start_back_months and end_back_months required for RELATIVE_RANGE")) ∧
    (params.Month = none ∨ params.Year = none →
      (NewDateRangeCondition { Typ := SpecificMonth, Parameters := params }).calculateDateRange
          now
        = (Time.zero, Time.zero,
            some "month and year parameters required for SPECIFIC_MONTH")) ∧
    (params.Start = none ∨ params.End = none →
      (NewDateRangeCondition { Typ := SpecificRange, Parameters := params }).calculateDateRange
          now
        = (Time.zero, Time.zero,
            some "start and end parameters required for SPECIFIC_RANGE")) := by
  obtain ⟨months, sb, eb, month, year, start, end_⟩ := params
  have k1 : BackMonth ≠ CurrentMonth := by decide
  have k2 : RelativeRange ≠ CurrentMonth := by decide
  have k3 : RelativeRange ≠ BackMonth := by decide
  have k4 : SpecificMonth ≠ CurrentMonth := by decide
  have k5 : SpecificMonth ≠ BackMonth := by decide
  have k6 : SpecificMonth ≠ RelativeRange := by decide
  have k7 : SpecificMonth ≠ YTD := by decide
  have k8 : SpecificMonth ≠ PreviousYear := by decide
  have k9 : SpecificRange ≠ CurrentMonth := by decide
  have k10 : SpecificRange ≠ BackMonth := by decide
  have k11 : SpecificRange ≠ RelativeRange := by decide
  have k12 : SpecificRange ≠ YTD := by decide
  have k13 : SpecificRange ≠ PreviousYear := by decide
  have k14 : SpecificRange ≠ SpecificMonth := by decide
  simp only [DateRangeCondition.calculateDateRange, NewDateRangeCondition, if_neg k1, if_neg k2,
    if_neg k3, if_neg k4, if_neg k5, if_neg k6, if_neg k7, if_neg k8, if_neg k9, if_neg k10,
    if_neg k11, if_neg k12, if_neg k13, if_neg k14, if_true]
  refine ⟨?_, ?_, ?_, ?_, ?_, ?_, ?_, ?_⟩
  · cases months <;> simp
  · cases sb <;> cases eb <;> simp
  · cases month <;> cases year <;> simp
  · cases start <;> cases end_ <;> simp
  · rintro rfl; rfl
  · rintro (rfl | rfl)
    · rfl
    · cases sb <;> rfl
  · rintro (rfl | rfl)
    · rfl
    · cases month <;> rfl
  · rintro (rfl | rfl)
    · rfl
    · cases start <;> rfl

/-- C7 at BackMonth without parameters (the failure case of the test). -/
theorem C7_missing_parameter_witness :
    ({} : DateParameters).Months = none ∧
    (NewDateRangeCondition { Typ := BackMonth, Parameters := {} }).calculateDateRange april2024
      = (Time.zero, Time.zero, some "months parameter required for BACK_MONTH") :=
  ⟨rfl, (C7_missing_parameter april2024 {}).2.2.2.2.1 rfl⟩

/-- C8: a kind outside the eleven declared ones fails with "invalid date config type" and
two zero instants, whatever the parameters; each of the seven kinds that read no
parameter resolves without error for every `now` and every parameter set. -/
theorem C8_invalid_kind (now : Time) (params : DateParameters) (ty : DateConfigType) :
    (ty ∉ definedKinds →
      (NewDateRangeCondition { Typ := ty, Parameters := params }).calculateDateRange now
        = (Time.zero, Time.zero, some "invalid date config type")) ∧
    (ty ∈ parameterlessKinds →
      ((NewDateRangeCondition { Typ := ty, Parameters := params }).calculateDateRange now).2.2
        = none) := by
  constructor
  · intro h
    simp only [definedKinds, List.mem_cons, List.mem_singleton, not_or, List.not_mem_nil,
      not_false_eq_true, and_true] at h
    obtain ⟨h1, h2, h3, h4, h5, h6, h7, h8, h9, h10, h11⟩ := h
    simp only [DateRangeCondition.calculateDateRange, NewDateRangeCondition, if_neg h1,
      if_neg h2, if_neg h3, if_neg h4, if_neg h5, if_neg h6, if_neg h7, if_neg h8, if_neg h9,
      if_neg h10, if_neg h11]
  · intro h
    simp only [parameterlessKinds, List.mem_cons, List.mem_singleton, List.not_mem_nil,
      or_false] at h
    rcases h with h | h | h | h | h | h | h <;> subst h <;>
      simp [DateRangeCondition.calculateDateRange, NewDateRangeCondition, CurrentMonth,
        BackMonth, RelativeRange, YTD, PreviousYear, SpecificMonth, SpecificRange, QTD, TTM, MoM,
        PreviousQuarter]

/-- C8 at the kind "INVALID_TYPE" of the test, and at YTD with a stray parameter. -/
theorem C8_invalid_kind_witness :
    ("INVALID_TYPE" ∉ definedKinds ∧
      (NewDateRangeCondition { Typ := "INVALID_TYPE", Parameters := { Months := some 3 } }
          ).calculateDateRange april2024
        = (Time.zero, Time.zero, some "invalid date config type")) ∧
    (YTD ∈ parameterlessKinds ∧
      ((NewDateRangeCondition { Typ := YTD, Parameters := { Months := some 3 } }
          ).calculateDateRange april2024).2.2 = none) :=
  ⟨⟨by decide, (C8_invalid_kind april2024 { Months := some 3 } "INVALID_TYPE").1 (by decide)⟩,
    ⟨by decide, (C8_invalid_kind april2024 { Months := some 3 } YTD).2 (by decide)⟩⟩

/-- The branch BackMonth of `calculateDateRange`, the parameter absent. -/
theorem calc_BackMonth_none (now : Time) (params : DateParameters) (h : params.Months = none) :
    (NewDateRangeCondition { Typ := BackMonth, Parameters := params }).calculateDateRange now
      = (Time.zero, Time.zero, some "months parameter required for BACK_MONTH") := by
  simp only [DateRangeCondition.calculateDateRange, NewDateRangeCondition,
    if_neg (show BackMonth ≠ CurrentMonth by decide), if_true, h]

/-- The branch SpecificMonth of `calculateDateRange`, a parameter absent. -/
theorem calc_SpecificMonth_none (now : Time) (params : DateParameters)
    (h : params.Month = none ∨ params.Year = none) :
    (NewDateRangeCondition { Typ := SpecificMonth, Parameters := params }).calculateDateRange now
      = (Time.zero, Time.zero, some "month and year parameters required for SPECIFIC_MONTH") := by
  simp only [DateRangeCondition.calculateDateRange, NewDateRangeCondition,
    if_neg (show SpecificMonth ≠ CurrentMonth by decide), if_neg (show SpecificMonth ≠ BackMonth by decide), if_neg (show SpecificMonth ≠ RelativeRange by decide), if_neg (show SpecificMonth ≠ YTD by decide), if_neg (show SpecificMonth ≠ PreviousYear by decide), if_true]
  rcases h with h | h
  · rw [h]
  · rw [h]
    cases params.Month <;> rfl

/-- The first instant of a month is before the last second of the month two months later
(the end of a quarter that starts there). -/
theorem first_le_quarterEnd (y m : Int) (loc : Location) :
    Date y m 1 0 0 0 loc ≤ ((Date y m 1 0 0 0 loc).AddDate 0 3 0).Add (-Second) := by
  rw [AddDate_first, Date_first, Date_first, Time_le_def]
  simp only [Time.Add, Second]
  have := @monthStart_lt (12 * y + m - 1) (12 * y + (m + 3) - 1) (by omega)
  omega

/-- January 1, 00:00:00 is before December 31, 23:59:59 of the same year. -/
theorem newYear_le_yearEnd (y : Int) (loc : Location) :
    Date y 1 1 0 0 0 loc ≤ Date y 12 31 23 59 59 loc := by
  rw [Date_first, Date_sec y 12 31 23 59 59 loc (by decide) (by decide) (by decide), Time_le_def]
  simp only []
  have := @monthStart_mono (12 * y + 1 - 1) (12 * y + 12 - 1) (by omega)
  omega

/-- The year of `now` in Jakarta (`currentYear` of `calculateDateRange`). -/
theorem currentYear_def (now : Time) : currentYear now = (now.In getJakartaLocation).Year := rfl

/-- The first instant of the month `m` of year `y` in Jakarta. -/
theorem monthBegin_def (y m : Int) : monthBegin y m = Date y m 1 0 0 0 getJakartaLocation := rfl

/-- The last second of the month `m` of year `y` in Jakarta, by the uniform technique. -/
theorem monthEnd_def (y m : Int) :
    monthEnd y m = ((Date y m 1 0 0 0 getJakartaLocation).AddDate 0 1 0).Add (-Second) := rfl

/-- The branch CurrentMonth of `calculateDateRange`. -/
theorem calc_CurrentMonth (now : Time) (params : DateParameters) :
    (NewDateRangeCondition { Typ := CurrentMonth, Parameters := params }).calculateDateRange now
      = (monthBegin (currentYear now) (currentMonth now),
          monthEnd (currentYear now) (currentMonth now), none) := by
  unfold monthBegin monthEnd currentYear currentMonth
  simp only [DateRangeCondition.calculateDateRange,
    NewDateRangeCondition,
    if_true]

/-- The branch BackMonth of `calculateDateRange`, the parameter present. -/
theorem calc_BackMonth (now : Time) (params : DateParameters) (months : Int)
    (h : params.Months = some months) :
    (NewDateRangeCondition { Typ := BackMonth, Parameters := params }).calculateDateRange now
      = ((monthBegin (currentYear now) (currentMonth now)).AddDate 0 (-months) 0,
          (((monthBegin (currentYear now) (currentMonth now)).AddDate 0 (-months) 0).AddDate
            0 1 0).Add (-Second), none) := by
  unfold monthBegin currentYear currentMonth
  simp only [DateRangeCondition.calculateDateRange,
    NewDateRangeCondition,
    if_neg (show BackMonth ≠ CurrentMonth by decide),
    if_true,
    h]

/-- The branch RelativeRange of `calculateDateRange`, the parameters present. -/
theorem calc_RelativeRange (now : Time) (params : DateParameters) (s e : Int)
    (hs : params.StartBackMonths = some s) (he : params.EndBackMonths = some e) :
    (NewDateRangeCondition { Typ := RelativeRange, Parameters := params }).calculateDateRange now
      = ((monthBegin (currentYear now) (currentMonth now)).AddDate 0 (-s) 0,
          (((monthBegin (currentYear now) (currentMonth now)).AddDate 0 (-e) 0).AddDate
            0 1 0).Add (-Second), none) := by
  unfold monthBegin currentYear currentMonth
  simp only [DateRangeCondition.calculateDateRange,
    NewDateRangeCondition,
    if_neg (show RelativeRange ≠ CurrentMonth by decide), if_neg (show RelativeRange ≠ BackMonth by decide),
    if_true,
    hs, he]

/-- The branch YTD of `calculateDateRange`. -/
theorem calc_YTD (now : Time) (params : DateParameters) :
    (NewDateRangeCondition { Typ := YTD, Parameters := params }).calculateDateRange now
      = (monthBegin (currentYear now) 1, monthEnd (currentYear now) (currentMonth now), none) := by
  unfold monthBegin monthEnd currentYear currentMonth
  simp only [DateRangeCondition.calculateDateRange,
    NewDateRangeCondition,
    if_neg (show YTD ≠ CurrentMonth by decide), if_neg (show YTD ≠ BackMonth by decide), if_neg (show YTD ≠ RelativeRange by decide),
    if_true]

/-- The branch PreviousYear of `calculateDateRange`. -/
theorem calc_PreviousYear (now : Time) (params : DateParameters) :
    (NewDateRangeCondition { Typ := PreviousYear, Parameters := params }).calculateDateRange now
      = (monthBegin (currentYear now - 1) 1,
          Date (currentYear now - 1) 12 31 23 59 59 getJakartaLocation, none) := by
  unfold monthBegin currentYear
  simp only [DateRangeCondition.calculateDateRange,
    NewDateRangeCondition,
    if_neg (show PreviousYear ≠ CurrentMonth by decide), if_neg (show PreviousYear ≠ BackMonth by decide), if_neg (show PreviousYear ≠ RelativeRange by decide), if_neg (show PreviousYear ≠ YTD by decide),
    if_true]

/-- The branch SpecificMonth of `calculateDateRange`, the parameters present. -/
theorem calc_SpecificMonth (now : Time) (params : DateParameters) (month year : Int)
    (hm : params.Month = some month) (hy : params.Year = some year) :
    (NewDateRangeCondition { Typ := SpecificMonth, Parameters := params }).calculateDateRange now
      = (monthBegin year month, monthEnd year month, none) := by
  unfold monthBegin monthEnd
  simp only [DateRangeCondition.calculateDateRange,
    NewDateRangeCondition,
    if_neg (show SpecificMonth ≠ CurrentMonth by decide), if_neg (show SpecificMonth ≠ BackMonth by decide), if_neg (show SpecificMonth ≠ RelativeRange by decide), if_neg (show SpecificMonth ≠ YTD by decide), if_neg (show SpecificMonth ≠ PreviousYear by decide),
    if_true,
    hm, hy]

/-- The branch SpecificRange of `calculateDateRange`, the parameters present. -/
theorem calc_SpecificRange (now : Time) (params : DateParameters) (start end_ : MonthYear)
    (hs : params.Start = some start) (he : params.End = some end_) :
    (NewDateRangeCondition { Typ := SpecificRange, Parameters := params }).calculateDateRange now
      = (monthBegin start.Year start.Month, monthEnd end_.Year end_.Month, none) := by
  unfold monthBegin monthEnd
  simp only [DateRangeCondition.calculateDateRange,
    NewDateRangeCondition,
    if_neg (show SpecificRange ≠ CurrentMonth by decide), if_neg (show SpecificRange ≠ BackMonth by decide), if_neg (show SpecificRange ≠ RelativeRange by decide), if_neg (show SpecificRange ≠ YTD by decide), if_neg (show SpecificRange ≠ PreviousYear by decide), if_neg (show SpecificRange ≠ SpecificMonth by decide),
    if_true,
    hs, he]

/-- The branch QTD of `calculateDateRange`. -/
theorem calc_QTD (now : Time) (params : DateParameters) :
    (NewDateRangeCondition { Typ := QTD, Parameters := params }).calculateDateRange now
      = (monthBegin (currentYear now) (((currentMonth now - 1) / 3 + 1 - 1) * 3 + 1),
          monthEnd (currentYear now) (currentMonth now), none) := by
  unfold monthBegin monthEnd currentYear currentMonth
  simp only [DateRangeCondition.calculateDateRange,
    NewDateRangeCondition,
    if_neg (show QTD ≠ CurrentMonth by decide), if_neg (show QTD ≠ BackMonth by decide), if_neg (show QTD ≠ RelativeRange by decide), if_neg (show QTD ≠ YTD by decide), if_neg (show QTD ≠ PreviousYear by decide), if_neg (show QTD ≠ SpecificMonth by decide), if_neg (show QTD ≠ SpecificRange by decide),
    if_true]

/-- The branch TTM of `calculateDateRange`. -/
theorem calc_TTM (now : Time) (params : DateParameters) :
    (NewDateRangeCondition { Typ := TTM, Parameters := params }).calculateDateRange now
      = ((monthBegin (currentYear now) (currentMonth now)).AddDate 0 (-11) 0,
          monthEnd (currentYear now) (currentMonth now), none) := by
  unfold monthBegin monthEnd currentYear currentMonth
  simp only [DateRangeCondition.calculateDateRange,
    NewDateRangeCondition,
    if_neg (show TTM ≠ CurrentMonth by decide), if_neg (show TTM ≠ BackMonth by decide), if_neg (show TTM ≠ RelativeRange by decide), if_neg (show TTM ≠ YTD by decide), if_neg (show TTM ≠ PreviousYear by decide), if_neg (show TTM ≠ SpecificMonth by decide), if_neg (show TTM ≠ SpecificRange by decide), if_neg (show TTM ≠ QTD by decide),
    if_true]

/-- The branch MoM of `calculateDateRange`. -/
theorem calc_MoM (now : Time) (params : DateParameters) :
    (NewDateRangeCondition { Typ := MoM, Parameters := params }).calculateDateRange now
      = (monthBegin (currentYear now) (currentMonth now - 1),
          monthEnd (currentYear now) (currentMonth now), none) := by
  unfold monthBegin monthEnd currentYear currentMonth
  simp only [DateRangeCondition.calculateDateRange,
    NewDateRangeCondition,
    if_neg (show MoM ≠ CurrentMonth by decide), if_neg (show MoM ≠ BackMonth by decide), if_neg (show MoM ≠ RelativeRange by decide), if_neg (show MoM ≠ YTD by decide), if_neg (show MoM ≠ PreviousYear by decide), if_neg (show MoM ≠ SpecificMonth by decide), if_neg (show MoM ≠ SpecificRange by decide), if_neg (show MoM ≠ QTD by decide), if_neg (show MoM ≠ TTM by decide),
    if_true]

/-- The branch PreviousQuarter of `calculateDateRange`. -/
theorem calc_PreviousQuarter (now : Time) (params : DateParameters) :
    (NewDateRangeCondition { Typ := PreviousQuarter, Parameters := params }).calculateDateRange
        now
      = (monthBegin (previousQuarterOf now).2 (((previousQuarterOf now).1 - 1) * 3 + 1),
          ((monthBegin (previousQuarterOf now).2
            (((previousQuarterOf now).1 - 1) * 3 + 1)).AddDate 0 3 0).Add (-Second), none) := by
  unfold monthBegin previousQuarterOf currentYear currentMonth
  simp only [DateRangeCondition.calculateDateRange,
    NewDateRangeCondition,
    if_neg (show PreviousQuarter ≠ CurrentMonth by decide), if_neg (show PreviousQuarter ≠ BackMonth by decide), if_neg (show PreviousQuarter ≠ RelativeRange by decide), if_neg (show PreviousQuarter ≠ YTD by decide), if_neg (show PreviousQuarter ≠ PreviousYear by decide), if_neg (show PreviousQuarter ≠ SpecificMonth by decide), if_neg (show PreviousQuarter ≠ SpecificRange by decide), if_neg (show PreviousQuarter ≠ QTD by decide), if_neg (show PreviousQuarter ≠ TTM by decide), if_neg (show PreviousQuarter ≠ MoM by decide),
    if_true]

theorem monthBegin_le_monthEnd (y m y2 m2 : Int) (h : 12 * y + m ≤ 12 * y2 + m2) :
    monthBegin y m ≤ monthEnd y2 m2 :=
  first_le_monthEnd y m y2 m2 getJakartaLocation h

theorem monthBegin_AddDate (y m j : Int) :
    (monthBegin y m).AddDate 0 j 0 = monthBegin y (m + j) :=
  AddDate_first y m j getJakartaLocation

/-- In the calendar model: for every instant `now` and every period of kind CurrentMonth, BackMonth, YTD,
PreviousYear, SpecificMonth, QTD, TTM, MoM or PreviousQuarter that resolves (its required
parameters are present, whatever their integer values), the resolved range satisfies
`start ≤ end`. -/
theorem start_le_end_calendar (now : Time) (params : DateParameters) (ty : DateConfigType)
    (hty : ty ∈ orderedKinds)
    (hok : ((NewDateRangeCondition { Typ := ty, Parameters := params }).calculateDateRange
      now).2.2 = none) :
    ((NewDateRangeCondition { Typ := ty, Parameters := params }).calculateDateRange now).1 ≤
    ((NewDateRangeCondition { Typ := ty, Parameters := params }).calculateDateRange now).2.1 := by
  obtain ⟨hm1, hm12⟩ := Time_Month_bounds (now.In getJakartaLocation)
  have hcm : currentMonth now = (now.In getJakartaLocation).Month := rfl
  simp only [orderedKinds, List.mem_cons, List.mem_singleton, List.not_mem_nil, or_false] at hty
  rcases hty with h | h | h | h | h | h | h | h | h <;> subst h
  · rw [calc_CurrentMonth]
    exact monthBegin_le_monthEnd _ _ _ _ (le_refl _)
  · cases hmo : params.Months with
    | none =>
      rw [calc_BackMonth_none now params hmo] at hok
      exact absurd hok (by simp)
    | some months =>
      rw [calc_BackMonth now params months hmo, monthBegin_AddDate]
      exact monthBegin_le_monthEnd _ _ _ _ (le_refl _)
  · rw [calc_YTD]
    exact monthBegin_le_monthEnd _ _ _ _ (by omega)
  · rw [calc_PreviousYear]
    exact newYear_le_yearEnd _ _
  · cases hmo : params.Month with
    | none =>
      rw [calc_SpecificMonth_none now params (Or.inl hmo)] at hok
      exact absurd hok (by simp)
    | some month =>
      cases hye : params.Year with
      | none =>
        rw [calc_SpecificMonth_none now params (Or.inr hye)] at hok
        exact absurd hok (by simp)
      | some year =>
        rw [calc_SpecificMonth now params month year hmo hye]
        exact monthBegin_le_monthEnd _ _ _ _ (le_refl _)
  · rw [calc_QTD]
    exact monthBegin_le_monthEnd _ _ _ _ (by omega)
  · rw [calc_TTM, monthBegin_AddDate]
    exact monthBegin_le_monthEnd _ _ _ _ (by omega)
  · rw [calc_MoM]
    exact monthBegin_le_monthEnd _ _ _ _ (by omega)
  · rw [calc_PreviousQuarter]
    exact first_le_quarterEnd _ _ _

/-- The calendar model at BackMonth with a negative count (three months ahead of April 2024). -/
theorem start_le_end_calendar_example :
    BackMonth ∈ orderedKinds ∧
    ((NewDateRangeCondition { Typ := BackMonth, Parameters := { Months := some (-3) } }
      ).calculateDateRange april2024).2.2 = none ∧
    ((NewDateRangeCondition { Typ := BackMonth, Parameters := { Months := some (-3) } }
      ).calculateDateRange april2024).1 ≤
    ((NewDateRangeCondition { Typ := BackMonth, Parameters := { Months := some (-3) } }
      ).calculateDateRange april2024).2.1 :=
  ⟨by decide, by decide,
    start_le_end_calendar april2024 { Months := some (-3) } BackMonth (by decide) (by decide)⟩

/-! ### Where groups -/

theorem keptArgCount_append_singleton (earlier : List BuildResult) (r : BuildResult) :
    (keptArgCount (earlier ++ [r]) : Int)
      = keptArgCount earlier + (if r.clause ≠ "" then r.args.length else 0) := by
  by_cases h : r.clause ≠ ""
  · simp [keptArgCount, kept, List.filter_append, List.filter_cons, h]
  · simp [keptArgCount, kept, List.filter_append, List.filter_cons, h]

theorem keptArgs_length (rs : List BuildResult) : (keptArgs rs).length = keptArgCount rs := by
  simp [keptArgs, keptArgCount, List.length_flatten, Function.comp_def]

theorem conditionResultsFrom_length (now : Time) (p : Int) (conds : List QueryCondition)
    (earlier : List BuildResult) :
    (conditionResultsFrom now p conds earlier).length = conds.length := by
  induction conds generalizing earlier with
  | nil => rfl
  | cons c cs ih => simp [conditionResultsFrom, ih]

/-- The loop of `WhereGroup.Build`, in terms of the results of the conditions. -/
theorem whereGroup_loop_eq (now : Time) (p : Int) (conds : List QueryCondition)
    (earlier : List BuildResult) (clauses : List String) (args : List Value)
    (hlen : args.length = keptArgCount earlier) :
    WhereGroup.loop conds now p clauses args =
      match firstError (conditionResultsFrom now p conds earlier) with
      | some e => .error e
      | none => .ok (clauses ++ keptClauses (conditionResultsFrom now p conds earlier),
          args ++ keptArgs (conditionResultsFrom now p conds earlier)) := by
  induction conds generalizing earlier clauses args with
  | nil => simp [WhereGroup.loop, conditionResultsFrom, firstError, keptClauses, keptArgs, kept]
  | cons c cs ih =>
    rw [WhereGroup.loop, conditionResultsFrom]
    simp only [hlen]
    generalize c.Build now (p + ↑(keptArgCount earlier)) = r
    obtain ⟨clause, condArgs, err⟩ := r
    cases err with
    | some e => simp [firstError, BuildResult.err]
    | none =>
      by_cases hc : clause = ""
      · have hk : args.length = keptArgCount (earlier ++ [(clause, condArgs, none)]) := by
          simp [keptArgCount, kept, List.filter_append, hc, BuildResult.clause, hlen]
        simp only [hc, ne_eq, not_true_eq_false, if_false]
        rw [ih (earlier ++ [("", condArgs, none)]) clauses args (by simpa [hc] using hk)]
        simp [firstError, BuildResult.err, keptClauses, keptArgs, kept, BuildResult.clause]
      · have hk : (args ++ condArgs).length
            = keptArgCount (earlier ++ [(clause, condArgs, none)]) := by
          simp [keptArgCount, kept, List.filter_append, hc, BuildResult.clause,
            BuildResult.args, hlen]
        simp only [ne_eq, hc, not_false_eq_true, if_true]
        rw [ih (earlier ++ [(clause, condArgs, none)]) (clauses ++ [clause]) (args ++ condArgs) hk]
        simp [firstError, BuildResult.err, keptClauses, keptArgs, kept, BuildResult.clause,
          BuildResult.args, hc]

theorem firstError_eq_none_iff (rs : List BuildResult) :
    firstError rs = none ↔ ∀ r ∈ rs, r.err = none := by
  induction rs with
  | nil => simp [firstError]
  | cons r rs ih =>
    obtain ⟨c, a, e⟩ := r
    cases e with
    | none => simp [firstError, BuildResult.err, ih]
    | some e => simp [firstError, BuildResult.err]

/-- The method `Build` of a `WhereGroup`, in terms of the results of its conditions. -/
theorem whereGroup_Build_eq (wg : WhereGroup) (now : Time) (p : Int) :
    wg.Build now p =
      match firstError (conditionResults now p wg.Conditions) with
      | some e => ("", [], some e)
      | none => WhereGroup.finish wg.Operator (keptClauses (conditionResults now p wg.Conditions))
          (keptArgs (conditionResults now p wg.Conditions)) := by
  unfold WhereGroup.Build
  by_cases h0 : wg.Conditions.length = 0
  · have : wg.Conditions = [] := List.length_eq_zero.mp h0
    simp [this, conditionResults, conditionResultsFrom, firstError, keptClauses, keptArgs, kept,
      WhereGroup.finish]
  · rw [if_neg h0, whereGroup_loop_eq now p wg.Conditions [] [] [] (by simp [keptArgCount, kept])]
    unfold conditionResults
    cases firstError (conditionResultsFrom now p wg.Conditions []) <;> simp

/-- A nested group used as a condition builds as the group itself. -/
theorem toCondition_Build (wg : WhereGroup) (now : Time) (p : Int) :
    wg.toCondition.Build now p = wg.Build now p := by
  simp only [WhereGroup.toCondition, QueryCondition.Build, WhereGroup.Build]

theorem conditionResultsFrom_getElem (now : Time) (p : Int) (conds : List QueryCondition)
    (earlier : List BuildResult) (i : Nat) (hi : i < conds.length) :
    (conditionResultsFrom now p conds earlier)[i]? =
      some ((conds.get ⟨i, hi⟩).Build now
        (p + keptArgCount (earlier ++ (conditionResultsFrom now p conds earlier).take i))) := by
  induction conds generalizing earlier i with
  | nil => simp at hi
  | cons c cs ih =>
    cases i with
    | zero => simp [conditionResultsFrom]
    | succ j =>
      have hj : j < cs.length := by simpa using hi
      simp only [conditionResultsFrom, List.getElem?_cons_succ, List.take_succ_cons,
        List.get_eq_getElem, List.getElem_cons_succ]
      rw [ih (earlier ++ [c.Build now (p + ↑(keptArgCount earlier))]) j hj]
      simp [List.append_assoc]

/-- C2: `WhereGroup.Build(p)` builds its i-th condition at `p` plus the total number of
arguments returned by the conditions before it that produced a non-empty fragment (the list
`conditionResults` holds these builds, one per condition); its error is the first error among
them, and on success its arguments are the concatenation, in insertion order, of the
argument lists of the conditions that produced a non-empty fragment. -/
theorem C2_whereGroup_offsets (wg : WhereGroup) (now : Time) (p : Int) :
    (conditionResults now p wg.Conditions).length = wg.Conditions.length ∧
    (∀ (i : Nat) (hi : i < wg.Conditions.length),
      (conditionResults now p wg.Conditions)[i]? =
        some ((wg.Conditions.get ⟨i, hi⟩).Build now
          (p + keptArgCount ((conditionResults now p wg.Conditions).take i)))) ∧
    (wg.Build now p).err = firstError (conditionResults now p wg.Conditions) ∧
    ((wg.Build now p).err = none →
      (∀ r ∈ conditionResults now p wg.Conditions, r.err = none) ∧
      (wg.Build now p).args = keptArgs (conditionResults now p wg.Conditions)) := by
  have herr : (wg.Build now p).err = firstError (conditionResults now p wg.Conditions) := by
    rw [whereGroup_Build_eq]
    cases h : firstError (conditionResults now p wg.Conditions) with
    | some e => rfl
    | none =>
      simp only [WhereGroup.finish]
      split <;> rfl
  refine ⟨conditionResultsFrom_length now p wg.Conditions [], ?_, herr, ?_⟩
  · intro i hi
    have := conditionResultsFrom_getElem now p wg.Conditions [] i hi
    simpa [conditionResults] using this
  · intro hok
    rw [herr] at hok
    refine ⟨(firstError_eq_none_iff _).mp hok, ?_⟩
    rw [whereGroup_Build_eq, hok]
    simp only [WhereGroup.finish]
    split
    · rename_i hk
      simp only [keptClauses, List.map_eq_nil_iff] at hk
      simp [keptArgs, hk, BuildResult.args]
    · rfl
    · rfl

/-- C2 at the group of the test, built at offset 3. -/
theorem C2_whereGroup_offsets_witness :
    mixedGroup.Build april2024 3
      = ("(column1 = $3 AND column2 > $4)", [.str "value1", .int 42], none) ∧
    (mixedGroup.Build april2024 3).args
      = keptArgs (conditionResults april2024 3 mixedGroup.Conditions) :=
  ⟨by rfl, ((C2_whereGroup_offsets mixedGroup april2024 3).2.2.2 (by rfl)).2⟩

/-- C4: when all conditions of a group build without error, let `f_1..f_k` be their
non-empty fragments in insertion order. With `k = 0` (no condition, or only empty
fragments) `Build` returns the empty fragment, nil arguments and no error; with `k = 1` it
returns `f_1` unchanged, without parentheses; with `k ≥ 2` it returns
`(f_1 OP ... OP f_k)`, the fragments joined by the operator between single spaces, inside one
pair of parentheses. -/
theorem C4_whereGroup_parentheses (wg : WhereGroup) (now : Time) (p : Int)
    (hall : ∀ r ∈ conditionResults now p wg.Conditions, r.err = none) :
    (keptClauses (conditionResults now p wg.Conditions) = [] →
      wg.Build now p = ("", [], none)) ∧
    (∀ f, keptClauses (conditionResults now p wg.Conditions) = [f] →
      (wg.Build now p).clause = f ∧ (wg.Build now p).err = none) ∧
    (2 ≤ (keptClauses (conditionResults now p wg.Conditions)).length →
      (wg.Build now p).clause
        = "(" ++ (" " ++ wg.Operator ++ " ").intercalate
            (keptClauses (conditionResults now p wg.Conditions)) ++ ")" ∧
      (wg.Build now p).err = none) := by
  have hok := (firstError_eq_none_iff _).mpr hall
  rw [whereGroup_Build_eq, hok]
  simp only
  refine ⟨?_, ?_, ?_⟩
  · intro h
    rw [h]
    rfl
  · intro f h
    rw [h]
    exact ⟨rfl, rfl⟩
  · intro h
    match hk : keptClauses (conditionResults now p wg.Conditions), h with
    | a :: b :: rest, _ =>
      simp only [WhereGroup.finish, Join_eq_intercalate, BuildResult.clause, BuildResult.err,
        and_self]

/-- C4 at scenario 4, built at offset 1: `(id = $1 AND status = $2)`. -/
theorem C4_whereGroup_parentheses_witness :
    (∀ r ∈ conditionResults april2024 1 scenario4Group.Conditions, r.err = none) ∧
    keptClauses (conditionResults april2024 1 scenario4Group.Conditions)
      = ["id = $1", "status = $2"] ∧
    (scenario4Group.Build april2024 1).clause = "(id = $1 AND status = $2)" ∧
    (scenario4Group.Build april2024 1).args = [.int 1, .str "active"] :=
  have hall : ∀ r ∈ conditionResults april2024 1 scenario4Group.Conditions, r.err = none :=
    (firstError_eq_none_iff _).mp (by rfl)
  ⟨hall, by rfl,
    ((C4_whereGroup_parentheses scenario4Group april2024 1 hall).2.2 (by decide)).1.trans
      (by rfl),
    by rfl⟩

/-! ### Where-group sequences -/

theorem String_append_ne_empty_left (a b : String) (h : a ≠ "") : a ++ b ≠ "" := by
  intro hab
  apply h
  have h1 := congrArg String.data hab
  rw [String.data_append] at h1
  exact String.ext (List.append_eq_nil.mp h1).1

theorem mem_keptClauses_ne_empty (rs : List BuildResult) (c : String)
    (h : c ∈ keptClauses rs) : c ≠ "" := by
  simp only [keptClauses, kept, List.mem_map, List.mem_filter] at h
  obtain ⟨r, ⟨_, hr⟩, rfl⟩ := h
  simpa using hr

/-- A group that returns the empty fragment returns no argument. -/
theorem whereGroup_args_of_clause_empty (wg : WhereGroup) (now : Time) (p : Int)
    (h : (wg.Build now p).clause = "") : (wg.Build now p).args = [] := by
  rw [whereGroup_Build_eq] at h ⊢
  cases hf : firstError (conditionResults now p wg.Conditions) with
  | some e => rfl
  | none =>
    rw [hf] at h
    simp only at h ⊢
    match hk : keptClauses (conditionResults now p wg.Conditions) with
    | [] => rfl
    | [c] =>
      rw [hk] at h
      have hc : c ≠ "" := mem_keptClauses_ne_empty _ c (by rw [hk]; simp)
      exact absurd h hc
    | a :: b :: rest =>
      rw [hk] at h
      simp only [WhereGroup.finish, BuildResult.clause] at h
      exact absurd h (by
        rw [String.append_assoc]
        exact String_append_ne_empty_left _ _ (by decide))

theorem groupResultsFrom_length (now : Time) (p : Int) (groups : List WhereGroup)
    (earlier : List BuildResult) :
    (groupResultsFrom now p groups earlier).length = groups.length := by
  induction groups generalizing earlier with
  | nil => rfl
  | cons g gs ih => simp [groupResultsFrom, ih]

theorem groupResultsFrom_getElem (now : Time) (p : Int) (groups : List WhereGroup)
    (earlier : List BuildResult) (i : Nat) (hi : i < groups.length) :
    (groupResultsFrom now p groups earlier)[i]? =
      some ((groups.get ⟨i, hi⟩).Build now
        (p + argCount (earlier ++ (groupResultsFrom now p groups earlier).take i))) := by
  induction groups generalizing earlier i with
  | nil => simp at hi
  | cons g gs ih =>
    cases i with
    | zero => simp [groupResultsFrom]
    | succ j =>
      have hj : j < gs.length := by simpa using hi
      simp only [groupResultsFrom, List.getElem?_cons_succ, List.take_succ_cons,
        List.get_eq_getElem, List.getElem_cons_succ]
      rw [ih (earlier ++ [g.Build now (p + ↑(argCount earlier))]) j hj]
      simp [List.append_assoc]

/-- The loop of `WhereGroups.Build`, in terms of the results of the groups. -/
theorem whereGroups_loop_eq (now : Time) (p : Int) (groups : List WhereGroup)
    (earlier : List BuildResult) (i : Nat) (clauses : List String) (args : List Value) :
    WhereGroups.loop groups now i (p + argCount earlier) clauses args =
      match firstError (groupResultsFrom now p groups earlier) with
      | some e => .error e
      | none => .ok
          (clauses ++ sequencePiecesFrom i groups (groupResultsFrom now p groups earlier),
            args ++ allArgs (groupResultsFrom now p groups earlier)) := by
  induction groups generalizing earlier i clauses args with
  | nil => simp [WhereGroups.loop, groupResultsFrom, firstError, sequencePiecesFrom, allArgs]
  | cons g gs ih =>
    rw [WhereGroups.loop, groupResultsFrom]
    have hempty := whereGroup_args_of_clause_empty g now (p + ↑(argCount earlier))
    generalize g.Build now (p + ↑(argCount earlier)) = r at hempty
    obtain ⟨clause, groupArgs, err⟩ := r
    cases err with
    | some e => simp [firstError, BuildResult.err]
    | none =>
      have hoff : p + ↑(argCount earlier) + ↑groupArgs.length
          = p + ↑(argCount (earlier ++ [(clause, groupArgs, none)])) := by
        simp [argCount, BuildResult.args]
        omega
      by_cases hc : clause = ""
      · have ha : groupArgs = [] := hempty hc
        subst hc ha
        have hoff2 : p + ↑(argCount earlier) = p + ↑(argCount (earlier ++ [("", [], none)])) := by
          simp [argCount, BuildResult.args]
        simp only [ne_eq, not_true_eq_false, if_false]
        rw [hoff2, ih]
        simp [firstError, BuildResult.err, sequencePiecesFrom, allArgs, BuildResult.clause,
          BuildResult.args, List.enumFrom_cons]
      · simp only [ne_eq, hc, not_false_eq_true, if_true]
        rw [hoff, ih]
        by_cases hi : i > 0
        · simp [firstError, BuildResult.err, sequencePiecesFrom, allArgs, BuildResult.clause,
            BuildResult.args, List.enumFrom_cons, hc, hi]
        · simp [firstError, BuildResult.err, sequencePiecesFrom, allArgs, BuildResult.clause,
            BuildResult.args, List.enumFrom_cons, hc, hi]

theorem sequencePiecesFrom_cons (i : Nat) (g : WhereGroup) (gs : List WhereGroup)
    (r : BuildResult) (rs : List BuildResult) :
    sequencePiecesFrom i (g :: gs) (r :: rs) =
      (if r.clause ≠ "" then (if i > 0 then [g.Operator] else []) ++ [r.clause] else [])
        ++ sequencePiecesFrom (i + 1) gs rs := by
  by_cases hc : r.clause = ""
  · simp [sequencePiecesFrom, List.enumFrom_cons, hc]
  · simp [sequencePiecesFrom, List.enumFrom_cons, hc]

theorem sequencePiecesFrom_eq_nil_iff (i : Nat) (groups : List WhereGroup)
    (rs : List BuildResult) (hlen : rs.length = groups.length) :
    sequencePiecesFrom i groups rs = [] ↔ ∀ r ∈ rs, r.clause = "" := by
  induction groups generalizing rs i with
  | nil =>
    have : rs = [] := List.length_eq_zero.mp (by simpa using hlen)
    simp [sequencePiecesFrom, this]
  | cons g gs ih =>
    match rs, hlen with
    | r :: rs, hlen =>
      have hl : rs.length = gs.length := by simpa using hlen
      rw [sequencePiecesFrom_cons, List.append_eq_nil, ih (i + 1) rs hl]
      by_cases hc : r.clause = ""
      · simp [hc]
      · simp [hc]

/-- C5: when all groups of a sequence build without error, each group is built at `p` plus
the number of arguments returned by the earlier groups (the list `groupResults` holds these
builds); if some group yields a non-empty fragment the result is `WHERE ` followed by the
single-space join of the pieces (for each group with a non-empty fragment, in order, its own
operator keyword when its index is > 0, then its fragment), with the concatenation of the
argument lists of the groups and no error; if no group yields a non-empty fragment (the
empty sequence included) the result is the empty fragment, nil arguments, nil error. -/
theorem C5_whereGroups_build (w : WhereGroups) (now : Time) (p : Int)
    (hall : ∀ r ∈ groupResults now p w.Groups, r.err = none) :
    (∀ (i : Nat) (hi : i < w.Groups.length),
      (groupResults now p w.Groups)[i]? =
        some ((w.Groups.get ⟨i, hi⟩).Build now
          (p + argCount ((groupResults now p w.Groups).take i)))) ∧
    ((∃ r ∈ groupResults now p w.Groups, r.clause ≠ "") →
      w.Build now p =
        ("WHERE " ++ " ".intercalate (sequencePieces w.Groups (groupResults now p w.Groups)),
          allArgs (groupResults now p w.Groups), none)) ∧
    ((∀ r ∈ groupResults now p w.Groups, r.clause = "") →
      w.Build now p = ("", [], none)) := by
  have hgr : groupResults now p w.Groups = groupResultsFrom now p w.Groups [] := rfl
  rw [hgr] at hall ⊢
  have hok := (firstError_eq_none_iff _).mpr hall
  have hlen : (groupResultsFrom now p w.Groups []).length = w.Groups.length :=
    groupResultsFrom_length now p w.Groups []
  have hnil := sequencePiecesFrom_eq_nil_iff 0 w.Groups (groupResultsFrom now p w.Groups []) hlen
  have hloop := whereGroups_loop_eq now p w.Groups [] 0 [] []
  have h0 : p + ((argCount [] : Nat) : Int) = p := by simp [argCount]
  rw [h0] at hloop
  rw [hok] at hloop
  simp only [List.nil_append] at hloop
  refine ⟨?_, ?_, ?_⟩
  · intro i hi
    have := groupResultsFrom_getElem now p w.Groups [] i hi
    simpa using this
  · rintro ⟨r, hr, hne⟩
    have hpieces : sequencePiecesFrom 0 w.Groups (groupResultsFrom now p w.Groups []) ≠ [] := by
      intro h
      exact hne (hnil.mp h r hr)
    have hg : w.Groups.length ≠ 0 := by
      intro h
      have : (groupResultsFrom now p w.Groups []).length = 0 := by rw [hlen, h]
      rw [List.length_eq_zero.mp this] at hr
      simp at hr
    have hp : (sequencePiecesFrom 0 w.Groups (groupResultsFrom now p w.Groups [])).length ≠ 0 := by
      simpa using hpieces
    simp only [WhereGroups.Build, if_neg hg, hloop, if_neg hp, Join_eq_intercalate,
      sequencePieces]
  · intro hempty
    by_cases hg : w.Groups.length = 0
    · simp only [WhereGroups.Build, if_pos hg]
    · have hp : (sequencePiecesFrom 0 w.Groups (groupResultsFrom now p w.Groups [])).length = 0 := by
        simpa using hnil.mpr hempty
      simp only [WhereGroups.Build, if_neg hg, hloop, if_pos hp]

/-- C5 at the sequence of the test, built at offset 1. -/
theorem C5_whereGroups_build_witness :
    (∀ r ∈ groupResults april2024 1 mixedSequence.Groups, r.err = none) ∧
    (∃ r ∈ groupResults april2024 1 mixedSequence.Groups, r.clause ≠ "") ∧
    mixedSequence.Build april2024 1
      = ("WHERE column1 = $1 OR column2 > $2 AND column3 < $3",
          [.str "value1", .int 10, .int 20], none) :=
  have hall : ∀ r ∈ groupResults april2024 1 mixedSequence.Groups, r.err = none :=
    (firstError_eq_none_iff _).mp (by rfl)
  have hsome : ∃ r ∈ groupResults april2024 1 mixedSequence.Groups, r.clause ≠ "" :=
    ⟨("column1 = $1", [.str "value1"], none), by
      simp [groupResults, groupResultsFrom, mixedSequence, NewWhereGroups, WhereGroups.Add]
      left
      rfl, by decide⟩
  ⟨hall, hsome,
    ((C5_whereGroups_build mixedSequence april2024 1 hall).2.1 hsome).trans (by rfl)⟩

/-! ### Placeholders -/

theorem scan_idle_cons (c : Char) (cs : List Char) (hc : c ≠ '$') :
    scan .idle (c :: cs) = scan .idle cs := by
  rw [scan, if_neg hc]
  by_cases hd : c.isDigit = true
  · rw [if_pos hd]
  · rw [if_neg hd]
    by_cases hm : c = '-'
    · rw [if_pos hm]; rfl
    · rw [if_neg hm]; rfl

theorem scan_idle_skip (t rest : List Char) (ht : '$' ∉ t) :
    scan .idle (t ++ rest) = scan .idle rest := by
  induction t with
  | nil => rfl
  | cons c cs ih =>
    have hc : c ≠ '$' := fun h => ht (by simp [h])
    have hcs : '$' ∉ cs := fun h => ht (by simp [h])
    rw [List.cons_append, scan_idle_cons c _ hc, ih hcs]

theorem scan_number_stop (neg : Bool) (n : Nat) (rest : List Char) (hr : NoLeadingDigit rest) :
    scan (.number neg n) rest = (if neg then -(n : Int) else (n : Int)) :: scan .idle rest := by
  cases rest with
  | nil => simp [scan, ScanState.emit]
  | cons c cs =>
    have hd : c.isDigit = false := hr c (by simp)
    by_cases h1 : c = '$'
    · simp [scan, h1, ScanState.emit]
    · by_cases h2 : c = '-'
      · simp [scan, h1, hd, h2, ScanState.emit]
      · simp [scan, h1, hd, h2, ScanState.emit]

theorem isDigit_ne_dollar (c : Char) (h : c.isDigit = true) : c ≠ '$' := by
  rintro rfl
  exact absurd h (by decide)

theorem scan_dollar_char (st : ScanState) (cs : List Char) :
    scan st ('$' :: cs) = st.emit ++ scan .dollar cs := by
  cases st <;> simp only [scan, if_true]

theorem scan_number_digit (neg : Bool) (n : Nat) (c : Char) (cs : List Char)
    (hc : c.isDigit = true) :
    scan (.number neg n) (c :: cs) = scan (.number neg (10 * n + digitValue c)) cs := by
  simp only [scan, if_neg (isDigit_ne_dollar c hc), hc, if_true]

theorem scan_dollar_digit (c : Char) (cs : List Char) (hc : c.isDigit = true) :
    scan .dollar (c :: cs) = scan (.number false (digitValue c)) cs := by
  simp only [scan, if_neg (isDigit_ne_dollar c hc), hc, if_true]

theorem scan_dollar_minus_digit (c : Char) (cs : List Char) (hc : c.isDigit = true) :
    scan .dollar ('-' :: c :: cs) = scan (.number true (digitValue c)) cs := by
  have h1 : ('-' : Char) ≠ '$' := by decide
  have h2 : ¬ (('-' : Char).isDigit = true) := by decide
  simp only [scan, if_neg h1, if_neg h2, if_neg (isDigit_ne_dollar c hc), hc, if_true]

theorem scan_number_digits (neg : Bool) (acc : Nat) (ds rest : List Char)
    (hds : ∀ c ∈ ds, c.isDigit = true) :
    scan (.number neg acc) (ds ++ rest)
      = scan (.number neg (ds.foldl (fun a c => 10 * a + digitValue c) acc)) rest := by
  induction ds generalizing acc with
  | nil => rfl
  | cons c cs ih =>
    have hc : c.isDigit = true := hds c (by simp)
    have hcs : ∀ c ∈ cs, c.isDigit = true := fun x hx => hds x (by simp [hx])
    rw [List.cons_append, scan_number_digit neg acc c _ hc, ih _ hcs, List.foldl_cons]

theorem digitChar_isDigit (k : Nat) (hk : k < 10) :
    (Nat.digitChar k).isDigit = true ∧ digitValue (Nat.digitChar k) = k := by
  interval_cases k <;> decide

/-- The decimal digits of `n`, most significant first, and their value. -/
theorem toDigitsCore_spec (fuel n : Nat) (ds : List Char) (h : n < fuel) :
    ∃ pre : List Char, Nat.toDigitsCore 10 fuel n ds = pre ++ ds ∧ pre ≠ [] ∧
      (∀ c ∈ pre, c.isDigit = true) ∧
      pre.foldl (fun a c => 10 * a + digitValue c) 0 = n := by
  induction fuel generalizing n ds with
  | zero => omega
  | succ fuel ih =>
    have hd := digitChar_isDigit (n % 10) (Nat.mod_lt _ (by decide))
    simp only [Nat.toDigitsCore]
    by_cases h0 : n / 10 = 0
    · refine ⟨[Nat.digitChar (n % 10)], by simp [h0], by simp, by simpa using hd.1, ?_⟩
      simp only [List.foldl_cons, List.foldl_nil, hd.2]
      omega
    · obtain ⟨pre, hpre, hne, hdig, hval⟩ := ih (n / 10) (Nat.digitChar (n % 10) :: ds) (by omega)
      refine ⟨pre ++ [Nat.digitChar (n % 10)], by simp [h0, hpre], by simp, ?_, ?_⟩
      · intro c hc
        rcases List.mem_append.mp hc with h | h
        · exact hdig c h
        · simp only [List.mem_singleton] at h
          rw [h]; exact hd.1
      · simp only [List.foldl_append, List.foldl_cons, List.foldl_nil, hval, hd.2]
        omega

theorem repr_spec (n : Nat) :
    ∃ c : Char, ∃ cs : List Char, (Nat.repr n).data = c :: cs ∧ c.isDigit = true ∧
      (∀ x ∈ cs, x.isDigit = true) ∧
      cs.foldl (fun a c => 10 * a + digitValue c) (digitValue c) = n := by
  obtain ⟨pre, hpre, hne, hdig, hval⟩ := toDigitsCore_spec (n + 1) n [] (by omega)
  cases pre with
  | nil => exact absurd rfl hne
  | cons c cs =>
    refine ⟨c, cs, ?_, hdig c (by simp), fun x hx => hdig x (by simp [hx]), ?_⟩
    · simp only [Nat.repr, Nat.toDigits, hpre, List.append_nil, List.asString]
    · simpa using hval

/-- A placeholder `$n` as `Sprintf` writes it is read back as `n`. -/
theorem scan_placeholder (n : Int) (rest : List Char) (hr : NoLeadingDigit rest) :
    scan .idle ('$' :: (formatInt n).data ++ rest) = n :: scan .idle rest := by
  rw [List.cons_append, scan_dollar_char]
  cases n with
  | ofNat m =>
    obtain ⟨c, cs, hdata, hc, hcs, hval⟩ := repr_spec m
    have hfmt : (formatInt (Int.ofNat m)).data = c :: cs := hdata
    rw [hfmt, List.cons_append, scan_dollar_digit c _ hc, scan_number_digits false _ cs rest hcs,
      hval, scan_number_stop _ _ _ hr]
    simp [ScanState.emit]
  | negSucc m =>
    obtain ⟨c, cs, hdata, hc, hcs, hval⟩ := repr_spec (m + 1)
    have hfmt : (formatInt (Int.negSucc m)).data = '-' :: c :: cs := by
      show ("-" ++ Nat.repr (m + 1)).data = _
      rw [String.data_append, hdata]
      rfl
    rw [hfmt, List.cons_append, List.cons_append, scan_dollar_minus_digit c _ hc,
      scan_number_digits true _ cs rest hcs, hval, scan_number_stop _ _ _ hr]
    simp [ScanState.emit, Int.negSucc_eq]

theorem Reads_placeholders (s : String) (ns : List Int) (h : Reads s ns) :
    placeholders s = ns := by
  have := h [] (by simp [NoLeadingDigit])
  simpa [placeholders, scan, ScanState.emit] using this

theorem Reads_text (s : String) (h : '$' ∉ s.data) : Reads s [] := by
  intro rest _
  rw [scan_idle_skip _ _ h]
  rfl

theorem Reads_empty_nil (ns : List Int) (h : Reads "" ns) : ns = [] := by
  have := h [] (by simp [NoLeadingDigit])
  simpa [scan, ScanState.emit] using this.symm

theorem intRange_append (p : Int) (n m : Nat) :
    intRange p n ++ intRange (p + n) m = intRange p (n + m) := by
  simp only [intRange, List.range_add, List.map_append, List.map_map]
  congr 1
  apply List.map_congr_left
  intro i _
  simp only [Function.comp]
  push_cast
  ring

theorem NoLeadingDigit_cons (c : Char) (l : List Char) (h : c.isDigit = false) :
    NoLeadingDigit (c :: l) := by
  intro x hx
  simp only [List.head?_cons, Option.mem_def, Option.some.injEq] at hx
  rw [← hx]; exact h

/-- Joining texts with a separator that has no `$` and starts with a non-digit
concatenates what their placeholders read. -/
theorem Reads_Join_cons (a : String) (l : List String) (sep : String) (ns ms : List Int)
    (c : Char) (cs : List Char) (hsep : sep.data = c :: cs) (hc : c.isDigit = false)
    (hfree : '$' ∉ sep.data) (ha : Reads a ns) (hl : Reads (Join l sep) ms) :
    Reads (Join (a :: l) sep) (ns ++ ms) := by
  cases l with
  | nil =>
    have : ms = [] := Reads_empty_nil ms hl
    subst this
    simpa [Join] using ha
  | cons b bs =>
    intro rest hrest
    have h1 : (Join (a :: b :: bs) sep).data ++ rest
        = a.data ++ (sep.data ++ ((Join (b :: bs) sep).data ++ rest)) := by
      simp [Join, String.data_append, List.append_assoc]
    rw [h1, ha _ (by rw [hsep]; exact NoLeadingDigit_cons c _ hc), scan_idle_skip _ _ hfree,
      hl rest hrest, List.append_assoc]

theorem StartsText_append (a b : String) (h : StartsText a) : StartsText (a ++ b) := by
  obtain ⟨c, cs, hd, hc⟩ := h
  exact ⟨c, cs ++ b.data, by rw [String.data_append, hd]; rfl, hc⟩

theorem NoLeadingDigit_append (s : String) (rest : List Char) (h : StartsText s) :
    NoLeadingDigit (s.data ++ rest) := by
  obtain ⟨c, cs, hd, hc⟩ := h
  rw [hd]
  exact NoLeadingDigit_cons c _ hc

/-- A text without `$` followed by a placeholder reads that placeholder. -/
theorem Reads_text_placeholder (pre : String) (n : Int) (hpre : '$' ∉ pre.data) :
    Reads (pre ++ "$" ++ formatInt n) [n] := by
  intro rest hrest
  have h1 : (pre ++ "$" ++ formatInt n).data ++ rest
      = pre.data ++ ('$' :: (formatInt n).data ++ rest) := by
    simp only [String.data_append, List.append_assoc]
    rfl
  rw [h1, scan_idle_skip _ _ hpre, scan_placeholder n rest hrest]
  rfl

/-- Appending a text without `$` (that does not start with a digit) changes nothing. -/
theorem Reads_append_text (a post : String) (ns : List Int) (ha : Reads a ns)
    (hpost : '$' ∉ post.data) (hstart : StartsText post) : Reads (a ++ post) ns := by
  intro rest _
  have h1 : (a ++ post).data ++ rest = a.data ++ (post.data ++ rest) := by
    simp only [String.data_append, List.append_assoc]
  rw [h1, ha _ (NoLeadingDigit_append post rest hstart), scan_idle_skip _ _ hpost]

/-- Prepending a text without `$` changes nothing. -/
theorem Reads_text_append (pre b : String) (ns : List Int) (hpre : '$' ∉ pre.data)
    (hb : Reads b ns) : Reads (pre ++ b) ns := by
  intro rest hrest
  have h1 : (pre ++ b).data ++ rest = pre.data ++ (b.data ++ rest) := by
    simp only [String.data_append, List.append_assoc]
  rw [h1, scan_idle_skip _ _ hpre, hb rest hrest]

/-- Appending a text and a placeholder appends the placeholder. -/
theorem Reads_append_placeholder (a pre : String) (ns : List Int) (n : Int) (ha : Reads a ns)
    (hpre : '$' ∉ pre.data) (hstart : StartsText pre) :
    Reads (a ++ pre ++ "$" ++ formatInt n) (ns ++ [n]) := by
  intro rest hrest
  have h1 : (a ++ pre ++ "$" ++ formatInt n).data ++ rest
      = a.data ++ ((pre ++ "$" ++ formatInt n).data ++ rest) := by
    simp only [String.data_append, List.append_assoc]
  rw [h1, ha _ (NoLeadingDigit_append _ rest
    (StartsText_append _ _ (StartsText_append _ _ hstart))),
    Reads_text_placeholder pre n hpre rest hrest, List.append_assoc]

theorem inPlaceholders_succ (p : Int) (n : Nat) :
    inPlaceholders p (n + 1) = ("$" ++ formatInt p) :: inPlaceholders (p + 1) n := by
  rw [inPlaceholders, List.range_succ_eq_map, List.map_cons, List.map_map]
  congr 1
  · simp
  · apply List.map_congr_left
    intro i _
    simp only [Function.comp]
    congr 2
    push_cast
    ring

theorem intRange_succ (p : Int) (n : Nat) : intRange p (n + 1) = p :: intRange (p + 1) n := by
  rw [intRange, List.range_succ_eq_map, List.map_cons, List.map_map]
  congr 1
  · simp
  · apply List.map_congr_left
    intro i _
    simp only [Function.comp]
    push_cast
    ring

theorem intRange_zero (p : Int) : intRange p 0 = [] := rfl

theorem intRange_one (p : Int) : intRange p 1 = [p] := by
  rw [intRange_succ]; simp [intRange_zero]

/-- The placeholder list of an IN condition reads `p, ..., p+n-1`. -/
theorem Reads_inPlaceholders (p : Int) (n : Nat) :
    Reads (Join (inPlaceholders p n) ",") (intRange p n) := by
  induction n generalizing p with
  | zero => exact Reads_text "" (by simp)
  | succ n ih =>
    rw [inPlaceholders_succ, intRange_succ]
    have h1 : Reads ("$" ++ formatInt p) [p] := by
      have := Reads_text_placeholder "" p (by simp)
      simpa using this
    exact Reads_Join_cons _ _ "," [p] _ ',' [] rfl (by decide) (by decide) h1 (ih (p + 1))

/-- A field condition without `$` in its field name and operator: its placeholders are
`p, ..., p + len(args) - 1`. -/
theorem Reads_fieldCondition (fc : FieldCondition) (p : Int) (hf : '$' ∉ fc.Field.data)
    (ho : '$' ∉ fc.Operator.data) (hok : (fc.Build p).err = none) :
    Reads (fc.Build p).clause (intRange p (fc.Build p).args.length) := by
  unfold FieldCondition.Build at hok ⊢
  by_cases h1 : fc.Operator = IsNull
  · simp only [if_pos h1, BuildResult.clause, BuildResult.args, List.length_nil, intRange_zero]
    exact Reads_text _ (by simp [String.data_append, hf])
  · by_cases h2 : fc.Operator = IsNotNull
    · simp only [if_neg h1, if_pos h2, BuildResult.clause, BuildResult.args, List.length_nil,
        intRange_zero]
      exact Reads_text _ (by simp [String.data_append, hf])
    · by_cases h3 : fc.Operator = In ∨ fc.Operator = NotIn
      · simp only [if_neg h1, if_neg h2, if_pos h3] at hok ⊢
        cases hv : fc.Value.asSlice with
        | none => simp [hv, BuildResult.err] at hok
        | some values =>
          by_cases h0 : values.length = 0
          · simp [hv, h0, BuildResult.err] at hok
          · simp only [hv, if_neg h0, BuildResult.clause, BuildResult.args]
            apply Reads_append_text _ ")" _ _ (by decide) ⟨')', [], rfl, by decide⟩
            apply Reads_text_append
            · simp [String.data_append, hf, ho]
            · exact Reads_inPlaceholders p values.length
      · simp only [if_neg h1, if_neg h2, if_neg h3, BuildResult.clause, BuildResult.args]
        have e : (" $" : String) = " " ++ "$" := by decide
        rw [e, ← String.append_assoc]
        have := Reads_text_placeholder (fc.Field ++ " " ++ fc.Operator ++ " ") p
          (by simp [String.data_append, hf, ho])
        simpa [intRange_one] using this

theorem intRange_three (p : Int) : intRange p 3 = [p, p + 1, p + 2] := by
  rw [intRange_succ, intRange_succ, intRange_one]
  simp only [List.cons.injEq, and_true, true_and]
  omega

theorem intRange_four (p : Int) : intRange p 4 = [p, p + 1, p + 2, p + 3] := by
  rw [intRange_succ, intRange_three]
  simp only [List.cons.injEq, and_true, true_and]
  omega

/-- A date-range condition: its placeholders are `p, ..., p + len(args) - 1`. -/
theorem Reads_dateRange (d : DateRangeCondition) (now : Time) (p : Int)
    (hok : (d.Build now p).err = none) :
    Reads (d.Build now p).clause (intRange p (d.Build now p).args.length) := by
  unfold DateRangeCondition.Build at hok ⊢
  generalize d.calculateDateRange now = r at hok ⊢
  obtain ⟨startDate, endDate, err⟩ := r
  cases err with
  | some e => simp [BuildResult.err] at hok
  | none =>
    have e1 : ("period_year = $" : String) = "period_year = " ++ "$" := by decide
    have e2 : (" AND period_month BETWEEN $" : String) = " AND period_month BETWEEN " ++ "$" := by
      decide
    have e3 : (" AND $" : String) = " AND " ++ "$" := by decide
    have e4 : ("(period_year = $" : String) = "(period_year = " ++ "$" := by decide
    have e5 : (" AND period_month >= $" : String) = " AND period_month >= " ++ "$" := by decide
    have e6 : (") OR (period_year = $" : String) = ") OR (period_year = " ++ "$" := by decide
    have e7 : (" AND period_month <= $" : String) = " AND period_month <= " ++ "$" := by decide
    by_cases hy : startDate.Year = endDate.Year
    · simp only [if_pos hy, BuildResult.clause, BuildResult.args, List.length_cons,
        List.length_nil, Nat.reduceAdd, intRange_three]
      rw [e1, e2, e3]
      simp only [← String.append_assoc]
      exact Reads_append_placeholder _ " AND " [p, p + 1] (p + 2)
        (Reads_append_placeholder _ " AND period_month BETWEEN " [p] (p + 1)
          (Reads_text_placeholder "period_year = " p (by decide))
          (by decide) ⟨' ', _, rfl, by decide⟩)
        (by decide) ⟨' ', _, rfl, by decide⟩
    · simp only [if_neg hy, BuildResult.clause, BuildResult.args, List.length_cons,
        List.length_nil, Nat.reduceAdd, intRange_four]
      rw [e4, e5, e6, e7]
      simp only [← String.append_assoc]
      exact Reads_append_text _ ")" _
        (Reads_append_placeholder _ " AND period_month <= " [p, p + 1, p + 2] (p + 3)
          (Reads_append_placeholder _ ") OR (period_year = " [p, p + 1] (p + 2)
            (Reads_append_placeholder _ " AND period_month >= " [p] (p + 1)
              (Reads_text_placeholder "(period_year = " p (by decide))
              (by decide) ⟨' ', _, rfl, by decide⟩)
            (by decide) ⟨')', _, rfl, by decide⟩)
          (by decide) ⟨' ', _, rfl, by decide⟩)
        (by decide) ⟨')', _, rfl, by decide⟩

/-- The tail of `WhereGroup.Build` keeps what the joined fragments read. -/
theorem Reads_finish (op : LogicalOperator) (fs : List String) (args : List Value)
    (ns : List Int) (h : Reads (Join fs (" " ++ op ++ " ")) ns) :
    Reads (WhereGroup.finish op fs args).clause ns := by
  match fs, h with
  | [], h => exact h
  | [f], h => exact h
  | a :: b :: rest, h =>
    simp only [WhereGroup.finish, BuildResult.clause]
    exact Reads_append_text _ ")" _ (Reads_text_append "(" _ _ (by decide) h) (by decide)
      ⟨')', _, rfl, by decide⟩

theorem finish_args_length (op : LogicalOperator) (rs : List BuildResult) :
    (WhereGroup.finish op (keptClauses rs) (keptArgs rs)).args.length = keptArgCount rs := by
  match h : keptClauses rs with
  | [] =>
    have hk : kept rs = [] := by simpa [keptClauses] using h
    simp [WhereGroup.finish, BuildResult.args, keptArgCount, hk]
  | [f] => simp [WhereGroup.finish, BuildResult.args, keptArgs_length]
  | a :: b :: rest => simp [WhereGroup.finish, BuildResult.args, keptArgs_length]

theorem whereGroup_err (wg : WhereGroup) (now : Time) (p : Int) :
    (wg.Build now p).err = firstError (conditionResults now p wg.Conditions) := by
  rw [whereGroup_Build_eq]
  cases h : firstError (conditionResults now p wg.Conditions) with
  | some e => rfl
  | none =>
    simp only [WhereGroup.finish]
    split <;> rfl

theorem separator_spec (op : LogicalOperator) (hop : '$' ∉ op.data) :
    (" " ++ op ++ " ").data = ' ' :: (op.data ++ [' ']) ∧ '$' ∉ (" " ++ op ++ " ").data := by
  constructor
  · simp only [String.data_append]
    rfl
  · simp [String.data_append, hop]

mutual
/-- Every well-formed condition that builds reads `p, ..., p + len(args) - 1`. -/
theorem Reads_condition : (c : QueryCondition) → (now : Time) → (p : Int) → c.WellFormed →
    (c.Build now p).err = none →
    Reads (c.Build now p).clause (intRange p (c.Build now p).args.length)
  | .fieldCondition fc, now, p, hwf, hok => by
    simp only [QueryCondition.WellFormed] at hwf
    simp only [QueryCondition.Build] at hok ⊢
    exact Reads_fieldCondition fc p hwf.1 hwf.2 hok
  | .dateRangeCondition d, now, p, _, hok => by
    simp only [QueryCondition.Build] at hok ⊢
    exact Reads_dateRange d now p hok
  | .whereGroup conditions operator isNew, now, p, hwf, hok => by
    simp only [QueryCondition.WellFormed] at hwf
    have hb := toCondition_Build ⟨conditions, operator, isNew⟩ now p
    simp only [WhereGroup.toCondition] at hb
    rw [hb] at hok ⊢
    rw [whereGroup_err] at hok
    rw [whereGroup_Build_eq, hok]
    simp only [finish_args_length]
    have hsep := separator_spec operator hwf.1
    have h := Reads_conditions conditions now p [] (" " ++ operator ++ " ") ' ' _ hsep.1
      (by decide) hsep.2 hwf.2 hok
    have h0 : p + ((keptArgCount [] : Nat) : Int) = p := by simp [keptArgCount, kept]
    rw [h0] at h
    exact Reads_finish operator _ _ _ h
  | .other _, _, _, hwf, _ => by
    simp only [QueryCondition.WellFormed] at hwf
/-- The non-empty fragments of well-formed conditions, joined, read the numbers from the
running offset on. -/
theorem Reads_conditions : (cs : List QueryCondition) → (now : Time) → (p : Int) →
    (earlier : List BuildResult) → (sep : String) → (c0 : Char) → (cs0 : List Char) →
    sep.data = c0 :: cs0 → c0.isDigit = false → '$' ∉ sep.data → WellFormedList cs →
    firstError (conditionResultsFrom now p cs earlier) = none →
    Reads (Join (keptClauses (conditionResultsFrom now p cs earlier)) sep)
      (intRange (p + keptArgCount earlier) (keptArgCount (conditionResultsFrom now p cs earlier)))
  | [], now, p, earlier, sep, c0, cs0, _, _, _, _, _ => by
    simp only [conditionResultsFrom, keptClauses, kept, List.filter_nil, List.map_nil, Join,
      keptArgCount, List.sum_nil, intRange_zero]
    exact Reads_text "" (by simp)
  | c :: cs, now, p, earlier, sep, c0, cs0, hsep, hc0, hfree, hwf, hok => by
    simp only [WellFormedList] at hwf
    simp only [conditionResultsFrom] at hok ⊢
    have hc := Reads_condition c now (p + keptArgCount earlier) hwf.1
    have hrest := Reads_conditions cs now p
      (earlier ++ [c.Build now (p + keptArgCount earlier)]) sep c0 cs0 hsep hc0 hfree hwf.2
    generalize c.Build now (p + keptArgCount earlier) = r at hok hc hrest
    obtain ⟨clause, condArgs, err⟩ := r
    cases err with
    | some e => simp [firstError, BuildResult.err] at hok
    | none =>
      simp only [firstError, BuildResult.err] at hok
      have hc2 := hc rfl
      have hrest2 := hrest hok
      rw [keptArgCount_append_singleton] at hrest2
      simp only [BuildResult.clause, BuildResult.args] at hc2 hrest2
      by_cases hcl : clause = ""
      · simp only [hcl, ne_eq, not_true_eq_false, if_false, add_zero] at hrest2
        simpa [keptClauses, keptArgCount, kept, hcl, BuildResult.clause] using hrest2
      · simp only [ne_eq, hcl, not_false_eq_true, if_true] at hrest2
        rw [← add_assoc] at hrest2
        have hj := Reads_Join_cons clause _ sep _ _ c0 cs0 hsep hc0 hfree hc2 hrest2
        rw [intRange_append] at hj
        have e1 : keptClauses ((clause, condArgs, none) :: conditionResultsFrom now p cs
            (earlier ++ [(clause, condArgs, none)]))
            = clause :: keptClauses (conditionResultsFrom now p cs
              (earlier ++ [(clause, condArgs, none)])) := by
          simp [keptClauses, kept, hcl, BuildResult.clause]
        have e2 : keptArgCount ((clause, condArgs, none) :: conditionResultsFrom now p cs
            (earlier ++ [(clause, condArgs, none)]))
            = condArgs.length + keptArgCount (conditionResultsFrom now p cs
              (earlier ++ [(clause, condArgs, none)])) := by
          simp [keptArgCount, kept, hcl, BuildResult.clause, BuildResult.args]
        rw [e1, e2]
        exact hj
end

/-- The method `Build` of a sequence, in terms of the results of its groups. -/
theorem whereGroups_Build_eq (w : WhereGroups) (now : Time) (p : Int) :
    w.Build now p =
      match firstError (groupResults now p w.Groups) with
      | some e => ("", [], some e)
      | none =>
        if (sequencePieces w.Groups (groupResults now p w.Groups)).length = 0 then ("", [], none)
        else ("WHERE " ++ Join (sequencePieces w.Groups (groupResults now p w.Groups)) " ",
          allArgs (groupResults now p w.Groups), none) := by
  have hloop := whereGroups_loop_eq now p w.Groups [] 0 [] []
  have h0 : p + ((argCount [] : Nat) : Int) = p := by simp [argCount]
  rw [h0] at hloop
  unfold WhereGroups.Build
  by_cases hg : w.Groups.length = 0
  · have : w.Groups = [] := List.length_eq_zero.mp hg
    simp [this, groupResults, groupResultsFrom, firstError, sequencePieces, sequencePiecesFrom]
  · rw [if_neg hg, hloop]
    unfold groupResults sequencePieces
    cases firstError (groupResultsFrom now p w.Groups []) <;> simp

theorem allArgs_length (rs : List BuildResult) : (allArgs rs).length = argCount rs := by
  simp [allArgs, argCount, List.length_flatten, Function.comp_def]

theorem toCondition_WellFormed (g : WhereGroup) :
    g.toCondition.WellFormed ↔ g.WellFormed := by
  simp only [WhereGroup.toCondition, QueryCondition.WellFormed, WhereGroup.WellFormed]

/-- The pieces of a sequence of well-formed groups, joined by single spaces, read the
numbers from the running offset on. -/
theorem Reads_groups (now : Time) (p : Int) (gs : List WhereGroup) (earlier : List BuildResult)
    (i : Nat) (hwf : ∀ g ∈ gs, g.WellFormed)
    (hok : firstError (groupResultsFrom now p gs earlier) = none) :
    Reads (Join (sequencePiecesFrom i gs (groupResultsFrom now p gs earlier)) " ")
      (intRange (p + argCount earlier) (argCount (groupResultsFrom now p gs earlier))) := by
  induction gs generalizing earlier i with
  | nil =>
    simp only [groupResultsFrom, sequencePiecesFrom, List.zip_nil_right, List.enumFrom_nil,
      List.filter_nil, List.flatMap_nil, Join, argCount, List.map_nil, List.sum_nil,
      intRange_zero]
    exact Reads_text "" (by simp)
  | cons g gs ih =>
    have hg : g.WellFormed := hwf g (by simp)
    have hgs : ∀ x ∈ gs, x.WellFormed := fun x hx => hwf x (by simp [hx])
    simp only [groupResultsFrom] at hok ⊢
    rw [sequencePiecesFrom_cons]
    have hc := Reads_condition g.toCondition now (p + argCount earlier)
      ((toCondition_WellFormed g).mpr hg)
    rw [toCondition_Build] at hc
    have hempty := whereGroup_args_of_clause_empty g now (p + argCount earlier)
    have hrest := ih (earlier ++ [g.Build now (p + argCount earlier)]) (i + 1) hgs
    generalize g.Build now (p + argCount earlier) = r at hok hc hrest hempty
    obtain ⟨clause, groupArgs, err⟩ := r
    cases err with
    | some e => simp [firstError, BuildResult.err] at hok
    | none =>
      simp only [firstError, BuildResult.err] at hok
      have hc2 := hc rfl
      have hrest2 := hrest hok
      have ea : ((argCount (earlier ++ [(clause, groupArgs, none)]) : Nat) : Int)
          = argCount earlier + groupArgs.length := by
        simp [argCount, BuildResult.args]
      have e2 : argCount ((clause, groupArgs, none) :: groupResultsFrom now p gs
          (earlier ++ [(clause, groupArgs, none)]))
          = groupArgs.length + argCount (groupResultsFrom now p gs
            (earlier ++ [(clause, groupArgs, none)])) := by
        simp [argCount, BuildResult.args]
      rw [ea, ← add_assoc] at hrest2
      rw [e2, ← intRange_append]
      simp only [BuildResult.clause, BuildResult.args] at hc2 hempty ⊢
      have hsp : (" " : String).data = ' ' :: [] := rfl
      by_cases hcl : clause = ""
      · have ha : groupArgs = [] := hempty hcl
        subst ha
        simp only [hcl, ne_eq, not_true_eq_false, if_false, List.nil_append, List.length_nil,
          intRange_zero, Nat.cast_zero, add_zero] at hrest2 ⊢
        exact hrest2
      · simp only [ne_eq, hcl, not_false_eq_true, if_true]
        have hj := Reads_Join_cons clause _ " " _ _ ' ' [] hsp (by decide) (by decide) hc2 hrest2
        by_cases hi : i > 0
        · simp only [hi, if_true, List.append_assoc, List.cons_append, List.nil_append]
          have hop := Reads_Join_cons g.Operator _ " " [] _ ' ' [] hsp (by decide) (by decide)
            (Reads_text g.Operator hg.1) hj
          simpa using hop
        · simp only [hi, if_false, List.nil_append, List.cons_append]
          exact hj

/-- C1: for every sequence of groups whose leaves are field conditions and date-range
conditions (directly or through nested groups; field names and operators contain no `$`) and
every offset `p`, if `Build(p)` succeeds then the placeholders `$n` of the returned fragment,
read left to right, are exactly `$p, $p+1, ..., $p+len(args)-1`, each once: the k-th
placeholder binds the k-th returned argument. -/
theorem C1_placeholders_numbered (w : WhereGroups) (now : Time) (p : Int)
    (hwf : ∀ g ∈ w.Groups, g.WellFormed) (hok : (w.Build now p).err = none) :
    placeholders (w.Build now p).clause = intRange p (w.Build now p).args.length := by
  rw [whereGroups_Build_eq] at hok ⊢
  cases hf : firstError (groupResults now p w.Groups) with
  | some e => simp [hf, BuildResult.err] at hok
  | none =>
    simp only []
    by_cases hp : (sequencePieces w.Groups (groupResults now p w.Groups)).length = 0
    · rw [if_pos hp]
      rfl
    · rw [if_neg hp]
      simp only [BuildResult.clause, BuildResult.args, allArgs_length]
      apply Reads_placeholders
      apply Reads_text_append "WHERE " _ _ (by decide)
      have h := Reads_groups now p w.Groups [] 0 hwf hf
      have h0 : p + ((argCount [] : Nat) : Int) = p := by simp [argCount]
      rw [h0] at h
      exact h

set_option maxRecDepth 100000 in
/-- C1 at a sequence with an IN list, a nested group and a date-range condition, built at
offset 1 in April 2024: the placeholders are 1 to 8. -/
theorem C1_placeholders_numbered_witness :
    (∀ g ∈ nestedSequence.Groups, g.WellFormed) ∧
    (nestedSequence.Build april2024 1).err = none ∧
    (nestedSequence.Build april2024 1).args.length = 8 ∧
    placeholders (nestedSequence.Build april2024 1).clause = [1, 2, 3, 4, 5, 6, 7, 8] :=
  have hwf : ∀ g ∈ nestedSequence.Groups, g.WellFormed := by
    intro g hg
    simp only [nestedSequence, NewWhereGroups, WhereGroups.Add, List.nil_append,
      List.cons_append, List.mem_cons, List.mem_singleton, List.not_mem_nil, or_false] at hg
    rcases hg with rfl | rfl <;>
      simp only [WhereGroup.WellFormed, WellFormedList, QueryCondition.WellFormed,
        WhereGroup.toCondition, NewWhereGroup, WhereGroup.Add, NewFieldCondition,
        List.nil_append, List.cons_append, and_true] <;>
      decide
  ⟨hwf, by rfl, by rfl,
    (C1_placeholders_numbered nestedSequence april2024 1 hwf (by rfl)).trans (by rfl)⟩

/-! ### Field conditions: comparison and NULL operators -/

/-- C11: for every operator other than IS NULL, IS NOT NULL, IN and NOT IN (so for `=`,
`!=`, `>`, `<`, `>=`, `<=`, `LIKE`, `ILIKE`), every field, value and offset `N`, `Build(N)`
does not fail and returns the fragment `field OP $N` with the one-element argument list
`[value]`. -/
theorem C11_comparison_build (field : String) (op : ComparisonOperator) (v : Value) (N : Int)
    (h1 : op ≠ IsNull) (h2 : op ≠ IsNotNull) (h3 : op ≠ In) (h4 : op ≠ NotIn) :
    (NewFieldCondition field op v).Build N
      = (field ++ " " ++ op ++ " $" ++ toString N, [v], none) := by
  have h34 : ¬ (op = In ∨ op = NotIn) := by
    rintro (h | h)
    · exact h3 h
    · exact h4 h
  simp only [FieldCondition.Build, NewFieldCondition, if_neg h1, if_neg h2, if_neg h34, formatInt]

/-- C11 at `email LIKE "%.com"` built at offset 2 (a case of the test). -/
theorem C11_comparison_build_witness :
    Like ≠ IsNull ∧ Like ≠ IsNotNull ∧ Like ≠ In ∧ Like ≠ NotIn ∧
    (NewFieldCondition "email" Like (.str "%.com")).Build 2
      = ("email LIKE $2", [.str "%.com"], none) :=
  ⟨by decide, by decide, by decide, by decide,
    (C11_comparison_build "email" Like (.str "%.com") 2 (by decide) (by decide) (by decide)
      (by decide)).trans rfl⟩

/-- C12: for IS NULL and IS NOT NULL, `Build` returns `field IS NULL` and
`field IS NOT NULL` with no arguments (nil) and no error, whatever the supplied value (a
non-nil one too) and whatever the offset. -/
theorem C12_null_build (field : String) (v : Value) (N : Int) :
    (NewFieldCondition field IsNull v).Build N = (field ++ " IS NULL", [], none) ∧
    (NewFieldCondition field IsNotNull v).Build N = (field ++ " IS NOT NULL", [], none) := by
  constructor
  · simp only [FieldCondition.Build, NewFieldCondition, if_true]
  · simp only [FieldCondition.Build, NewFieldCondition,
      if_neg (show IsNotNull ≠ IsNull by decide), if_true]

/-- C14: `DateRangeCondition.Build` fails if and only if the resolution of the range fails;
the error is then "failed to calculate date range: " followed by the message of the
resolver, the fragment is empty and the arguments are nil. -/
theorem C14_dateRange_error (d : DateRangeCondition) (now : Time) (N : Int) :
    ((d.Build now N).err ≠ none ↔ (d.calculateDateRange now).2.2 ≠ none) ∧
    (∀ msg, (d.calculateDateRange now).2.2 = some msg →
      d.Build now N = ("", [], some ("failed to calculate date range: " ++ msg))) := by
  unfold DateRangeCondition.Build
  generalize d.calculateDateRange now = r
  obtain ⟨startDate, endDate, err⟩ := r
  cases err with
  | some e => simp [BuildResult.err]
  | none =>
    constructor
    · simp only [BuildResult.err]
      split <;> simp
    · intro msg h
      simp at h

set_option maxRecDepth 100000 in
/-- C14 at BackMonth without its parameter. -/
theorem C14_dateRange_error_witness :
    ((NewDateRangeCondition { Typ := BackMonth }).calculateDateRange april2024).2.2
      = some "months parameter required for BACK_MONTH" ∧
    (NewDateRangeCondition { Typ := BackMonth }).Build april2024 1
      = ("", [],
          some "failed to calculate date range: months parameter required for BACK_MONTH") :=
  ⟨by decide,
    ((C14_dateRange_error (NewDateRangeCondition { Typ := BackMonth }) april2024 1).2
      "months parameter required for BACK_MONTH" (by decide)).trans (by rfl)⟩

/-! ### Error propagation -/

theorem firstError_ne_none_iff (rs : List BuildResult) :
    firstError rs ≠ none ↔ ∃ r ∈ rs, r.err ≠ none := by
  rw [Ne, firstError_eq_none_iff]
  push_neg
  rfl

/-- The first error of a list of results is the error of the first failing result. -/
theorem firstError_eq_some (rs : List BuildResult) (e : Error) (h : firstError rs = some e) :
    ∃ (i : Nat) (r : BuildResult), rs[i]? = some r ∧ r.err = some e ∧
      ∀ (j : Nat), j < i → ∀ (r2 : BuildResult), rs[j]? = some r2 → r2.err = none := by
  induction rs with
  | nil => simp [firstError] at h
  | cons r rs ih =>
    obtain ⟨c, a, err⟩ := r
    cases err with
    | some e2 =>
      simp only [firstError, BuildResult.err, Option.some.injEq] at h
      subst h
      exact ⟨0, (c, a, some e2), by simp, rfl, fun j hj => absurd hj (Nat.not_lt_zero j)⟩
    | none =>
      simp only [firstError, BuildResult.err] at h
      obtain ⟨i, r, hi, hr, hbefore⟩ := ih h
      refine ⟨i + 1, r, by simpa using hi, hr, ?_⟩
      intro j hj r2 hr2
      cases j with
      | zero =>
        simp only [List.getElem?_cons_zero, Option.some.injEq] at hr2
        rw [← hr2]
      | succ k =>
        simp only [List.getElem?_cons_succ] at hr2
        exact hbefore k (by omega) r2 hr2

theorem whereGroup_Build_of_error (wg : WhereGroup) (now : Time) (p : Int) (e : Error)
    (h : firstError (conditionResults now p wg.Conditions) = some e) :
    wg.Build now p = ("", [], some e) := by
  rw [whereGroup_Build_eq, h]

theorem whereGroups_err (w : WhereGroups) (now : Time) (p : Int) :
    (w.Build now p).err = firstError (groupResults now p w.Groups) := by
  rw [whereGroups_Build_eq]
  cases h : firstError (groupResults now p w.Groups) with
  | some e => rfl
  | none =>
    simp only []
    split <;> rfl

theorem whereGroups_Build_of_error (w : WhereGroups) (now : Time) (p : Int) (e : Error)
    (h : firstError (groupResults now p w.Groups) = some e) :
    w.Build now p = ("", [], some e) := by
  rw [whereGroups_Build_eq, h]

/-- C13: `WhereGroup.Build` returns an error if and only if the build of one of its
conditions returns an error (each condition built at its offset, the list
`conditionResults`); the error is that of the first failing condition in insertion order,
unchanged, and it comes with the empty fragment and nil arguments. Likewise for
`WhereGroups.Build` and its groups (the list `groupResults`). -/
theorem C13_first_error (wg : WhereGroup) (w : WhereGroups) (now : Time) (p : Int) :
    (((wg.Build now p).err ≠ none ↔
        ∃ r ∈ conditionResults now p wg.Conditions, r.err ≠ none) ∧
      (∀ e, (wg.Build now p).err = some e →
        wg.Build now p = ("", [], some e) ∧
        ∃ (i : Nat) (r : BuildResult), (conditionResults now p wg.Conditions)[i]? = some r ∧ r.err = some e ∧
          ∀ (j : Nat), j < i → ∀ (r2 : BuildResult), (conditionResults now p wg.Conditions)[j]? = some r2 →
            r2.err = none)) ∧
    (((w.Build now p).err ≠ none ↔ ∃ r ∈ groupResults now p w.Groups, r.err ≠ none) ∧
      (∀ e, (w.Build now p).err = some e →
        w.Build now p = ("", [], some e) ∧
        ∃ (i : Nat) (r : BuildResult), (groupResults now p w.Groups)[i]? = some r ∧ r.err = some e ∧
          ∀ (j : Nat), j < i → ∀ (r2 : BuildResult), (groupResults now p w.Groups)[j]? = some r2 →
            r2.err = none)) := by
  refine ⟨⟨?_, ?_⟩, ⟨?_, ?_⟩⟩
  · rw [whereGroup_err]
    exact firstError_ne_none_iff _
  · intro e he
    rw [whereGroup_err] at he
    exact ⟨whereGroup_Build_of_error wg now p e he, firstError_eq_some _ e he⟩
  · rw [whereGroups_err]
    exact firstError_ne_none_iff _
  · intro e he
    rw [whereGroups_err] at he
    exact ⟨whereGroups_Build_of_error w now p e he, firstError_eq_some _ e he⟩

/-- C13 at a group (and a sequence holding it) whose second condition fails after a first
one that succeeded with an argument. -/
theorem C13_first_error_witness :
    (failingGroup.Build april2024 1).err = some "assert.AnError general error for testing" ∧
    failingGroup.Build april2024 1
      = ("", [], some "assert.AnError general error for testing") ∧
    ((NewWhereGroups.Add failingGroup).Build april2024 1).err
      = some "assert.AnError general error for testing" ∧
    (NewWhereGroups.Add failingGroup).Build april2024 1
      = ("", [], some "assert.AnError general error for testing") :=
  ⟨by rfl,
    ((C13_first_error failingGroup (NewWhereGroups.Add failingGroup) april2024 1).1.2
      "assert.AnError general error for testing" (by rfl)).1,
    by rfl,
    ((C13_first_error failingGroup (NewWhereGroups.Add failingGroup) april2024 1).2.2
      "assert.AnError general error for testing" (by rfl)).1⟩

/-! ### The months of the calendar -/

theorem daysIn_eq_monthLength (y r : Int) (h0 : 0 ≤ r) (h1 : r < 12) :
    daysIn (r + 1) y = monthLength (isLeap y) r := by
  obtain ⟨v0, v1, v2, v3, v4, v5, v6, v7, v8, v9, v10, v11, v12⟩ := daysBefore_values
  interval_cases r <;> cases h : isLeap y <;>
    simp only [daysIn, monthLength, v0, v1, v2, v3, v4, v5, v6, v7, v8, v9, v10, v11, v12,
      Int.reduceAdd, zero_add, h] <;>
    simp

/-- The month with linear index `12 * y + m - 1` has `daysIn m y` days. -/
theorem monthStart_next (y m : Int) (h0 : 1 ≤ m) (h1 : m ≤ 12) :
    monthStart (12 * y + m) = monthStart (12 * y + m - 1) + daysIn m y := by
  have hlen := monthLength_eq (12 * y + m - 1)
  have e1 : (12 * y + m - 1) / 12 = y := by omega
  have e2 : (12 * y + m - 1) % 12 = m - 1 := by omega
  have e3 : 12 * y + m - 1 + 1 = 12 * y + m := by omega
  rw [e1, e2, e3] at hlen
  have hd := daysIn_eq_monthLength y (m - 1) (by omega) (by omega)
  have e4 : m - 1 + 1 = m := by omega
  rw [e4] at hd
  omega

theorem daysIn_bounds (m y : Int) : 28 ≤ daysIn m y ∧ daysIn m y ≤ 31 := by
  unfold daysIn
  split_ifs <;> omega

/-- The last second of a month, as an instant. -/
theorem monthEnd_sec (y m : Int) :
    monthEnd y m
      = { sec := monthStart (12 * y + m) * 86400 - Location.Jakarta.offset - 1,
          loc := .Jakarta } := by
  rw [monthEnd, AddDate_first, Date_first]
  have e : 12 * y + (m + 1) - 1 = 12 * y + m := by omega
  simp only [Time.Add, Second, e, getJakartaLocation]
  rfl

/-- The first instant of a month, as an instant. -/
theorem monthBegin_sec (y m : Int) :
    monthBegin y m
      = { sec := monthStart (12 * y + m - 1) * 86400 - Location.Jakarta.offset,
          loc := .Jakarta } := by
  rw [monthBegin, Date_first]
  rfl

/-- The uniform technique (first instant of the following month minus one second) gives
23:59:59 on the last calendar day of the month. -/
theorem monthEnd_eq_Date (y m : Int) (h0 : 1 ≤ m) (h1 : m ≤ 12) :
    monthEnd y m = Date y m (daysIn m y) 23 59 59 .Jakarta := by
  rw [monthEnd_sec, Date_sec y m (daysIn m y) 23 59 59 .Jakarta (by decide) (by decide)
    (by decide), monthStart_next y m h0 h1]
  congr 1
  ring

/-- A month given by any month number is the month with the normalised year and month. -/
theorem monthBegin_normal (y m : Int) :
    monthBegin y m = monthBegin ((12 * y + (m - 1)) / 12) ((12 * y + (m - 1)) % 12 + 1) := by
  rw [monthBegin_sec, monthBegin_sec]
  have e : 12 * ((12 * y + (m - 1)) / 12) + ((12 * y + (m - 1)) % 12 + 1) - 1
      = 12 * y + m - 1 := by omega
  rw [e]

theorem monthEnd_normal (y m : Int) :
    monthEnd y m = monthEnd ((12 * y + (m - 1)) / 12) ((12 * y + (m - 1)) % 12 + 1) := by
  rw [monthEnd_sec, monthEnd_sec]
  have e : 12 * ((12 * y + (m - 1)) / 12) + ((12 * y + (m - 1)) % 12 + 1)
      = 12 * y + m := by omega
  rw [e]

/-- The instant `time.Date` returns for a calendar date and a clock shows them. -/
theorem Date_Shows (y m d h mi s : Int) (hm : 1 ≤ m ∧ m ≤ 12) (hd : 1 ≤ d ∧ d ≤ daysIn m y)
    (hh : 0 ≤ h ∧ h < 24) (hmi : 0 ≤ mi ∧ mi < 60) (hs : 0 ≤ s ∧ s < 60) :
    (Date y m d h mi s .Jakarta).Shows y m d h mi s := by
  rw [Date_sec y m d h mi s .Jakarta hh hmi hs]
  have e1 : (12 * y + m - 1) / 12 = y := by omega
  have e2 : (12 * y + m - 1) % 12 = m - 1 := by omega
  have hlen := daysIn_eq_monthLength y (m - 1) (by omega) (by omega)
  have e4 : m - 1 + 1 = m := by omega
  rw [e4] at hlen
  have h := date_of_monthStart (12 * y + m - 1) (d - 1) (h * 3600 + mi * 60 + s) .Jakarta
    (by omega) (by rw [e1, e2, ← hlen]; omega) (by omega) (by omega)
  rw [e1, e2] at h
  refine ⟨rfl, ?_, ?_⟩
  · rw [h.1]
    simp only [Prod.mk.injEq, true_and]
    omega
  · rw [h.2]
    simp only [Prod.mk.injEq]
    omega

/-- The first instant of a month shows the first day at midnight. -/
theorem monthBegin_Shows (y m : Int) (h0 : 1 ≤ m) (h1 : m ≤ 12) :
    (monthBegin y m).Shows y m 1 0 0 0 := by
  have hb := daysIn_bounds m y
  exact Date_Shows y m 1 0 0 0 ⟨h0, h1⟩ ⟨le_refl 1, by omega⟩ (by decide) (by decide) (by decide)

/-- The last second of a month shows its last calendar day at 23:59:59. -/
theorem monthEnd_Shows (y m : Int) (h0 : 1 ≤ m) (h1 : m ≤ 12) :
    (monthEnd y m).Shows y m (daysIn m y) 23 59 59 := by
  have hb := daysIn_bounds m y
  rw [monthEnd_eq_Date y m h0 h1]
  exact Date_Shows y m (daysIn m y) 23 59 59 ⟨h0, h1⟩ ⟨by omega, le_refl _⟩ (by decide)
    (by decide) (by decide)

/-- An instant is determined by the calendar date and the clock it shows in Jakarta. -/
theorem Shows_unique (t u : Time) (y m d h mi s : Int) (ht : t.Shows y m d h mi s)
    (hu : u.Shows y m d h mi s) : t = u := by
  obtain ⟨k, dd, sec, _, _, hs0, hs1, hsec, hdate, hclock⟩ := Time_in_some_month t
  obtain ⟨k2, dd2, sec2, _, _, hs20, hs21, hsec2, hdate2, hclock2⟩ := Time_in_some_month u
  obtain ⟨hl, hd, hc⟩ := ht
  obtain ⟨hl2, hd2, hc2⟩ := hu
  rw [hd] at hdate
  rw [hd2] at hdate2
  rw [hc] at hclock
  rw [hc2] at hclock2
  simp only [Prod.mk.injEq] at hdate hdate2 hclock hclock2
  have hk : k = k2 := by omega
  have hdd : dd = dd2 := by omega
  have hss : sec = sec2 := by omega
  subst hk hdd hss
  cases t
  cases u
  simp only at hl hl2 hsec hsec2
  subst hl hl2
  simp only [Time.mk.injEq, and_true]
  omega

theorem currentMonth_bounds (now : Time) : 1 ≤ currentMonth now ∧ currentMonth now ≤ 12 :=
  Time_Month_bounds (now.In getJakartaLocation)

theorem monthsBefore_bounds (y m k : Int) :
    1 ≤ (monthsBefore y m k).2 ∧ (monthsBefore y m k).2 ≤ 12 := by
  simp only [monthsBefore]
  omega

/-- The first instant of the month `k` months before month `m` of year `y`. -/
theorem monthBegin_monthsBefore (y m k : Int) :
    monthBegin y (m + -k) = monthBegin (monthsBefore y m k).1 (monthsBefore y m k).2 := by
  rw [monthBegin_normal y (m + -k)]
  simp only [monthsBefore]
  have e : 12 * y + (m + -k - 1) = 12 * y + (m - 1) - k := by omega
  rw [e]

/-- The last second of the month `k` months before month `m` of year `y`. -/
theorem monthEnd_monthsBefore (y m k : Int) :
    monthEnd y (m + -k) = monthEnd (monthsBefore y m k).1 (monthsBefore y m k).2 := by
  rw [monthEnd_normal y (m + -k)]
  simp only [monthsBefore]
  have e : 12 * y + (m + -k - 1) = 12 * y + (m - 1) - k := by omega
  rw [e]

/-! ### The resolved ranges, kind by kind -/

/-- C15: for every instant `now` (taken in Jakarta), CurrentMonth resolves without error
to start = the first day of the month of `now` at 00:00:00 and end = the last calendar day
of the same month at 23:59:59. -/
theorem C15_currentMonth (now : Time) (params : DateParameters) :
    ((NewDateRangeCondition { Typ := CurrentMonth, Parameters := params }).calculateDateRange
        now).1.Shows (currentYear now) (currentMonth now) 1 0 0 0 ∧
    ((NewDateRangeCondition { Typ := CurrentMonth, Parameters := params }).calculateDateRange
        now).2.1.Shows (currentYear now) (currentMonth now)
          (daysIn (currentMonth now) (currentYear now)) 23 59 59 ∧
    (NewDateRangeCondition { Typ := CurrentMonth, Parameters := params }).calculateDateRange now
      = (Date (currentYear now) (currentMonth now) 1 0 0 0 .Jakarta,
          Date (currentYear now) (currentMonth now)
            (daysIn (currentMonth now) (currentYear now)) 23 59 59 .Jakarta, none) := by
  obtain ⟨h1, h12⟩ := currentMonth_bounds now
  rw [calc_CurrentMonth]
  refine ⟨monthBegin_Shows _ _ h1 h12, monthEnd_Shows _ _ h1 h12, ?_⟩
  rw [monthEnd_eq_Date _ _ h1 h12]
  rfl

set_option maxRecDepth 100000 in
/-- C15 at `now` = 2024-04-15: from 2024-04-01T00:00:00 to 2024-04-30T23:59:59. -/
theorem C15_currentMonth_witness :
    (NewDateRangeCondition { Typ := CurrentMonth }).calculateDateRange april2024
      = (Date 2024 4 1 0 0 0 .Jakarta, Date 2024 4 30 23 59 59 .Jakarta, none) :=
  (C15_currentMonth april2024 {}).2.2.trans (by decide)

/-- In the calendar model: for every instant `now` and every months value `k` (in particular `k ≥ 0`),
BackMonth resolves without error to the single calendar month lying `k` months before the
month of `now`, carrying into other years as needed: start = the first day of that month at
00:00:00, end = the last day of that same month at 23:59:59; with `k = 1` the end is the
first instant of the current month minus one second. -/
theorem backMonth_calendar (now : Time) (params : DateParameters) (k : Int)
    (hk : params.Months = some k) :
    ((NewDateRangeCondition { Typ := BackMonth, Parameters := params }).calculateDateRange
        now).1.Shows (monthsBefore (currentYear now) (currentMonth now) k).1
          (monthsBefore (currentYear now) (currentMonth now) k).2 1 0 0 0 ∧
    ((NewDateRangeCondition { Typ := BackMonth, Parameters := params }).calculateDateRange
        now).2.1.Shows (monthsBefore (currentYear now) (currentMonth now) k).1
          (monthsBefore (currentYear now) (currentMonth now) k).2
          (daysIn (monthsBefore (currentYear now) (currentMonth now) k).2
            (monthsBefore (currentYear now) (currentMonth now) k).1) 23 59 59 ∧
    ((NewDateRangeCondition { Typ := BackMonth, Parameters := params }).calculateDateRange
        now).2.2 = none ∧
    (k = 1 →
      ((NewDateRangeCondition { Typ := BackMonth, Parameters := params }).calculateDateRange
        now).2.1
        = (Date (currentYear now) (currentMonth now) 1 0 0 0 .Jakarta).Add (-Second)) := by
  obtain ⟨h1, h12⟩ := monthsBefore_bounds (currentYear now) (currentMonth now) k
  rw [calc_BackMonth now params k hk, monthBegin_AddDate, monthBegin_def, ← monthEnd_def,
    ← monthBegin_def, monthBegin_monthsBefore, monthEnd_monthsBefore]
  refine ⟨monthBegin_Shows _ _ h1 h12, monthEnd_Shows _ _ h1 h12, rfl, ?_⟩
  intro hk1
  subst hk1
  rw [← monthEnd_monthsBefore, monthEnd_sec]
  have hb := monthBegin_sec (currentYear now) (currentMonth now)
  rw [monthBegin_def] at hb
  show _ = (Date (currentYear now) (currentMonth now) 1 0 0 0 getJakartaLocation).Add (-Second)
  rw [hb]
  simp only [Time.Add, Second, Time.mk.injEq, and_true]
  have e : 12 * currentYear now + (currentMonth now + -1) = 12 * currentYear now
      + currentMonth now - 1 := by omega
  rw [e]
  ring

set_option maxRecDepth 100000 in
/-- The calendar model at `k = 3` and `now` = 2024-04-15: from 2024-01-01T00:00:00 to
2024-01-31T23:59:59. -/
theorem backMonth_calendar_example :
    ({ Months := some 3 } : DateParameters).Months = some 3 ∧
    (NewDateRangeCondition { Typ := BackMonth, Parameters := { Months := some 3 } }
      ).calculateDateRange april2024
      = (Date 2024 1 1 0 0 0 .Jakarta, Date 2024 1 31 23 59 59 .Jakarta, none) ∧
    ((NewDateRangeCondition { Typ := BackMonth, Parameters := { Months := some 3 } }
      ).calculateDateRange april2024).2.1.Shows 2024 1 31 23 59 59 :=
  ⟨rfl, by decide, (backMonth_calendar april2024 { Months := some 3 } 3 rfl).2.1⟩

/-- In the calendar model: for every instant `now` and every StartBackMonths `s` and EndBackMonths `e`,
RelativeRange resolves without error to start = the first day (00:00:00) of the month `s`
months before the month of `now` and end = the last instant (23:59:59 of the last day) of the
month `e` months before it; nothing checks the order of `s` and `e`: with `s < e` the range
is returned with its start after its end. -/
theorem relativeRange_calendar (now : Time) (params : DateParameters) (s e : Int)
    (hs : params.StartBackMonths = some s) (he : params.EndBackMonths = some e) :
    ((NewDateRangeCondition { Typ := RelativeRange, Parameters := params }).calculateDateRange
        now).1.Shows (monthsBefore (currentYear now) (currentMonth now) s).1
          (monthsBefore (currentYear now) (currentMonth now) s).2 1 0 0 0 ∧
    ((NewDateRangeCondition { Typ := RelativeRange, Parameters := params }).calculateDateRange
        now).2.1.Shows (monthsBefore (currentYear now) (currentMonth now) e).1
          (monthsBefore (currentYear now) (currentMonth now) e).2
          (daysIn (monthsBefore (currentYear now) (currentMonth now) e).2
            (monthsBefore (currentYear now) (currentMonth now) e).1) 23 59 59 ∧
    ((NewDateRangeCondition { Typ := RelativeRange, Parameters := params }).calculateDateRange
        now).2.2 = none ∧
    (s < e →
      ((NewDateRangeCondition { Typ := RelativeRange, Parameters := params }).calculateDateRange
        now).2.1.Before
      ((NewDateRangeCondition { Typ := RelativeRange, Parameters := params }).calculateDateRange
        now).1) := by
  obtain ⟨hs1, hs12⟩ := monthsBefore_bounds (currentYear now) (currentMonth now) s
  obtain ⟨he1, he12⟩ := monthsBefore_bounds (currentYear now) (currentMonth now) e
  rw [calc_RelativeRange now params s e hs he, monthBegin_AddDate, monthBegin_AddDate,
    monthBegin_def (currentYear now) (currentMonth now + -e), ← monthEnd_def]
  refine ⟨?_, ?_, rfl, ?_⟩
  · rw [monthBegin_monthsBefore]
    exact monthBegin_Shows _ _ hs1 hs12
  · rw [monthEnd_monthsBefore]
    exact monthEnd_Shows _ _ he1 he12
  · intro hse
    rw [monthEnd_sec, monthBegin_sec]
    simp only [Time.Before]
    have h := @monthStart_mono (12 * currentYear now + (currentMonth now + -e))
      (12 * currentYear now + (currentMonth now + -s) - 1) (by omega)
    omega

set_option maxRecDepth 100000 in
/-- The calendar model at `s = 6`, `e = 3` in April 2024 (2023-10-01 to 2024-01-31), and at the inverted
`s = 3`, `e = 6`, which resolves with its start after its end. -/
theorem relativeRange_calendar_example :
    (NewDateRangeCondition { Typ := RelativeRange, Parameters := sixToThree }
      ).calculateDateRange april2024
      = (Date 2023 10 1 0 0 0 .Jakarta, Date 2024 1 31 23 59 59 .Jakarta, none) ∧
    ((NewDateRangeCondition { Typ := RelativeRange, Parameters := threeToSix }
      ).calculateDateRange april2024).2.2 = none ∧
    (3 : Int) < 6 ∧
    ((NewDateRangeCondition { Typ := RelativeRange, Parameters := threeToSix }
      ).calculateDateRange april2024).2.1.Before
    ((NewDateRangeCondition { Typ := RelativeRange, Parameters := threeToSix }
      ).calculateDateRange april2024).1 :=
  ⟨by decide, by decide, by decide,
    (relativeRange_calendar april2024 threeToSix 3 6 rfl rfl).2.2.2 (by decide)⟩

/-- C18: for every instant `now`, YTD resolves without error to start = January 1 of the
year of `now` at 00:00:00 and end = the last day of the month of `now`, in the same year, at
23:59:59. -/
theorem C18_yearToDate (now : Time) (params : DateParameters) :
    ((NewDateRangeCondition { Typ := YTD, Parameters := params }).calculateDateRange
        now).1.Shows (currentYear now) 1 1 0 0 0 ∧
    ((NewDateRangeCondition { Typ := YTD, Parameters := params }).calculateDateRange
        now).2.1.Shows (currentYear now) (currentMonth now)
          (daysIn (currentMonth now) (currentYear now)) 23 59 59 ∧
    ((NewDateRangeCondition { Typ := YTD, Parameters := params }).calculateDateRange
        now).2.2 = none := by
  obtain ⟨h1, h12⟩ := currentMonth_bounds now
  rw [calc_YTD]
  exact ⟨monthBegin_Shows _ _ (by decide) (by decide), monthEnd_Shows _ _ h1 h12, rfl⟩

set_option maxRecDepth 100000 in
/-- C18 in April 2024: from 2024-01-01 to 2024-04-30. -/
theorem C18_yearToDate_witness :
    (NewDateRangeCondition { Typ := YTD }).calculateDateRange april2024
      = (Date 2024 1 1 0 0 0 .Jakarta, Date 2024 4 30 23 59 59 .Jakarta, none) ∧
    ((NewDateRangeCondition { Typ := YTD }).calculateDateRange april2024).2.1.Shows
      2024 4 30 23 59 59 :=
  ⟨by decide, (C18_yearToDate april2024 {}).2.1⟩

theorem daysIn_december (y : Int) : daysIn 12 y = 31 := by
  simp [daysIn]

/-- C19: for every instant `now` in year `y`, PreviousYear resolves without error to
start = January 1 of `y - 1` at 00:00:00 and end = December 31 of `y - 1` at 23:59:59; this
literal end is the end the uniform technique gives for December of `y - 1` (the first day of
the following month minus one second), so that PreviousYear resolves to the same triple as
SpecificRange with Start `{1, y - 1}` and End `{12, y - 1}`. -/
theorem C19_previousYear (now : Time) (params : DateParameters) :
    ((NewDateRangeCondition { Typ := PreviousYear, Parameters := params }).calculateDateRange
        now).1.Shows (currentYear now - 1) 1 1 0 0 0 ∧
    ((NewDateRangeCondition { Typ := PreviousYear, Parameters := params }).calculateDateRange
        now).2.1.Shows (currentYear now - 1) 12 31 23 59 59 ∧
    ((NewDateRangeCondition { Typ := PreviousYear, Parameters := params }).calculateDateRange
        now).2.2 = none ∧
    ((NewDateRangeCondition { Typ := PreviousYear, Parameters := params }).calculateDateRange
        now).2.1
      = ((Date (currentYear now - 1) 12 1 0 0 0 .Jakarta).AddDate 0 1 0).Add (-Second) ∧
    (NewDateRangeCondition { Typ := PreviousYear, Parameters := params }).calculateDateRange now
      = (NewDateRangeCondition { Typ := SpecificRange, Parameters :=
            { Start := some { Month := 1, Year := currentYear now - 1 },
              End := some { Month := 12, Year := currentYear now - 1 } } }).calculateDateRange
          now := by
  have hend : Date (currentYear now - 1) 12 31 23 59 59 getJakartaLocation
      = monthEnd (currentYear now - 1) 12 := by
    rw [monthEnd_eq_Date _ _ (by decide) (by decide), daysIn_december]
    rfl
  rw [calc_PreviousYear, calc_SpecificRange now _ { Month := 1, Year := currentYear now - 1 }
    { Month := 12, Year := currentYear now - 1 } rfl rfl, hend]
  refine ⟨monthBegin_Shows _ _ (by decide) (by decide), ?_, rfl, rfl, rfl⟩
  have h := monthEnd_Shows (currentYear now - 1) 12 (by decide) (by decide)
  rw [daysIn_december] at h
  exact h

set_option maxRecDepth 100000 in
/-- C19 in 2024: from 2023-01-01T00:00:00 to 2023-12-31T23:59:59. -/
theorem C19_previousYear_witness :
    (NewDateRangeCondition { Typ := PreviousYear }).calculateDateRange april2024
      = (Date 2023 1 1 0 0 0 .Jakarta, Date 2023 12 31 23 59 59 .Jakarta, none) ∧
    ((NewDateRangeCondition { Typ := PreviousYear }).calculateDateRange april2024).2.1
      = ((Date (currentYear april2024 - 1) 12 1 0 0 0 .Jakarta).AddDate 0 1 0).Add (-Second) :=
  ⟨by decide, (C19_previousYear april2024 {}).2.2.2.1⟩

/-- In the calendar model: for every month `m` in 1..12 and every year `y`, SpecificMonth resolves without
error, independently of `now`, to start = `y-m-01` at 00:00:00 and end = 23:59:59 on the
last calendar day of month `m` of year `y`; that day is 28, 29, 30 or 31, the length of the
month on the Gregorian calendar, leap years included. -/
theorem specificMonth_calendar (now : Time) (params : DateParameters) (m y : Int)
    (hm : params.Month = some m) (hy : params.Year = some y) (h1 : 1 ≤ m) (h12 : m ≤ 12) :
    ((NewDateRangeCondition { Typ := SpecificMonth, Parameters := params }).calculateDateRange
        now).1.Shows y m 1 0 0 0 ∧
    ((NewDateRangeCondition { Typ := SpecificMonth, Parameters := params }).calculateDateRange
        now).2.1.Shows y m (daysIn m y) 23 59 59 ∧
    ((NewDateRangeCondition { Typ := SpecificMonth, Parameters := params }).calculateDateRange
        now).2.2 = none ∧
    (daysIn m y = 28 ∨ daysIn m y = 29 ∨ daysIn m y = 30 ∨ daysIn m y = 31) ∧
    (∀ now2 : Time,
      (NewDateRangeCondition { Typ := SpecificMonth, Parameters := params }).calculateDateRange
          now2
        = (NewDateRangeCondition { Typ := SpecificMonth, Parameters := params }
            ).calculateDateRange now) := by
  refine ⟨?_, ?_, ?_, ?_, ?_⟩
  · rw [calc_SpecificMonth now params m y hm hy]
    exact monthBegin_Shows y m h1 h12
  · rw [calc_SpecificMonth now params m y hm hy]
    exact monthEnd_Shows y m h1 h12
  · rw [calc_SpecificMonth now params m y hm hy]
  · unfold daysIn
    split_ifs <;> simp
  · intro now2
    rw [calc_SpecificMonth now params m y hm hy, calc_SpecificMonth now2 params m y hm hy]

set_option maxRecDepth 100000 in
/-- The calendar model at 3/2024 (ends on March 31), 2/2024 (ends on February 29) and 2/2023 (ends on
February 28). -/
theorem specificMonth_calendar_example :
    (NewDateRangeCondition { Typ := SpecificMonth, Parameters := march2024 }
      ).calculateDateRange april2024
      = (Date 2024 3 1 0 0 0 .Jakarta, Date 2024 3 31 23 59 59 .Jakarta, none) ∧
    (NewDateRangeCondition { Typ := SpecificMonth, Parameters := february2024 }
      ).calculateDateRange april2024
      = (Date 2024 2 1 0 0 0 .Jakarta, Date 2024 2 29 23 59 59 .Jakarta, none) ∧
    (NewDateRangeCondition { Typ := SpecificMonth, Parameters := february2023 }
      ).calculateDateRange april2024
      = (Date 2023 2 1 0 0 0 .Jakarta, Date 2023 2 28 23 59 59 .Jakarta, none) ∧
    ((NewDateRangeCondition { Typ := SpecificMonth, Parameters := february2024 }
      ).calculateDateRange april2024).2.1.Shows 2024 2 (daysIn 2 2024) 23 59 59 ∧
    daysIn 2 2024 = 29 :=
  ⟨by decide, by decide, by decide,
    (specificMonth_calendar april2024 february2024 2 2024 rfl rfl (by decide) (by decide)).2.1,
    by decide⟩

/-! ### The resolved ranges: SpecificRange, QTD, TTM, MoM, PreviousQuarter -/

/-- In the calendar model: for every Start and End MonthYear with months in 1..12, SpecificRange resolves
without error, independently of `now`, to start = the first day of the Start month at
00:00:00 and end = the last calendar day of the End month at 23:59:59; the order of the two
is not checked: when the Start month is later than the End month the range still resolves,
with its start after its end. -/
theorem specificRange_calendar (now : Time) (params : DateParameters) (s e : MonthYear)
    (hs : params.Start = some s) (he : params.End = some e)
    (hs1 : 1 ≤ s.Month) (hs12 : s.Month ≤ 12) (he1 : 1 ≤ e.Month) (he12 : e.Month ≤ 12) :
    ((NewDateRangeCondition { Typ := SpecificRange, Parameters := params }).calculateDateRange
        now).1.Shows s.Year s.Month 1 0 0 0 ∧
    ((NewDateRangeCondition { Typ := SpecificRange, Parameters := params }).calculateDateRange
        now).2.1.Shows e.Year e.Month (daysIn e.Month e.Year) 23 59 59 ∧
    ((NewDateRangeCondition { Typ := SpecificRange, Parameters := params }).calculateDateRange
        now).2.2 = none ∧
    (∀ now2 : Time,
      (NewDateRangeCondition { Typ := SpecificRange, Parameters := params }).calculateDateRange
          now2
        = (NewDateRangeCondition { Typ := SpecificRange, Parameters := params }
            ).calculateDateRange now) ∧
    (e.Year < s.Year ∨ (e.Year = s.Year ∧ e.Month < s.Month) →
      ((NewDateRangeCondition { Typ := SpecificRange, Parameters := params }).calculateDateRange
        now).1.After
      ((NewDateRangeCondition { Typ := SpecificRange, Parameters := params }).calculateDateRange
        now).2.1) := by
  rw [calc_SpecificRange now params s e hs he]
  refine ⟨monthBegin_Shows _ _ hs1 hs12, monthEnd_Shows _ _ he1 he12, rfl, ?_, ?_⟩
  · intro now2
    rw [calc_SpecificRange now2 params s e hs he]
  · intro hlater
    rw [monthEnd_sec, monthBegin_sec]
    simp only [Time.After]
    have h := @monthStart_mono (12 * e.Year + e.Month) (12 * s.Year + s.Month - 1) (by omega)
    omega

set_option maxRecDepth 100000 in
/-- The calendar model at Start 1/2024, End 3/2024 (2024-01-01T00:00:00 to 2024-03-31T23:59:59), and at the
inverted Start 3/2024, End 1/2024, which resolves with its start after its end. -/
theorem specificRange_calendar_example :
    (NewDateRangeCondition { Typ := SpecificRange, Parameters := januaryToMarch }
      ).calculateDateRange april2024
      = (Date 2024 1 1 0 0 0 .Jakarta, Date 2024 3 31 23 59 59 .Jakarta, none) ∧
    ((NewDateRangeCondition { Typ := SpecificRange, Parameters := januaryToMarch }
      ).calculateDateRange april2024).2.1.Shows 2024 3 (daysIn 3 2024) 23 59 59 ∧
    (NewDateRangeCondition { Typ := SpecificRange, Parameters := marchToJanuary }
      ).calculateDateRange april2024
      = (Date 2024 3 1 0 0 0 .Jakarta, Date 2024 1 31 23 59 59 .Jakarta, none) ∧
    ((NewDateRangeCondition { Typ := SpecificRange, Parameters := marchToJanuary }
      ).calculateDateRange april2024).1.After
    ((NewDateRangeCondition { Typ := SpecificRange, Parameters := marchToJanuary }
      ).calculateDateRange april2024).2.1 :=
  ⟨by decide,
    (specificRange_calendar april2024 januaryToMarch { Month := 1, Year := 2024 }
      { Month := 3, Year := 2024 } rfl rfl (by decide) (by decide) (by decide) (by decide)).2.1,
    by decide,
    (specificRange_calendar april2024 marchToJanuary { Month := 3, Year := 2024 }
      { Month := 1, Year := 2024 } rfl rfl (by decide) (by decide) (by decide)
      (by decide)).2.2.2.2 (Or.inr ⟨rfl, by decide⟩)⟩

/-- C22: for every instant `now` with month `m` in year `y`, QTD resolves without error to
start = the first day (00:00:00) of month `((m - 1) / 3) * 3 + 1` of year `y` and end = the
last instant of month `m` of year `y`; the start month is January, April, July or October and
is never after `m`. -/
theorem C22_quarterToDate (now : Time) (params : DateParameters) :
    ((NewDateRangeCondition { Typ := QTD, Parameters := params }).calculateDateRange
        now).1.Shows (currentYear now) ((currentMonth now - 1) / 3 * 3 + 1) 1 0 0 0 ∧
    ((NewDateRangeCondition { Typ := QTD, Parameters := params }).calculateDateRange
        now).2.1.Shows (currentYear now) (currentMonth now)
          (daysIn (currentMonth now) (currentYear now)) 23 59 59 ∧
    ((NewDateRangeCondition { Typ := QTD, Parameters := params }).calculateDateRange
        now).2.2 = none ∧
    (currentMonth now - 1) / 3 * 3 + 1 ∈ [(1 : Int), 4, 7, 10] ∧
    (currentMonth now - 1) / 3 * 3 + 1 ≤ currentMonth now := by
  obtain ⟨h1, h12⟩ := currentMonth_bounds now
  rw [calc_QTD]
  have e : ((currentMonth now - 1) / 3 + 1 - 1) * 3 + 1 = (currentMonth now - 1) / 3 * 3 + 1 := by
    omega
  rw [e]
  refine ⟨monthBegin_Shows _ _ (by omega) (by omega), monthEnd_Shows _ _ h1 h12, rfl, ?_, by omega⟩
  simp only [List.mem_cons, List.mem_singleton, List.not_mem_nil, or_false]
  omega

set_option maxRecDepth 100000 in
/-- C22 in May 2024: from 2024-04-01T00:00:00 to 2024-05-31T23:59:59. -/
theorem C22_quarterToDate_witness :
    (NewDateRangeCondition { Typ := QTD }).calculateDateRange may2024
      = (Date 2024 4 1 0 0 0 .Jakarta, Date 2024 5 31 23 59 59 .Jakarta, none) ∧
    ((NewDateRangeCondition { Typ := QTD }).calculateDateRange may2024).1.Shows
      (currentYear may2024) ((currentMonth may2024 - 1) / 3 * 3 + 1) 1 0 0 0 ∧
    currentYear may2024 = 2024 ∧ currentMonth may2024 = 5 :=
  ⟨by decide, (C22_quarterToDate may2024 {}).1, by decide, by decide⟩
/-- C23: for every instant `now`, TTM resolves without error to start = the first day
(00:00:00) of the month 11 months before the month of `now` and end = the last instant of the
month of `now`; the window is exactly twelve consecutive calendar months: the start advanced
by 12 months is the end plus one second. -/
theorem C23_trailingTwelveMonths (now : Time) (params : DateParameters) :
    ((NewDateRangeCondition { Typ := TTM, Parameters := params }).calculateDateRange
        now).1.Shows (monthsBefore (currentYear now) (currentMonth now) 11).1
          (monthsBefore (currentYear now) (currentMonth now) 11).2 1 0 0 0 ∧
    ((NewDateRangeCondition { Typ := TTM, Parameters := params }).calculateDateRange
        now).2.1.Shows (currentYear now) (currentMonth now)
          (daysIn (currentMonth now) (currentYear now)) 23 59 59 ∧
    ((NewDateRangeCondition { Typ := TTM, Parameters := params }).calculateDateRange
        now).2.2 = none ∧
    ((NewDateRangeCondition { Typ := TTM, Parameters := params }).calculateDateRange
        now).1.AddDate 0 12 0
      = ((NewDateRangeCondition { Typ := TTM, Parameters := params }).calculateDateRange
        now).2.1.Add Second := by
  obtain ⟨h1, h12⟩ := currentMonth_bounds now
  obtain ⟨hb1, hb12⟩ := monthsBefore_bounds (currentYear now) (currentMonth now) 11
  rw [calc_TTM, monthBegin_AddDate]
  refine ⟨?_, monthEnd_Shows _ _ h1 h12, rfl, ?_⟩
  · rw [monthBegin_monthsBefore]
    exact monthBegin_Shows _ _ hb1 hb12
  · show (monthBegin (currentYear now) (currentMonth now + -11)).AddDate 0 12 0
      = (monthEnd (currentYear now) (currentMonth now)).Add Second
    rw [monthBegin_AddDate, monthBegin_sec, monthEnd_sec]
    have e : 12 * currentYear now + (currentMonth now + -11 + 12) - 1
        = 12 * currentYear now + currentMonth now := by omega
    simp only [Time.Add, Second, e, Time.mk.injEq, and_true]
    omega

set_option maxRecDepth 100000 in
/-- C23 in April 2024: from 2023-05-01T00:00:00 to 2024-04-30T23:59:59, and the start
advanced by 12 months is 2024-05-01T00:00:00. -/
theorem C23_trailingTwelveMonths_witness :
    (NewDateRangeCondition { Typ := TTM }).calculateDateRange april2024
      = (Date 2023 5 1 0 0 0 .Jakarta, Date 2024 4 30 23 59 59 .Jakarta, none) ∧
    ((NewDateRangeCondition { Typ := TTM }).calculateDateRange april2024).1.AddDate 0 12 0
      = ((NewDateRangeCondition { Typ := TTM }).calculateDateRange april2024).2.1.Add Second ∧
    ((NewDateRangeCondition { Typ := TTM }).calculateDateRange april2024).1.AddDate 0 12 0
      = Date 2024 5 1 0 0 0 .Jakarta :=
  ⟨by decide, (C23_trailingTwelveMonths april2024 {}).2.2.2, by decide⟩

/-- C24: for every instant `now`, MoM resolves without error to start = the first day of
the month preceding the month of `now` at 00:00:00 (December of the previous year when `now`
is in January) and end = the last instant of the month of `now` itself: a span of two
calendar months, the start advanced by 2 months being the end plus one second. -/
theorem C24_monthOverMonth (now : Time) (params : DateParameters) :
    ((NewDateRangeCondition { Typ := MoM, Parameters := params }).calculateDateRange
        now).1.Shows (monthsBefore (currentYear now) (currentMonth now) 1).1
          (monthsBefore (currentYear now) (currentMonth now) 1).2 1 0 0 0 ∧
    monthsBefore (currentYear now) (currentMonth now) 1
      = (if currentMonth now = 1 then (currentYear now - 1, 12)
          else (currentYear now, currentMonth now - 1)) ∧
    ((NewDateRangeCondition { Typ := MoM, Parameters := params }).calculateDateRange
        now).2.1.Shows (currentYear now) (currentMonth now)
          (daysIn (currentMonth now) (currentYear now)) 23 59 59 ∧
    ((NewDateRangeCondition { Typ := MoM, Parameters := params }).calculateDateRange
        now).2.2 = none ∧
    ((NewDateRangeCondition { Typ := MoM, Parameters := params }).calculateDateRange
        now).1.AddDate 0 2 0
      = ((NewDateRangeCondition { Typ := MoM, Parameters := params }).calculateDateRange
        now).2.1.Add Second := by
  obtain ⟨h1, h12⟩ := currentMonth_bounds now
  obtain ⟨hb1, hb12⟩ := monthsBefore_bounds (currentYear now) (currentMonth now) 1
  rw [calc_MoM, Int.sub_eq_add_neg]
  refine ⟨?_, ?_, monthEnd_Shows _ _ h1 h12, rfl, ?_⟩
  · rw [monthBegin_monthsBefore]
    exact monthBegin_Shows _ _ hb1 hb12
  · simp only [monthsBefore]
    split_ifs with hm
    · refine Prod.ext ?_ ?_ <;> simp only [] <;> omega
    · refine Prod.ext ?_ ?_ <;> simp only [] <;> omega
  · show (monthBegin (currentYear now) (currentMonth now + -1)).AddDate 0 2 0
      = (monthEnd (currentYear now) (currentMonth now)).Add Second
    rw [monthBegin_AddDate, monthBegin_sec, monthEnd_sec]
    have e : 12 * currentYear now + (currentMonth now + -1 + 2) - 1
        = 12 * currentYear now + currentMonth now := by omega
    simp only [Time.Add, Second, e, Time.mk.injEq, and_true]
    omega

set_option maxRecDepth 100000 in
/-- C24 in April 2024 (2024-03-01T00:00:00 to 2024-04-30T23:59:59) and in January 2024
(2023-12-01T00:00:00 to 2024-01-31T23:59:59). -/
theorem C24_monthOverMonth_witness :
    (NewDateRangeCondition { Typ := MoM }).calculateDateRange april2024
      = (Date 2024 3 1 0 0 0 .Jakarta, Date 2024 4 30 23 59 59 .Jakarta, none) ∧
    (NewDateRangeCondition { Typ := MoM }).calculateDateRange januaryNow
      = (Date 2023 12 1 0 0 0 .Jakarta, Date 2024 1 31 23 59 59 .Jakarta, none) ∧
    ((NewDateRangeCondition { Typ := MoM }).calculateDateRange januaryNow).1.Shows
      (monthsBefore (currentYear januaryNow) (currentMonth januaryNow) 1).1
      (monthsBefore (currentYear januaryNow) (currentMonth januaryNow) 1).2 1 0 0 0 ∧
    monthsBefore (currentYear januaryNow) (currentMonth januaryNow) 1 = (2023, 12) :=
  ⟨by decide, by decide, (C24_monthOverMonth januaryNow {}).1, by decide⟩

set_option maxRecDepth 100000 in
/-- C25, a counterexample to the claim as worded: in April 2024 MoM resolves to
2024-03-01T00:00:00 .. 2024-04-30T23:59:59, and BackMonth with months = 1 to
2024-03-01T00:00:00 .. 2024-03-31T23:59:59; the two ranges differ, and the end of MoM does
not show March 31. -/
theorem C25_counterexample :
    (NewDateRangeCondition { Typ := MoM }).calculateDateRange april2024
      = (Date 2024 3 1 0 0 0 .Jakarta, Date 2024 4 30 23 59 59 .Jakarta, none) ∧
    (NewDateRangeCondition { Typ := BackMonth, Parameters := { Months := some 1 } }
        ).calculateDateRange april2024
      = (Date 2024 3 1 0 0 0 .Jakarta, Date 2024 3 31 23 59 59 .Jakarta, none) ∧
    (NewDateRangeCondition { Typ := MoM }).calculateDateRange april2024
      ≠ (NewDateRangeCondition { Typ := BackMonth, Parameters := { Months := some 1 } }
          ).calculateDateRange april2024 ∧
    ¬ ((NewDateRangeCondition { Typ := MoM }).calculateDateRange april2024).2.1.Shows
        2024 3 31 23 59 59 := by
  decide

/-- C25, as amended: for every instant `now`, MoM resolves to the range from the start of
the previous month to the end of the current month. Its start is the start of BackMonth
with months = 1, the first day of the previous month; its end is the end of CurrentMonth,
the last instant of the month of `now`, which lies the whole month of `now` after the end
of BackMonth 1, so the two ranges are never equal. -/
theorem C25_monthOverMonth_exceeds_previous_month (now : Time) :
    ((NewDateRangeCondition { Typ := MoM }).calculateDateRange now).1
      = ((NewDateRangeCondition { Typ := BackMonth, Parameters := { Months := some 1 } }
          ).calculateDateRange now).1 ∧
    ((NewDateRangeCondition { Typ := MoM }).calculateDateRange now).2.1
      = ((NewDateRangeCondition { Typ := CurrentMonth }).calculateDateRange now).2.1 ∧
    ((NewDateRangeCondition { Typ := MoM }).calculateDateRange now).2.1.sec
      = ((NewDateRangeCondition { Typ := BackMonth, Parameters := { Months := some 1 } }
          ).calculateDateRange now).2.1.sec
        + daysIn (currentMonth now) (currentYear now) * 86400 ∧
    (NewDateRangeCondition { Typ := MoM }).calculateDateRange now
      ≠ (NewDateRangeCondition { Typ := BackMonth, Parameters := { Months := some 1 } }
          ).calculateDateRange now := by
  obtain ⟨h1, h12⟩ := currentMonth_bounds now
  have hb := daysIn_bounds (currentMonth now) (currentYear now)
  have hnext := monthStart_next (currentYear now) (currentMonth now) h1 h12
  have hends : (monthEnd (currentYear now) (currentMonth now)).sec
      = (monthEnd (currentYear now) (currentMonth now + -1)).sec
        + daysIn (currentMonth now) (currentYear now) * 86400 := by
    rw [monthEnd_sec, monthEnd_sec]
    simp only []
    have e2 : 12 * currentYear now + (currentMonth now + -1)
        = 12 * currentYear now + currentMonth now - 1 := by omega
    rw [e2, hnext]
    ring
  rw [calc_MoM, calc_CurrentMonth, calc_BackMonth now _ 1 rfl, monthBegin_AddDate, monthBegin_def
    (currentYear now) (currentMonth now + -1), ← monthEnd_def, Int.sub_eq_add_neg]
  refine ⟨rfl, rfl, hends, ?_⟩
  intro hEq
  have h2 := congrArg (fun r : Time × Time × Option Error => r.2.1.sec) hEq
  simp only [] at h2
  omega

set_option maxRecDepth 100000 in
/-- C25, as amended, in April 2024: MoM starts on March 1 with BackMonth 1 and ends on
April 30 at 23:59:59 with CurrentMonth. -/
theorem C25_monthOverMonth_exceeds_previous_month_witness :
    ((NewDateRangeCondition { Typ := MoM }).calculateDateRange april2024).1
      = ((NewDateRangeCondition { Typ := BackMonth, Parameters := { Months := some 1 } }
          ).calculateDateRange april2024).1 ∧
    ((NewDateRangeCondition { Typ := MoM }).calculateDateRange april2024).2.1
      = ((NewDateRangeCondition { Typ := CurrentMonth }).calculateDateRange april2024).2.1 ∧
    (NewDateRangeCondition { Typ := MoM }).calculateDateRange april2024
      = (Date 2024 3 1 0 0 0 .Jakarta, Date 2024 4 30 23 59 59 .Jakarta, none) :=
  ⟨(C25_monthOverMonth_exceeds_previous_month april2024).1,
    (C25_monthOverMonth_exceeds_previous_month april2024).2.1, by decide⟩

/-- C26: for every instant `now` with current quarter `q = ((m - 1) / 3) + 1` in year `y`,
PreviousQuarter resolves without error to start = the first day (00:00:00) of the first month
of quarter `q - 1` of year `y`, or of quarter 4 (October) of year `y - 1` when `q = 1`, and
end = the start advanced by three months minus one second, which is 23:59:59 on the last day
of the third month of that quarter. -/
theorem C26_previousQuarter (now : Time) (params : DateParameters) :
    previousQuarterOf now
      = (if quarterOf (currentMonth now) = 1 then (4, currentYear now - 1)
          else (quarterOf (currentMonth now) - 1, currentYear now)) ∧
    (1 ≤ (previousQuarterOf now).1 ∧ (previousQuarterOf now).1 ≤ 4) ∧
    ((NewDateRangeCondition { Typ := PreviousQuarter, Parameters := params }).calculateDateRange
        now).1.Shows (previousQuarterOf now).2
          (firstMonthOfQuarter (previousQuarterOf now).1) 1 0 0 0 ∧
    ((NewDateRangeCondition { Typ := PreviousQuarter, Parameters := params }).calculateDateRange
        now).2.1
      = (((NewDateRangeCondition { Typ := PreviousQuarter, Parameters := params }
          ).calculateDateRange now).1.AddDate 0 3 0).Add (-Second) ∧
    ((NewDateRangeCondition { Typ := PreviousQuarter, Parameters := params }).calculateDateRange
        now).2.1.Shows (previousQuarterOf now).2
          (firstMonthOfQuarter (previousQuarterOf now).1 + 2)
          (daysIn (firstMonthOfQuarter (previousQuarterOf now).1 + 2) (previousQuarterOf now).2)
          23 59 59 ∧
    ((NewDateRangeCondition { Typ := PreviousQuarter, Parameters := params }).calculateDateRange
        now).2.2 = none := by
  obtain ⟨h1, h12⟩ := currentMonth_bounds now
  have hq : previousQuarterOf now
      = (if quarterOf (currentMonth now) = 1 then (4, currentYear now - 1)
          else (quarterOf (currentMonth now) - 1, currentYear now)) := by
    simp only [previousQuarterOf, quarterOf]
    by_cases h : (currentMonth now - 1) / 3 + 1 = 1
    · rw [if_pos h, if_pos (by omega)]
    · rw [if_neg h, if_neg (by omega)]
  have hb : 1 ≤ (previousQuarterOf now).1 ∧ (previousQuarterOf now).1 ≤ 4 := by
    rw [hq]
    simp only [quarterOf]
    split_ifs <;> simp only [] <;> omega
  rw [calc_PreviousQuarter]
  refine ⟨hq, hb, ?_, rfl, ?_, rfl⟩
  · exact monthBegin_Shows _ _ (by omega) (by omega)
  · have hend : ((monthBegin (previousQuarterOf now).2
          (((previousQuarterOf now).1 - 1) * 3 + 1)).AddDate 0 3 0).Add (-Second)
        = monthEnd (previousQuarterOf now).2 (firstMonthOfQuarter (previousQuarterOf now).1 + 2) := by
      rw [monthBegin_AddDate, monthBegin_sec, monthEnd_sec]
      have e : 12 * (previousQuarterOf now).2 + (((previousQuarterOf now).1 - 1) * 3 + 1 + 3) - 1
          = 12 * (previousQuarterOf now).2 + (firstMonthOfQuarter (previousQuarterOf now).1 + 2) := by
        simp only [firstMonthOfQuarter]
        omega
      simp only [Time.Add, Second, e, Time.mk.injEq, and_true]
      omega
    show (((monthBegin (previousQuarterOf now).2
          (((previousQuarterOf now).1 - 1) * 3 + 1)).AddDate 0 3 0).Add (-Second)).Shows _ _ _ _ _ _
    rw [hend]
    exact monthEnd_Shows _ _ (by simp only [firstMonthOfQuarter]; omega)
      (by simp only [firstMonthOfQuarter]; omega)

set_option maxRecDepth 100000 in
/-- C26 in the second quarter of 2024 (2024-01-01T00:00:00 to 2024-03-31T23:59:59) and in
February 2024, where the previous quarter is the fourth of 2023 (2023-10-01T00:00:00 to
2023-12-31T23:59:59). -/
theorem C26_previousQuarter_witness :
    (NewDateRangeCondition { Typ := PreviousQuarter }).calculateDateRange april2024
      = (Date 2024 1 1 0 0 0 .Jakarta, Date 2024 3 31 23 59 59 .Jakarta, none) ∧
    (NewDateRangeCondition { Typ := PreviousQuarter }).calculateDateRange februaryNow
      = (Date 2023 10 1 0 0 0 .Jakarta, Date 2023 12 31 23 59 59 .Jakarta, none) ∧
    previousQuarterOf februaryNow = (4, 2023) ∧
    ((NewDateRangeCondition { Typ := PreviousQuarter }).calculateDateRange februaryNow).1.Shows
      (previousQuarterOf februaryNow).2 (firstMonthOfQuarter (previousQuarterOf februaryNow).1)
      1 0 0 0 :=
  ⟨by decide, by decide, by decide, (C26_previousQuarter februaryNow {}).2.2.1⟩

/-! ### The operator of a group after an empty group -/

/-- C27: in `WhereGroups.Build` the operator keyword is emitted by the index of the group
alone. For every sequence whose group at index 0 builds to the empty fragment and whose group
at index 1, of operator `OP`, builds to a non-empty fragment `F`: the two groups build to
`"WHERE OP F"`, the operator emitted although no fragment precedes it, and with further
groups that build without error the result is `"WHERE OP F"` followed by the pieces of these
groups, each piece after a single space. -/
theorem C27_operator_by_index (g0 g1 : WhereGroup) (now : Time) (p : Int) (F : String)
    (args1 : List Value) (h0c : (g0.Build now p).clause = "") (h0e : (g0.Build now p).err = none)
    (h1 : g1.Build now p = (F, args1, none)) (hF : F ≠ "") :
    ((NewWhereGroups.Add g0).Add g1).Build now p
      = ("WHERE " ++ g1.Operator ++ " " ++ F, args1, none) ∧
    ∀ rest : List WhereGroup,
      firstError (groupResultsFrom now p rest [g1.Build now p]) = none →
      (WhereGroups.mk (g0 :: g1 :: rest)).Build now p
        = ("WHERE " ++ Join (g1.Operator :: F ::
              sequencePiecesFrom 2 rest (groupResultsFrom now p rest [g1.Build now p])) " ",
            args1 ++ allArgs (groupResultsFrom now p rest [g1.Build now p]), none) := by
  have hloop : ∀ rest : List WhereGroup,
      WhereGroups.loop (g0 :: g1 :: rest) now 0 p [] []
        = WhereGroups.loop rest now 2 (p + argCount [g1.Build now p]) [g1.Operator, F] args1 := by
    intro rest
    generalize hr0 : g0.Build now p = r0 at h0c h0e
    obtain ⟨c0, a0, e0⟩ := r0
    simp only [BuildResult.clause, BuildResult.err] at h0c h0e
    subst h0c h0e
    simp only [WhereGroups.loop, hr0, h1, ne_eq, not_true_eq_false, if_false, hF,
      not_false_eq_true, if_true, zero_add, Nat.lt_one_iff, Nat.zero_lt_one, gt_iff_lt,
      List.nil_append, List.cons_append, argCount, List.map_cons, List.map_nil, List.sum_cons,
      List.sum_nil, BuildResult.args, add_zero, Nat.reduceAdd]
  constructor
  · simp only [NewWhereGroups, WhereGroups.Add, WhereGroups.Build, List.nil_append,
      List.cons_append, List.length_cons, List.length_nil, Nat.reduceAdd, OfNat.ofNat_ne_zero,
      if_false]
    rw [hloop []]
    simp only [WhereGroups.loop, List.length_cons, List.length_nil, Nat.reduceAdd,
      OfNat.ofNat_ne_zero, if_false, Join, String.append_assoc]
  · intro rest hok
    simp only [WhereGroups.Build, List.length_cons, Nat.add_one_ne_zero, if_false, hloop rest,
      whereGroups_loop_eq, hok, List.cons_append, List.nil_append]

/-- C27 at an empty AND-group followed by the OR-group of `id = 1`: the sequence builds to
`WHERE OR id = $1`. -/
theorem C27_operator_by_index_witness :
    ((NewWhereGroup AND).Build april2024 1).clause = "" ∧
    ((NewWhereGroup OR).Add (.fieldCondition (NewFieldCondition "id" Equals (.int 1)))).Build
        april2024 1 = ("id = $1", [.int 1], none) ∧
    emptyThenOr.Build april2024 1 = ("WHERE OR id = $1", [.int 1], none) :=
  ⟨by rfl, by rfl,
    (C27_operator_by_index (NewWhereGroup AND)
      ((NewWhereGroup OR).Add (.fieldCondition (NewFieldCondition "id" Equals (.int 1))))
      april2024 1 "id = $1" [.int 1] (by rfl) (by rfl) (by rfl) (by decide)).1.trans (by rfl)⟩

/-! ### The query builder -/

/-- A sequence that returns the empty fragment returns no argument. -/
theorem whereGroups_args_of_clause_empty (w : WhereGroups) (now : Time) (p : Int)
    (h : (w.Build now p).clause = "") : (w.Build now p).args = [] := by
  rw [whereGroups_Build_eq] at h ⊢
  cases hf : firstError (groupResults now p w.Groups) with
  | some e => rfl
  | none =>
    rw [hf] at h
    simp only at h ⊢
    split_ifs at h ⊢ with hl
    · rfl
    · exact absurd h (by
        simp only [BuildResult.clause]
        exact String_append_ne_empty_left _ _ (by decide))

/-- C29: `PostgresQueryBuilder.Build` joins with single spaces, in this order, the SELECT
fragment, the FROM fragment (when a table was set) and the WHERE fragment (when it is not
empty); the WHERE clause is built at paramOffset 1 and the returned args are the WHERE args;
when the SELECT build or the WHERE build fails, the result is the empty string, no args and
an error that wraps the inner one. -/
theorem C29_builder_build (b : PostgresQueryBuilder) (now : Time) :
    (∀ e : Error, b.query.SelectClause.Build.2 = some e →
      b.Build now = ("", [], some ("failed to build SELECT clause: " ++ e))) ∧
    (∀ sel : String, b.query.SelectClause.Build = (sel, none) →
      (∀ e : Error, (b.whereGroups.Build now 1).err = some e →
        b.Build now = ("", [], some ("failed to build WHERE clause: " ++ e))) ∧
      ((b.whereGroups.Build now 1).err = none →
        b.Build now
          = (Join (presentFragments sel b.query.FromClause (b.whereGroups.Build now 1).clause)
              " ", (b.whereGroups.Build now 1).args, none))) := by
  refine ⟨?_, ?_⟩
  · intro e he
    generalize hs : b.query.SelectClause.Build = s at he
    obtain ⟨sel, se⟩ := s
    simp only at he
    subst he
    simp only [PostgresQueryBuilder.Build, hs]
  · intro sel hsel
    have hargs := whereGroups_args_of_clause_empty b.whereGroups now 1
    generalize hw : b.whereGroups.Build now 1 = r at hargs
    obtain ⟨w, wargs, werr⟩ := r
    simp only [BuildResult.clause, BuildResult.args, BuildResult.err] at hargs ⊢
    refine ⟨?_, ?_⟩
    · intro e he
      subst he
      simp only [PostgresQueryBuilder.Build, hsel, List.length_nil, Nat.cast_zero, zero_add, hw]
    · intro he
      subst he
      simp only [PostgresQueryBuilder.Build, hsel, List.length_nil, Nat.cast_zero, zero_add, hw,
        presentFragments, List.nil_append]
      by_cases hwe : w = ""
      · rw [hargs hwe]
        simp only [hwe, ne_eq, not_true_eq_false, if_false, if_true, List.append_nil]
        cases b.query.FromClause <;> rfl
      · simp only [hwe, ne_eq, not_false_eq_true, if_true, if_false]
        cases b.query.FromClause <;> rfl

/-- C29 on a fresh builder with `From("t")` and no condition (`SELECT * FROM t`, no args), on
a builder whose SELECT clause has no field and on a builder whose WHERE clause fails. -/
theorem C29_builder_build_witness :
    (NewPostgresQueryBuilder.From "t").Build april2024 = ("SELECT * FROM t", [], none) ∧
    noFieldBuilder.Build april2024
      = ("", [], some "failed to build SELECT clause: no fields specified for select") ∧
    emptyInBuilder.Build april2024
      = ("", [], some
          "failed to build WHERE clause: empty slice provided for IN/NOT IN operator") :=
  ⟨(((C29_builder_build (NewPostgresQueryBuilder.From "t") april2024).2 "SELECT *" (by rfl)).2
      (by rfl)).trans (by rfl),
    ((C29_builder_build noFieldBuilder april2024).1 "no fields specified for select"
      (by rfl)).trans (by rfl),
    (((C29_builder_build emptyInBuilder april2024).2 "SELECT *" (by rfl)).1
      "empty slice provided for IN/NOT IN operator" (by rfl)).trans (by rfl)⟩

/-! ### Chains of `Where`, `And` and `Or` -/

/-- A group of one condition builds to what the condition builds to, when that is a
non-empty fragment. -/
theorem singleton_group_Build (c : QueryCondition) (op : LogicalOperator) (now : Time)
    (p : Int) (F : String) (a : List Value) (h : c.Build now p = (F, a, none)) (hF : F ≠ "") :
    ((NewWhereGroup op).Add c).Build now p = (F, a, none) := by
  simp only [WhereGroup.Build, NewWhereGroup, WhereGroup.Add, List.nil_append,
    List.length_singleton, one_ne_zero, if_false, WhereGroup.loop, List.length_nil,
    Nat.cast_zero, add_zero, h, ne_eq, hF, not_false_eq_true, if_true, WhereGroup.finish]

/-- A connector stores an empty group, `Where` then stores the group of its condition. -/
theorem chain_step_groups (b : PostgresQueryBuilder) (x : Connector × QueryCondition) :
    ((x.1.apply b).Where x.2).whereGroups.Groups = b.whereGroups.Groups ++ chainGroups x ∧
    ((x.1.apply b).Where x.2).query = b.query := by
  obtain ⟨o, c⟩ := x
  cases o <;>
    simp [Connector.apply, PostgresQueryBuilder.And, PostgresQueryBuilder.Or,
      PostgresQueryBuilder.Where, WhereGroups.Add, NewWhereGroup, WhereGroup.Add, chainGroups,
      Connector.keyword]

/-- The groups of the sequence after a chain. -/
theorem chain_groups (b : PostgresQueryBuilder) (rest : List (Connector × QueryCondition)) :
    (b.chain rest).whereGroups.Groups = b.whereGroups.Groups ++ rest.flatMap chainGroups ∧
    (b.chain rest).query = b.query := by
  induction rest generalizing b with
  | nil => simp [PostgresQueryBuilder.chain]
  | cons x rest ih =>
    obtain ⟨h1, h2⟩ := chain_step_groups b x
    obtain ⟨h3, h4⟩ := ih ((x.1.apply b).Where x.2)
    rw [PostgresQueryBuilder.chain, h3, h4, h1, h2, List.flatMap_cons, List.append_assoc]
    exact ⟨rfl, rfl⟩
/-- The loop of `WhereGroups.Build` over the groups of a chain, after the first group: every
condition that builds to a non-empty fragment contributes its connector and its fragment. -/
theorem chain_loop (now : Time) (p : Int) (rest : List (Connector × QueryCondition))
    (earlier : List BuildResult) (i : Nat) (clauses : List String) (args : List Value)
    (hok : ∀ r ∈ conditionResultsFrom now p (rest.map Prod.snd) earlier,
      r.err = none ∧ r.clause ≠ "") :
    WhereGroups.loop (rest.flatMap chainGroups) now (i + 1) (p + keptArgCount earlier)
        clauses args
      = .ok (clauses ++ ((rest.map Prod.fst).zip
            ((conditionResultsFrom now p (rest.map Prod.snd) earlier).map
              BuildResult.clause)).flatMap (fun x => [x.1.keyword, x.2]),
          args ++ allArgs (conditionResultsFrom now p (rest.map Prod.snd) earlier)) := by
  induction rest generalizing earlier i clauses args with
  | nil => simp [WhereGroups.loop, conditionResultsFrom, allArgs]
  | cons x rest ih =>
    obtain ⟨o, c⟩ := x
    simp only [List.map_cons, conditionResultsFrom, List.mem_cons, forall_eq_or_imp] at hok ⊢
    obtain ⟨⟨herr, hclause⟩, hrest⟩ := hok
    generalize hr : c.Build now (p + ↑(keptArgCount earlier)) = r at herr hclause hrest ⊢
    obtain ⟨F, a, e⟩ := r
    simp only [BuildResult.err, BuildResult.clause] at herr hclause
    subst herr
    have hempty : (NewWhereGroup o.keyword).Build now (p + ↑(keptArgCount earlier))
        = ("", [], none) := by
      simp [WhereGroup.Build, NewWhereGroup]
    have hone := singleton_group_Build c o.keyword now (p + ↑(keptArgCount earlier)) F a hr
      hclause
    have hoff : p + ↑(keptArgCount earlier) + ↑a.length
        = p + ↑(keptArgCount (earlier ++ [(F, a, none)])) := by
      rw [keptArgCount_append_singleton]
      simp only [BuildResult.clause, ne_eq, hclause, not_false_eq_true, if_true,
        BuildResult.args]
      omega
    have hop : ((NewWhereGroup o.keyword).Add c).Operator = o.keyword := rfl
    rw [List.flatMap_cons]
    simp only [chainGroups, List.cons_append, List.nil_append, WhereGroups.loop, hempty, hone,
      ne_eq, not_true_eq_false, if_false, hclause, not_false_eq_true, if_true,
      gt_iff_lt, Nat.zero_lt_succ, hoff, List.append_eq]
    rw [ih (earlier ++ [(F, a, none)]) (i + 1 + 1) _ _ hrest]
    simp only [hop, List.zip_cons_cons, List.flatMap_cons, List.append_assoc, List.cons_append,
      List.nil_append, allArgs, List.map_cons, List.flatten_cons, BuildResult.clause,
      BuildResult.args]
/-- When every fragment is non-empty the kept arguments are all the arguments. -/
theorem keptArgCount_eq_argCount (rs : List BuildResult) (h : ∀ r ∈ rs, r.clause ≠ "") :
    keptArgCount rs = argCount rs := by
  have hk : kept rs = rs := by
    simp only [kept, List.filter_eq_self]
    intro r hr
    simpa using h r hr
  simp only [keptArgCount, argCount, hk]

/-- C30, as amended: for every `n ≥ 1`, conditions `c_1..c_n` and connectors `o_2..o_n`, each `And()`
or `Or()`, whose conditions build without error to non-empty fragments, the chain
`Where(c_1), o_2, Where(c_2), ..., o_n, Where(c_n)` on a fresh builder builds the WHERE clause
`WHERE F_1 OP_2 F_2 ... OP_n F_n`, where `OP_i` is `AND` or `OR` according to `o_i` and `F_i`
is the fragment of `c_i` built at 1 + (the number of args of `c_1..c_{i-1}`); the args
returned are the args of `c_1..c_n` in order, and the query of the builder is `SELECT *`
followed by this clause. -/
theorem C30_where_chain (c1 : QueryCondition) (rest : List (Connector × QueryCondition))
    (now : Time)
    (hok : ∀ r ∈ conditionResults now 1 (c1 :: rest.map Prod.snd),
      r.err = none ∧ r.clause ≠ "") :
    (whereChain c1 rest).whereGroups.Build now 1
      = ("WHERE " ++ Join (chainPieces (rest.map Prod.fst)
            ((conditionResults now 1 (c1 :: rest.map Prod.snd)).map BuildResult.clause)) " ",
          allArgs (conditionResults now 1 (c1 :: rest.map Prod.snd)), none) ∧
    (whereChain c1 rest).Build now
      = ("SELECT * WHERE " ++ Join (chainPieces (rest.map Prod.fst)
            ((conditionResults now 1 (c1 :: rest.map Prod.snd)).map BuildResult.clause)) " ",
          allArgs (conditionResults now 1 (c1 :: rest.map Prod.snd)), none) ∧
    (∀ (i : Nat) (hi : i < (c1 :: rest.map Prod.snd).length),
      (conditionResults now 1 (c1 :: rest.map Prod.snd))[i]?
        = some (((c1 :: rest.map Prod.snd).get ⟨i, hi⟩).Build now
            (1 + argCount ((conditionResults now 1 (c1 :: rest.map Prod.snd)).take i)))) := by
  have hthird : ∀ (i : Nat) (hi : i < (c1 :: rest.map Prod.snd).length),
      (conditionResults now 1 (c1 :: rest.map Prod.snd))[i]?
        = some (((c1 :: rest.map Prod.snd).get ⟨i, hi⟩).Build now
            (1 + argCount ((conditionResults now 1 (c1 :: rest.map Prod.snd)).take i))) := by
    intro i hi
    have h := conditionResultsFrom_getElem now 1 (c1 :: rest.map Prod.snd) [] i hi
    have hk := keptArgCount_eq_argCount
      ((conditionResults now 1 (c1 :: rest.map Prod.snd)).take i)
      (fun r hr => (hok r (List.mem_of_mem_take hr)).2)
    rw [List.nil_append] at h
    rw [← hk]
    exact h
  have h0 : (1 : Int) + ↑(keptArgCount []) = 1 := by simp [keptArgCount, kept]
  simp only [conditionResults, conditionResultsFrom, h0, List.nil_append, List.mem_cons,
    forall_eq_or_imp] at hok
  obtain ⟨⟨herr, hclause⟩, hrest⟩ := hok
  have hW : (whereChain c1 rest).whereGroups.Build now 1
      = ("WHERE " ++ Join (chainPieces (rest.map Prod.fst)
            ((conditionResults now 1 (c1 :: rest.map Prod.snd)).map BuildResult.clause)) " ",
          allArgs (conditionResults now 1 (c1 :: rest.map Prod.snd)), none) := by
    simp only [conditionResults, conditionResultsFrom, h0, List.nil_append]
    generalize hr : c1.Build now 1 = r at herr hclause hrest ⊢
    obtain ⟨F, a, e⟩ := r
    simp only [BuildResult.err, BuildResult.clause] at herr hclause
    subst herr
    have hone := singleton_group_Build c1 AND now 1 F a hr hclause
    obtain ⟨hg, _⟩ := chain_groups (NewPostgresQueryBuilder.Where c1) rest
    have hg1 : (NewPostgresQueryBuilder.Where c1).whereGroups.Groups
        = [(NewWhereGroup AND).Add c1] := rfl
    have hoff : (1 : Int) + ↑a.length = 1 + ↑(keptArgCount [(F, a, none)]) := by
      have h := keptArgCount_append_singleton [] (F, a, none)
      simp only [List.nil_append, BuildResult.clause, ne_eq, hclause, not_false_eq_true,
        if_true, BuildResult.args] at h
      rw [h]
      simp [keptArgCount, kept]
    have hloop := chain_loop now 1 rest [(F, a, none)] 0 [F] a hrest
    simp only [zero_add] at hloop
    simp only [WhereGroups.Build, whereChain, hg, hg1, List.cons_append, List.nil_append,
      List.length_cons, Nat.add_one_ne_zero, if_false, WhereGroups.loop, hone, ne_eq, hclause,
      not_false_eq_true, if_true, gt_iff_lt, lt_self_iff_false, zero_add, hoff, hloop,
      chainPieces, List.map_cons, allArgs, List.flatten_cons, BuildResult.clause,
      BuildResult.args]
  refine ⟨hW, ?_, hthird⟩
  obtain ⟨_, hq⟩ := chain_groups (NewPostgresQueryBuilder.Where c1) rest
  have hq1 : (whereChain c1 rest).query = NewPostgresQueryBuilder.query := hq
  have hsel : NewPostgresQueryBuilder.query.SelectClause.Build = ("SELECT *", none) := rfl
  have hfrom : NewPostgresQueryBuilder.query.FromClause = none := rfl
  have hne : "WHERE " ++ Join (chainPieces (rest.map Prod.fst)
      ((conditionResults now 1 (c1 :: rest.map Prod.snd)).map BuildResult.clause)) " " ≠ "" :=
    String_append_ne_empty_left _ _ (by decide)
  simp only [PostgresQueryBuilder.Build, hq1, hsel, hfrom, List.length_nil, Nat.cast_zero,
    zero_add, hW, ne_eq, hne, not_false_eq_true, if_true, List.nil_append, List.cons_append,
    Join]
  rw [← String.append_assoc]
  rfl
set_option maxRecDepth 100000 in
/-- C30 on the chain of `buildBalanceSheetQuery` in April 2024, the second connector being
`Or()`: a year-to-date condition, `And()`, an IN condition over two values, `Or()`, an
equality condition. -/
theorem C30_where_chain_witness :
    (∀ r ∈ conditionResults april2024 1
        [.dateRangeCondition (NewDateRangeCondition { Typ := YTD }),
         .fieldCondition (NewFieldCondition "account_code" In
           (.slice [.str "1001", .str "1002"])),
         .fieldCondition (NewFieldCondition "is_active" Equals (.bool true))],
      r.err = none ∧ r.clause ≠ "") ∧
    (balanceSheetChain .or).Build april2024
      = ("SELECT * WHERE period_year = $1 AND period_month BETWEEN $2 AND $3 AND " ++
          "account_code IN ($4,$5) OR is_active = $6",
         [.int 2024, .int 1, .int 4, .str "1001", .str "1002", .bool true], none) :=
  ⟨by decide,
    (C30_where_chain (.dateRangeCondition (NewDateRangeCondition { Typ := YTD }))
      [(.and, .fieldCondition (NewFieldCondition "account_code" In
          (.slice [.str "1001", .str "1002"]))),
       (.or, .fieldCondition (NewFieldCondition "is_active" Equals (.bool true)))]
      april2024 (by decide)).2.1.trans (by rfl)⟩

set_option maxRecDepth 100000 in
/-- C30, a counterexample to the claim as worded: in the chain `Where(a = 1)`, `And()`,
`Where(g)`, `Or()`, `Where(b = 2)`, where `g` is a group without conditions, the second
fragment is empty, and `Build` skips it together with its operator: the query is
`SELECT * WHERE a = $1 OR b = $2`, not `SELECT * WHERE a = $1 AND  OR b = $2`. -/
theorem C30_counterexample :
    (QueryCondition.whereGroup [] AND true).Build april2024 2 = ("", [], none) ∧
    (whereChain (.fieldCondition (NewFieldCondition "a" Equals (.int 1)))
        [(.and, .whereGroup [] AND true),
         (.or, .fieldCondition (NewFieldCondition "b" Equals (.int 2)))]).Build april2024
      = ("SELECT * WHERE a = $1 OR b = $2", [.int 1, .int 2], none) ∧
    "SELECT * WHERE " ++ Join (chainPieces [.and, .or] ["a = $1", "", "b = $2"]) " "
      = "SELECT * WHERE a = $1 AND  OR b = $2" ∧
    ((whereChain (.fieldCondition (NewFieldCondition "a" Equals (.int 1)))
        [(.and, .whereGroup [] AND true),
         (.or, .fieldCondition (NewFieldCondition "b" Equals (.int 2)))]).Build
          april2024).clause
      ≠ "SELECT * WHERE " ++ Join (chainPieces [.and, .or] ["a = $1", "", "b = $2"]) " " := by
  refine ⟨by rfl, by rfl, by decide, ?_⟩
  decide

/-! ### Snapshots of groups -/

/-- The slots of an array after an `append` through another header: unchanged for a header
that is apart from it. -/
theorem read_after_append (m : Memory) (g h : SliceHeader) (c : Stored)
    (hh : m.Apart g h) : (m.append g c).1.read h = m.read h := by
  obtain ⟨⟨hlen, _⟩, hsep⟩ := hh
  unfold Memory.append
  split_ifs with hcap
  · simp only [Memory.read, Memory.slots]
    by_cases ha : h.array = g.array
    · have hle := hsep hcap ha
      rw [ha]
      by_cases hin : g.array < m.arrays.length
      · rw [List.getElem?_set_self hin]
        simp only [Option.getD_some, writeSlot, List.append_assoc]
        rw [List.take_append_of_le_length, List.take_take, min_eq_left hle]
        rw [List.length_take]
        simp only [Memory.slots, ha] at hlen
        omega
      · rw [List.set_eq_of_length_le (by omega)]
    · rw [List.getElem?_set_ne (fun e => ha e.symm)]
  · simp only [Memory.read, Memory.slots]
    by_cases hin : h.array < m.arrays.length
    · rw [List.getElem?_append_left hin]
    · have hnone : m.arrays[h.array]? = none := List.getElem?_eq_none (by omega)
      simp only [Memory.slots, hnone, Option.getD_none, List.length_nil,
        Nat.le_zero_eq] at hlen
      rw [hlen, List.take_zero, List.take_zero]

/-- The slots that a header apart from `g` shows are the same after `g.Add(c)`. -/
theorem read_after_Add (m : Memory) (a : Nat) (c : Stored) (g : WhereGroupStruct)
    (hg : m.groups[a]? = some g) (h : SliceHeader) (hh : m.Apart g.Conditions h) :
    (m.Add a c).read h = m.read h := by
  have e : (m.Add a c).read h = (m.append g.Conditions c).1.read h := by
    simp only [Memory.Add, hg, Memory.read, Memory.slots]
  rw [e, read_after_append m g.Conditions h c hh]

/-- The groups at the other addresses are the same after `g.Add(c)`. -/
theorem groups_after_Add (m : Memory) (a b : Nat) (c : Stored) (hb : b ≠ a) :
    (m.Add a c).groups[b]? = m.groups[b]? := by
  unfold Memory.Add
  cases hg : m.groups[a]? with
  | none => rfl
  | some g =>
    simp only []
    rw [List.getElem?_set_ne (fun e => hb e.symm)]

/-- A condition held by value is shown as it is. -/
theorem resolve_value (m : Memory) (fuel : Nat) (c : QueryCondition) :
    m.resolve fuel (.value c) = some c := by
  cases fuel <;> rfl

/-- What a slot shows is the same after `g.Add(c)` when it does not depend on `g`. -/
theorem resolve_after_Add (m : Memory) (a : Nat) (c : Stored) (g : WhereGroupStruct)
    (hg : m.groups[a]? = some g) (fuel : Nat) :
    ∀ x : Stored, m.Untouched a g.Conditions fuel x →
      (m.Add a c).resolve fuel x = m.resolve fuel x := by
  induction fuel with
  | zero =>
    intro x _
    cases x with
    | value v => rfl
    | pointer b => rfl
  | succ fuel ih =>
    intro x hx
    cases x with
    | value v => rfl
    | pointer b =>
      have hb := hx b (by simp [Memory.reach])
      simp only [Memory.resolve, groups_after_Add m a b c hb.1]
      cases hwg : m.groups[b]? with
      | none => rfl
      | some wg =>
        have hap := hb.2 wg (by rw [hwg]; rfl)
        simp only []
        rw [read_after_Add m a c g hg wg.Conditions hap]
        have hmap : (m.read wg.Conditions).map ((m.Add a c).resolve fuel)
            = (m.read wg.Conditions).map (m.resolve fuel) := by
          apply List.map_congr_left
          intro y hy
          apply ih
          intro b2 hb2
          apply hx
          simp only [Memory.reach, hwg, List.mem_cons, List.mem_flatMap]
          exact Or.inr ⟨y, hy, hb2⟩
        rw [hmap]

/-- The group a struct shows is the same after `g.Add(c)` when its header is apart from `g`
and its slots do not depend on `g`. -/
theorem value_after_Add (m : Memory) (a : Nat) (c : Stored) (g : WhereGroupStruct)
    (hg : m.groups[a]? = some g) (fuel : Nat) (h : WhereGroupStruct)
    (hh : m.Apart g.Conditions h.Conditions)
    (hx : ∀ x ∈ m.read h.Conditions, m.Untouched a g.Conditions fuel x) :
    h.value (m.Add a c) fuel = h.value m fuel := by
  simp only [WhereGroupStruct.value, read_after_Add m a c g hg h.Conditions hh]
  have hmap : (m.read h.Conditions).map ((m.Add a c).resolve fuel)
      = (m.read h.Conditions).map (m.resolve fuel) :=
    List.map_congr_left fun y hy => resolve_after_Add m a c g hg fuel y (hx y hy)
  rw [hmap]

/-- Go `(*WhereGroup).Add` through a pointer appends the condition to the slots that the
group shows. -/
theorem Add_read (m : Memory) (a : Nat) (c : Stored) (g : WhereGroupStruct)
    (hg : m.groups[a]? = some g) (hh : m.Holds g.Conditions) :
    (m.Add a c).read ((m.Add a c).group a).Conditions = m.read g.Conditions ++ [c] := by
  obtain ⟨hlen, halloc⟩ := hh
  have ha : a < m.groups.length := by
    by_contra hcon
    rw [List.getElem?_eq_none (by omega)] at hg
    cases hg
  simp only [Memory.group, Memory.Add, hg, List.getElem?_set_self ha, Option.getD_some,
    Memory.append]
  split_ifs with hcap
  · have hin := halloc hcap
    simp only [Memory.read, Memory.slots, List.getElem?_set_self hin, Option.getD_some,
      writeSlot, List.append_assoc]
    simp only [Memory.slots] at hlen
    rw [List.take_append_eq_append_take, List.take_take, List.length_take]
    have e1 : min (g.Conditions.len + 1) g.Conditions.len = g.Conditions.len := by omega
    have e2 : g.Conditions.len + 1
        - min g.Conditions.len ((m.arrays[g.Conditions.array]?).getD []).length = 1 := by omega
    rw [e1, e2]
    rfl
  · simp only [Memory.read, Memory.slots, List.getElem?_append_right (le_refl m.arrays.length),
      Nat.sub_self, List.getElem?_cons_zero, Option.getD_some]
    simp only [Memory.slots] at hlen
    rw [List.take_append_eq_append_take, List.length_take]
    have e2 : g.Conditions.len + 1
        - min g.Conditions.len ((m.arrays[g.Conditions.array]?).getD []).length = 1 := by omega
    rw [e2, List.take_take]
    have e1 : min (g.Conditions.len + 1) g.Conditions.len = g.Conditions.len := by omega
    rw [e1]
    rfl

/-- When all values of a list are present under `f` and `g` agrees with `f` wherever `f` has a
value, they are present under `g`, and the same. -/
theorem collect_map_of_agree {α β : Type} (f g : α → Option β) (xs : List α)
    (h : ∀ x ∈ xs, ∀ b, f x = some b → g x = some b) (bs : List β)
    (hc : collect (xs.map f) = some bs) : collect (xs.map g) = some bs := by
  induction xs generalizing bs with
  | nil => exact hc
  | cons x xs ih =>
    simp only [List.map_cons] at hc ⊢
    cases hf : f x with
    | none =>
      rw [hf] at hc
      simp only [collect] at hc
      cases hc
    | some b =>
      rw [hf] at hc
      rw [h x (List.mem_cons_self x xs) b hf]
      simp only [collect] at hc ⊢
      cases hrest : collect (xs.map f) with
      | none =>
        rw [hrest] at hc
        cases hc
      | some cs =>
        rw [hrest] at hc
        rw [ih (fun y hy => h y (List.mem_cons_of_mem x hy)) cs hrest]
        exact hc

/-- The fuel is a bound only: what a slot shows within `fuel` pointers it shows within
more. -/
theorem resolve_more_fuel (m : Memory) (fuel : Nat) :
    ∀ (x : Stored) (c : QueryCondition), m.resolve fuel x = some c →
      m.resolve (fuel + 1) x = some c := by
  induction fuel with
  | zero =>
    intro x c h
    cases x with
    | value v => exact h
    | pointer a => cases h
  | succ fuel ih =>
    intro x c h
    cases x with
    | value v => exact h
    | pointer a =>
      simp only [Memory.resolve] at h ⊢
      cases hwg : m.groups[a]? with
      | none =>
        rw [hwg] at h
        cases h
      | some wg =>
        rw [hwg] at h
        simp only [] at h ⊢
        cases hcol : collect ((m.read wg.Conditions).map (m.resolve fuel)) with
        | none =>
          rw [hcol] at h
          cases h
        | some cs =>
          rw [hcol] at h
          rw [collect_map_of_agree (m.resolve fuel) (m.resolve (fuel + 1)) _
            (fun y _ b hb => ih y b hb) cs hcol]
          exact h

/-- The result of `Build` in memory does not depend on the fuel, once there is enough of
it. -/
theorem Build_more_fuel (w : WhereGroupsStruct) (m : Memory) (fuel : Nat) (now : Time) (p : Int)
    (r : BuildResult) (h : w.Build m fuel now p = some r) :
    w.Build m (fuel + 1) now p = some r := by
  have hg : ∀ (g : WhereGroupStruct) (v : WhereGroup), g.value m fuel = some v →
      g.value m (fuel + 1) = some v := by
    intro g v hv
    simp only [WhereGroupStruct.value] at hv ⊢
    cases hcol : collect ((m.read g.Conditions).map (m.resolve fuel)) with
    | none =>
      rw [hcol] at hv
      cases hv
    | some cs =>
      rw [hcol] at hv
      rw [collect_map_of_agree (m.resolve fuel) (m.resolve (fuel + 1)) _
        (fun y _ b hb => resolve_more_fuel m fuel y b hb) cs hcol]
      exact hv
  simp only [WhereGroupsStruct.Build, WhereGroupsStruct.value] at h ⊢
  cases hcol : collect (w.Groups.map fun g => g.value m fuel) with
  | none =>
    rw [hcol] at h
    cases h
  | some gs =>
    rw [hcol] at h
    rw [collect_map_of_agree (fun g => g.value m fuel) (fun g => g.value m (fuel + 1)) _
      (fun g _ v hv => hg g v hv) gs hcol]
    exact h

set_option maxRecDepth 100000 in
/-- C28, counterexamples to the claim as worded. First, a pointer: `g` shows `a = 1`, the
group `outer` holds `g` as a condition, and the sequence holds a copy of `outer`. After
`s.Add(*g)` alone the sequence builds `WHERE a = $1 AND a = $2`; after
`s.Add(*g); g.Add(c = 3)` it builds `WHERE (a = $1 AND c = $2) AND a = $3`: the copy of
`outer` shows `g` through its pointer. Second, a shared array: `g` shows `a = 1`, `b = 2`,
`c = 3` in an array of capacity 4, and the sequence holds a copy `h` of `g` that was
extended by `d = 4`, written in the free slot of the shared array. After `s.Add(*g)` alone
the sequence builds `(a, b, c, d) AND (a, b, c)`; after `s.Add(*g); g.Add(e = 5)` it builds
`(a, b, c, e) AND (a, b, c)`: `g.Add` has written the slot that the first group shows. -/
theorem C28_counterexample :
    (outerSequence.Add (nestedPointer.group 0)).Build nestedPointer 2 april2024 1
      = some ("WHERE a = $1 AND a = $2", [.int 1, .int 1], none) ∧
    (outerSequence.Add (nestedPointer.group 0)).Build
        (nestedPointer.Add 0 (.value (equalsInt "c" 3))) 2 april2024 1
      = some ("WHERE (a = $1 AND c = $2) AND a = $3", [.int 1, .int 3, .int 1], none) ∧
    ((aliasedSequence.Add (copyExtended.group 0)).Build copyExtended 2 april2024 1).map
        BuildResult.clause
      = some ("WHERE (a = $1 AND b = $2 AND c = $3 AND d = $4) " ++
          "AND (a = $5 AND b = $6 AND c = $7)") ∧
    ((aliasedSequence.Add (copyExtended.group 0)).Build
        (copyExtended.Add 0 (.value (equalsInt "e" 5))) 2 april2024 1).map BuildResult.clause
      = some ("WHERE (a = $1 AND b = $2 AND c = $3 AND e = $4) " ++
          "AND (a = $5 AND b = $6 AND c = $7)") := by
  refine ⟨by rfl, by rfl, by rfl, by rfl⟩

/-- C28, as amended: `WhereGroups.Add` stores a copy of the struct of the group, not of the
array of its conditions and not of the groups that its slots point to. For every memory,
sequence `s`, group `g` (at the address `a`), condition `c` and paramOffset `p`, when no
group of the sequence, after `s.Add(*g)`, shows slots of the array of `g` beyond the length
of `g`, or leads through the pointers in its slots to `g` or to a group that shows such
slots, the result of `s.Build(p)` after `s.Add(*g); g.Add(c)` is the result of `s.Build(p)`
after `s.Add(*g)` alone: every group of the sequence, the copy of `g` included, shows the
same conditions, although `g` itself has received `c`. -/
theorem C28_snapshot (m : Memory) (s : WhereGroupsStruct) (a : Nat) (g : WhereGroupStruct)
    (c : Stored) (fuel : Nat) (now : Time) (p : Int)
    (hg : m.groups[a]? = some g)
    (hfree : ∀ h ∈ s.Groups ++ [g], m.Apart g.Conditions h.Conditions ∧
      ∀ x ∈ m.read h.Conditions, m.Untouched a g.Conditions fuel x) :
    (s.Add g).Build (m.Add a c) fuel now p = (s.Add g).Build m fuel now p ∧
    (s.Add g).value (m.Add a c) fuel = (s.Add g).value m fuel ∧
    (m.Add a c).read ((m.Add a c).group a).Conditions = m.read g.Conditions ++ [c] := by
  have hval : (s.Add g).value (m.Add a c) fuel = (s.Add g).value m fuel := by
    simp only [WhereGroupsStruct.value, WhereGroupsStruct.Add]
    have hmap : (s.Groups ++ [g]).map (fun h => h.value (m.Add a c) fuel)
        = (s.Groups ++ [g]).map (fun h => h.value m fuel) :=
      List.map_congr_left fun h hh =>
        value_after_Add m a c g hg fuel h (hfree h hh).1 (hfree h hh).2
    rw [hmap]
  refine ⟨?_, hval, Add_read m a c g hg (hfree g (by simp)).1.1⟩
  simp only [WhereGroupsStruct.Build, hval]

set_option maxRecDepth 100000 in
/-- C28, as amended, at a sequence that holds a copy of `outer`, whose slot points to
another group `q`, and a copy of `g`, a group of three conditions with capacity 4: `g.Add`
writes `e = 5` in place, in the array the copies share with `g`, and the sequence builds as
before. -/
theorem C28_snapshot_witness :
    ((threeGroups.Add 0 (.value (equalsInt "e" 5))).group 0).Conditions.array
      = (threeGroups.group 0).Conditions.array ∧
    (snapshotSequence.Add (threeGroups.group 0)).Build
        (threeGroups.Add 0 (.value (equalsInt "e" 5))) 2 april2024 1
      = (snapshotSequence.Add (threeGroups.group 0)).Build threeGroups 2 april2024 1 ∧
    (snapshotSequence.Add (threeGroups.group 0)).Build threeGroups 2 april2024 1
      = some ("WHERE x = $1 AND (a = $2 AND b = $3 AND c = $4) AND (a = $5 AND b = $6 AND c = $7)",
          [.int 9, .int 1, .int 2, .int 3, .int 1, .int 2, .int 3], none) :=
  ⟨by rfl,
    (C28_snapshot threeGroups snapshotSequence 0 (threeGroups.group 0)
      (.value (equalsInt "e" 5)) 2 april2024 1 (by rfl) (by decide)).1,
    by rfl⟩

/-! ### The aggregate select clause -/

/-- The fields of an `AggregateSelect` after a sequence of calls. -/
theorem foldl_calls (calls : List SelectCall) (a : AggregateSelect) :
    (calls.foldl SelectCall.apply a).regularFields = a.regularFields ++ regularsOf calls ∧
    (calls.foldl SelectCall.apply a).aggregates = a.aggregates ++ aggregatesOf calls := by
  induction calls generalizing a with
  | nil => simp [regularsOf, aggregatesOf]
  | cons c cs ih =>
    obtain ⟨h1, h2⟩ := ih (SelectCall.apply a c)
    rw [List.foldl_cons, h1, h2]
    cases c <;>
      simp [SelectCall.apply, AggregateSelect.AddRegularField, AggregateSelect.AddAggregate,
        regularsOf, aggregatesOf, List.filterMap_cons]

/-- The `for` loop of `AggregateSelect.Build` appends the rendered aggregates in order. -/
theorem foldl_render (aggs : List AggregateField) (fields : List String) :
    aggs.foldl (fun fields agg => fields ++ [agg.render]) fields
      = fields ++ aggs.map AggregateField.render := by
  induction aggs generalizing fields with
  | nil => simp
  | cons a as ih => rw [List.foldl_cons, ih, List.map_cons, List.append_assoc]; rfl

/-- C31: after any sequence of `AddRegularField` and `AddAggregate` calls, however
interleaved, `AggregateSelect.Build` returns `SELECT ` followed by the `, `-join of the
regular fields in the order they were added and then the aggregates in the order they were
added, an aggregate rendered as `FN(field) AS alias`, or `FN(field)` when the alias is
empty; it fails, with "no fields specified for select", if and only if no call was made. -/
theorem C31_aggregate_build (calls : List SelectCall) :
    (calls ≠ [] →
      (afterCalls calls).Build
        = ("SELECT " ++ Join (regularsOf calls ++ (aggregatesOf calls).map AggregateField.render)
            ", ", none)) ∧
    (calls = [] → (afterCalls calls).Build = ("", some "no fields specified for select")) ∧
    ((afterCalls calls).Build.2 ≠ none ↔ calls = []) ∧
    (∀ agg : AggregateField,
      (agg.Alias ≠ "" →
        agg.render = agg.Function ++ "(" ++ agg.Field ++ ") AS " ++ agg.Alias) ∧
      (agg.Alias = "" → agg.render = agg.Function ++ "(" ++ agg.Field ++ ")")) := by
  obtain ⟨h1, h2⟩ := foldl_calls calls NewAggregateSelect
  have hb : (afterCalls calls).Build
      = if (regularsOf calls ++ (aggregatesOf calls).map AggregateField.render).length = 0
        then ("", some "no fields specified for select")
        else ("SELECT " ++ Join (regularsOf calls
          ++ (aggregatesOf calls).map AggregateField.render) ", ", none) := by
    have h1b : (afterCalls calls).regularFields = regularsOf calls := h1
    have h2b : (afterCalls calls).aggregates = aggregatesOf calls := h2
    simp only [AggregateSelect.Build, h1b, h2b, foldl_render]
  have hlen : (regularsOf calls ++ (aggregatesOf calls).map AggregateField.render).length = 0
      ↔ calls = [] := by
    cases calls with
    | nil => simp [regularsOf, aggregatesOf]
    | cons c cs =>
      cases c <;> simp [regularsOf, aggregatesOf, List.filterMap_cons]
  refine ⟨?_, ?_, ?_, ?_⟩
  · intro hne
    rw [hb, if_neg (fun h => hne (hlen.mp h))]
  · intro he
    rw [hb, if_pos (hlen.mpr he)]
  · rw [hb]
    by_cases he : calls = []
    · simp [if_pos (hlen.mpr he), he]
    · simp [if_neg (fun h => he (hlen.mp h)), he]
  · intro agg
    constructor
    · intro h
      simp only [AggregateField.render, h, ne_eq, not_false_eq_true, if_true]
    · intro h
      simp only [AggregateField.render, h, ne_eq, not_true_eq_false, if_false]

/-- C31 on the calls of the test "Method Chaining", and on no call. -/
theorem C31_aggregate_build_witness :
    (afterCalls chainingCalls).Build
      = ("SELECT date, category, SUM(amount) AS total, COUNT(*) AS count", none) ∧
    (afterCalls []).Build = ("", some "no fields specified for select") :=
  ⟨((C31_aggregate_build chainingCalls).1 (List.cons_ne_nil _ _)).trans (by rfl),
    (C31_aggregate_build []).2.1 rfl⟩

/-! ### The number of parameters of a date-range condition -/

/-- What `DateRangeCondition.Build` returns for a resolved range. -/
theorem Build_of_range (d : DateRangeCondition) (now : Time) (p : Int) (s e : Time)
    (h : d.calculateDateRange now = (s, e, none)) :
    d.Build now p
      = if s.Year = e.Year then
          (singleYearFragment p, [.int s.Year, .int s.Month, .int e.Month], none)
        else
          (crossYearFragment p, [.int s.Year, .int s.Month, .int e.Year, .int e.Month],
            none) := by
  simp only [DateRangeCondition.Build, h, singleYearFragment, crossYearFragment]

/-- The year and the month of an instant that shows a date. -/
theorem Shows_year_month (t : Time) (y m d h mi s : Int) (ht : t.Shows y m d h mi s) :
    t.Year = y ∧ t.Month = m := by
  obtain ⟨_, hd, _⟩ := ht
  simp only [Time.Year, Time.Month, hd, and_self]

/-- The year and the month of the first instant of a month, whatever the month number. -/
theorem monthBegin_year_month (y m : Int) :
    (monthBegin y m).Year = (12 * y + (m - 1)) / 12 ∧
    (monthBegin y m).Month = (12 * y + (m - 1)) % 12 + 1 := by
  rw [monthBegin_normal]
  exact Shows_year_month _ _ _ _ _ _ _ (monthBegin_Shows _ _ (by omega) (by omega))

/-- The year and the month of the last second of a month, whatever the month number. -/
theorem monthEnd_year_month (y m : Int) :
    (monthEnd y m).Year = (12 * y + (m - 1)) / 12 ∧
    (monthEnd y m).Month = (12 * y + (m - 1)) % 12 + 1 := by
  rw [monthEnd_normal]
  exact Shows_year_month _ _ _ _ _ _ _ (monthEnd_Shows _ _ (by omega) (by omega))

/-- A range from the first instant of a month to the last second of a month builds to the
single-year form when the two months are in one year, to the cross-year form otherwise. -/
theorem Build_of_months (d : DateRangeCondition) (now : Time) (p : Int) (y m y2 m2 : Int)
    (h : d.calculateDateRange now = (monthBegin y m, monthEnd y2 m2, none)) :
    ((12 * y + (m - 1)) / 12 = (12 * y2 + (m2 - 1)) / 12 → IsSingleYearForm (d.Build now p) p) ∧
    ((12 * y + (m - 1)) / 12 ≠ (12 * y2 + (m2 - 1)) / 12 → IsCrossYearForm (d.Build now p) p) := by
  rw [Build_of_range d now p _ _ h, (monthBegin_year_month y m).1, (monthEnd_year_month y2 m2).1]
  constructor
  · intro he
    rw [if_pos he]
    exact ⟨rfl, rfl, rfl⟩
  · intro hne
    rw [if_neg hne]
    exact ⟨rfl, rfl, rfl⟩
/-- The last second of a quarter that starts in month `m` is the last second of month
`m + 2`. -/
theorem quarterEnd_eq_monthEnd (y m : Int) :
    ((monthBegin y m).AddDate 0 3 0).Add (-Second) = monthEnd y (m + 2) := by
  rw [monthBegin_AddDate, monthBegin_sec, monthEnd_sec]
  have e : 12 * y + (m + 3) - 1 = 12 * y + (m + 2) := by omega
  simp only [Time.Add, Second, e, Time.mk.injEq, and_true]
  omega

/-- The two forms exclude each other: they differ in the number of arguments. -/
theorem not_both_forms (r : BuildResult) (p : Int) (h1 : IsSingleYearForm r p)
    (h2 : IsCrossYearForm r p) : False := by
  have a := h1.2.1
  have b := h2.2.1
  omega

/-- In the calendar model: the number of parameters of a date-range condition. For CurrentMonth, YTD,
PreviousYear, QTD and PreviousQuarter, for BackMonth with any months value and for
SpecificMonth with any month and year, `Build` returns the single-year form with exactly 3
args, for every `now`; for TTM it returns the cross-year form with 4 args exactly when the
month of `now` is not December, and for MoM exactly when the month of `now` is January; in
the other months TTM and MoM return the single-year form. -/
theorem parameter_count_calendar (now : Time) (params : DateParameters) (p : Int) :
    (∀ ty ∈ [CurrentMonth, YTD, PreviousYear, QTD, PreviousQuarter],
      IsSingleYearForm
        ((NewDateRangeCondition { Typ := ty, Parameters := params }).Build now p) p) ∧
    (∀ k : Int, params.Months = some k →
      IsSingleYearForm
        ((NewDateRangeCondition { Typ := BackMonth, Parameters := params }).Build now p) p) ∧
    (∀ m y : Int, params.Month = some m → params.Year = some y →
      IsSingleYearForm
        ((NewDateRangeCondition { Typ := SpecificMonth, Parameters := params }).Build now p)
        p) ∧
    (IsCrossYearForm ((NewDateRangeCondition { Typ := TTM, Parameters := params }).Build now p) p
      ↔ currentMonth now ≠ 12) ∧
    (IsSingleYearForm ((NewDateRangeCondition { Typ := TTM, Parameters := params }).Build now p) p
      ↔ currentMonth now = 12) ∧
    (IsCrossYearForm ((NewDateRangeCondition { Typ := MoM, Parameters := params }).Build now p) p
      ↔ currentMonth now = 1) ∧
    (IsSingleYearForm ((NewDateRangeCondition { Typ := MoM, Parameters := params }).Build now p) p
      ↔ currentMonth now ≠ 1) := by
  obtain ⟨h1, h12⟩ := currentMonth_bounds now
  have hpq : 1 ≤ (previousQuarterOf now).1 ∧ (previousQuarterOf now).1 ≤ 4 := by
    simp only [previousQuarterOf]
    split_ifs <;> simp only [] <;> omega
  have hprev : Date (currentYear now - 1) 12 31 23 59 59 getJakartaLocation
      = monthEnd (currentYear now - 1) 12 := by
    rw [monthEnd_eq_Date _ _ (by decide) (by decide), daysIn_december]
    rfl
  have hTTM := Build_of_months (NewDateRangeCondition { Typ := TTM, Parameters := params }) now p
    (currentYear now) (currentMonth now + -11) (currentYear now) (currentMonth now)
    (by rw [calc_TTM, monthBegin_AddDate])
  have hMoM := Build_of_months (NewDateRangeCondition { Typ := MoM, Parameters := params }) now p
    (currentYear now) (currentMonth now - 1) (currentYear now) (currentMonth now)
    (by rw [calc_MoM])
  refine ⟨?_, ?_, ?_, ?_, ?_, ?_, ?_⟩
  · intro ty hty
    simp only [List.mem_cons, List.mem_singleton, List.not_mem_nil, or_false] at hty
    rcases hty with rfl | rfl | rfl | rfl | rfl
    · exact (Build_of_months _ now p _ _ _ _ (calc_CurrentMonth now params)).1 rfl
    · exact (Build_of_months _ now p _ _ _ _ (calc_YTD now params)).1 (by omega)
    · exact (Build_of_months _ now p (currentYear now - 1) 1 (currentYear now - 1) 12
        (by rw [calc_PreviousYear, hprev])).1 (by omega)
    · exact (Build_of_months _ now p _ _ _ _ (calc_QTD now params)).1 (by omega)
    · exact (Build_of_months _ now p (previousQuarterOf now).2
        (((previousQuarterOf now).1 - 1) * 3 + 1) (previousQuarterOf now).2
        (((previousQuarterOf now).1 - 1) * 3 + 1 + 2)
        (by rw [calc_PreviousQuarter, quarterEnd_eq_monthEnd])).1 (by omega)
  · intro k hk
    exact (Build_of_months _ now p (currentYear now) (currentMonth now + -k) (currentYear now)
      (currentMonth now + -k)
      (by rw [calc_BackMonth now params k hk, monthBegin_AddDate, monthBegin_def,
        ← monthEnd_def, ← monthBegin_def])).1 rfl
  · intro m y hm hy
    exact (Build_of_months _ now p y m y m (calc_SpecificMonth now params m y hm hy)).1 rfl
  · constructor
    · intro hc h
      exact not_both_forms _ p (hTTM.1 (by omega)) hc
    · intro h
      exact hTTM.2 (by omega)
  · constructor
    · intro hs
      by_contra h
      exact not_both_forms _ p hs (hTTM.2 (by omega))
    · intro h
      exact hTTM.1 (by omega)
  · constructor
    · intro hc
      by_contra h
      exact not_both_forms _ p (hMoM.1 (by omega)) hc
    · intro h
      exact hMoM.2 (by omega)
  · constructor
    · intro hs h
      exact not_both_forms _ p hs (hMoM.2 (by omega))
    · intro h
      exact hMoM.1 (by omega)

set_option maxRecDepth 100000 in
/-- The calendar model for TTM and MoM in April 2024, December 2024 and January 2024, and for BackMonth
with months = 3 in April 2024. -/
theorem parameter_count_calendar_example :
    IsCrossYearForm ((NewDateRangeCondition { Typ := TTM }).Build april2024 1) 1 ∧
    IsSingleYearForm ((NewDateRangeCondition { Typ := TTM }).Build decemberNow 1) 1 ∧
    IsCrossYearForm ((NewDateRangeCondition { Typ := MoM }).Build januaryNow 1) 1 ∧
    IsSingleYearForm ((NewDateRangeCondition { Typ := MoM }).Build april2024 1) 1 ∧
    IsSingleYearForm
      ((NewDateRangeCondition { Typ := BackMonth, Parameters := { Months := some 3 } }).Build
        april2024 1) 1 ∧
    (NewDateRangeCondition { Typ := TTM }).Build april2024 1
      = ("(period_year = $1 AND period_month >= $2) OR (period_year = $3 AND period_month <= $4)",
          [.int 2023, .int 5, .int 2024, .int 4], none) :=
  ⟨(parameter_count_calendar april2024 {} 1).2.2.2.1.mpr (by decide),
    (parameter_count_calendar decemberNow {} 1).2.2.2.2.1.mpr (by decide),
    (parameter_count_calendar januaryNow {} 1).2.2.2.2.2.1.mpr (by decide),
    (parameter_count_calendar april2024 {} 1).2.2.2.2.2.2.mpr (by decide),
    (parameter_count_calendar april2024 { Months := some 3 } 1).2.1 3 rfl,
    by rfl⟩

/-! ### Quarters side by side -/

/-- C39: for every instant `now`, the previous quarter ends where the current quarter
begins: the end of the PreviousQuarter range plus one second is the start of the QTD range
resolved at the same `now`; and the PreviousQuarter range is three calendar months long: its
start advanced by three months is its end plus one second. -/
theorem C39_quarters_adjacent (now : Time) (params params2 : DateParameters) :
    ((NewDateRangeCondition { Typ := PreviousQuarter, Parameters := params }).calculateDateRange
        now).2.1.Add Second
      = ((NewDateRangeCondition { Typ := QTD, Parameters := params2 }).calculateDateRange
        now).1 ∧
    ((NewDateRangeCondition { Typ := PreviousQuarter, Parameters := params }).calculateDateRange
        now).1.AddDate 0 3 0
      = ((NewDateRangeCondition { Typ := PreviousQuarter, Parameters := params }
          ).calculateDateRange now).2.1.Add Second ∧
    ((NewDateRangeCondition { Typ := PreviousQuarter, Parameters := params }).calculateDateRange
        now).2.2 = none ∧
    ((NewDateRangeCondition { Typ := QTD, Parameters := params2 }).calculateDateRange
        now).2.2 = none := by
  obtain ⟨h1, h12⟩ := currentMonth_bounds now
  rw [calc_PreviousQuarter, calc_QTD]
  refine ⟨?_, ?_, rfl, rfl⟩
  · show (((monthBegin (previousQuarterOf now).2
        (((previousQuarterOf now).1 - 1) * 3 + 1)).AddDate 0 3 0).Add (-Second)).Add Second
      = monthBegin (currentYear now) (((currentMonth now - 1) / 3 + 1 - 1) * 3 + 1)
    rw [monthBegin_AddDate, monthBegin_sec, monthBegin_sec]
    have e : 12 * (previousQuarterOf now).2 + (((previousQuarterOf now).1 - 1) * 3 + 1 + 3) - 1
        = 12 * currentYear now + (((currentMonth now - 1) / 3 + 1 - 1) * 3 + 1) - 1 := by
      simp only [previousQuarterOf]
      split_ifs <;> simp only [] <;> omega
    simp only [Time.Add, Second, e, Time.mk.injEq, and_true]
    omega
  · show (monthBegin (previousQuarterOf now).2
        (((previousQuarterOf now).1 - 1) * 3 + 1)).AddDate 0 3 0
      = (((monthBegin (previousQuarterOf now).2
        (((previousQuarterOf now).1 - 1) * 3 + 1)).AddDate 0 3 0).Add (-Second)).Add Second
    simp only [Time.Add, Second]
    have e : ∀ x : Int, x + -1 + 1 = x := fun x => by omega
    rw [e]

set_option maxRecDepth 100000 in
/-- C39 in April 2024 (the first quarter ends at 2024-03-31T23:59:59, the second begins at
2024-04-01T00:00:00) and in February 2024 (the fourth quarter of 2023 ends at
2023-12-31T23:59:59, the first of 2024 begins at 2024-01-01T00:00:00). -/
theorem C39_quarters_adjacent_witness :
    ((NewDateRangeCondition { Typ := PreviousQuarter }).calculateDateRange april2024).2.1
      = Date 2024 3 31 23 59 59 .Jakarta ∧
    ((NewDateRangeCondition { Typ := QTD }).calculateDateRange april2024).1
      = Date 2024 4 1 0 0 0 .Jakarta ∧
    ((NewDateRangeCondition { Typ := PreviousQuarter }).calculateDateRange februaryNow).2.1
      = Date 2023 12 31 23 59 59 .Jakarta ∧
    ((NewDateRangeCondition { Typ := QTD }).calculateDateRange februaryNow).1
      = Date 2024 1 1 0 0 0 .Jakarta ∧
    ((NewDateRangeCondition { Typ := PreviousQuarter }).calculateDateRange februaryNow).2.1.Add
        Second
      = ((NewDateRangeCondition { Typ := QTD }).calculateDateRange februaryNow).1 :=
  ⟨by decide, by decide, by decide, by decide, (C39_quarters_adjacent februaryNow {} {}).1⟩

/-! ### Empty groups and singleton wrappers -/

/-- The loop of `WhereGroup.Build` skips a group with no conditions. -/
theorem loop_insert_empty (xs ys : List QueryCondition) (op : LogicalOperator) (isNew : Bool)
    (now : Time) (p : Int) (clauses : List String) (args : List Value) :
    WhereGroup.loop (xs ++ .whereGroup [] op isNew :: ys) now p clauses args
      = WhereGroup.loop (xs ++ ys) now p clauses args := by
  induction xs generalizing clauses args with
  | nil =>
    simp only [List.nil_append, WhereGroup.loop, QueryCondition.Build, List.length_nil,
      if_true, ne_eq, not_true_eq_false, if_false]
  | cons c cs ih =>
    simp only [List.cons_append, WhereGroup.loop]
    generalize c.Build now (p + ↑args.length) = r
    obtain ⟨clause, condArgs, err⟩ := r
    cases err with
    | some e => rfl
    | none =>
      simp only []
      split_ifs
      · exact ih _ _
      · exact ih _ _

/-- C40: an empty `WhereGroup` is neutral inside a `WhereGroup`, and a singleton wrapper is
transparent. For every group `g`, position `i` and paramOffset `p`, inserting a group with
no conditions (of any operator) at position `i` of the conditions of `g` leaves `g.Build(p)`
unchanged: fragment, args and error; and a group whose only condition is a nested group `h`
builds to exactly `h.Build(p)`, whatever the operator of the outer group. -/
theorem C40_empty_neutral_singleton_transparent (g h : WhereGroup) (i : Nat)
    (op : LogicalOperator) (isNew : Bool) (now : Time) (p : Int) :
    ({ g with Conditions := g.Conditions.take i ++ .whereGroup [] op isNew
        :: g.Conditions.drop i } : WhereGroup).Build now p = g.Build now p ∧
    ({ Conditions := [h.toCondition], Operator := op, IsNew := isNew } : WhereGroup).Build now p
      = h.Build now p := by
  constructor
  · have hl := loop_insert_empty (g.Conditions.take i) (g.Conditions.drop i) op isNew now p [] []
    rw [List.take_append_drop] at hl
    simp only [WhereGroup.Build, hl, List.length_append, List.length_cons]
    by_cases hz : g.Conditions.length = 0
    · have hnil : g.Conditions = [] := List.length_eq_zero.mp hz
      simp [hnil, WhereGroup.loop, WhereGroup.finish]
    · rw [if_neg (by omega), if_neg hz]
  · have herr := whereGroup_err h now p
    have hempty := whereGroup_args_of_clause_empty h now p
    have hfail := whereGroup_Build_of_error h now p
    rw [← herr] at hfail
    rw [WhereGroup.Build]
    simp only [List.length_singleton, one_ne_zero, if_false, WhereGroup.loop,
      List.length_nil, Nat.cast_zero, add_zero, toCondition_Build, List.nil_append]
    generalize h.Build now p = r at herr hempty hfail ⊢
    obtain ⟨clause, hargs, err⟩ := r
    simp only [BuildResult.clause, BuildResult.args, BuildResult.err] at hempty hfail
    cases err with
    | some e => exact (hfail e rfl).symm
    | none =>
      by_cases hc : clause = ""
      · simp only [hc, ne_eq, not_true_eq_false, if_false, WhereGroup.finish, hempty hc]
      · simp only [hc, ne_eq, not_false_eq_true, if_true, WhereGroup.finish]

/-- C40 on the group `(column1 = $1 AND column2 > $2)`: with an empty OR-group inserted
between its two conditions, and wrapped alone in an OR-group. -/
theorem C40_empty_neutral_singleton_transparent_witness :
    ({ mixedGroup with Conditions := mixedGroup.Conditions.take 1 ++ .whereGroup [] OR true
        :: mixedGroup.Conditions.drop 1 } : WhereGroup).Build april2024 1
      = mixedGroup.Build april2024 1 ∧
    ({ Conditions := [mixedGroup.toCondition], Operator := OR, IsNew := true } : WhereGroup).Build
        april2024 1
      = mixedGroup.Build april2024 1 ∧
    mixedGroup.Build april2024 1
      = ("(column1 = $1 AND column2 > $2)", [.str "value1", .int 42], none) :=
  ⟨(C40_empty_neutral_singleton_transparent mixedGroup mixedGroup 1 OR true april2024 1).1,
    (C40_empty_neutral_singleton_transparent mixedGroup mixedGroup 1 OR true april2024 1).2,
    by rfl⟩

/-! ### `Where` after `Where`, and a connector before the first `Where` -/

/-- Once the current group is stored and its flag cleared, `Where` no longer changes the
sequence. -/
theorem wheres_stored (b : PostgresQueryBuilder) (cs : List QueryCondition)
    (hg : b.whereGroups.Groups.length ≠ 0) (hn : b.currentGroup.IsNew = false) :
    (b.wheres cs).whereGroups = b.whereGroups ∧ (b.wheres cs).query = b.query := by
  induction cs generalizing b with
  | nil => exact ⟨rfl, rfl⟩
  | cons c cs ih =>
    have hstep : (b.Where c).whereGroups = b.whereGroups ∧ (b.Where c).query = b.query ∧
        (b.Where c).currentGroup.IsNew = false := by
      simp only [PostgresQueryBuilder.Where, hg, if_false, WhereGroup.Add, hn,
        Bool.false_eq_true, and_self]
    obtain ⟨h1, h2, h3⟩ := hstep
    obtain ⟨h4, h5⟩ := ih (b.Where c) (by rw [h1]; exact hg) h3
    rw [PostgresQueryBuilder.wheres, h4, h5, h1, h2]
    exact ⟨rfl, rfl⟩

/-- C35, the divergence: after `Where(c_1), Where(c_2), ..., Where(c_n)` on a fresh builder,
`n ≥ 2`, the sequence holds two groups, `[c_1]` and `[c_1, c_2]`: `c_1` is there twice and
`c_3..c_n` are not there. On `id = 1`, `status = "active"`, `amount > 100` the query is
`SELECT * WHERE id = $1 AND (id = $2 AND status = $3)` with the args `[1, 1, "active"]`. -/
theorem C35_where_twice (c1 c2 : QueryCondition) (rest : List QueryCondition) :
    (NewPostgresQueryBuilder.wheres (c1 :: c2 :: rest)).whereGroups.Groups
      = [(NewWhereGroup AND).Add c1, ((NewWhereGroup AND).Add c1).Add c2] ∧
    (NewPostgresQueryBuilder.wheres threeConditions).Build april2024
      = ("SELECT * WHERE id = $1 AND (id = $2 AND status = $3)",
          [.int 1, .int 1, .str "active"], none) := by
  have hgroups : ((NewPostgresQueryBuilder.Where c1).Where c2).whereGroups.Groups
      = [(NewWhereGroup AND).Add c1, ((NewWhereGroup AND).Add c1).Add c2] := rfl
  have hflag : ((NewPostgresQueryBuilder.Where c1).Where c2).currentGroup.IsNew = false := rfl
  have h := wheres_stored ((NewPostgresQueryBuilder.Where c1).Where c2) rest
    (by rw [hgroups]; simp) hflag
  constructor
  · rw [PostgresQueryBuilder.wheres, PostgresQueryBuilder.wheres, h.1]
    exact hgroups
  · rfl

/-- C36, the divergence: a connector before the first `Where` stores an empty group at
index 0, so the group of the first condition is at index 1 and its operator is emitted: for
every connector `o` and condition `c` that builds at offset 1 to a non-empty fragment `F`,
the chain `o, Where(c)` on a fresh builder builds the clause `WHERE OP F`. `And()` and then
`Where(id = 1)` give `SELECT * WHERE AND id = $1`. -/
theorem C36_leading_connector (o : Connector) (c : QueryCondition) (now : Time) (F : String)
    (a : List Value) (hc : c.Build now 1 = (F, a, none)) (hF : F ≠ "") :
    ((o.apply NewPostgresQueryBuilder).Where c).whereGroups.Build now 1
      = ("WHERE " ++ o.keyword ++ " " ++ F, a, none) ∧
    (NewPostgresQueryBuilder.And.Where
        (.fieldCondition (NewFieldCondition "id" Equals (.int 1)))).Build april2024
      = ("SELECT * WHERE AND id = $1", [.int 1], none) := by
  constructor
  · have hg := (chain_step_groups NewPostgresQueryBuilder (o, c)).1
    have hg2 : ((o.apply NewPostgresQueryBuilder).Where c).whereGroups.Groups
        = [NewWhereGroup o.keyword, (NewWhereGroup o.keyword).Add c] := hg
    have hempty : (NewWhereGroup o.keyword).Build now 1 = ("", [], none) := by
      simp [WhereGroup.Build, NewWhereGroup]
    have hone := singleton_group_Build c o.keyword now 1 F a hc hF
    have hop : ((NewWhereGroup o.keyword).Add c).Operator = o.keyword := rfl
    simp only [WhereGroups.Build, hg2, List.length_cons, List.length_nil, Nat.reduceAdd,
      OfNat.ofNat_ne_zero, if_false, WhereGroups.loop, hempty, hone, ne_eq, not_true_eq_false,
      hF, not_false_eq_true, if_true, zero_add, gt_iff_lt, Nat.lt_one_iff, Nat.zero_lt_one,
      List.nil_append, List.cons_append, hop, Join, String.append_assoc]
  · rfl

/-- C36, the divergence, at `Or()` and then `Where(status = "active")`. -/
theorem C36_leading_connector_witness :
    (NewPostgresQueryBuilder.Or.Where
        (.fieldCondition (NewFieldCondition "status" Equals (.str "active")))
      ).whereGroups.Build april2024 1
      = ("WHERE OR status = $1", [.str "active"], none) :=
  (C36_leading_connector .or (.fieldCondition (NewFieldCondition "status" Equals
    (.str "active"))) april2024 "status = $1" [.str "active"] (by rfl) (by decide)).1.trans
    (by rfl)

/-! ### Shifting the parameter offset -/

theorem lex_dollar_char (st : ScanState) (cs : List Char) :
    lex st ('$' :: cs) = st.flush ++ lex .dollar cs := by
  cases st <;> simp only [lex, if_true]

theorem lex_idle_cons (c : Char) (cs : List Char) (hc : c ≠ '$') :
    lex .idle (c :: cs) = .char c :: lex .idle cs := by
  rw [lex, if_neg hc]
  by_cases hd : c.isDigit = true
  · rw [if_pos hd]
  · rw [if_neg hd]
    by_cases hm : c = '-'
    · rw [if_pos hm, hm]; rfl
    · rw [if_neg hm]; rfl

/-- A text without `$` is read as its characters. -/
theorem lex_idle_text (t rest : List Char) (ht : '$' ∉ t) :
    lex .idle (t ++ rest) = t.map Item.char ++ lex .idle rest := by
  induction t with
  | nil => rfl
  | cons c cs ih =>
    have hc : c ≠ '$' := fun h => ht (by simp [h])
    have hcs : '$' ∉ cs := fun h => ht (by simp [h])
    rw [List.cons_append, lex_idle_cons c _ hc, ih hcs]
    rfl

theorem lex_number_stop (neg : Bool) (n : Nat) (rest : List Char) (hr : NoLeadingDigit rest) :
    lex (.number neg n) rest
      = .placeholder (if neg then -(n : Int) else (n : Int)) :: lex .idle rest := by
  cases rest with
  | nil => simp [lex, ScanState.flush]
  | cons c cs =>
    have hd : c.isDigit = false := hr c (by simp)
    by_cases h1 : c = '$'
    · subst h1
      rw [lex_dollar_char, lex_dollar_char]
      rfl
    · rw [lex_idle_cons c cs h1]
      by_cases h2 : c = '-'
      · simp [lex, h1, hd, h2, ScanState.flush]
      · simp [lex, h1, hd, h2, ScanState.flush]

theorem lex_number_digit (neg : Bool) (n : Nat) (c : Char) (cs : List Char)
    (hc : c.isDigit = true) :
    lex (.number neg n) (c :: cs) = lex (.number neg (10 * n + digitValue c)) cs := by
  simp only [lex, if_neg (isDigit_ne_dollar c hc), hc, if_true]

theorem lex_dollar_digit (c : Char) (cs : List Char) (hc : c.isDigit = true) :
    lex .dollar (c :: cs) = lex (.number false (digitValue c)) cs := by
  simp only [lex, if_neg (isDigit_ne_dollar c hc), hc, if_true]

theorem lex_dollar_minus_digit (c : Char) (cs : List Char) (hc : c.isDigit = true) :
    lex .dollar ('-' :: c :: cs) = lex (.number true (digitValue c)) cs := by
  have h1 : ('-' : Char) ≠ '$' := by decide
  have h2 : ¬ (('-' : Char).isDigit = true) := by decide
  simp only [lex, if_neg h1, if_neg h2, if_neg (isDigit_ne_dollar c hc), hc, if_true]

theorem lex_number_digits (neg : Bool) (acc : Nat) (ds rest : List Char)
    (hds : ∀ c ∈ ds, c.isDigit = true) :
    lex (.number neg acc) (ds ++ rest)
      = lex (.number neg (ds.foldl (fun a c => 10 * a + digitValue c) acc)) rest := by
  induction ds generalizing acc with
  | nil => rfl
  | cons c cs ih =>
    have hc : c.isDigit = true := hds c (by simp)
    have hcs : ∀ c ∈ cs, c.isDigit = true := fun x hx => hds x (by simp [hx])
    rw [List.cons_append, lex_number_digit neg acc c _ hc, ih _ hcs, List.foldl_cons]

/-- A placeholder `$n` as `Sprintf` writes it is read back as the placeholder `n`. -/
theorem lex_placeholder (n : Int) (rest : List Char) (hr : NoLeadingDigit rest) :
    lex .idle ('$' :: (formatInt n).data ++ rest) = .placeholder n :: lex .idle rest := by
  rw [List.cons_append, lex_dollar_char]
  cases n with
  | ofNat m =>
    obtain ⟨c, cs, hdata, hc, hcs, hval⟩ := repr_spec m
    have hfmt : (formatInt (Int.ofNat m)).data = c :: cs := hdata
    rw [hfmt, List.cons_append, lex_dollar_digit c _ hc, lex_number_digits false _ cs rest hcs,
      hval, lex_number_stop _ _ _ hr]
    simp [ScanState.flush]
  | negSucc m =>
    obtain ⟨c, cs, hdata, hc, hcs, hval⟩ := repr_spec (m + 1)
    have hfmt : (formatInt (Int.negSucc m)).data = '-' :: c :: cs := by
      show ("-" ++ Nat.repr (m + 1)).data = _
      rw [String.data_append, hdata]
      rfl
    rw [hfmt, List.cons_append, List.cons_append, lex_dollar_minus_digit c _ hc,
      lex_number_digits true _ cs rest hcs, hval, lex_number_stop _ _ _ hr]
    simp [ScanState.flush, Int.negSucc_eq]

/-- Pieces that are read back as written are read back as written. -/
theorem lex_render (ps : List Piece) (h : Separated ps) :
    lex .idle (render ps) = ps.flatMap Piece.items := by
  induction ps with
  | nil => rfl
  | cons q qs ih =>
    cases q with
    | text t =>
      obtain ⟨ht, hqs⟩ := h
      show lex .idle (t.data ++ render qs) = _
      rw [lex_idle_text _ _ ht, ih hqs]
      rfl
    | placeholder n =>
      obtain ⟨hd, hqs⟩ := h
      show lex .idle ('$' :: (formatInt n).data ++ render qs) = _
      rw [lex_placeholder n _ hd, ih hqs]
      rfl

/-- The text of the shifted items of pieces is the text of the shifted pieces. -/
theorem text_shift_items (k : Int) (ps : List Piece) :
    ((ps.flatMap Piece.items).map (Item.shift k)).flatMap Item.text
      = render (ps.map (Piece.shift k)) := by
  induction ps with
  | nil => rfl
  | cons q qs ih =>
    simp only [List.flatMap_cons, List.map_append, List.flatMap_append, List.map_cons, render,
      ih]
    congr 1
    cases q with
    | text t =>
      simp only [Piece.items, Piece.shift, Piece.chars, List.map_map]
      induction t.data with
      | nil => rfl
      | cons c cs ihc =>
        simp only [List.map_cons, List.flatMap_cons, ihc, Function.comp, Item.shift, Item.text]
        rfl
    | placeholder n =>
      simp [Piece.items, Piece.shift, Piece.chars, Item.shift, Item.text]

/-- A shifted fragment is the result of `shiftPlaceholders`. -/
theorem Shifted_spec (k : Int) (a b : String) (h : Shifted k a b) :
    shiftPlaceholders k a = b := by
  obtain ⟨ps, hsep, ha, hb⟩ := h
  simp only [shiftPlaceholders]
  rw [← ha, lex_render ps hsep, text_shift_items, hb]
theorem NoLeadingDigit_append_of (x y : List Char) (hx : NoLeadingDigit x)
    (hy : NoLeadingDigit y) : NoLeadingDigit (x ++ y) := by
  cases x with
  | nil => exact hy
  | cons c cs =>
    intro d hd
    exact hx d (by simpa using hd)

theorem render_append (ps qs : List Piece) : render (ps ++ qs) = render ps ++ render qs := by
  simp only [render, List.flatMap_append]

theorem Separated_append (ps qs : List Piece) (hp : Separated ps) (hq : Separated qs)
    (hd : NoLeadingDigit (render qs)) : Separated (ps ++ qs) ∧
      (NoLeadingDigit (render ps) → NoLeadingDigit (render (ps ++ qs))) := by
  induction ps with
  | nil => exact ⟨hq, fun _ => hd⟩
  | cons q rest ih =>
    cases q with
    | text t =>
      obtain ⟨ht, hr⟩ := hp
      obtain ⟨h1, _⟩ := ih hr
      refine ⟨⟨ht, h1⟩, fun hx => ?_⟩
      rw [render_append]
      exact NoLeadingDigit_append_of _ _ hx hd
    | placeholder n =>
      obtain ⟨hn, hr⟩ := hp
      obtain ⟨h1, h2⟩ := ih hr
      refine ⟨⟨h2 hn, h1⟩, fun hx => ?_⟩
      rw [render_append]
      exact NoLeadingDigit_append_of _ _ hx hd

/-- A text without `$` is its own shift. -/
theorem Shifted_text (k : Int) (t : String) (ht : '$' ∉ t.data) : Shifted k t t :=
  ⟨[.text t], ⟨ht, trivial⟩, by simp [render, Piece.chars],
    by simp [render, Piece.chars, Piece.shift]⟩

/-- The placeholder `$n` shifted by `k` is `$(n+k)`. -/
theorem Shifted_placeholder (k n : Int) :
    Shifted k ("$" ++ formatInt n) ("$" ++ formatInt (n + k)) :=
  ⟨[.placeholder n], ⟨by simp [render, NoLeadingDigit], trivial⟩,
    by simp [render, Piece.chars, String.data_append],
    by simp [render, Piece.chars, Piece.shift, String.data_append]⟩

/-- Shifts compose under concatenation, when the second text does not start with a digit. -/
theorem Shifted_append (k : Int) (a b a2 b2 : String) (h1 : Shifted k a b)
    (h2 : Shifted k a2 b2) (hd : NoLeadingDigit a2.data) : Shifted k (a ++ a2) (b ++ b2) := by
  obtain ⟨ps, hps, ha, hb⟩ := h1
  obtain ⟨qs, hqs, ha2, hb2⟩ := h2
  refine ⟨ps ++ qs, (Separated_append ps qs hps hqs (by rw [ha2]; exact hd)).1, ?_, ?_⟩
  · rw [render_append, ha, ha2, String.data_append]
  · rw [List.map_append, render_append, hb, hb2, String.data_append]

/-- A text without `$` may be put before any shifted text. -/
theorem Shifted_text_append (k : Int) (t a b : String) (ht : '$' ∉ t.data)
    (h : Shifted k a b) : Shifted k (t ++ a) (t ++ b) := by
  obtain ⟨ps, hps, ha, hb⟩ := h
  refine ⟨.text t :: ps, ⟨ht, hps⟩, ?_, ?_⟩
  · show t.data ++ render ps = _
    rw [ha, String.data_append]
  · show t.data ++ render (ps.map (Piece.shift k)) = _
    rw [hb, String.data_append]

theorem render_shift_nil_iff (k : Int) (ps : List Piece) :
    render ps = [] ↔ render (ps.map (Piece.shift k)) = [] := by
  induction ps with
  | nil => simp [render]
  | cons q qs ih =>
    cases q with
    | text t =>
      show t.data ++ render qs = [] ↔ t.data ++ render (qs.map (Piece.shift k)) = []
      simp only [List.append_eq_nil, ih]
    | placeholder n =>
      show '$' :: _ = [] ↔ '$' :: _ = []
      simp

/-- A shifted text is empty exactly when the text is. -/
theorem Shifted_empty_iff (k : Int) (a b : String) (h : Shifted k a b) : a = "" ↔ b = "" := by
  obtain ⟨ps, _, ha, hb⟩ := h
  have key := render_shift_nil_iff k ps
  rw [ha, hb] at key
  constructor
  · intro h
    exact String.ext (key.mp (by rw [h]))
  · intro h
    exact String.ext (key.mpr (by rw [h]))

/-- Joined texts shift text by text, over a separator without `$` that starts with a
character other than a digit. -/
theorem Shifted_Join_cons (k : Int) (a b : String) (l l2 : List String) (sep : String)
    (c : Char) (cs : List Char) (hsep : sep.data = c :: cs) (hc : c.isDigit = false)
    (hfree : '$' ∉ sep.data) (hlen : l.length = l2.length) (hab : Shifted k a b)
    (hl : Shifted k (Join l sep) (Join l2 sep)) :
    Shifted k (Join (a :: l) sep) (Join (b :: l2) sep) := by
  cases l with
  | nil =>
    have : l2 = [] := List.length_eq_zero.mp hlen.symm
    subst this
    simpa [Join] using hab
  | cons x xs =>
    cases l2 with
    | nil => simp at hlen
    | cons y ys =>
      simp only [Join]
      rw [String.append_assoc, String.append_assoc]
      refine Shifted_append k _ _ _ _ hab (Shifted_text_append k sep _ _ hfree hl) ?_
      rw [String.data_append, hsep]
      exact NoLeadingDigit_cons c _ hc

theorem Shifted_inPlaceholders (k p : Int) (n : Nat) :
    Shifted k (Join (inPlaceholders p n) ",") (Join (inPlaceholders (p + k) n) ",") := by
  induction n generalizing p with
  | zero => exact Shifted_text k "" (by simp)
  | succ n ih =>
    rw [inPlaceholders_succ, inPlaceholders_succ]
    have h := ih (p + 1)
    have e : p + 1 + k = p + k + 1 := by ring
    rw [e] at h
    exact Shifted_Join_cons k _ _ _ _ "," ',' [] rfl (by decide) (by decide)
      (by simp [inPlaceholders]) (Shifted_placeholder k p) h

/-- A field condition without `$` in its field name and operator: the offset moves the
placeholders only. -/
theorem Shifted_fieldCondition (fc : FieldCondition) (p k : Int) (hf : '$' ∉ fc.Field.data)
    (ho : '$' ∉ fc.Operator.data) :
    (fc.Build (p + k)).err = (fc.Build p).err ∧ (fc.Build (p + k)).args = (fc.Build p).args ∧
    Shifted k (fc.Build p).clause (fc.Build (p + k)).clause := by
  unfold FieldCondition.Build
  by_cases h1 : fc.Operator = IsNull
  · simp only [if_pos h1, BuildResult.clause, BuildResult.args, BuildResult.err, true_and]
    exact Shifted_text k _ (by simp [String.data_append, hf])
  · by_cases h2 : fc.Operator = IsNotNull
    · simp only [if_neg h1, if_pos h2, BuildResult.clause, BuildResult.args, BuildResult.err,
        true_and]
      exact Shifted_text k _ (by simp [String.data_append, hf])
    · by_cases h3 : fc.Operator = In ∨ fc.Operator = NotIn
      · simp only [if_neg h1, if_neg h2, if_pos h3]
        cases hv : fc.Value.asSlice with
        | none => exact ⟨rfl, rfl, Shifted_text k "" (by simp)⟩
        | some values =>
          simp only []
          by_cases h0 : values.length = 0
          · rw [if_pos h0, if_pos h0]
            exact ⟨rfl, rfl, Shifted_text k "" (by simp)⟩
          · rw [if_neg h0, if_neg h0]
            refine ⟨rfl, rfl, ?_⟩
            simp only [BuildResult.clause]
            refine Shifted_append k _ _ ")" ")" ?_ (Shifted_text k ")" (by decide))
              (NoLeadingDigit_cons ')' [] (by decide))
            exact Shifted_text_append k _ _ _ (by simp [String.data_append, hf, ho])
              (Shifted_inPlaceholders k p values.length)
      · simp only [if_neg h1, if_neg h2, if_neg h3, BuildResult.clause, BuildResult.args,
          BuildResult.err, true_and]
        have e : (" $" : String) = " " ++ "$" := by decide
        rw [e, ← String.append_assoc, String.append_assoc _ "$", String.append_assoc _ "$"]
        exact Shifted_text_append k _ _ _ (by simp [String.data_append, hf, ho])
          (Shifted_placeholder k p)
/-- A text without `$` followed by a placeholder. -/
theorem Shifted_text_placeholder (k : Int) (pre : String) (n : Int) (hpre : '$' ∉ pre.data) :
    Shifted k (pre ++ "$" ++ formatInt n) (pre ++ "$" ++ formatInt (n + k)) := by
  rw [String.append_assoc, String.append_assoc]
  exact Shifted_text_append k pre _ _ hpre (Shifted_placeholder k n)

/-- Appending a text and a placeholder to a shifted text. -/
theorem Shifted_append_placeholder (k : Int) (a b pre : String) (n : Int)
    (hab : Shifted k a b) (hpre : '$' ∉ pre.data) (hstart : StartsText pre) :
    Shifted k (a ++ pre ++ "$" ++ formatInt n) (b ++ pre ++ "$" ++ formatInt (n + k)) := by
  have h := Shifted_append k a b _ _ hab (Shifted_text_placeholder k pre n hpre)
    (by
      have := NoLeadingDigit_append (pre ++ "$" ++ formatInt n) []
        (StartsText_append _ _ (StartsText_append _ _ hstart))
      simpa using this)
  simpa only [String.append_assoc] using h

/-- A date-range condition: the offset moves the placeholders only. -/
theorem Shifted_dateRange (d : DateRangeCondition) (now : Time) (p k : Int) :
    (d.Build now (p + k)).err = (d.Build now p).err ∧
    (d.Build now (p + k)).args = (d.Build now p).args ∧
    Shifted k (d.Build now p).clause (d.Build now (p + k)).clause := by
  unfold DateRangeCondition.Build
  generalize d.calculateDateRange now = r
  obtain ⟨startDate, endDate, err⟩ := r
  cases err with
  | some e => exact ⟨rfl, rfl, Shifted_text k "" (by simp)⟩
  | none =>
    have e1 : ("period_year = $" : String) = "period_year = " ++ "$" := by decide
    have e2 : (" AND period_month BETWEEN $" : String) = " AND period_month BETWEEN " ++ "$" := by
      decide
    have e3 : (" AND $" : String) = " AND " ++ "$" := by decide
    have e4 : ("(period_year = $" : String) = "(period_year = " ++ "$" := by decide
    have e5 : (" AND period_month >= $" : String) = " AND period_month >= " ++ "$" := by decide
    have e6 : (") OR (period_year = $" : String) = ") OR (period_year = " ++ "$" := by decide
    have e7 : (" AND period_month <= $" : String) = " AND period_month <= " ++ "$" := by decide
    have a1 : p + k + 1 = p + 1 + k := by ring
    have a2 : p + k + 2 = p + 2 + k := by ring
    have a3 : p + k + 3 = p + 3 + k := by ring
    simp only []
    by_cases hy : startDate.Year = endDate.Year
    · rw [if_pos hy, if_pos hy]
      refine ⟨rfl, rfl, ?_⟩
      simp only [BuildResult.clause]
      rw [e1, e2, e3, a1, a2]
      simp only [← String.append_assoc]
      exact Shifted_append_placeholder k _ _ " AND " (p + 2)
        (Shifted_append_placeholder k _ _ " AND period_month BETWEEN " (p + 1)
          (Shifted_text_placeholder k "period_year = " p (by decide))
          (by decide) ⟨' ', _, rfl, by decide⟩)
        (by decide) ⟨' ', _, rfl, by decide⟩
    · rw [if_neg hy, if_neg hy]
      refine ⟨rfl, rfl, ?_⟩
      simp only [BuildResult.clause]
      rw [e4, e5, e6, e7, a1, a2, a3]
      simp only [← String.append_assoc]
      exact Shifted_append k _ _ ")" ")"
        (Shifted_append_placeholder k _ _ " AND period_month <= " (p + 3)
          (Shifted_append_placeholder k _ _ ") OR (period_year = " (p + 2)
            (Shifted_append_placeholder k _ _ " AND period_month >= " (p + 1)
              (Shifted_text_placeholder k "(period_year = " p (by decide))
              (by decide) ⟨' ', _, rfl, by decide⟩)
            (by decide) ⟨')', _, rfl, by decide⟩)
          (by decide) ⟨' ', _, rfl, by decide⟩)
        (Shifted_text k ")" (by decide)) (NoLeadingDigit_cons ')' [] (by decide))

/-- The tail of `WhereGroup.Build` on shifted fragments. -/
theorem Shifted_finish (k : Int) (op : LogicalOperator) (fs fs2 : List String)
    (args : List Value) (hlen : fs.length = fs2.length)
    (h : Shifted k (Join fs (" " ++ op ++ " ")) (Join fs2 (" " ++ op ++ " "))) :
    Shifted k (WhereGroup.finish op fs args).clause (WhereGroup.finish op fs2 args).clause ∧
    (WhereGroup.finish op fs2 args).args = (WhereGroup.finish op fs args).args ∧
    (WhereGroup.finish op fs2 args).err = (WhereGroup.finish op fs args).err := by
  match fs, fs2, hlen, h with
  | [], [], _, h => exact ⟨h, rfl, rfl⟩
  | [f], [g], _, h => exact ⟨h, rfl, rfl⟩
  | a :: b :: rest, a2 :: b2 :: rest2, _, h =>
    refine ⟨?_, rfl, rfl⟩
    simp only [WhereGroup.finish, BuildResult.clause]
    exact Shifted_append k _ _ ")" ")" (Shifted_text_append k "(" _ _ (by decide) h)
      (Shifted_text k ")" (by decide)) (NoLeadingDigit_cons ')' [] (by decide))
  | [], _ :: _, hl, _ => simp at hl
  | _ :: _, [], hl, _ => simp at hl
  | [_], _ :: _ :: _, hl, _ => simp at hl
  | _ :: _ :: _, [_], hl, _ => simp at hl

theorem keptClauses_cons (r : BuildResult) (rs : List BuildResult) :
    keptClauses (r :: rs) = (if r.clause ≠ "" then [r.clause] else []) ++ keptClauses rs := by
  by_cases h : r.clause = "" <;> simp [keptClauses, kept, h]

theorem keptArgs_cons (r : BuildResult) (rs : List BuildResult) :
    keptArgs (r :: rs) = (if r.clause ≠ "" then r.args else []) ++ keptArgs rs := by
  by_cases h : r.clause = "" <;> simp [keptArgs, kept, h]

theorem firstError_cons (r : BuildResult) (rs : List BuildResult) :
    firstError (r :: rs) = (match r.err with
      | some e => some e
      | none => firstError rs) := rfl

mutual
/-- Every well-formed condition: the offset moves the placeholders only. -/
theorem Shifted_condition : (c : QueryCondition) → (now : Time) → (p k : Int) →
    c.WellFormed →
    (c.Build now (p + k)).err = (c.Build now p).err ∧
    (c.Build now (p + k)).args = (c.Build now p).args ∧
    Shifted k (c.Build now p).clause (c.Build now (p + k)).clause
  | .fieldCondition fc, now, p, k, hwf => by
    simp only [QueryCondition.WellFormed] at hwf
    simp only [QueryCondition.Build]
    exact Shifted_fieldCondition fc p k hwf.1 hwf.2
  | .dateRangeCondition d, now, p, k, _ => by
    simp only [QueryCondition.Build]
    exact Shifted_dateRange d now p k
  | .whereGroup conditions operator isNew, now, p, k, hwf => by
    simp only [QueryCondition.WellFormed] at hwf
    have hb := toCondition_Build ⟨conditions, operator, isNew⟩ now p
    have hb2 := toCondition_Build ⟨conditions, operator, isNew⟩ now (p + k)
    simp only [WhereGroup.toCondition] at hb hb2
    rw [hb, hb2, whereGroup_Build_eq, whereGroup_Build_eq]
    have hsep := separator_spec operator hwf.1
    obtain ⟨h1, h2, h3, h4⟩ := Shifted_conditions conditions now p k [] [] rfl
      (" " ++ operator ++ " ") ' ' _ hsep.1 (by decide) hsep.2 hwf.2
    simp only [conditionResults]
    rw [h1, h2]
    cases firstError (conditionResultsFrom now p conditions []) with
    | some e => exact ⟨rfl, rfl, Shifted_text k "" (by simp)⟩
    | none =>
      obtain ⟨g1, g2, g3⟩ := Shifted_finish k operator _ _
        (keptArgs (conditionResultsFrom now p conditions [])) h3 h4
      exact ⟨g3, g2, g1⟩
  | .other _, _, _, _, hwf => by
    simp only [QueryCondition.WellFormed] at hwf
/-- The results of well-formed conditions at two offsets: the same errors and arguments, and
the kept fragments, joined, shifted. -/
theorem Shifted_conditions : (cs : List QueryCondition) → (now : Time) → (p k : Int) →
    (earlier earlier2 : List BuildResult) → keptArgCount earlier = keptArgCount earlier2 →
    (sep : String) → (c0 : Char) → (cs0 : List Char) →
    sep.data = c0 :: cs0 → c0.isDigit = false → '$' ∉ sep.data → WellFormedList cs →
    firstError (conditionResultsFrom now (p + k) cs earlier2)
      = firstError (conditionResultsFrom now p cs earlier) ∧
    keptArgs (conditionResultsFrom now (p + k) cs earlier2)
      = keptArgs (conditionResultsFrom now p cs earlier) ∧
    (keptClauses (conditionResultsFrom now p cs earlier)).length
      = (keptClauses (conditionResultsFrom now (p + k) cs earlier2)).length ∧
    Shifted k (Join (keptClauses (conditionResultsFrom now p cs earlier)) sep)
      (Join (keptClauses (conditionResultsFrom now (p + k) cs earlier2)) sep)
  | [], now, p, k, earlier, earlier2, _, sep, c0, cs0, _, _, _, _ => by
    simp only [conditionResultsFrom, keptClauses, kept, List.filter_nil, List.map_nil, Join,
      keptArgs, true_and]
    exact Shifted_text k "" (by simp)
  | c :: cs, now, p, k, earlier, earlier2, hcount, sep, c0, cs0, hsep, hc0, hfree, hwf => by
    simp only [WellFormedList] at hwf
    simp only [conditionResultsFrom]
    have hoff : p + k + ↑(keptArgCount earlier2) = p + ↑(keptArgCount earlier) + k := by
      rw [hcount]
      ring
    rw [hoff]
    obtain ⟨he, ha, hs⟩ := Shifted_condition c now (p + keptArgCount earlier) k hwf.1
    have hiff := Shifted_empty_iff k _ _ hs
    have hcount2 : keptArgCount (earlier ++ [c.Build now (p + keptArgCount earlier)])
        = keptArgCount (earlier2 ++ [c.Build now (p + keptArgCount earlier + k)]) := by
      have e1 := keptArgCount_append_singleton earlier (c.Build now (p + keptArgCount earlier))
      have e2 := keptArgCount_append_singleton earlier2
        (c.Build now (p + keptArgCount earlier + k))
      rw [ha] at e2
      by_cases hcl : (c.Build now (p + keptArgCount earlier)).clause = ""
      · have hcl2 := hiff.mp hcl
        simp only [hcl, hcl2, ne_eq, not_true_eq_false, if_false, add_zero] at e1 e2
        omega
      · have hcl2 : ¬ (c.Build now (p + keptArgCount earlier + k)).clause = "" :=
          fun h => hcl (hiff.mpr h)
        simp only [hcl, hcl2, ne_eq, not_false_eq_true, if_true] at e1 e2
        omega
    obtain ⟨h1, h2, h3, h4⟩ := Shifted_conditions cs now p k
      (earlier ++ [c.Build now (p + keptArgCount earlier)])
      (earlier2 ++ [c.Build now (p + keptArgCount earlier + k)]) hcount2 sep c0 cs0 hsep hc0
      hfree hwf.2
    rw [firstError_cons, firstError_cons, keptArgs_cons, keptArgs_cons, keptClauses_cons,
      keptClauses_cons, he, ha, h1, h2]
    refine ⟨rfl, ?_, ?_, ?_⟩
    · by_cases hcl : (c.Build now (p + keptArgCount earlier)).clause = ""
      · simp only [hcl, hiff.mp hcl]
      · have hcl2 : ¬ (c.Build now (p + keptArgCount earlier + k)).clause = "" :=
          fun h => hcl (hiff.mpr h)
        simp only [hcl, hcl2, ne_eq, not_false_eq_true, if_true]
    · by_cases hcl : (c.Build now (p + keptArgCount earlier)).clause = ""
      · simp only [hcl, hiff.mp hcl, ne_eq, not_true_eq_false, if_false, List.nil_append, h3]
      · have hcl2 : ¬ (c.Build now (p + keptArgCount earlier + k)).clause = "" :=
          fun h => hcl (hiff.mpr h)
        simp only [hcl, hcl2, ne_eq, not_false_eq_true, if_true, List.singleton_append,
          List.length_cons, h3]
    · by_cases hcl : (c.Build now (p + keptArgCount earlier)).clause = ""
      · simp only [hcl, hiff.mp hcl, ne_eq, not_true_eq_false, if_false, List.nil_append]
        exact h4
      · have hcl2 : ¬ (c.Build now (p + keptArgCount earlier + k)).clause = "" :=
          fun h => hcl (hiff.mpr h)
        simp only [hcl, hcl2, ne_eq, not_false_eq_true, if_true, List.singleton_append]
        exact Shifted_Join_cons k _ _ _ _ sep c0 cs0 hsep hc0 hfree h3 hs h4
end

/-- The pieces of a sequence of well-formed groups at two offsets: the same errors and
arguments, and the pieces, joined, shifted. -/
theorem Shifted_groups (now : Time) (p k : Int) (gs : List WhereGroup)
    (earlier earlier2 : List BuildResult) (i : Nat) (hcount : argCount earlier = argCount earlier2)
    (hwf : ∀ g ∈ gs, g.WellFormed) :
    firstError (groupResultsFrom now (p + k) gs earlier2)
      = firstError (groupResultsFrom now p gs earlier) ∧
    allArgs (groupResultsFrom now (p + k) gs earlier2)
      = allArgs (groupResultsFrom now p gs earlier) ∧
    (sequencePiecesFrom i gs (groupResultsFrom now p gs earlier)).length
      = (sequencePiecesFrom i gs (groupResultsFrom now (p + k) gs earlier2)).length ∧
    Shifted k (Join (sequencePiecesFrom i gs (groupResultsFrom now p gs earlier)) " ")
      (Join (sequencePiecesFrom i gs (groupResultsFrom now (p + k) gs earlier2)) " ") := by
  induction gs generalizing earlier earlier2 i with
  | nil =>
    simp only [groupResultsFrom, sequencePiecesFrom, List.zip_nil_right, List.enumFrom_nil,
      List.filter_nil, List.flatMap_nil, Join, allArgs, true_and]
    exact Shifted_text k "" (by simp)
  | cons g gs ih =>
    have hg : g.WellFormed := hwf g (by simp)
    have hgs : ∀ x ∈ gs, x.WellFormed := fun x hx => hwf x (by simp [hx])
    simp only [groupResultsFrom]
    have hoff : p + k + ↑(argCount earlier2) = p + ↑(argCount earlier) + k := by
      rw [hcount]
      ring
    rw [hoff, sequencePiecesFrom_cons, sequencePiecesFrom_cons]
    have hc := Shifted_condition g.toCondition now (p + argCount earlier) k
      ((toCondition_WellFormed g).mpr hg)
    rw [toCondition_Build, toCondition_Build] at hc
    obtain ⟨he, ha, hs⟩ := hc
    have hiff := Shifted_empty_iff k _ _ hs
    have hcount2 : argCount (earlier ++ [g.Build now (p + argCount earlier)])
        = argCount (earlier2 ++ [g.Build now (p + argCount earlier + k)]) := by
      have e : ∀ (l : List BuildResult) (r : BuildResult),
          argCount (l ++ [r]) = argCount l + r.args.length := by
        intro l r
        simp [argCount]
      rw [e, e, ha, hcount]
    obtain ⟨h1, h2, h3, h4⟩ := ih (earlier ++ [g.Build now (p + argCount earlier)])
      (earlier2 ++ [g.Build now (p + argCount earlier + k)]) (i + 1) hcount2 hgs
    have hsp : (" " : String).data = ' ' :: [] := rfl
    rw [firstError_cons, firstError_cons, he, h1]
    refine ⟨rfl, ?_, ?_, ?_⟩
    · simp only [allArgs, List.map_cons, List.flatten_cons] at h2 ⊢
      rw [ha, h2]
    · by_cases hcl : (g.Build now (p + argCount earlier)).clause = ""
      · simp only [hcl, hiff.mp hcl, ne_eq, not_true_eq_false, if_false, List.nil_append, h3]
      · have hcl2 : ¬ (g.Build now (p + argCount earlier + k)).clause = "" :=
          fun h => hcl (hiff.mpr h)
        simp only [hcl, hcl2, ne_eq, not_false_eq_true, if_true, List.length_append, h3]
        split_ifs <;> simp
    · by_cases hcl : (g.Build now (p + argCount earlier)).clause = ""
      · simp only [hcl, hiff.mp hcl, ne_eq, not_true_eq_false, if_false, List.nil_append]
        exact h4
      · have hcl2 : ¬ (g.Build now (p + argCount earlier + k)).clause = "" :=
          fun h => hcl (hiff.mpr h)
        simp only [hcl, hcl2, ne_eq, not_false_eq_true, if_true]
        have hj := Shifted_Join_cons k _ _ _ _ " " ' ' [] hsp (by decide) (by decide) h3 hs h4
        by_cases hi : i > 0
        · simp only [hi, if_true, List.append_assoc, List.cons_append, List.nil_append]
          exact Shifted_Join_cons k g.Operator g.Operator _ _ " " ' ' [] hsp (by decide)
            (by decide) (by simp only [List.length_cons, h3]) (Shifted_text k g.Operator hg.1) hj
        · simp only [hi, if_false, List.nil_append, List.cons_append]
          exact hj

/-- C37: the paramOffset a caller chooses moves the placeholder numbers and nothing else. For
every sequence of groups whose leaves are field conditions (and date-range conditions) with
no `$` in their field names and operators, and for all offsets `p` and `k`, `Build(p)` and
`Build(p + k)` fail with the same error or succeed with the same args, and the fragment of
`Build(p + k)` is the fragment of `Build(p)` with every placeholder `$n` replaced by
`$(n + k)`; the same holds of every such condition and group built on its own. -/
theorem C37_offset_shift (w : WhereGroups) (c : QueryCondition) (now : Time) (p k : Int)
    (hw : ∀ g ∈ w.Groups, g.WellFormed) (hc : c.WellFormed) :
    ((w.Build now (p + k)).err = (w.Build now p).err ∧
      (w.Build now (p + k)).args = (w.Build now p).args ∧
      (w.Build now (p + k)).clause = shiftPlaceholders k (w.Build now p).clause) ∧
    ((c.Build now (p + k)).err = (c.Build now p).err ∧
      (c.Build now (p + k)).args = (c.Build now p).args ∧
      (c.Build now (p + k)).clause = shiftPlaceholders k (c.Build now p).clause) := by
  constructor
  · obtain ⟨h1, h2, h3, h4⟩ := Shifted_groups now p k w.Groups [] [] 0 rfl hw
    rw [whereGroups_Build_eq, whereGroups_Build_eq]
    simp only [groupResults, sequencePieces]
    rw [h1, h2, ← h3]
    cases firstError (groupResultsFrom now p w.Groups []) with
    | some e => exact ⟨rfl, rfl, (Shifted_spec k "" "" (Shifted_text k "" (by simp))).symm⟩
    | none =>
      simp only []
      split_ifs with hz
      · exact ⟨rfl, rfl, (Shifted_spec k "" "" (Shifted_text k "" (by simp))).symm⟩
      · exact ⟨rfl, rfl, (Shifted_spec k _ _
          (Shifted_text_append k "WHERE " _ _ (by decide) h4)).symm⟩
  · obtain ⟨h1, h2, h3⟩ := Shifted_condition c now p k hc
    exact ⟨h1, h2, (Shifted_spec k _ _ h3).symm⟩

set_option maxRecDepth 100000 in
/-- C37 at a sequence with an IN list, a nested group and a date-range condition, and at the
group `(id = $1 AND status = $2)`, for the offsets 1 and 1 + 10. -/
theorem C37_offset_shift_witness :
    (∀ g ∈ nestedSequence.Groups, g.WellFormed) ∧ scenario4Group.toCondition.WellFormed ∧
    (nestedSequence.Build april2024 (1 + 10)).clause
      = shiftPlaceholders 10 (nestedSequence.Build april2024 1).clause ∧
    (scenario4Group.toCondition.Build april2024 (1 + 10)).clause
      = shiftPlaceholders 10 (scenario4Group.toCondition.Build april2024 1).clause ∧
    (scenario4Group.toCondition.Build april2024 1).clause = "(id = $1 AND status = $2)" ∧
    shiftPlaceholders 10 "(id = $1 AND status = $2)" = "(id = $11 AND status = $12)" :=
  have hwf : ∀ g ∈ nestedSequence.Groups, g.WellFormed := by
    intro g hg
    simp only [nestedSequence, NewWhereGroups, WhereGroups.Add, List.nil_append,
      List.cons_append, List.mem_cons, List.mem_singleton, List.not_mem_nil, or_false] at hg
    rcases hg with rfl | rfl <;>
      simp only [WhereGroup.WellFormed, WellFormedList, QueryCondition.WellFormed,
        WhereGroup.toCondition, NewWhereGroup, WhereGroup.Add, NewFieldCondition,
        List.nil_append, List.cons_append, and_true] <;>
      decide
  have hc : scenario4Group.toCondition.WellFormed := by
    simp only [scenario4Group, WellFormedList, QueryCondition.WellFormed,
      WhereGroup.toCondition, NewWhereGroup, WhereGroup.Add, NewFieldCondition,
      List.nil_append, List.cons_append, and_true]
    decide
  ⟨hwf, hc,
    (C37_offset_shift nestedSequence scenario4Group.toCondition april2024 1 10 hwf hc).1.2.2,
    (C37_offset_shift nestedSequence scenario4Group.toCondition april2024 1 10 hwf hc).2.2.2,
    by rfl, by rfl⟩

/-! ### The rows that a date-range fragment selects -/

/-- The single-year fragment is written from its pieces. -/
theorem render_singleYear (p : Int) : render (singleYearPieces p) = (singleYearFragment p).data := by
  have e1 : ("period_year = $" : String) = "period_year = " ++ "$" := by decide
  have e2 : (" AND period_month BETWEEN $" : String) = " AND period_month BETWEEN " ++ "$" := by
    decide
  have e3 : (" AND $" : String) = " AND " ++ "$" := by decide
  unfold singleYearFragment singleYearPieces
  rw [e1, e2, e3]
  simp [render, Piece.chars, String.data_append]

/-- The cross-year fragment is written from its pieces. -/
theorem render_crossYear (p : Int) : render (crossYearPieces p) = (crossYearFragment p).data := by
  have e4 : ("(period_year = $" : String) = "(period_year = " ++ "$" := by decide
  have e5 : (" AND period_month >= $" : String) = " AND period_month >= " ++ "$" := by decide
  have e6 : (") OR (period_year = $" : String) = ") OR (period_year = " ++ "$" := by decide
  have e7 : (" AND period_month <= $" : String) = " AND period_month <= " ++ "$" := by decide
  unfold crossYearFragment crossYearPieces
  rw [e4, e5, e6, e7]
  simp [render, Piece.chars, String.data_append]

/-- The pieces of the single-year fragment are read back as written. -/
theorem Separated_singleYear (p : Int) : Separated (singleYearPieces p) := by
  refine ⟨by decide, ?_, by decide, ?_, by decide, ?_, trivial⟩
  · intro c hc
    simp [render, Piece.chars] at hc
    subst hc
    decide
  · intro c hc
    simp [render, Piece.chars] at hc
    subst hc
    decide
  · intro c hc
    simp [render] at hc

/-- The pieces of the cross-year fragment are read back as written. -/
theorem Separated_crossYear (p : Int) : Separated (crossYearPieces p) := by
  refine ⟨by decide, ?_, by decide, ?_, by decide, ?_, by decide, ?_, by decide, trivial⟩
  all_goals
    intro c hc
    simp [render, Piece.chars] at hc
    subst hc
    decide

/-- The single-year fragment denotes its predicate, whatever the offset. -/
theorem parse_singleYear (p : Int) :
    parsePredicate (singleYearFragment p) = some (singleYearPredicate p) := by
  have ht : tokens (singleYearFragment p)
      = [.word "period_year", .word "=", .placeholder p, .word "AND", .word "period_month",
          .word "BETWEEN", .placeholder (p + 1), .word "AND", .placeholder (p + 2)] := by
    unfold tokens
    rw [← render_singleYear, lex_render _ (Separated_singleYear p)]
    rfl
  unfold parsePredicate
  rw [ht]
  rfl

set_option maxRecDepth 100000 in
/-- The cross-year fragment denotes its predicate, whatever the offset. -/
theorem parse_crossYear (p : Int) :
    parsePredicate (crossYearFragment p) = some (crossYearPredicate p) := by
  have ht : tokens (crossYearFragment p)
      = [.lparen, .word "period_year", .word "=", .placeholder p, .word "AND",
          .word "period_month", .word ">=", .placeholder (p + 1), .rparen, .word "OR", .lparen,
          .word "period_year", .word "=", .placeholder (p + 2), .word "AND",
          .word "period_month", .word "<=", .placeholder (p + 3), .rparen] := by
    unfold tokens
    rw [← render_crossYear, lex_render _ (Separated_crossYear p)]
    rfl
  unfold parsePredicate
  rw [ht]
  rfl

/-- The argument of the placeholder `$(p + i)` is the argument of index `i`. -/
theorem argumentAt_add (args : List Value) (p : Int) (i : Nat) :
    argumentAt args p (p + i) = args[i]? := by
  unfold argumentAt
  rw [if_pos (by omega)]
  congr 1
  omega

/-- The argument of the placeholder `$p` is the first argument. -/
theorem argumentAt_self (args : List Value) (p : Int) : argumentAt args p p = args[0]? := by
  have h := argumentAt_add args p 0
  simpa using h

/-- The rows that the fragment of a date-range condition selects: within one year, the rows
of that year whose month lies between the two months; otherwise the rows of the start year
from the start month on and the rows of the end year up to the end month. -/
theorem fragmentHolds_of_range (d : DateRangeCondition) (now : Time) (p : Int) (s e : Time)
    (h : d.calculateDateRange now = (s, e, none)) (y m : Int) :
    fragmentHolds (d.Build now p).clause (d.Build now p).args p (periodRow y m)
      = if s.Year = e.Year then some (decide (y = s.Year ∧ s.Month ≤ m ∧ m ≤ e.Month))
        else some (decide ((y = s.Year ∧ s.Month ≤ m) ∨ (y = e.Year ∧ m ≤ e.Month))) := by
  have a1 := argumentAt_add
  have a0 := argumentAt_self
  rw [Build_of_range d now p s e h]
  by_cases hy : s.Year = e.Year
  · rw [if_pos hy, if_pos hy]
    simp only [BuildResult.clause, BuildResult.args, fragmentHolds, parse_singleYear,
      singleYearPredicate, Predicate.eval, periodRow]
    have e1 : argumentAt [Value.int s.Year, .int s.Month, .int e.Month] p (p + 1)
        = some (.int s.Month) := a1 _ p 1
    have e2 : argumentAt [Value.int s.Year, .int s.Month, .int e.Month] p (p + 2)
        = some (.int e.Month) := a1 _ p 2
    have e0 : argumentAt [Value.int s.Year, .int s.Month, .int e.Month] p p
        = some (.int s.Year) := a0 _ p
    rw [e0, e1, e2]
    simp [compareValues]
  · rw [if_neg hy, if_neg hy]
    simp only [BuildResult.clause, BuildResult.args, fragmentHolds, parse_crossYear,
      crossYearPredicate, Predicate.eval, periodRow]
    have e0 : argumentAt [Value.int s.Year, .int s.Month, .int e.Year, .int e.Month] p p
        = some (.int s.Year) := a0 _ p
    have e1 : argumentAt [Value.int s.Year, .int s.Month, .int e.Year, .int e.Month] p (p + 1)
        = some (.int s.Month) := a1 _ p 1
    have e2 : argumentAt [Value.int s.Year, .int s.Month, .int e.Year, .int e.Month] p (p + 2)
        = some (.int e.Year) := a1 _ p 2
    have e3 : argumentAt [Value.int s.Year, .int s.Month, .int e.Year, .int e.Month] p (p + 3)
        = some (.int e.Month) := a1 _ p 3
    rw [e0, e1, e2, e3]
    simp [compareValues]

/-- C33: for every date-range condition whose range resolves without error at `now` to a
start and an end with the end in the start's year or in the year after, built at any
offset `p`, the emitted predicate, evaluated with the returned arguments on a row
(period_year, period_month) = (y, m), is true exactly when
(start year, start month) ≤ (y, m) ≤ (end year, end month) in the lexicographic order. -/
theorem C33_range_within_two_years (d : DateRangeCondition) (now : Time) (p : Int)
    (s e : Time) (h : d.calculateDateRange now = (s, e, none))
    (hy : e.Year = s.Year ∨ e.Year = s.Year + 1) (y m : Int) :
    fragmentHolds (d.Build now p).clause (d.Build now p).args p (periodRow y m)
      = some (decide (monthLE (s.Year, s.Month) (y, m) ∧ monthLE (y, m) (e.Year, e.Month))) := by
  rw [fragmentHolds_of_range d now p s e h y m]
  by_cases hsame : s.Year = e.Year
  · rw [if_pos hsame]
    congr 1
    rw [decide_eq_decide]
    simp only [monthLE]
    constructor
    · rintro ⟨h1, h2, h3⟩
      exact ⟨Or.inr ⟨h1.symm, h2⟩, Or.inr ⟨by omega, h3⟩⟩
    · rintro ⟨h1, h2⟩
      omega
  · rw [if_neg hsame]
    congr 1
    rw [decide_eq_decide]
    simp only [monthLE]
    constructor
    · intro h1
      omega
    · rintro ⟨h1, h2⟩
      omega

set_option maxRecDepth 100000 in
/-- C33 for TTM in April 2024, which runs from May 2023 to April 2024: June 2023 and
April 2024 are selected, April 2023 and May 2024 are not. -/
theorem C33_range_within_two_years_witness :
    (NewDateRangeCondition { Typ := TTM }).calculateDateRange april2024
      = (Date 2023 5 1 0 0 0 .Jakarta, Date 2024 4 30 23 59 59 .Jakarta, none) ∧
    fragmentHolds ((NewDateRangeCondition { Typ := TTM }).Build april2024 1).clause
      ((NewDateRangeCondition { Typ := TTM }).Build april2024 1).args 1 (periodRow 2023 6)
      = some true ∧
    fragmentHolds ((NewDateRangeCondition { Typ := TTM }).Build april2024 1).clause
      ((NewDateRangeCondition { Typ := TTM }).Build april2024 1).args 1 (periodRow 2024 4)
      = some true ∧
    fragmentHolds ((NewDateRangeCondition { Typ := TTM }).Build april2024 1).clause
      ((NewDateRangeCondition { Typ := TTM }).Build april2024 1).args 1 (periodRow 2023 4)
      = some false ∧
    fragmentHolds ((NewDateRangeCondition { Typ := TTM }).Build april2024 1).clause
      ((NewDateRangeCondition { Typ := TTM }).Build april2024 1).args 1 (periodRow 2024 5)
      = some false :=
  ⟨by decide,
    (C33_range_within_two_years (NewDateRangeCondition { Typ := TTM }) april2024 1
      (Date 2023 5 1 0 0 0 .Jakarta) (Date 2024 4 30 23 59 59 .Jakarta) (by decide)
      (Or.inr (by decide)) 2023 6).trans (by decide),
    (C33_range_within_two_years (NewDateRangeCondition { Typ := TTM }) april2024 1
      (Date 2023 5 1 0 0 0 .Jakarta) (Date 2024 4 30 23 59 59 .Jakarta) (by decide)
      (Or.inr (by decide)) 2024 4).trans (by decide),
    (C33_range_within_two_years (NewDateRangeCondition { Typ := TTM }) april2024 1
      (Date 2023 5 1 0 0 0 .Jakarta) (Date 2024 4 30 23 59 59 .Jakarta) (by decide)
      (Or.inr (by decide)) 2023 4).trans (by decide),
    (C33_range_within_two_years (NewDateRangeCondition { Typ := TTM }) april2024 1
      (Date 2023 5 1 0 0 0 .Jakarta) (Date 2024 4 30 23 59 59 .Jakarta) (by decide)
      (Or.inr (by decide)) 2024 5).trans (by decide)⟩

set_option maxRecDepth 100000 in
/-- C32, the divergence: the SpecificRange from January 2022 to December 2024 resolves to
that range and is built in the cross-year form, whose predicate names the start year and
the end year only; every row of 2023 lies between the start and the end, and the predicate
is false on it, at every offset. -/
theorem C32_middle_year_rejected (now : Time) (p m : Int) :
    (NewDateRangeCondition { Typ := SpecificRange, Parameters := threeYears }
      ).calculateDateRange now
      = (Date 2022 1 1 0 0 0 .Jakarta, Date 2024 12 31 23 59 59 .Jakarta, none) ∧
    (NewDateRangeCondition { Typ := SpecificRange, Parameters := threeYears }).Build now p
      = (crossYearFragment p, [.int 2022, .int 1, .int 2024, .int 12], none) ∧
    monthLE (2022, 1) (2023, m) ∧ monthLE (2023, m) (2024, 12) ∧
    fragmentHolds
      ((NewDateRangeCondition { Typ := SpecificRange, Parameters := threeYears }).Build now
        p).clause
      ((NewDateRangeCondition { Typ := SpecificRange, Parameters := threeYears }).Build now
        p).args p (periodRow 2023 m) = some false := by
  have hc : (NewDateRangeCondition { Typ := SpecificRange, Parameters := threeYears }
      ).calculateDateRange now
      = (Date 2022 1 1 0 0 0 .Jakarta, Date 2024 12 31 23 59 59 .Jakarta, none) := by
    rw [calc_SpecificRange now threeYears { Month := 1, Year := 2022 }
      { Month := 12, Year := 2024 } rfl rfl]
    decide
  have hs : (Date 2022 1 1 0 0 0 .Jakarta).Year = 2022 := by decide
  have hsm : (Date 2022 1 1 0 0 0 .Jakarta).Month = 1 := by decide
  have he : (Date 2024 12 31 23 59 59 .Jakarta).Year = 2024 := by decide
  have hem : (Date 2024 12 31 23 59 59 .Jakarta).Month = 12 := by decide
  refine ⟨hc, ?_, Or.inl (show (2022 : Int) < 2023 by decide),
    Or.inl (show (2023 : Int) < 2024 by decide), ?_⟩
  · rw [Build_of_range _ now p _ _ hc, hs, hsm, he, hem]
    rfl
  · rw [fragmentHolds_of_range _ now p _ _ hc 2023 m, hs, hsm, he, hem]
    simp

/-! ### The cross-year fragment under `AND` -/

set_option maxRecDepth 100000 in
/-- C34, the divergence: in April 2024 the TTM condition builds the cross-year fragment,
which has an `" OR "` at parenthesis depth 0 and is not enclosed in one pair of
parentheses, so it is not safe under `AND`. The AND-group of this condition and
`status = "active"` joins the two fragments as they are; on a row of June 2023 whose status
is "inactive" the date fragment is true and the field fragment is false, yet the fragment
of the group is true: `AND` binds the field condition to the second disjunct only. -/
theorem C34_cross_year_under_and :
    ((NewDateRangeCondition { Typ := TTM }).Build april2024 1).clause
      = "(period_year = $1 AND period_month >= $2) OR (period_year = $3 AND period_month <= $4)" ∧
    hasTopLevelOr ((NewDateRangeCondition { Typ := TTM }).Build april2024 1).clause = true ∧
    enclosed ((NewDateRangeCondition { Typ := TTM }).Build april2024 1).clause = false ∧
    ¬ SafeUnderAnd ((NewDateRangeCondition { Typ := TTM }).Build april2024 1).clause ∧
    datedGroup.Build april2024 1
      = ("((period_year = $1 AND period_month >= $2) OR (period_year = $3 AND period_month <= $4) AND status = $5)",
          [.int 2023, .int 5, .int 2024, .int 4, .str "active"], none) ∧
    fragmentHolds ((NewDateRangeCondition { Typ := TTM }).Build april2024 1).clause
      ((NewDateRangeCondition { Typ := TTM }).Build april2024 1).args 1 inactiveRow
      = some true ∧
    fragmentHolds ((NewFieldCondition "status" Equals (.str "active")).Build 5).clause
      ((NewFieldCondition "status" Equals (.str "active")).Build 5).args 5 inactiveRow
      = some false ∧
    fragmentHolds (datedGroup.Build april2024 1).clause (datedGroup.Build april2024 1).args 1
      inactiveRow = some true := by
  have h1 : hasTopLevelOr ((NewDateRangeCondition { Typ := TTM }).Build april2024 1).clause
      = true := by decide
  have h2 : enclosed ((NewDateRangeCondition { Typ := TTM }).Build april2024 1).clause
      = false := by decide
  refine ⟨by decide, h1, h2, ?_, by rfl, by decide, by decide, by decide⟩
  rintro (h | h)
  · rw [h1] at h
    exact Bool.noConfusion h
  · rw [h2] at h
    exact Bool.noConfusion h

/-! ### The machine integers and the calendar model -/

/-- A value in the range of `int64` is not changed by the conversion. -/
theorem machine_int64_of_range (x : Int) (h1 : -9223372036854775808 ≤ x)
    (h2 : x < 9223372036854775808) : Machine.int64 x = x := by
  unfold Machine.int64
  omega

/-- A value in the range of `uint64` is not changed by the conversion. -/
theorem machine_uint64_of_range (x : Int) (h1 : 0 ≤ x) (h2 : x < 18446744073709551616) :
    Machine.uint64 x = x := by
  unfold Machine.uint64
  omega

/-- Go `norm` with base 12 on machine integers, away from the ends of the range. -/
theorem machine_norm_twelve (hi lo : Int)
    (hhi : -4611686018427387904 ≤ hi ∧ hi ≤ 4611686018427387904)
    (hlo : -4611686018427387905 ≤ lo ∧ lo ≤ 4611686018427387905) :
    Machine.norm hi lo 12 = (hi + lo / 12, lo % 12) := by
  unfold Machine.norm Machine.int64
  by_cases h : lo < 0
  · simp only [h, if_true]
    rw [if_neg (by omega)]
    refine Prod.ext ?_ ?_ <;> simp only [] <;> omega
  · simp only [h, if_false]
    by_cases h2 : lo ≥ 12
    · simp only [h2, if_true]
      refine Prod.ext ?_ ?_ <;> simp only [] <;> omega
    · simp only [h2, if_false]
      refine Prod.ext ?_ ?_ <;> simp only [] <;> omega

/-- Go `norm` on machine integers leaves a normal pair as it is. -/
theorem machine_norm_of_range (hi lo base : Int) (h0 : 0 ≤ lo) (h1 : lo < base) :
    Machine.norm hi lo base = (hi, lo) := by
  have a : ¬ lo < 0 := by omega
  have b : ¬ lo ≥ base := by omega
  simp only [Machine.norm, a, b, if_false]

/-- From the last transition on, Jakarta is at UTC+7. -/
theorem machine_lookup_late (sec : Int) (h : -189415800 ≤ sec) :
    Machine.lookup .Jakarta sec
      = { offset := 25200, start := -189415800, stop := 9223372036854775807 } := by
  simp only [Machine.lookup, Machine.jakartaTransitions, Machine.lookupFrom]
  rw [if_neg (by omega), if_neg (by omega), if_neg (by omega), if_neg (by omega),
    if_neg (by omega), if_neg (by omega), if_neg (by omega), if_neg (by omega)]

/-- The offset that `Date` subtracts is seven hours for the local times from 1964 on. -/
theorem machine_offsetAt_late (unix : Int) (h1 : -189388800 ≤ unix)
    (h2 : unix < 4611686018427387904) : Machine.offsetAt .Jakarta unix = 25200 := by
  unfold Machine.offsetAt
  rw [machine_lookup_late unix (by omega)]
  simp only [Machine.int64]
  rw [if_pos (by decide), if_neg (by omega)]

/-- The days that `daysSinceEpoch` counts are the days of the calendar model, counted from
the absolute zero year. -/
theorem machine_daysSinceEpoch (year : Int) (h1 : -292277022399 ≤ year)
    (h2 : year ≤ 200000000000) :
    Machine.daysSinceEpoch year = daysBeforeYear year + 106751990353932 := by
  obtain ⟨a, b, c, e, hb, hc, he, hy, hd⟩ := daysBeforeYear_cycles year
  rw [hd]
  have hY : Machine.uint64 (Machine.int64 (year - Machine.absoluteZeroYear))
      = 400 * (a + 730692556) + (100 * b + 4 * c + e) := by
    unfold Machine.uint64 Machine.int64 Machine.absoluteZeroYear
    omega
  have q1 : (400 * (a + 730692556) + (100 * b + 4 * c + e)) / 400 = a + 730692556 := by omega
  have r1 : 400 * (a + 730692556) + (100 * b + 4 * c + e) - 400 * (a + 730692556)
      = 100 * b + (4 * c + e) := by ring
  have q2 : (100 * b + (4 * c + e)) / 100 = b := by omega
  have r2 : 100 * b + (4 * c + e) - 100 * b = 4 * c + e := by ring
  have q3 : (4 * c + e) / 4 = c := by omega
  have r3 : 4 * c + e - 4 * c = e := by ring
  have u1 : Machine.uint64 (146097 * (a + 730692556)) = 146097 * (a + 730692556) := by
    unfold Machine.uint64
    omega
  have u2 : Machine.uint64 (146097 * (a + 730692556) + 36524 * b)
      = 146097 * (a + 730692556) + 36524 * b := by
    unfold Machine.uint64
    omega
  have u3 : Machine.uint64 (146097 * (a + 730692556) + 36524 * b + 1461 * c)
      = 146097 * (a + 730692556) + 36524 * b + 1461 * c := by
    unfold Machine.uint64
    omega
  have u4 : Machine.uint64 (146097 * (a + 730692556) + 36524 * b + 1461 * c + 365 * e)
      = 146097 * (a + 730692556) + 36524 * b + 1461 * c + 365 * e := by
    unfold Machine.uint64
    omega
  simp only [Machine.daysSinceEpoch, hY, q1, r1, q2, r2, q3, r3, u1, u2, u3, u4]
  ring

/-- The table `daysBefore` on the months of a year. -/
theorem daysBefore_bounds (r : Int) (h0 : 0 ≤ r) (h1 : r < 12) :
    0 ≤ daysBefore r ∧ daysBefore r ≤ 334 := by
  have h : r = 0 ∨ r = 1 ∨ r = 2 ∨ r = 3 ∨ r = 4 ∨ r = 5 ∨ r = 6 ∨ r = 7 ∨ r = 8 ∨ r = 9
      ∨ r = 10 ∨ r = 11 := by omega
  rcases h with h | h | h | h | h | h | h | h | h | h | h | h <;> subst h <;> decide

/-- The days before a year of the domain. -/
theorem daysBeforeYear_bounds (y : Int) (h1 : 1964 ≤ y) (h2 : y ≤ 100000000001) :
    716970 ≤ daysBeforeYear y ∧ daysBeforeYear y ≤ 36524250000365 := by
  unfold daysBeforeYear
  simp only []
  omega

/-- On the dates from 1964 to the year 100000000000, `Date` on machine integers counts the
seconds of the calendar model: no operation wraps around and the offset is seven hours. -/
theorem machine_Date_sec (y m d h mi s : Int)
    (hm : -4611686018427387904 ≤ m ∧ m ≤ 4611686018427387904)
    (hk : 23568 ≤ 12 * y + m - 1 ∧ 12 * y + m - 1 ≤ 1200000000023)
    (hd : 1 ≤ d ∧ d ≤ 31) (hh : 0 ≤ h ∧ h < 24) (hmi : 0 ≤ mi ∧ mi < 60)
    (hs : 0 ≤ s ∧ s < 60) :
    Machine.Date y m d h mi s .Jakarta
      = { sec := (monthStart (12 * y + m - 1) + (d - 1)) * 86400 + (h * 3600 + mi * 60 + s)
            - 25200, loc := .Jakarta } := by
  have hm1 : Machine.int64 (m - 1) = m - 1 := machine_int64_of_range _ (by omega) (by omega)
  have hn : Machine.norm y (Machine.int64 (m - 1)) 12
      = ((12 * y + m - 1) / 12, (12 * y + m - 1) % 12) := by
    rw [hm1, machine_norm_twelve y (m - 1) (by omega) (by omega)]
    refine Prod.ext ?_ ?_ <;> simp only [] <;> omega
  have hns := machine_norm_of_range mi s 60 hs.1 hs.2
  have hnm := machine_norm_of_range h mi 60 hmi.1 hmi.2
  have hnh := machine_norm_of_range d h 24 hh.1 hh.2
  have hr0 : 0 ≤ (12 * y + m - 1) % 12 := by omega
  have hr1 : (12 * y + m - 1) % 12 < 12 := by omega
  have hy0 : 1964 ≤ (12 * y + m - 1) / 12 := by omega
  have hy1 : (12 * y + m - 1) / 12 ≤ 100000000001 := by omega
  have hmonth : Machine.int64 ((12 * y + m - 1) % 12 + 1) = (12 * y + m - 1) % 12 + 1 :=
    machine_int64_of_range _ (by omega) (by omega)
  have hdse := machine_daysSinceEpoch ((12 * y + m - 1) / 12) (by omega) (by omega)
  obtain ⟨hb0, hb1⟩ := daysBefore_bounds _ hr0 hr1
  obtain ⟨hy2, hy3⟩ := daysBeforeYear_bounds _ hy0 hy1
  simp only [Machine.Date, hn, hns, hnm, hnh, hmonth, hdse, add_sub_cancel_right, monthStart]
  generalize daysBeforeYear ((12 * y + m - 1) / 12) = dby at hy2 hy3 ⊢
  generalize daysBefore ((12 * y + m - 1) % 12) = db at hb0 hb1 ⊢
  have hcore : ∀ l : Int, 0 ≤ l → l ≤ 1 →
      Machine.int64 (Machine.int64 (Machine.uint64 (Machine.uint64
          (Machine.uint64 (dby + 106751990353932 + db + l + Machine.uint64 (d - 1)) * 86400)
          + Machine.uint64 (h * 3600 + mi * 60 + s)))
        + (Machine.absoluteToInternal + Machine.internalToUnix))
      = (dby + db + l + (d - 1)) * 86400 + (h * 3600 + mi * 60 + s) - 62135596800 := by
    intro l hl0 hl1
    unfold Machine.int64 Machine.uint64 Machine.absoluteToInternal Machine.internalToUnix
    omega
  by_cases hleap : (isLeap ((12 * y + m - 1) / 12) && decide ((12 * y + m - 1) % 12 + 1 ≥ 3))
      = true
  · simp only [hleap, if_true]
    have hu : Machine.uint64 (Machine.uint64 (dby + 106751990353932 + db) + 1)
        = dby + 106751990353932 + db + 1 := by
      unfold Machine.uint64
      omega
    rw [hu, hcore 1 (by omega) (by omega)]
    have hoff := machine_offsetAt_late
      ((dby + db + 1 + (d - 1)) * 86400 + (h * 3600 + mi * 60 + s) - 62135596800)
      (by omega) (by omega)
    rw [hoff]
    congr 1
    unfold Machine.int64 Machine.unixToInternal
    omega
  · simp only [hleap, if_false, Bool.false_eq_true]
    have hu : Machine.uint64 (dby + 106751990353932 + db) = dby + 106751990353932 + db + 0 := by
      unfold Machine.uint64
      omega
    rw [hu, hcore 0 (by omega) (by omega)]
    have hoff := machine_offsetAt_late
      ((dby + db + 0 + (d - 1)) * 86400 + (h * 3600 + mi * 60 + s) - 62135596800)
      (by omega) (by omega)
    rw [hoff]
    congr 1
    unfold Machine.int64 Machine.unixToInternal
    omega

/-- On the dates from 1964 to the year 100000000000, `Date` on machine integers is the
`Date` of the calendar model. -/
theorem machine_Date_eq (y m d h mi s : Int)
    (hm : -4611686018427387904 ≤ m ∧ m ≤ 4611686018427387904)
    (hk : 23568 ≤ 12 * y + m - 1 ∧ 12 * y + m - 1 ≤ 1200000000023)
    (hd : 1 ≤ d ∧ d ≤ 31) (hh : 0 ≤ h ∧ h < 24) (hmi : 0 ≤ mi ∧ mi < 60)
    (hs : 0 ≤ s ∧ s < 60) :
    Machine.Date y m d h mi s .Jakarta = Date y m d h mi s .Jakarta := by
  rw [machine_Date_sec y m d h mi s hm hk hd hh hmi hs, Date_sec y m d h mi s _ hh hmi hs]
  rfl

/-- The cycles of `yearOfDays` on the days counted from the absolute zero year. -/
theorem yearOfDays_shift (d : Int) :
    yearOfDays (d + 106751990353932)
      = ((yearOfDays d).1 + 292277022400, (yearOfDays d).2) := by
  have q : (d + 106751990353932) / 146097 = d / 146097 + 730692556 := by omega
  have r : d + 106751990353932 - 146097 * (d / 146097 + 730692556)
      = d - 146097 * (d / 146097) := by ring
  simp only [yearOfDays, q, r]
  refine Prod.ext ?_ rfl
  simp only []
  ring

/-- The year that `yearOfDays` finds for a day of the domain. -/
theorem yearOfDays_bounds (d : Int) (h0 : 0 ≤ d) (h1 : d ≤ 53375995583650) :
    1 ≤ (yearOfDays d).1 ∧ (yearOfDays d).1 ≤ 146139202150 := by
  simp only [yearOfDays]
  omega

/-- The absolute seconds of an instant of the domain. -/
theorem machine_abs (t : Time) (ht : Machine.InEra t) :
    Machine.abs t = t.sec + 25200 + 9223371966579724800 := by
  obtain ⟨hloc, h1, h2⟩ := ht
  have hu : Machine.int64 (t.sec + Machine.internalToUnix) = t.sec - 62135596800 := by
    unfold Machine.int64 Machine.internalToUnix
    omega
  simp only [Machine.abs, hu, hloc]
  rw [machine_lookup_late _ (by omega)]
  simp only [Machine.int64, Machine.uint64, Machine.unixToInternal, Machine.internalToAbsolute]
  omega

/-- The date that an instant of the domain shows is the date of the calendar model. -/
theorem machine_date_eq (t : Time) (ht : Machine.InEra t) : Machine.date t = t.date := by
  have habs := machine_abs t ht
  obtain ⟨hloc, h1, h2⟩ := ht
  have hd : (t.sec + 25200 + 9223371966579724800) / 86400
      = (t.sec + 25200) / 86400 + 106751990353932 := by omega
  have hb := yearOfDays_bounds ((t.sec + 25200) / 86400) (by omega) (by omega)
  have hy : Machine.int64 ((yearOfDays ((t.sec + 25200) / 86400)).1 + 292277022400 - 1
      + Machine.absoluteZeroYear) = (yearOfDays ((t.sec + 25200) / 86400)).1 := by
    unfold Machine.int64 Machine.absoluteZeroYear
    omega
  have hoff : t.sec + t.loc.offset = t.sec + 25200 := by
    rw [hloc]
    rfl
  simp only [Machine.date, habs, hd, yearOfDays_shift, hy, Time.date, Time.abs, hoff]

/-- The clock that an instant of the domain shows is the clock of the calendar model. -/
theorem machine_Clock_eq (t : Time) (ht : Machine.InEra t) : Machine.Clock t = t.Clock := by
  have habs := machine_abs t ht
  obtain ⟨hloc, h1, h2⟩ := ht
  have hoff : t.sec + t.loc.offset = t.sec + 25200 := by
    rw [hloc]
    rfl
  have hs : (t.sec + 25200 + 9223371966579724800) % 86400 = (t.sec + 25200) % 86400 := by
    omega
  simp only [Machine.Clock, habs, hs, Time.Clock, Time.abs, hoff]

/-- What an instant of the domain shows on machine integers is what it shows in the
calendar model. -/
theorem machine_Shows_iff (t : Time) (ht : Machine.InEra t) (y m d h mi s : Int) :
    Machine.Shows t y m d h mi s ↔ t.Shows y m d h mi s := by
  simp only [Machine.Shows, Time.Shows, machine_date_eq t ht, machine_Clock_eq t ht]

/-- One second before an instant of the domain. -/
theorem machine_Add_eq (t : Time) (h1 : -4611686018427387904 ≤ t.sec)
    (h2 : t.sec ≤ 4611686018427387904) : Machine.Add t (-Second) = t.Add (-Second) := by
  have hs : Machine.int64 (t.sec + -Second) = t.sec + -Second := by
    unfold Machine.int64 Second
    omega
  have h3 : ¬ (t.sec + -Second > t.sec) := by
    unfold Second
    omega
  have h4 : ¬ (-Second > 0) := by
    unfold Second
    omega
  simp only [Machine.Add, hs, h3, h4, decide_False, if_true, Time.Add]

/-- The first day of a month of the domain, in days. -/
theorem monthStart_bounds (k : Int) (h1 : 23568 ≤ k) (h2 : k ≤ 1200000000023) :
    716970 ≤ monthStart k ∧ monthStart k ≤ 36524250000700 := by
  obtain ⟨a, b⟩ := daysBeforeYear_bounds (k / 12) (by omega) (by omega)
  obtain ⟨c, e⟩ := daysBefore_bounds (k % 12) (by omega) (by omega)
  unfold monthStart
  split_ifs <;> omega

/-- The first instant of a month of the domain is an instant of the domain. -/
theorem monthBegin_InEra (y m : Int)
    (hk : 23568 ≤ 12 * y + m - 1 ∧ 12 * y + m - 1 ≤ 1200000000023) :
    Machine.InEra (monthBegin y m) := by
  obtain ⟨a, b⟩ := monthStart_bounds (12 * y + m - 1) hk.1 hk.2
  rw [monthBegin_sec]
  refine ⟨rfl, ?_, ?_⟩
  · show 61946181000 ≤ monthStart (12 * y + m - 1) * 86400 - 7 * 3600
    omega
  · show monthStart (12 * y + m - 1) * 86400 - 7 * 3600 ≤ 4611686018427387904
    omega

/-- On machine integers the first instant of a month of the domain is the one of the
calendar model. -/
theorem machine_monthBegin (y m : Int)
    (hm : -4611686018427387904 ≤ m ∧ m ≤ 4611686018427387904)
    (hk : 23568 ≤ 12 * y + m - 1 ∧ 12 * y + m - 1 ≤ 1200000000023) :
    Machine.Date y m 1 0 0 0 getJakartaLocation = monthBegin y m :=
  machine_Date_eq y m 1 0 0 0 hm hk (by omega) (by omega) (by omega) (by omega)

/-- On machine integers `AddDate(0, j, 0)` moves the first instant of a month of the domain
to the first instant of the month `j` months later, when that month is in the domain. -/
theorem machine_AddDate_monthBegin (y m j : Int)
    (hj : -4611686018427387000 ≤ j ∧ j ≤ 4611686018427387000)
    (hk : 23568 ≤ 12 * y + m - 1 ∧ 12 * y + m - 1 ≤ 1200000000023)
    (hk2 : 23568 ≤ 12 * y + (m + j) - 1 ∧ 12 * y + (m + j) - 1 ≤ 1200000000023) :
    Machine.AddDate (monthBegin y m) 0 j 0 = monthBegin y (m + j) := by
  have hera := monthBegin_InEra y m hk
  have hd := (date_first (12 * y + m - 1) getJakartaLocation).1
  have hc := (date_first (12 * y + m - 1) getJakartaLocation).2
  have hsec : monthBegin y m
      = Time.mk (monthStart (12 * y + m - 1) * 86400 - getJakartaLocation.offset)
          getJakartaLocation := monthBegin_sec y m
  rw [← hsec] at hd hc
  have hloc : (monthBegin y m).loc = getJakartaLocation := by rw [hsec]
  have hy : Machine.int64 ((12 * y + m - 1) / 12 + 0) = (12 * y + m - 1) / 12 := by
    unfold Machine.int64
    omega
  have hmo : Machine.int64 ((12 * y + m - 1) % 12 + 1 + j) = (12 * y + m - 1) % 12 + 1 + j := by
    unfold Machine.int64
    omega
  have hday : Machine.int64 (1 + 0) = 1 := by decide
  simp only [Machine.AddDate, machine_date_eq _ hera, machine_Clock_eq _ hera, hd, hc, hy, hmo,
    hday, hloc]
  rw [machine_monthBegin _ _ (by omega) (by omega), monthBegin_sec, monthBegin_sec]
  have e : 12 * ((12 * y + m - 1) / 12) + ((12 * y + m - 1) % 12 + 1 + j) - 1
      = 12 * y + (m + j) - 1 := by omega
  rw [e]

/-- The last second of a month, from the first instant of the month after it. -/
theorem monthEnd_eq_Add (y m : Int) : monthEnd y m = (monthBegin y (m + 1)).Add (-Second) := by
  rw [monthEnd_def, ← monthBegin_def, monthBegin_AddDate]

/-- On machine integers, one second before the first instant of a month of the domain. -/
theorem machine_Add_monthBegin (y m : Int)
    (hk : 23568 ≤ 12 * y + m - 1 ∧ 12 * y + m - 1 ≤ 1200000000023) :
    Machine.Add (monthBegin y m) (-Second) = (monthBegin y m).Add (-Second) := by
  obtain ⟨_, a, b⟩ := monthBegin_InEra y m hk
  exact machine_Add_eq _ (by omega) b

/-- On machine integers the last second of a month of the domain, by the uniform technique
of the program, is the one of the calendar model. -/
theorem machine_monthEnd (y m : Int)
    (hk : 23568 ≤ 12 * y + m - 1 ∧ 12 * y + m - 1 ≤ 1200000000022) :
    Machine.Add (Machine.AddDate (monthBegin y m) 0 1 0) (-Second) = monthEnd y m := by
  rw [machine_AddDate_monthBegin y m 1 (by omega) (by omega) (by omega),
    machine_Add_monthBegin y (m + 1) (by omega), monthEnd_eq_Add]

/-- The last second of a month of the domain is an instant of the domain. -/
theorem monthEnd_InEra (y m : Int)
    (hk : 23568 ≤ 12 * y + m - 1 ∧ 12 * y + m - 1 ≤ 1200000000022) :
    Machine.InEra (monthEnd y m) := by
  obtain ⟨a, b⟩ := monthStart_bounds (12 * y + m) (by omega) (by omega)
  rw [monthEnd_sec]
  refine ⟨rfl, ?_, ?_⟩
  · show 61946181000 ≤ monthStart (12 * y + m) * 86400 - 7 * 3600 - 1
    omega
  · show monthStart (12 * y + m) * 86400 - 7 * 3600 - 1 ≤ 4611686018427387904
    omega

/-- An instant whose year in Jakarta is between 1964 and 100000000000 is in the domain,
and in its month. -/
theorem now_InEra (now : Time) (h1 : 1964 ≤ currentYear now)
    (h2 : currentYear now ≤ 100000000000) :
    Machine.InEra (now.In getJakartaLocation) := by
  obtain ⟨k, dd, s, hd0, hd1, hs0, hs1, hsec, hdate, _⟩ :=
    Time_in_some_month (now.In getJakartaLocation)
  have hy : currentYear now = k / 12 := by
    rw [currentYear_def, Time.Year, hdate]
  have hlen := monthLength_eq k
  obtain ⟨a, b⟩ := monthStart_bounds k (by omega) (by omega)
  obtain ⟨a2, b2⟩ := monthStart_bounds (k + 1) (by omega) (by omega)
  refine ⟨rfl, ?_, ?_⟩
  · rw [hsec]
    show 61946181000 ≤ (monthStart k + dd) * 86400 + s - 7 * 3600
    omega
  · rw [hsec]
    show (monthStart k + dd) * 86400 + s - 7 * 3600 ≤ 4611686018427387904
    omega

/-- On machine integers the year and the month of such an instant are those of the
calendar model. -/
theorem machine_now (now : Time) (h1 : 1964 ≤ currentYear now)
    (h2 : currentYear now ≤ 100000000000) :
    Machine.Year (now.In getJakartaLocation) = currentYear now ∧
    Machine.Month (now.In getJakartaLocation) = currentMonth now := by
  have h := machine_date_eq _ (now_InEra now h1 h2)
  exact ⟨by rw [Machine.Year, h]; rfl, by rw [Machine.Month, h]; rfl⟩

/-! ### The branches of `calculateDateRange` on machine integers -/

/-- The branch CurrentMonth on machine integers, in the domain. -/
theorem machine_calc_CurrentMonth (now : Time) (params : DateParameters)
    (h1 : 1964 ≤ currentYear now) (h2 : currentYear now ≤ 100000000000) :
    Machine.calculateDateRange (NewDateRangeCondition { Typ := CurrentMonth, Parameters := params }) now
      = (NewDateRangeCondition { Typ := CurrentMonth, Parameters := params }).calculateDateRange now := by
  obtain ⟨hy, hmo⟩ := machine_now now (by omega) h2
  obtain ⟨c1, c12⟩ := currentMonth_bounds now
  rw [calc_CurrentMonth]
  simp only [Machine.calculateDateRange,
    NewDateRangeCondition,
    if_true,
    hy, hmo]
  rw [machine_monthBegin _ _ (by omega) (by omega), machine_monthEnd _ _ (by omega)]

/-- The branch BackMonth on machine integers, the month it resolves to in the domain. -/
theorem machine_calc_BackMonth (now : Time) (params : DateParameters) (k : Int)
    (hk : params.Months = some k) (h1 : 1964 ≤ currentYear now) (h2 : currentYear now ≤ 100000000000)
    (hr : Machine.InRange (currentYear now) (currentMonth now - k)) :
    Machine.calculateDateRange (NewDateRangeCondition { Typ := BackMonth, Parameters := params }) now
      = (NewDateRangeCondition { Typ := BackMonth, Parameters := params }).calculateDateRange now := by
  obtain ⟨hy, hmo⟩ := machine_now now (by omega) h2
  obtain ⟨c1, c12⟩ := currentMonth_bounds now
  obtain ⟨hr1, hr2⟩ := hr
  have hneg : Machine.int64 (-k) = -k := machine_int64_of_range _ (by omega) (by omega)
  rw [calc_BackMonth now params k hk, monthBegin_AddDate]
  simp only [Machine.calculateDateRange,
    NewDateRangeCondition,
    if_neg (show BackMonth ≠ CurrentMonth by decide),
    if_true,
    hy, hmo, hk, hneg]
  rw [machine_monthBegin _ _ (by omega) (by omega),
    machine_AddDate_monthBegin _ _ (-k) (by omega) (by omega) (by omega),
    machine_monthEnd _ _ (by omega)]
  rfl

/-- The branch RelativeRange on machine integers, the two months it resolves to in the
domain. -/
theorem machine_calc_RelativeRange (now : Time) (params : DateParameters) (s e : Int)
    (hs : params.StartBackMonths = some s) (he : params.EndBackMonths = some e)
    (h1 : 1964 ≤ currentYear now) (h2 : currentYear now ≤ 100000000000)
    (hrs : Machine.InRange (currentYear now) (currentMonth now - s))
    (hre : Machine.InRange (currentYear now) (currentMonth now - e)) :
    Machine.calculateDateRange (NewDateRangeCondition { Typ := RelativeRange, Parameters := params }) now
      = (NewDateRangeCondition { Typ := RelativeRange, Parameters := params }).calculateDateRange now := by
  obtain ⟨hy, hmo⟩ := machine_now now (by omega) h2
  obtain ⟨c1, c12⟩ := currentMonth_bounds now
  obtain ⟨hs1, hs2⟩ := hrs
  obtain ⟨he1, he2⟩ := hre
  have hnegs : Machine.int64 (-s) = -s := machine_int64_of_range _ (by omega) (by omega)
  have hnege : Machine.int64 (-e) = -e := machine_int64_of_range _ (by omega) (by omega)
  rw [calc_RelativeRange now params s e hs he, monthBegin_AddDate, monthBegin_AddDate]
  simp only [Machine.calculateDateRange,
    NewDateRangeCondition,
    if_neg (show RelativeRange ≠ CurrentMonth by decide), if_neg (show RelativeRange ≠ BackMonth by decide),
    if_true,
    hy, hmo, hs, he, hnegs, hnege]
  rw [machine_monthBegin _ _ (by omega) (by omega),
    machine_AddDate_monthBegin _ _ (-s) (by omega) (by omega) (by omega),
    machine_AddDate_monthBegin _ _ (-e) (by omega) (by omega) (by omega),
    machine_monthEnd _ _ (by omega)]
  rfl

/-- The branch YTD on machine integers, in the domain. -/
theorem machine_calc_YTD (now : Time) (params : DateParameters)
    (h1 : 1964 ≤ currentYear now) (h2 : currentYear now ≤ 100000000000) :
    Machine.calculateDateRange (NewDateRangeCondition { Typ := YTD, Parameters := params }) now
      = (NewDateRangeCondition { Typ := YTD, Parameters := params }).calculateDateRange now := by
  obtain ⟨hy, hmo⟩ := machine_now now (by omega) h2
  obtain ⟨c1, c12⟩ := currentMonth_bounds now
  rw [calc_YTD]
  simp only [Machine.calculateDateRange,
    NewDateRangeCondition,
    if_neg (show YTD ≠ CurrentMonth by decide), if_neg (show YTD ≠ BackMonth by decide), if_neg (show YTD ≠ RelativeRange by decide),
    if_true,
    hy, hmo]
  rw [machine_monthBegin _ 1 (by omega) (by omega),
    machine_monthBegin _ _ (by omega) (by omega), machine_monthEnd _ _ (by omega)]

/-- The branch PreviousYear on machine integers, in the domain. -/
theorem machine_calc_PreviousYear (now : Time) (params : DateParameters)
    (h1 : 1965 ≤ currentYear now) (h2 : currentYear now ≤ 100000000000) :
    Machine.calculateDateRange (NewDateRangeCondition { Typ := PreviousYear, Parameters := params }) now
      = (NewDateRangeCondition { Typ := PreviousYear, Parameters := params }).calculateDateRange now := by
  obtain ⟨hy, hmo⟩ := machine_now now (by omega) h2
  rw [calc_PreviousYear]
  simp only [Machine.calculateDateRange,
    NewDateRangeCondition,
    if_neg (show PreviousYear ≠ CurrentMonth by decide), if_neg (show PreviousYear ≠ BackMonth by decide), if_neg (show PreviousYear ≠ RelativeRange by decide), if_neg (show PreviousYear ≠ YTD by decide),
    if_true,
    hy, hmo]
  rw [machine_monthBegin _ 1 (by omega) (by omega)]
  have hend := machine_Date_eq (currentYear now - 1) 12 31 23 59 59 (by omega) (by omega)
    (by omega) (by omega) (by omega) (by omega)
  rw [show getJakartaLocation = Location.Jakarta from rfl, hend]

/-- The branch SpecificMonth on machine integers, the month in the domain. -/
theorem machine_calc_SpecificMonth (now : Time) (params : DateParameters) (m y : Int)
    (hm : params.Month = some m) (hy : params.Year = some y) (hr : Machine.InRange y m) :
    Machine.calculateDateRange (NewDateRangeCondition { Typ := SpecificMonth, Parameters := params }) now
      = (NewDateRangeCondition { Typ := SpecificMonth, Parameters := params }).calculateDateRange now := by
  obtain ⟨hr1, hr2⟩ := hr
  rw [calc_SpecificMonth now params m y hm hy]
  simp only [Machine.calculateDateRange,
    NewDateRangeCondition,
    if_neg (show SpecificMonth ≠ CurrentMonth by decide), if_neg (show SpecificMonth ≠ BackMonth by decide), if_neg (show SpecificMonth ≠ RelativeRange by decide), if_neg (show SpecificMonth ≠ YTD by decide), if_neg (show SpecificMonth ≠ PreviousYear by decide),
    if_true,
    hm, hy]
  rw [machine_monthBegin _ _ (by omega) (by omega), machine_monthEnd _ _ (by omega)]

/-- The branch SpecificRange on machine integers, the two months in the domain. -/
theorem machine_calc_SpecificRange (now : Time) (params : DateParameters) (s e : MonthYear)
    (hs : params.Start = some s) (he : params.End = some e)
    (hrs : Machine.InRange s.Year s.Month) (hre : Machine.InRange e.Year e.Month) :
    Machine.calculateDateRange (NewDateRangeCondition { Typ := SpecificRange, Parameters := params }) now
      = (NewDateRangeCondition { Typ := SpecificRange, Parameters := params }).calculateDateRange now := by
  obtain ⟨hs1, hs2⟩ := hrs
  obtain ⟨he1, he2⟩ := hre
  rw [calc_SpecificRange now params s e hs he]
  simp only [Machine.calculateDateRange,
    NewDateRangeCondition,
    if_neg (show SpecificRange ≠ CurrentMonth by decide), if_neg (show SpecificRange ≠ BackMonth by decide), if_neg (show SpecificRange ≠ RelativeRange by decide), if_neg (show SpecificRange ≠ YTD by decide), if_neg (show SpecificRange ≠ PreviousYear by decide), if_neg (show SpecificRange ≠ SpecificMonth by decide),
    if_true,
    hs, he]
  rw [machine_monthBegin _ _ (by omega) (by omega),
    machine_monthBegin _ _ (by omega) (by omega), machine_monthEnd _ _ (by omega)]

/-- The branch QTD on machine integers, in the domain. -/
theorem machine_calc_QTD (now : Time) (params : DateParameters)
    (h1 : 1964 ≤ currentYear now) (h2 : currentYear now ≤ 100000000000) :
    Machine.calculateDateRange (NewDateRangeCondition { Typ := QTD, Parameters := params }) now
      = (NewDateRangeCondition { Typ := QTD, Parameters := params }).calculateDateRange now := by
  obtain ⟨hy, hmo⟩ := machine_now now (by omega) h2
  obtain ⟨c1, c12⟩ := currentMonth_bounds now
  rw [calc_QTD]
  simp only [Machine.calculateDateRange,
    NewDateRangeCondition,
    if_neg (show QTD ≠ CurrentMonth by decide), if_neg (show QTD ≠ BackMonth by decide), if_neg (show QTD ≠ RelativeRange by decide), if_neg (show QTD ≠ YTD by decide), if_neg (show QTD ≠ PreviousYear by decide), if_neg (show QTD ≠ SpecificMonth by decide), if_neg (show QTD ≠ SpecificRange by decide),
    if_true,
    hy, hmo]
  rw [machine_monthBegin _ _ (by omega) (by omega),
    machine_monthBegin _ _ (by omega) (by omega), machine_monthEnd _ _ (by omega)]

/-- The branch TTM on machine integers, in the domain. -/
theorem machine_calc_TTM (now : Time) (params : DateParameters)
    (h1 : 1965 ≤ currentYear now) (h2 : currentYear now ≤ 100000000000) :
    Machine.calculateDateRange (NewDateRangeCondition { Typ := TTM, Parameters := params }) now
      = (NewDateRangeCondition { Typ := TTM, Parameters := params }).calculateDateRange now := by
  obtain ⟨hy, hmo⟩ := machine_now now (by omega) h2
  obtain ⟨c1, c12⟩ := currentMonth_bounds now
  rw [calc_TTM, monthBegin_AddDate]
  simp only [Machine.calculateDateRange,
    NewDateRangeCondition,
    if_neg (show TTM ≠ CurrentMonth by decide), if_neg (show TTM ≠ BackMonth by decide), if_neg (show TTM ≠ RelativeRange by decide), if_neg (show TTM ≠ YTD by decide), if_neg (show TTM ≠ PreviousYear by decide), if_neg (show TTM ≠ SpecificMonth by decide), if_neg (show TTM ≠ SpecificRange by decide), if_neg (show TTM ≠ QTD by decide),
    if_true,
    hy, hmo]
  rw [machine_monthBegin _ _ (by omega) (by omega),
    machine_AddDate_monthBegin _ _ (-11) (by omega) (by omega) (by omega),
    machine_monthEnd _ _ (by omega)]

/-- The branch MoM on machine integers, in the domain. -/
theorem machine_calc_MoM (now : Time) (params : DateParameters)
    (h1 : 1965 ≤ currentYear now) (h2 : currentYear now ≤ 100000000000) :
    Machine.calculateDateRange (NewDateRangeCondition { Typ := MoM, Parameters := params }) now
      = (NewDateRangeCondition { Typ := MoM, Parameters := params }).calculateDateRange now := by
  obtain ⟨hy, hmo⟩ := machine_now now (by omega) h2
  obtain ⟨c1, c12⟩ := currentMonth_bounds now
  rw [calc_MoM]
  simp only [Machine.calculateDateRange,
    NewDateRangeCondition,
    if_neg (show MoM ≠ CurrentMonth by decide), if_neg (show MoM ≠ BackMonth by decide), if_neg (show MoM ≠ RelativeRange by decide), if_neg (show MoM ≠ YTD by decide), if_neg (show MoM ≠ PreviousYear by decide), if_neg (show MoM ≠ SpecificMonth by decide), if_neg (show MoM ≠ SpecificRange by decide), if_neg (show MoM ≠ QTD by decide), if_neg (show MoM ≠ TTM by decide),
    if_true,
    hy, hmo]
  rw [machine_monthBegin _ (currentMonth now) (by omega) (by omega),
    machine_monthBegin _ (currentMonth now - 1) (by omega) (by omega),
    machine_monthEnd _ _ (by omega)]

/-- The branch PreviousQuarter on machine integers, in the domain. -/
theorem machine_calc_PreviousQuarter (now : Time) (params : DateParameters)
    (h1 : 1965 ≤ currentYear now) (h2 : currentYear now ≤ 100000000000) :
    Machine.calculateDateRange (NewDateRangeCondition { Typ := PreviousQuarter, Parameters := params }) now
      = (NewDateRangeCondition { Typ := PreviousQuarter, Parameters := params }).calculateDateRange now := by
  obtain ⟨hy, hmo⟩ := machine_now now (by omega) h2
  obtain ⟨c1, c12⟩ := currentMonth_bounds now
  rw [calc_PreviousQuarter, monthBegin_AddDate]
  by_cases hq : (currentMonth now - 1) / 3 + 1 - 1 = 0
  · simp only [Machine.calculateDateRange,
      NewDateRangeCondition,
      if_neg (show PreviousQuarter ≠ CurrentMonth by decide), if_neg (show PreviousQuarter ≠ BackMonth by decide), if_neg (show PreviousQuarter ≠ RelativeRange by decide), if_neg (show PreviousQuarter ≠ YTD by decide), if_neg (show PreviousQuarter ≠ PreviousYear by decide), if_neg (show PreviousQuarter ≠ SpecificMonth by decide), if_neg (show PreviousQuarter ≠ SpecificRange by decide), if_neg (show PreviousQuarter ≠ QTD by decide), if_neg (show PreviousQuarter ≠ TTM by decide), if_neg (show PreviousQuarter ≠ MoM by decide),
      if_true,
      hy, hmo, hq, previousQuarterOf]
    rw [machine_monthBegin _ _ (by omega) (by omega),
      machine_AddDate_monthBegin _ _ 3 (by omega) (by omega) (by omega),
      machine_Add_monthBegin _ _ (by omega)]
  · simp only [Machine.calculateDateRange,
      NewDateRangeCondition,
      if_neg (show PreviousQuarter ≠ CurrentMonth by decide), if_neg (show PreviousQuarter ≠ BackMonth by decide), if_neg (show PreviousQuarter ≠ RelativeRange by decide), if_neg (show PreviousQuarter ≠ YTD by decide), if_neg (show PreviousQuarter ≠ PreviousYear by decide), if_neg (show PreviousQuarter ≠ SpecificMonth by decide), if_neg (show PreviousQuarter ≠ SpecificRange by decide), if_neg (show PreviousQuarter ≠ QTD by decide), if_neg (show PreviousQuarter ≠ TTM by decide), if_neg (show PreviousQuarter ≠ MoM by decide),
      if_true,
      hy, hmo, hq, previousQuarterOf, if_false]
    rw [machine_monthBegin _ _ (by omega) (by omega),
      machine_AddDate_monthBegin _ _ 3 (by omega) (by omega) (by omega),
      machine_Add_monthBegin _ _ (by omega)]

/-- The branch BackMonth on machine integers, the parameter absent. -/
theorem machine_calc_BackMonth_none (now : Time) (params : DateParameters)
    (h : params.Months = none) :
    Machine.calculateDateRange (NewDateRangeCondition { Typ := BackMonth, Parameters := params })
        now
      = (Time.zero, Time.zero, some "months parameter required for BACK_MONTH") := by
  simp only [Machine.calculateDateRange, NewDateRangeCondition,
    if_neg (show BackMonth ≠ CurrentMonth by decide), if_true, h]

/-- The branch SpecificMonth on machine integers, a parameter absent. -/
theorem machine_calc_SpecificMonth_none (now : Time) (params : DateParameters)
    (h : params.Month = none ∨ params.Year = none) :
    Machine.calculateDateRange
        (NewDateRangeCondition { Typ := SpecificMonth, Parameters := params }) now
      = (Time.zero, Time.zero, some "month and year parameters required for SPECIFIC_MONTH") := by
  simp only [Machine.calculateDateRange, NewDateRangeCondition,
    if_neg (show SpecificMonth ≠ CurrentMonth by decide),
    if_neg (show SpecificMonth ≠ BackMonth by decide),
    if_neg (show SpecificMonth ≠ RelativeRange by decide),
    if_neg (show SpecificMonth ≠ YTD by decide),
    if_neg (show SpecificMonth ≠ PreviousYear by decide), if_true]
  rcases h with h | h
  · rw [h]
  · rw [h]
    cases params.Month <;> rfl

/-- The last second of a year of the domain is an instant of the domain. -/
theorem yearEnd_InEra (y : Int) (h1 : 1964 ≤ y) (h2 : y ≤ 100000000000) :
    Machine.InEra (Date y 12 31 23 59 59 getJakartaLocation) := by
  obtain ⟨a, b⟩ := monthStart_bounds (12 * y + 12 - 1) (by omega) (by omega)
  rw [Date_sec y 12 31 23 59 59 _ (by omega) (by omega) (by omega)]
  refine ⟨rfl, ?_, ?_⟩
  · show 61946181000 ≤ (monthStart (12 * y + 12 - 1) + (31 - 1)) * 86400
        + (23 * 3600 + 59 * 60 + 59) - 7 * 3600
    omega
  · show (monthStart (12 * y + 12 - 1) + (31 - 1)) * 86400
        + (23 * 3600 + 59 * 60 + 59) - 7 * 3600 ≤ 4611686018427387904
    omega

/-- On the periods of the domain, `calculateDateRange` on machine integers returns what it
returns in the calendar model, and when it resolves, the start and the end are instants of
the domain. -/
theorem machine_calculateDateRange_eq (ty : DateConfigType) (params : DateParameters)
    (now : Time) (hty : ty ∈ orderedKinds) (hdom : Machine.Domain ty params now) :
    Machine.calculateDateRange (NewDateRangeCondition { Typ := ty, Parameters := params }) now
      = (NewDateRangeCondition { Typ := ty, Parameters := params }).calculateDateRange now ∧
    (∀ s e : Time,
      (NewDateRangeCondition { Typ := ty, Parameters := params }).calculateDateRange now
        = (s, e, none) → Machine.InEra s ∧ Machine.InEra e) := by
  obtain ⟨c1, c12⟩ := currentMonth_bounds now
  simp only [orderedKinds, List.mem_cons, List.mem_singleton, List.not_mem_nil, or_false] at hty
  rcases hty with h | h | h | h | h | h | h | h | h <;> subst h
  · obtain ⟨⟨h1, h2⟩, _⟩ := hdom
    refine ⟨machine_calc_CurrentMonth now params (by omega) h2, ?_⟩
    rw [calc_CurrentMonth]
    intro s e hse
    cases hse
    exact ⟨monthBegin_InEra _ _ (by omega), monthEnd_InEra _ _ (by omega)⟩
  · obtain ⟨⟨h1, h2⟩, hb⟩ := hdom
    cases hmo : params.Months with
    | none =>
      rw [machine_calc_BackMonth_none now params hmo, calc_BackMonth_none now params hmo]
      exact ⟨rfl, fun s e hse => by cases hse⟩
    | some k =>
      have hr := hb rfl k (by rw [hmo]; rfl)
      refine ⟨machine_calc_BackMonth now params k hmo (by omega) h2 hr, ?_⟩
      obtain ⟨hr1, hr2⟩ := hr
      rw [calc_BackMonth now params k hmo, monthBegin_AddDate]
      intro s e hse
      cases hse
      exact ⟨monthBegin_InEra _ _ (by omega), monthEnd_InEra _ (currentMonth now + -k) (by omega)⟩
  · obtain ⟨⟨h1, h2⟩, _⟩ := hdom
    refine ⟨machine_calc_YTD now params (by omega) h2, ?_⟩
    rw [calc_YTD]
    intro s e hse
    cases hse
    exact ⟨monthBegin_InEra _ _ (by omega), monthEnd_InEra _ _ (by omega)⟩
  · obtain ⟨⟨h1, h2⟩, _⟩ := hdom
    refine ⟨machine_calc_PreviousYear now params h1 h2, ?_⟩
    rw [calc_PreviousYear]
    intro s e hse
    cases hse
    exact ⟨monthBegin_InEra _ _ (by omega), yearEnd_InEra _ (by omega) (by omega)⟩
  · have hd : ∀ m ∈ params.Month, ∀ y ∈ params.Year, Machine.InRange y m := hdom
    cases hmo : params.Month with
    | none =>
      rw [machine_calc_SpecificMonth_none now params (Or.inl hmo),
        calc_SpecificMonth_none now params (Or.inl hmo)]
      exact ⟨rfl, fun s e hse => by cases hse⟩
    | some m =>
      cases hye : params.Year with
      | none =>
        rw [machine_calc_SpecificMonth_none now params (Or.inr hye),
          calc_SpecificMonth_none now params (Or.inr hye)]
        exact ⟨rfl, fun s e hse => by cases hse⟩
      | some y =>
        have hr := hd m (by rw [hmo]; rfl) y (by rw [hye]; rfl)
        refine ⟨machine_calc_SpecificMonth now params m y hmo hye hr, ?_⟩
        obtain ⟨hr1, hr2⟩ := hr
        rw [calc_SpecificMonth now params m y hmo hye]
        intro s e hse
        cases hse
        exact ⟨monthBegin_InEra _ _ (by omega), monthEnd_InEra _ _ (by omega)⟩
  · obtain ⟨⟨h1, h2⟩, _⟩ := hdom
    refine ⟨machine_calc_QTD now params (by omega) h2, ?_⟩
    rw [calc_QTD]
    intro s e hse
    cases hse
    exact ⟨monthBegin_InEra _ _ (by omega), monthEnd_InEra _ _ (by omega)⟩
  · obtain ⟨⟨h1, h2⟩, _⟩ := hdom
    refine ⟨machine_calc_TTM now params h1 h2, ?_⟩
    rw [calc_TTM, monthBegin_AddDate]
    intro s e hse
    cases hse
    exact ⟨monthBegin_InEra _ _ (by omega), monthEnd_InEra _ _ (by omega)⟩
  · obtain ⟨⟨h1, h2⟩, _⟩ := hdom
    refine ⟨machine_calc_MoM now params h1 h2, ?_⟩
    rw [calc_MoM]
    intro s e hse
    cases hse
    exact ⟨monthBegin_InEra _ _ (by omega), monthEnd_InEra _ _ (by omega)⟩
  · obtain ⟨⟨h1, h2⟩, _⟩ := hdom
    refine ⟨machine_calc_PreviousQuarter now params h1 h2, ?_⟩
    rw [calc_PreviousQuarter, quarterEnd_eq_monthEnd]
    intro s e hse
    cases hse
    have hq : (1 ≤ (previousQuarterOf now).1 ∧ (previousQuarterOf now).1 ≤ 4) ∧
        (currentYear now - 1 ≤ (previousQuarterOf now).2 ∧
          (previousQuarterOf now).2 ≤ currentYear now) := by
      simp only [previousQuarterOf]
      split_ifs <;> simp only [] <;> omega
    exact ⟨monthBegin_InEra _ _ (by omega), monthEnd_InEra _ _ (by omega)⟩

/-- When `calculateDateRange` agrees and resolves in the domain, `Build` on machine
integers returns what it returns in the calendar model. -/
theorem machine_Build_eq (d : DateRangeCondition) (now : Time) (p : Int)
    (hc : Machine.calculateDateRange d now = d.calculateDateRange now)
    (hera : ∀ s e : Time, d.calculateDateRange now = (s, e, none) →
      Machine.InEra s ∧ Machine.InEra e) :
    Machine.Build d now p = d.Build now p := by
  unfold Machine.Build DateRangeCondition.Build
  rw [hc]
  generalize d.calculateDateRange now = r at hera
  obtain ⟨s, e, err⟩ := r
  cases err with
  | some x => rfl
  | none =>
    obtain ⟨hs, he⟩ := hera s e rfl
    simp only [Machine.Year, Machine.Month, machine_date_eq s hs, machine_date_eq e he,
      Time.Year, Time.Month]

/-! ### The ranges of the parameterised kinds on machine integers -/

/-- On the periods of the domain `Build` on machine integers returns what it returns in the
calendar model. -/
theorem machine_Build_ordered (ty : DateConfigType) (params : DateParameters) (now : Time)
    (p : Int) (hty : ty ∈ orderedKinds) (hdom : Machine.Domain ty params now) :
    Machine.Build (NewDateRangeCondition { Typ := ty, Parameters := params }) now p
      = (NewDateRangeCondition { Typ := ty, Parameters := params }).Build now p :=
  machine_Build_eq _ now p (machine_calculateDateRange_eq ty params now hty hdom).1
    (machine_calculateDateRange_eq ty params now hty hdom).2

set_option maxRecDepth 100000 in
/-- C6, a counterexample to the claim as worded: for December of the year 292277024627
SpecificMonth resolves without error to a start that is after the end. The start, the first
instant of that December, is 513008 seconds before the largest `int64`; the first instant of
the following month wraps around to the negative numbers, and the end with it. -/
theorem C6_counterexample :
    SpecificMonth ∈ orderedKinds ∧
    Machine.calculateDateRange
        (NewDateRangeCondition { Typ := SpecificMonth, Parameters := lastDecember }) april2024
      = ({ sec := 9223372036854262800, loc := .Jakarta },
          { sec := -9223372036852610417, loc := .Jakarta }, none) ∧
    (Machine.calculateDateRange
        (NewDateRangeCondition { Typ := SpecificMonth, Parameters := lastDecember })
        april2024).1.After
      (Machine.calculateDateRange
        (NewDateRangeCondition { Typ := SpecificMonth, Parameters := lastDecember })
        april2024).2.1 ∧
    ¬ ((Machine.calculateDateRange
        (NewDateRangeCondition { Typ := SpecificMonth, Parameters := lastDecember })
        april2024).1 ≤
      (Machine.calculateDateRange
        (NewDateRangeCondition { Typ := SpecificMonth, Parameters := lastDecember })
        april2024).2.1) := by
  have h : Machine.calculateDateRange
      (NewDateRangeCondition { Typ := SpecificMonth, Parameters := lastDecember }) april2024
      = ({ sec := 9223372036854262800, loc := .Jakarta },
          { sec := -9223372036852610417, loc := .Jakarta }, none) := by decide
  rw [h]
  refine ⟨by decide, rfl, ?_, ?_⟩
  · show (-9223372036852610417 : Int) < 9223372036854262800
    decide
  · show ¬ ((9223372036854262800 : Int) ≤ -9223372036852610417)
    decide

/-- C6, as amended: on machine integers, for every period of kind CurrentMonth, BackMonth,
YTD, PreviousYear, SpecificMonth, QTD, TTM, MoM or PreviousQuarter that resolves (its
required parameters are present) in the domain, the resolved range satisfies `start ≤ end`.
The domain: for SpecificMonth, any integer month and year that designate a month between
January 1964 and December 100000000000; for the other kinds, `now` in a year from 1965 to
100000000000 in Jakarta and, for BackMonth, any count that leads to a month between January
1964 and December 100000000000. -/
theorem C6_start_le_end (now : Time) (params : DateParameters) (ty : DateConfigType)
    (hty : ty ∈ orderedKinds) (hdom : Machine.Domain ty params now)
    (hok : (Machine.calculateDateRange
      (NewDateRangeCondition { Typ := ty, Parameters := params }) now).2.2 = none) :
    (Machine.calculateDateRange
      (NewDateRangeCondition { Typ := ty, Parameters := params }) now).1 ≤
    (Machine.calculateDateRange
      (NewDateRangeCondition { Typ := ty, Parameters := params }) now).2.1 := by
  rw [(machine_calculateDateRange_eq ty params now hty hdom).1] at hok ⊢
  exact start_le_end_calendar now params ty hty hok

set_option maxRecDepth 100000 in
/-- C6, as amended, at BackMonth with a negative count (three months ahead of April 2024)
and at SpecificMonth for March 2024. -/
theorem C6_start_le_end_witness :
    (Machine.calculateDateRange
      (NewDateRangeCondition { Typ := BackMonth, Parameters := { Months := some (-3) } })
      april2024).1 ≤
    (Machine.calculateDateRange
      (NewDateRangeCondition { Typ := BackMonth, Parameters := { Months := some (-3) } })
      april2024).2.1 ∧
    (Machine.calculateDateRange
      (NewDateRangeCondition { Typ := SpecificMonth, Parameters := march2024 }) april2024).1 ≤
    (Machine.calculateDateRange
      (NewDateRangeCondition { Typ := SpecificMonth, Parameters := march2024 })
      april2024).2.1 :=
  ⟨C6_start_le_end april2024 { Months := some (-3) } BackMonth (by decide)
      ⟨⟨by decide, by decide⟩, fun _ k hk => by cases hk; decide⟩ (by decide),
    C6_start_le_end april2024 march2024 SpecificMonth (by decide)
      (fun m hm y hy => by cases hm; cases hy; decide) (by decide)⟩

set_option maxRecDepth 100000 in
/-- C16, a counterexample to the claim as worded: with `k = 911` in April 2024 BackMonth goes
back to May 1948, at whose first instant Jakarta went from UTC+7:30 to UTC+8, so that
1948-05-01T00:00:00 does not exist there. The start shows 1948-05-01 at 00:30:00, and the
end, one month later minus one second, shows 1948-06-01 at 00:29:59, in another month. -/
theorem C16_counterexample :
    Machine.calculateDateRange
        (NewDateRangeCondition { Typ := BackMonth, Parameters := { Months := some 911 } })
        april2024
      = ({ sec := 61451713800, loc := .Jakarta }, { sec := 61454392199, loc := .Jakarta },
          none) ∧
    monthsBefore (currentYear april2024) (currentMonth april2024) 911 = (1948, 5) ∧
    Machine.Shows (Time.mk 61451713800 .Jakarta) 1948 5 1 0 30 0 ∧
    ¬ Machine.Shows (Time.mk 61451713800 .Jakarta) 1948 5 1 0 0 0 ∧
    Machine.Shows (Time.mk 61454392199 .Jakarta) 1948 6 1 0 29 59 ∧
    ¬ Machine.Shows (Time.mk 61454392199 .Jakarta) 1948 5 31 23 59 59 := by
  decide

/-- C16, as amended: on machine integers, for every instant `now` in a year from 1964 to
100000000000 in Jakarta and every months value `k` (in particular `k ≥ 0`) such that the
month lying `k` months before the month of `now` is in a year from 1964 to 100000000000,
BackMonth resolves without error to that single calendar month, carrying into
other years as needed: start = the first day of that month at 00:00:00, end = the last day
of that same month at 23:59:59; with `k = 1` the end is the first instant of the current
month minus one second. -/
theorem C16_backMonth (now : Time) (params : DateParameters) (k : Int)
    (hk : params.Months = some k)
    (h1 : 1964 ≤ currentYear now) (h2 : currentYear now ≤ 100000000000)
    (hy : 1964 ≤ (monthsBefore (currentYear now) (currentMonth now) k).1 ∧
      (monthsBefore (currentYear now) (currentMonth now) k).1 ≤ 100000000000) :
    Machine.Shows
      (Machine.calculateDateRange
        (NewDateRangeCondition { Typ := BackMonth, Parameters := params }) now).1
      (monthsBefore (currentYear now) (currentMonth now) k).1
      (monthsBefore (currentYear now) (currentMonth now) k).2 1 0 0 0 ∧
    Machine.Shows
      (Machine.calculateDateRange
        (NewDateRangeCondition { Typ := BackMonth, Parameters := params }) now).2.1
      (monthsBefore (currentYear now) (currentMonth now) k).1
      (monthsBefore (currentYear now) (currentMonth now) k).2
      (daysIn (monthsBefore (currentYear now) (currentMonth now) k).2
        (monthsBefore (currentYear now) (currentMonth now) k).1) 23 59 59 ∧
    (Machine.calculateDateRange
      (NewDateRangeCondition { Typ := BackMonth, Parameters := params }) now).2.2 = none ∧
    (k = 1 →
      (Machine.calculateDateRange
        (NewDateRangeCondition { Typ := BackMonth, Parameters := params }) now).2.1
        = Machine.Add
            (Machine.Date (currentYear now) (currentMonth now) 1 0 0 0 .Jakarta) (-Second)) := by
  obtain ⟨c1, c12⟩ := currentMonth_bounds now
  have hr : Machine.InRange (currentYear now) (currentMonth now - k) := by
    simp only [monthsBefore] at hy
    exact ⟨⟨by omega, by omega⟩, by omega, by omega⟩
  obtain ⟨a, b, c, d⟩ := backMonth_calendar now params k hk
  have hi := calc_BackMonth now params k hk
  rw [machine_calc_BackMonth now params k hk h1 h2 hr]
  obtain ⟨hr1, hr2⟩ := hr
  have hs : Machine.InEra ((NewDateRangeCondition
      { Typ := BackMonth, Parameters := params }).calculateDateRange now).1 := by
    rw [hi, monthBegin_AddDate]
    exact monthBegin_InEra _ _ (by omega)
  have he : Machine.InEra ((NewDateRangeCondition
      { Typ := BackMonth, Parameters := params }).calculateDateRange now).2.1 := by
    rw [hi, monthBegin_AddDate]
    exact monthEnd_InEra _ (currentMonth now + -k) (by omega)
  refine ⟨(machine_Shows_iff _ hs _ _ _ _ _ _).mpr a, (machine_Shows_iff _ he _ _ _ _ _ _).mpr b,
    c, ?_⟩
  intro hk1
  rw [d hk1]
  have hb := machine_monthBegin (currentYear now) (currentMonth now) (by omega) (by omega)
  rw [show Location.Jakarta = getJakartaLocation from rfl, hb,
    machine_Add_monthBegin _ _ (by omega)]
  rfl

set_option maxRecDepth 100000 in
/-- C16, as amended, at `k = 3` and `now` = 2024-04-15: from 2024-01-01T00:00:00 to
2024-01-31T23:59:59; and at `k = 1`. -/
theorem C16_backMonth_witness :
    Machine.calculateDateRange
        (NewDateRangeCondition { Typ := BackMonth, Parameters := { Months := some 3 } })
        april2024
      = (Date 2024 1 1 0 0 0 .Jakarta, Date 2024 1 31 23 59 59 .Jakarta, none) ∧
    Machine.Shows
      (Machine.calculateDateRange
        (NewDateRangeCondition { Typ := BackMonth, Parameters := { Months := some 3 } })
        april2024).1 2024 1 1 0 0 0 ∧
    Machine.Shows
      (Machine.calculateDateRange
        (NewDateRangeCondition { Typ := BackMonth, Parameters := { Months := some 3 } })
        april2024).2.1 2024 1 31 23 59 59 ∧
    (Machine.calculateDateRange
        (NewDateRangeCondition { Typ := BackMonth, Parameters := { Months := some 1 } })
        april2024).2.1
      = Machine.Add (Machine.Date 2024 4 1 0 0 0 .Jakarta) (-Second) :=
  ⟨by decide,
    (C16_backMonth april2024 { Months := some 3 } 3 rfl (by decide) (by decide)
      (by decide)).1,
    (C16_backMonth april2024 { Months := some 3 } 3 rfl (by decide) (by decide)
      (by decide)).2.1,
    (C16_backMonth april2024 { Months := some 1 } 1 rfl (by decide) (by decide)
      (by decide)).2.2.2 rfl⟩

set_option maxRecDepth 100000 in
/-- C17, a counterexample to the claim as worded: with `s = 911` and `e = 3` in April 2024
the start of RelativeRange is in May 1948, at whose first instant Jakarta went from
UTC+7:30 to UTC+8: the start shows 1948-05-01 at 00:30:00, not 00:00:00. -/
theorem C17_counterexample :
    Machine.calculateDateRange
        (NewDateRangeCondition { Typ := RelativeRange, Parameters := farBackToThree })
        april2024
      = ({ sec := 61451713800, loc := .Jakarta }, Date 2024 1 31 23 59 59 .Jakarta, none) ∧
    monthsBefore (currentYear april2024) (currentMonth april2024) 911 = (1948, 5) ∧
    Machine.Shows (Time.mk 61451713800 .Jakarta) 1948 5 1 0 30 0 ∧
    ¬ Machine.Shows (Time.mk 61451713800 .Jakarta) 1948 5 1 0 0 0 := by
  decide

/-- C17, as amended: on machine integers, for every instant `now` in a year from 1964 to
100000000000 in Jakarta and every StartBackMonths `s` and EndBackMonths `e` such that the
months lying `s` and `e` months before the month of `now` are in years from 1964 to
100000000000, RelativeRange resolves without error to start = the first day
(00:00:00) of the month `s` months before the month of `now` and end = the last instant
(23:59:59 of the last day) of the month `e` months before it; nothing checks the order of
`s` and `e`: with `s < e` the range is returned with its start after its end. -/
theorem C17_relativeRange (now : Time) (params : DateParameters) (s e : Int)
    (hs : params.StartBackMonths = some s) (he : params.EndBackMonths = some e)
    (h1 : 1964 ≤ currentYear now) (h2 : currentYear now ≤ 100000000000)
    (hys : 1964 ≤ (monthsBefore (currentYear now) (currentMonth now) s).1 ∧
      (monthsBefore (currentYear now) (currentMonth now) s).1 ≤ 100000000000)
    (hye : 1964 ≤ (monthsBefore (currentYear now) (currentMonth now) e).1 ∧
      (monthsBefore (currentYear now) (currentMonth now) e).1 ≤ 100000000000) :
    Machine.Shows
      (Machine.calculateDateRange
        (NewDateRangeCondition { Typ := RelativeRange, Parameters := params }) now).1
      (monthsBefore (currentYear now) (currentMonth now) s).1
      (monthsBefore (currentYear now) (currentMonth now) s).2 1 0 0 0 ∧
    Machine.Shows
      (Machine.calculateDateRange
        (NewDateRangeCondition { Typ := RelativeRange, Parameters := params }) now).2.1
      (monthsBefore (currentYear now) (currentMonth now) e).1
      (monthsBefore (currentYear now) (currentMonth now) e).2
      (daysIn (monthsBefore (currentYear now) (currentMonth now) e).2
        (monthsBefore (currentYear now) (currentMonth now) e).1) 23 59 59 ∧
    (Machine.calculateDateRange
      (NewDateRangeCondition { Typ := RelativeRange, Parameters := params }) now).2.2 = none ∧
    (s < e →
      (Machine.calculateDateRange
        (NewDateRangeCondition { Typ := RelativeRange, Parameters := params }) now).2.1.Before
      (Machine.calculateDateRange
        (NewDateRangeCondition { Typ := RelativeRange, Parameters := params }) now).1) := by
  obtain ⟨c1, c12⟩ := currentMonth_bounds now
  have hrs : Machine.InRange (currentYear now) (currentMonth now - s) := by
    simp only [monthsBefore] at hys
    exact ⟨⟨by omega, by omega⟩, by omega, by omega⟩
  have hre : Machine.InRange (currentYear now) (currentMonth now - e) := by
    simp only [monthsBefore] at hye
    exact ⟨⟨by omega, by omega⟩, by omega, by omega⟩
  obtain ⟨a, b, c, d⟩ := relativeRange_calendar now params s e hs he
  have hi := calc_RelativeRange now params s e hs he
  rw [machine_calc_RelativeRange now params s e hs he h1 h2 hrs hre]
  obtain ⟨hs1, hs2⟩ := hrs
  obtain ⟨he1, he2⟩ := hre
  have hsE : Machine.InEra ((NewDateRangeCondition
      { Typ := RelativeRange, Parameters := params }).calculateDateRange now).1 := by
    rw [hi, monthBegin_AddDate]
    exact monthBegin_InEra _ _ (by omega)
  have heE : Machine.InEra ((NewDateRangeCondition
      { Typ := RelativeRange, Parameters := params }).calculateDateRange now).2.1 := by
    rw [hi, monthBegin_AddDate, monthBegin_AddDate]
    exact monthEnd_InEra _ (currentMonth now + -e) (by omega)
  exact ⟨(machine_Shows_iff _ hsE _ _ _ _ _ _).mpr a,
    (machine_Shows_iff _ heE _ _ _ _ _ _).mpr b, c, d⟩

set_option maxRecDepth 100000 in
/-- C17, as amended, at `s = 6`, `e = 3` in April 2024 (2023-10-01 to 2024-01-31), and at the
inverted `s = 3`, `e = 6`, which resolves with its start after its end. -/
theorem C17_relativeRange_witness :
    Machine.calculateDateRange
        (NewDateRangeCondition { Typ := RelativeRange, Parameters := sixToThree }) april2024
      = (Date 2023 10 1 0 0 0 .Jakarta, Date 2024 1 31 23 59 59 .Jakarta, none) ∧
    Machine.Shows
      (Machine.calculateDateRange
        (NewDateRangeCondition { Typ := RelativeRange, Parameters := sixToThree })
        april2024).1 2023 10 1 0 0 0 ∧
    (Machine.calculateDateRange
      (NewDateRangeCondition { Typ := RelativeRange, Parameters := threeToSix })
      april2024).2.2 = none ∧
    (Machine.calculateDateRange
        (NewDateRangeCondition { Typ := RelativeRange, Parameters := threeToSix })
        april2024).2.1.Before
      (Machine.calculateDateRange
        (NewDateRangeCondition { Typ := RelativeRange, Parameters := threeToSix })
        april2024).1 :=
  ⟨by decide,
    (C17_relativeRange april2024 sixToThree 6 3 rfl rfl (by decide) (by decide) (by decide)
      (by decide)).1,
    (C17_relativeRange april2024 threeToSix 3 6 rfl rfl (by decide) (by decide) (by decide)
      (by decide)).2.2.1,
    (C17_relativeRange april2024 threeToSix 3 6 rfl rfl (by decide) (by decide) (by decide)
      (by decide)).2.2.2 (by decide)⟩

set_option maxRecDepth 100000 in
/-- C20, a counterexample to the claim as worded: for May 1948 SpecificMonth does not start
at 00:00:00 and does not end on the last day of the month. Jakarta went from UTC+7:30 to
UTC+8 at the first instant of May 1948, so 1948-05-01T00:00:00 does not exist there: the
start shows 1948-05-01 at 00:30:00 and the end, one month later minus one second, shows
1948-06-01 at 00:29:59. -/
theorem C20_counterexample :
    Machine.calculateDateRange
        (NewDateRangeCondition { Typ := SpecificMonth, Parameters := may1948 }) april2024
      = ({ sec := 61451713800, loc := .Jakarta }, { sec := 61454392199, loc := .Jakarta },
          none) ∧
    Machine.Shows (Time.mk 61451713800 .Jakarta) 1948 5 1 0 30 0 ∧
    ¬ Machine.Shows (Time.mk 61451713800 .Jakarta) 1948 5 1 0 0 0 ∧
    Machine.Shows (Time.mk 61454392199 .Jakarta) 1948 6 1 0 29 59 ∧
    ¬ Machine.Shows (Time.mk 61454392199 .Jakarta) 1948 5 (daysIn 5 1948) 23 59 59 := by
  decide

/-- C20, as amended: on machine integers, for every month `m` in 1..12 and every year `y`
from 1964 to 100000000000, SpecificMonth resolves without error, independently of `now`, to
start = `y-m-01` at 00:00:00 and end = 23:59:59 on the last calendar day of month `m` of
year `y`; that day is 28, 29, 30 or 31, the length of the month on the Gregorian calendar,
leap years included. -/
theorem C20_specificMonth (now : Time) (params : DateParameters) (m y : Int)
    (hm : params.Month = some m) (hy : params.Year = some y) (h1 : 1 ≤ m) (h12 : m ≤ 12)
    (hy1 : 1964 ≤ y) (hy2 : y ≤ 100000000000) :
    Machine.Shows
      (Machine.calculateDateRange
        (NewDateRangeCondition { Typ := SpecificMonth, Parameters := params }) now).1
      y m 1 0 0 0 ∧
    Machine.Shows
      (Machine.calculateDateRange
        (NewDateRangeCondition { Typ := SpecificMonth, Parameters := params }) now).2.1
      y m (daysIn m y) 23 59 59 ∧
    (Machine.calculateDateRange
      (NewDateRangeCondition { Typ := SpecificMonth, Parameters := params }) now).2.2 = none ∧
    (daysIn m y = 28 ∨ daysIn m y = 29 ∨ daysIn m y = 30 ∨ daysIn m y = 31) ∧
    (∀ now2 : Time,
      Machine.calculateDateRange
          (NewDateRangeCondition { Typ := SpecificMonth, Parameters := params }) now2
        = Machine.calculateDateRange
          (NewDateRangeCondition { Typ := SpecificMonth, Parameters := params }) now) := by
  have hr : Machine.InRange y m := ⟨⟨by omega, by omega⟩, by omega, by omega⟩
  obtain ⟨a, b, c, d, e⟩ := specificMonth_calendar now params m y hm hy h1 h12
  have hi := calc_SpecificMonth now params m y hm hy
  rw [machine_calc_SpecificMonth now params m y hm hy hr]
  have hs : Machine.InEra ((NewDateRangeCondition
      { Typ := SpecificMonth, Parameters := params }).calculateDateRange now).1 := by
    rw [hi]
    exact monthBegin_InEra _ _ (by omega)
  have he : Machine.InEra ((NewDateRangeCondition
      { Typ := SpecificMonth, Parameters := params }).calculateDateRange now).2.1 := by
    rw [hi]
    exact monthEnd_InEra _ _ (by omega)
  refine ⟨(machine_Shows_iff _ hs _ _ _ _ _ _).mpr a, (machine_Shows_iff _ he _ _ _ _ _ _).mpr b,
    c, d, ?_⟩
  intro now2
  rw [machine_calc_SpecificMonth now2 params m y hm hy hr]
  exact e now2

set_option maxRecDepth 100000 in
/-- C20, as amended, at 3/2024 (ends on March 31), 2/2024 (ends on February 29) and 2/2023
(ends on February 28). -/
theorem C20_specificMonth_witness :
    Machine.calculateDateRange
        (NewDateRangeCondition { Typ := SpecificMonth, Parameters := march2024 }) april2024
      = (Date 2024 3 1 0 0 0 .Jakarta, Date 2024 3 31 23 59 59 .Jakarta, none) ∧
    Machine.Shows
      (Machine.calculateDateRange
        (NewDateRangeCondition { Typ := SpecificMonth, Parameters := march2024 })
        april2024).2.1 2024 3 (daysIn 3 2024) 23 59 59 ∧
    Machine.Shows
      (Machine.calculateDateRange
        (NewDateRangeCondition { Typ := SpecificMonth, Parameters := february2024 })
        april2024).2.1 2024 2 (daysIn 2 2024) 23 59 59 ∧
    Machine.Shows
      (Machine.calculateDateRange
        (NewDateRangeCondition { Typ := SpecificMonth, Parameters := february2023 })
        april2024).2.1 2023 2 (daysIn 2 2023) 23 59 59 ∧
    daysIn 3 2024 = 31 ∧ daysIn 2 2024 = 29 ∧ daysIn 2 2023 = 28 :=
  ⟨by decide,
    (C20_specificMonth april2024 march2024 3 2024 rfl rfl (by decide) (by decide) (by decide)
      (by decide)).2.1,
    (C20_specificMonth april2024 february2024 2 2024 rfl rfl (by decide) (by decide)
      (by decide) (by decide)).2.1,
    (C20_specificMonth april2024 february2023 2 2023 rfl rfl (by decide) (by decide)
      (by decide) (by decide)).2.1,
    by decide, by decide, by decide⟩

set_option maxRecDepth 100000 in
/-- C21, a counterexample to the claim as worded: with Start 5/1948 and End 3/2024
SpecificRange does not start at 00:00:00. Jakarta went from UTC+7:30 to UTC+8 at the first
instant of May 1948, so 1948-05-01T00:00:00 does not exist there, and the start shows
1948-05-01 at 00:30:00. -/
theorem C21_counterexample :
    Machine.calculateDateRange
        (NewDateRangeCondition { Typ := SpecificRange, Parameters := may1948ToMarch2024 })
        april2024
      = ({ sec := 61451713800, loc := .Jakarta }, Date 2024 3 31 23 59 59 .Jakarta, none) ∧
    Machine.Shows (Time.mk 61451713800 .Jakarta) 1948 5 1 0 30 0 ∧
    ¬ Machine.Shows (Time.mk 61451713800 .Jakarta) 1948 5 1 0 0 0 := by
  decide

/-- C21, as amended: on machine integers, for every Start and End MonthYear with months in
1..12 and years from 1964 to 100000000000, SpecificRange resolves without error,
independently of `now`, to start = the first day of the Start month at 00:00:00 and end =
the last calendar day of the End month at 23:59:59; the order of the two is not checked:
when the Start month is later than the End month the range still resolves, with its start
after its end. -/
theorem C21_specificRange (now : Time) (params : DateParameters) (s e : MonthYear)
    (hs : params.Start = some s) (he : params.End = some e)
    (hs1 : 1 ≤ s.Month) (hs12 : s.Month ≤ 12) (he1 : 1 ≤ e.Month) (he12 : e.Month ≤ 12)
    (hsy : 1964 ≤ s.Year ∧ s.Year ≤ 100000000000)
    (hey : 1964 ≤ e.Year ∧ e.Year ≤ 100000000000) :
    Machine.Shows
      (Machine.calculateDateRange
        (NewDateRangeCondition { Typ := SpecificRange, Parameters := params }) now).1
      s.Year s.Month 1 0 0 0 ∧
    Machine.Shows
      (Machine.calculateDateRange
        (NewDateRangeCondition { Typ := SpecificRange, Parameters := params }) now).2.1
      e.Year e.Month (daysIn e.Month e.Year) 23 59 59 ∧
    (Machine.calculateDateRange
      (NewDateRangeCondition { Typ := SpecificRange, Parameters := params }) now).2.2 = none ∧
    (∀ now2 : Time,
      Machine.calculateDateRange
          (NewDateRangeCondition { Typ := SpecificRange, Parameters := params }) now2
        = Machine.calculateDateRange
          (NewDateRangeCondition { Typ := SpecificRange, Parameters := params }) now) ∧
    (e.Year < s.Year ∨ (e.Year = s.Year ∧ e.Month < s.Month) →
      (Machine.calculateDateRange
        (NewDateRangeCondition { Typ := SpecificRange, Parameters := params }) now).1.After
      (Machine.calculateDateRange
        (NewDateRangeCondition { Typ := SpecificRange, Parameters := params }) now).2.1) := by
  have hrs : Machine.InRange s.Year s.Month := ⟨⟨by omega, by omega⟩, by omega, by omega⟩
  have hre : Machine.InRange e.Year e.Month := ⟨⟨by omega, by omega⟩, by omega, by omega⟩
  obtain ⟨a, b, c, d, f⟩ := specificRange_calendar now params s e hs he hs1 hs12 he1 he12
  have hi := calc_SpecificRange now params s e hs he
  rw [machine_calc_SpecificRange now params s e hs he hrs hre]
  have hsE : Machine.InEra ((NewDateRangeCondition
      { Typ := SpecificRange, Parameters := params }).calculateDateRange now).1 := by
    rw [hi]
    exact monthBegin_InEra _ _ (by omega)
  have heE : Machine.InEra ((NewDateRangeCondition
      { Typ := SpecificRange, Parameters := params }).calculateDateRange now).2.1 := by
    rw [hi]
    exact monthEnd_InEra _ _ (by omega)
  refine ⟨(machine_Shows_iff _ hsE _ _ _ _ _ _).mpr a,
    (machine_Shows_iff _ heE _ _ _ _ _ _).mpr b, c, ?_, f⟩
  intro now2
  rw [machine_calc_SpecificRange now2 params s e hs he hrs hre]
  exact d now2

set_option maxRecDepth 100000 in
/-- C21, as amended, at Start 1/2024, End 3/2024 (2024-01-01T00:00:00 to
2024-03-31T23:59:59), and at the inverted Start 3/2024, End 1/2024, which resolves with its
start after its end. -/
theorem C21_specificRange_witness :
    Machine.calculateDateRange
        (NewDateRangeCondition { Typ := SpecificRange, Parameters := januaryToMarch })
        april2024
      = (Date 2024 1 1 0 0 0 .Jakarta, Date 2024 3 31 23 59 59 .Jakarta, none) ∧
    Machine.Shows
      (Machine.calculateDateRange
        (NewDateRangeCondition { Typ := SpecificRange, Parameters := januaryToMarch })
        april2024).2.1 2024 3 (daysIn 3 2024) 23 59 59 ∧
    Machine.calculateDateRange
        (NewDateRangeCondition { Typ := SpecificRange, Parameters := marchToJanuary })
        april2024
      = (Date 2024 3 1 0 0 0 .Jakarta, Date 2024 1 31 23 59 59 .Jakarta, none) ∧
    (Machine.calculateDateRange
        (NewDateRangeCondition { Typ := SpecificRange, Parameters := marchToJanuary })
        april2024).1.After
      (Machine.calculateDateRange
        (NewDateRangeCondition { Typ := SpecificRange, Parameters := marchToJanuary })
        april2024).2.1 :=
  ⟨by decide,
    (C21_specificRange april2024 januaryToMarch { Month := 1, Year := 2024 }
      { Month := 3, Year := 2024 } rfl rfl (by decide) (by decide) (by decide) (by decide)
      (by decide) (by decide)).2.1,
    by decide,
    (C21_specificRange april2024 marchToJanuary { Month := 3, Year := 2024 }
      { Month := 1, Year := 2024 } rfl rfl (by decide) (by decide) (by decide) (by decide)
      (by decide) (by decide)).2.2.2.2 (Or.inr ⟨rfl, by decide⟩)⟩

set_option maxRecDepth 100000 in
/-- C38, a counterexample to the claim as worded: for September of the year 2^40
SpecificMonth is built in the cross-year form, with 4 args. The seconds of that month,
counted from the absolute zero year, exceed `uint64` and wrap around to an instant of
December of the year -69596470732, and the end, one month later, is in the next year. -/
theorem C38_counterexample :
    Machine.Build
        (NewDateRangeCondition { Typ := SpecificMonth, Parameters := septemberFarAhead })
        april2024 1
      = ("(period_year = $1 AND period_month >= $2) OR (period_year = $3 AND period_month <= $4)",
          [.int (-69596470732), .int 12, .int (-69596470731), .int 1], none) ∧
    IsCrossYearForm
      (Machine.Build
        (NewDateRangeCondition { Typ := SpecificMonth, Parameters := septemberFarAhead })
        april2024 1) 1 ∧
    ¬ IsSingleYearForm
      (Machine.Build
        (NewDateRangeCondition { Typ := SpecificMonth, Parameters := septemberFarAhead })
        april2024 1) 1 := by
  have h : Machine.Build
      (NewDateRangeCondition { Typ := SpecificMonth, Parameters := septemberFarAhead })
      april2024 1
      = ("(period_year = $1 AND period_month >= $2) OR (period_year = $3 AND period_month <= $4)",
          [.int (-69596470732), .int 12, .int (-69596470731), .int 1], none) := by rfl
  rw [h]
  exact ⟨rfl, ⟨rfl, rfl, rfl⟩, fun hs => not_both_forms _ 1 hs ⟨rfl, rfl, rfl⟩⟩

/-- C38, as amended: the number of parameters of a date-range condition on machine
integers. When the year of `now` in Jakarta is between 1965 and 100000000000: for
CurrentMonth, YTD, PreviousYear, QTD and PreviousQuarter, and for BackMonth with any months
value that leads to a month between January 1964 and December 100000000000, `Build` returns
the single-year form with exactly 3 args; for TTM it returns the cross-year form with 4 args
exactly when the month of `now` is not December, and for MoM exactly when the month of `now`
is January; in the other months TTM and MoM return the single-year form. For SpecificMonth
with any month and year that designate a month between January 1964 and December
100000000000, `Build` returns the single-year form with exactly 3 args, for every `now`. -/
theorem C38_parameter_count (now : Time) (params : DateParameters) (p : Int) :
    (1965 ≤ currentYear now ∧ currentYear now ≤ 100000000000 →
      (∀ ty ∈ [CurrentMonth, YTD, PreviousYear, QTD, PreviousQuarter],
        IsSingleYearForm
          (Machine.Build (NewDateRangeCondition { Typ := ty, Parameters := params }) now p) p) ∧
      (∀ k : Int, params.Months = some k →
        Machine.InRange (currentYear now) (currentMonth now - k) →
        IsSingleYearForm
          (Machine.Build (NewDateRangeCondition { Typ := BackMonth, Parameters := params })
            now p) p) ∧
      (IsCrossYearForm
          (Machine.Build (NewDateRangeCondition { Typ := TTM, Parameters := params }) now p) p
        ↔ currentMonth now ≠ 12) ∧
      (IsSingleYearForm
          (Machine.Build (NewDateRangeCondition { Typ := TTM, Parameters := params }) now p) p
        ↔ currentMonth now = 12) ∧
      (IsCrossYearForm
          (Machine.Build (NewDateRangeCondition { Typ := MoM, Parameters := params }) now p) p
        ↔ currentMonth now = 1) ∧
      (IsSingleYearForm
          (Machine.Build (NewDateRangeCondition { Typ := MoM, Parameters := params }) now p) p
        ↔ currentMonth now ≠ 1)) ∧
    (∀ m y : Int, params.Month = some m → params.Year = some y → Machine.InRange y m →
      IsSingleYearForm
        (Machine.Build (NewDateRangeCondition { Typ := SpecificMonth, Parameters := params })
          now p) p) := by
  obtain ⟨a, b, c, d, e, f, g⟩ := parameter_count_calendar now params p
  constructor
  · intro hnow
    have hdom : ∀ ty : DateConfigType, ty ≠ SpecificMonth → ty ≠ BackMonth →
        Machine.Domain ty params now := by
      intro ty h1 h2
      unfold Machine.Domain
      rw [if_neg h1]
      exact ⟨hnow, fun h => absurd h h2⟩
    refine ⟨?_, ?_, ?_, ?_, ?_, ?_⟩
    · intro ty hty
      have hne : ty ≠ SpecificMonth ∧ ty ≠ BackMonth ∧ ty ∈ orderedKinds := by
        simp only [List.mem_cons, List.mem_singleton, List.not_mem_nil, or_false] at hty
        rcases hty with h | h | h | h | h <;> subst h <;> decide
      rw [machine_Build_ordered ty params now p hne.2.2 (hdom ty hne.1 hne.2.1)]
      exact a ty hty
    · intro k hk hr
      have hd : Machine.Domain BackMonth params now := by
        unfold Machine.Domain
        rw [if_neg (by decide)]
        refine ⟨hnow, fun _ k2 hk2 => ?_⟩
        rw [hk] at hk2
        cases hk2
        exact hr
      rw [machine_Build_ordered BackMonth params now p (by decide) hd]
      exact b k hk
    · rw [machine_Build_ordered TTM params now p (by decide)
        (hdom TTM (by decide) (by decide))]
      exact d
    · rw [machine_Build_ordered TTM params now p (by decide)
        (hdom TTM (by decide) (by decide))]
      exact e
    · rw [machine_Build_ordered MoM params now p (by decide)
        (hdom MoM (by decide) (by decide))]
      exact f
    · rw [machine_Build_ordered MoM params now p (by decide)
        (hdom MoM (by decide) (by decide))]
      exact g
  · intro m y hm hy hr
    have hd : Machine.Domain SpecificMonth params now := by
      unfold Machine.Domain
      rw [if_pos rfl]
      intro m2 hm2 y2 hy2
      rw [hm] at hm2
      rw [hy] at hy2
      cases hm2
      cases hy2
      exact hr
    rw [machine_Build_ordered SpecificMonth params now p (by decide) hd]
    exact c m y hm hy

set_option maxRecDepth 100000 in
/-- C38, as amended, for TTM and MoM in April 2024, December 2024 and January 2024, for
BackMonth with months = 3 in April 2024 and for SpecificMonth at March 2024. -/
theorem C38_parameter_count_witness :
    IsCrossYearForm (Machine.Build (NewDateRangeCondition { Typ := TTM }) april2024 1) 1 ∧
    IsSingleYearForm (Machine.Build (NewDateRangeCondition { Typ := TTM }) decemberNow 1) 1 ∧
    IsCrossYearForm (Machine.Build (NewDateRangeCondition { Typ := MoM }) januaryNow 1) 1 ∧
    IsSingleYearForm (Machine.Build (NewDateRangeCondition { Typ := MoM }) april2024 1) 1 ∧
    IsSingleYearForm
      (Machine.Build (NewDateRangeCondition { Typ := BackMonth, Parameters := { Months := some 3 } })
        april2024 1) 1 ∧
    IsSingleYearForm
      (Machine.Build (NewDateRangeCondition { Typ := SpecificMonth, Parameters := march2024 })
        april2024 1) 1 ∧
    Machine.Build (NewDateRangeCondition { Typ := TTM }) april2024 1
      = ("(period_year = $1 AND period_month >= $2) OR (period_year = $3 AND period_month <= $4)",
          [.int 2023, .int 5, .int 2024, .int 4], none) :=
  ⟨((C38_parameter_count april2024 {} 1).1 ⟨by decide, by decide⟩).2.2.1.mpr (by decide),
    ((C38_parameter_count decemberNow {} 1).1 ⟨by decide, by decide⟩).2.2.2.1.mpr (by decide),
    ((C38_parameter_count januaryNow {} 1).1 ⟨by decide, by decide⟩).2.2.2.2.1.mpr (by decide),
    ((C38_parameter_count april2024 {} 1).1 ⟨by decide, by decide⟩).2.2.2.2.2.mpr (by decide),
    ((C38_parameter_count april2024 { Months := some 3 } 1).1 ⟨by decide, by decide⟩).2.1 3 rfl
      (by decide),
    (C38_parameter_count april2024 march2024 1).2 3 2024 rfl rfl (by decide),
    by rfl⟩

end SqlBuilder
